import Mathlib

/-!
ShaderWriter: the scoped statement builder and the SPIR-V type registry

A shallow embedding of `ast::ShaderBuilder` (`source/ShaderAST/ShaderBuilder.cpp`,
`include/ShaderAST/ShaderBuilder.hpp`), of `spirv::ModuleTypes`
(`source/CompilerSpirV/SpirvModuleTypes.cpp`), of the serialisation entry points of
`source/CompilerSpirV/compileSpirV.cpp`, and of the optional operands of the DSL
(`include/ShaderWriter/Vec2.inl`, `include/ShaderWriter/Ubo.inl`,
`include/ShaderWriter/BoInfo.hpp`).

Conventions of the embedding.

* A `std::vector` is a `List` in the same order: `front()` is the head, `back()` is the last
  element.
* A `std::set< var::VariablePtr >` orders its elements by pointer value.  A variable carries the
  address of its shared object (`ptr`); a set is a list kept in increasing `ptr` order and two
  variables are the same key exactly when their `ptr` agree.
* Container statements live in the statement arena of the shader; a raw `stmt::Container *` is an
  address into that arena.  Statements that are not containers are plain values.
* An operation that reads `back()` / `front()` of an empty vector, or erases past its begin, has no
  defined behaviour in C++; the embedding returns `Error.undefinedBehaviour` there.  A thrown
  `std::runtime_error` is `Error.runtimeError` with the text built by the source.
* `assert` only exists in debug builds; the embedding follows the release build and does not stop
  on a failed assertion.
* An operation that allocates a variable takes the address `ptr` of the new shared object as an
  argument.  A real allocation returns an address that no live object has; where a property needs
  it, this is the hypothesis `addressFree`.
* The counter of variable ids is a 32-bit unsigned integer: `++nextVarId` is `( n + 1 ) % 2 ^ 32`.
* A call that throws is an `Except` whose error tells whether the object thrown derives from
  `std::exception`; a `catch ( std::exception & )` handles those objects only.
* An argument handed over through `std::move` to a parameter taken by value is left moved from: a
  shared pointer is then null and the content of a string unspecified.
-/

namespace ast

/-! ## Types -/

namespace type

/-- The value `~( 0u )` used for `NotMember`, `UnknownArraySize` and similar 32-bit sentinels. -/
def NotFound : Nat := 4294967295

/-- The array size of a runtime-sized array. -/
def UnknownArraySize : Nat := NotFound

/-- Three-valued flag of image configurations (`ast::type::Trinary`). -/
inductive Trinary where
  | eFalse
  | eTrue
  | eDontCare
  deriving DecidableEq, Repr

/-- Access kind of an image (`ast::type::AccessKind`). -/
inductive AccessKind where
  | eRead
  | eWrite
  | eReadWrite
  deriving DecidableEq, Repr

/-- Memory layout of a structure (`ast::type::MemoryLayout`, TypeStruct.hpp). -/
inductive MemoryLayout where
  | eStd140
  | eStd430
  | eC
  deriving DecidableEq, Repr

/-- Modelled from the spec: the scalar kinds of §3 (bool, i8/16/32/64, u8/16/32/64, f16/32/64);
the `Kind` enumeration itself is declared in a header that is not part of the sources. -/
inductive ScalarKind where
  | eBoolean
  | eInt8
  | eInt16
  | eInt32
  | eInt64
  | eUInt8
  | eUInt16
  | eUInt32
  | eUInt64
  | eHalf
  | eFloat
  | eDouble
  deriving DecidableEq, Repr

/-- Modelled from the spec: the kinds served by `TypesCache::getBasicType`: void, scalars, vectors
(scalar kind and component count) and matrices (scalar kind, columns, rows). -/
inductive BasicKind where
  | eVoid
  | eScalar (s : ScalarKind)
  | eVec (s : ScalarKind) (count : Nat)
  | eMat (s : ScalarKind) (cols : Nat) (rows : Nat)
  deriving DecidableEq, Repr

/-- The stage-role and ray-tracing wrapper kinds that `ModuleTypes::doRegisterTypeRec`
unwraps, in the order of its branches. -/
inductive WrapperKind where
  | eRayPayload
  | eCallableData
  | eHitAttribute
  | eGeometryOutput
  | eGeometryInput
  | eTessellationInputPatch
  | eTessellationOutputPatch
  | eTessellationControlOutput
  | eTessellationControlInput
  | eTessellationEvaluationInput
  | eMeshVertexOutput
  | eMeshPrimitiveOutput
  | eTaskPayloadNV
  | eTaskPayload
  | eTaskPayloadInNV
  | eTaskPayloadIn
  | eComputeInput
  deriving DecidableEq, Repr

/-- The raw kind of a type (`Type::getRawKind`). -/
inductive Kind where
  | eBasic (k : BasicKind)
  | eStruct
  | eRayDesc
  | eFunction
  | eArray
  | ePointer
  | eSampler
  | eImage
  | eCombinedImage
  | eSampledImage
  | eAccelerationStructure
  | eWrapper (k : WrapperKind)
  deriving DecidableEq, Repr

/-- Image configuration (`ast::type::ImageConfiguration`); dimension and format are the values of
their enumerations. -/
structure ImageConfiguration where
  dimension : Nat
  format : Nat
  sampledType : ScalarKind
  isSampled : Trinary
  isArrayed : Bool
  isMS : Bool
  accessKind : AccessKind
  deriving DecidableEq, Repr

/-- Flag of a structure type: none, shader input or shader output. -/
inductive StructFlag where
  | eNone
  | eShaderInput
  | eShaderOutput
  deriving DecidableEq, Repr

/-- Builtin tag of a structure member or of a builtin variable; `eNone` is `ast::Builtin::eNone`. -/
inductive Builtin where
  | eNone
  | eTag (tag : Nat)
  deriving DecidableEq, Repr

mutual
/-- Modelled from the spec: the interned type values of §3.  Types are interned by the types
cache, so pointer equality of `TypePtr` is equality of these values.  `basic kind isMember` is a
scalar, vector, matrix or void type; `isMember` tells whether it is the type of a structure
member (`Type::isMember`).  `struct` covers the kinds `eStruct` and `eRayDesc` (`rayDesc`).
`wrapper` is a stage-role or ray-tracing wrapper around `inner`, `params` being its layout values
in constructor order (input vertices, layout, count, ...).  The `storage` of a pointer is kept as
the number of its SPIR-V storage class, the value that `convert( getStorage() )` hands to the
registry. -/
inductive Ty where
  | basic (kind : BasicKind) (isMember : Bool)
  | array (elem : Ty) (size : Nat)
  | pointer (pointee : Ty) (storage : Nat) (isForward : Bool)
  | sampler (isComparison : Bool)
  | image (config : ImageConfiguration)
  | combinedImage (config : ImageConfiguration) (isComparison : Bool)
  | sampledImage (config : ImageConfiguration) (depth : Trinary)
  | accelerationStructure
  | struct (rayDesc : Bool) (layout : MemoryLayout) (name : String) (flag : StructFlag)
      (members : MemberList)
  | function (ret : Ty) (params : TyList)
  | wrapper (kind : WrapperKind) (inner : Ty) (params : List Nat)
  deriving DecidableEq, Repr
/-- The members of a structure in declaration order (`Struct::Member`): type, index of the member
type in its parent (`member.type->getIndex()`), name, offset, size, array stride, location and
builtin tag. -/
inductive MemberList where
  | nil
  | cons (type : Ty) (index : Nat) (name : String) (offset : Nat) (size : Nat)
      (arrayStride : Nat) (location : Nat) (builtin : Builtin) (rest : MemberList)
  deriving DecidableEq, Repr
/-- A list of types (the parameters of a function type). -/
inductive TyList where
  | nil
  | cons (type : Ty) (rest : TyList)
  deriving DecidableEq, Repr
end

/-- A `TypePtr`: a handle on an interned type. -/
abbrev TypePtr := Ty

/-- The raw kind of a type: `Type::getRawKind`. -/
def Ty.getRawKind : Ty → Kind
  | .basic k _ => .eBasic k
  | .array _ _ => .eArray
  | .pointer _ _ _ => .ePointer
  | .sampler _ => .eSampler
  | .image _ => .eImage
  | .combinedImage _ _ => .eCombinedImage
  | .sampledImage _ _ => .eSampledImage
  | .accelerationStructure => .eAccelerationStructure
  | .struct rayDesc _ _ _ _ => if rayDesc then .eRayDesc else .eStruct
  | .function _ _ => .eFunction
  | .wrapper k _ _ => .eWrapper k

/-- Modelled from the spec: `TessellationControlInput::getInputVertices`, the first layout value
of the wrapper. -/
def Ty.getInputVertices : Ty → Nat
  | .wrapper _ _ params => params.headD 0
  | _ => 0

end type

/-! ## Variables -/

namespace var

/-- Modelled from the spec: the flags of a variable (§3), a bitmask in the source; the
enumeration is declared in a header that is not part of the sources.  A flag word is the set of
its flags, `|` is the union. -/
inductive Flag where
  | eParam
  | eStatic
  | eLocale
  | eInputParam
  | eOutputParam
  | eShaderInput
  | eShaderOutput
  | eShaderConstant
  | eSpecialisationConstant
  | eUniform
  | eConstant
  | eMember
  | eLoopVar
  | eBuiltin
  | eFlat
  | eFunction
  | eSampler
  deriving DecidableEq, Repr, Fintype

/-- A variable as the builder sees it.  `ptr` is the address of the shared object (what
`var::VariablePtr` compares and orders by), `outer` the address of the enclosing variable of a
member.  `fullName` is the value of `Variable::getFullName`, which is not part of the sources. -/
structure Variable where
  ptr : Nat
  id : Nat
  name : String
  fullName : String
  type : ast.type.TypePtr
  flags : Finset Flag
  outer : Option Nat
  builtin : ast.type.Builtin
  deriving DecidableEq

/-- The name of the variable: `Variable::getName`. -/
def Variable.getName (v : Variable) : String := v.name

/-- The qualified name of the variable: `Variable::getFullName`. -/
def Variable.getFullName (v : Variable) : String := v.fullName

/-- Whether the member flag is set: `Variable::isMember`. -/
def Variable.isMember (v : Variable) : Bool := decide (Flag.eMember ∈ v.flags)

/-- The enclosing variable of a member: `Variable::getOuter`. -/
def Variable.getOuter (v : Variable) : Option Nat := v.outer

/-- Modelled from the spec: `var::makeVariable( id, type, name, flags )`, allocated at `ptr`; a
variable that is no member has no outer variable and its full name is its name. -/
def makeVariable (ptr : Nat) (id : Nat) (type : ast.type.TypePtr) (name : String)
    (flags : Finset Flag) : Variable :=
  { ptr := ptr, id := id, name := name, fullName := name, type := type, flags := flags,
    outer := none, builtin := .eNone }

/-- Modelled from the spec: `var::makeVariable( id, outer, type, name, flags )`, a member of
`outer` allocated at `ptr`; `fullName` is the qualified name the variable class computes. -/
def makeMemberVariable (ptr : Nat) (id : Nat) (outer : Variable) (type : ast.type.TypePtr)
    (name : String) (fullName : String) (flags : Finset Flag) : Variable :=
  { ptr := ptr, id := id, name := name, fullName := fullName, type := type, flags := flags,
    outer := some outer.ptr, builtin := .eNone }

/-- Modelled from the spec: `var::makeFunction( id, type, name )`, allocated at `ptr`. -/
def makeFunction (ptr : Nat) (id : Nat) (type : ast.type.TypePtr) (name : String) : Variable :=
  { ptr := ptr, id := id, name := name, fullName := name, type := type,
    flags := {Flag.eFunction}, outer := none, builtin := .eNone }

/-! ### `std::set< var::VariablePtr >` -/

/-- The `find` of the set: the element whose key is `ptr`. -/
def setFind (vars : List Variable) (ptr : Nat) : Option Variable :=
  vars.find? (fun v => v.ptr == ptr)

/-- Whether the set holds the pointer `ptr`. -/
def setContains (vars : List Variable) (ptr : Nat) : Bool :=
  vars.any (fun v => v.ptr == ptr)

/-- The `insert` / `emplace` of the set: `v` goes to its place in pointer order unless its key is
already present. -/
def setInsert (v : Variable) : List Variable → List Variable
  | [] => [v]
  | w :: ws =>
    if v.ptr < w.ptr then v :: w :: ws
    else if v.ptr = w.ptr then w :: ws
    else w :: setInsert v ws

/-- The `erase` of the set, by key. -/
def setErase (vars : List Variable) (ptr : Nat) : List Variable :=
  vars.filter (fun v => !(v.ptr == ptr))

/-- The set holds its elements in strictly increasing pointer order. -/
def setOrdered (vars : List Variable) : Prop :=
  vars.Pairwise (fun a b => a.ptr < b.ptr)

end var
end ast

namespace ast

/-! ## Expressions and statements -/

namespace expr

/-- Modelled from the spec: the expressions the builder handles.  `leaf` stands for an expression
built by the front end, identified by a tag; `switchTest`, `switchCase` and `dummy` are the nodes
the builder makes itself (`makeSwitchTest`, `makeSwitchCase`, `makeDummyExpr`). -/
inductive Expr where
  | leaf (tag : Nat)
  | switchTest (value : Expr)
  | switchCase (label : Expr)
  | dummy (type : ast.type.TypePtr)
  deriving DecidableEq, Repr

end expr

/-- Modelled from the spec: `ExprCloner::submit`, which returns a structural copy of the
expression; on values a copy is the value. -/
def ExprCloner.submit (e : expr.Expr) : expr.Expr := e

namespace stmt

/-- The kinds of the container statements the builder creates or receives. -/
inductive Kind where
  | eContainer
  | eCompound
  | eIf
  | eElseIf
  | eElse
  | eSwitch
  | eSwitchCase
  | eFunctionDecl
  deriving DecidableEq, Repr

/-- A statement handle (`stmt::StmtPtr`).  `simple` is a `stmt::Simple` and holds its expression,
`other` is any other statement that is not a container (identified by a tag), `container` is a
container statement, held by its arena address. -/
inductive Stmt where
  | simple (expr : expr.Expr)
  | other (tag : Nat)
  | container (ptr : Nat)
  deriving DecidableEq, Repr

/-- The test `stmt->getKind() == stmt::Kind::eSimple`. -/
def Stmt.isSimple : Stmt → Bool
  | .simple _ => true
  | _ => false

/-- Modelled from the spec: a container statement: its kind, its control expression (the condition
of an `If` / `ElseIf`, the test of a `Switch`, the label of a case), its ordered statements and the
branch bodies it owns (else-if / else bodies of an `If`, case / default bodies of a `Switch`), in
creation order. -/
structure Container where
  kind : Kind
  ctrl : Option expr.Expr
  stmts : List Stmt
  branches : List Nat
  deriving DecidableEq, Repr

/-- The statement arena: the container at each address. -/
abbrev Arena := Nat → Container

/-- Store `c` at address `p`. -/
def Arena.set (a : Arena) (p : Nat) (c : Container) : Arena :=
  fun q => if q = p then c else a q

/-- Modelled from the spec: `Container::addStmt`, appending to the ordered sequence. -/
def Container.addStmt (c : Container) (s : Stmt) : Container :=
  { c with stmts := c.stmts ++ [s] }

end stmt

/-! ## Shader -/

/-- The shader stages (§3 and the tests of `registerInput` / `registerOutput`). -/
inductive ShaderStage where
  | eVertex
  | eTessellationControl
  | eTessellationEvaluation
  | eGeometry
  | eMeshNV
  | eTaskNV
  | eMesh
  | eTask
  | eFragment
  | eRayGeneration
  | eRayClosestHit
  | eRayMiss
  | eRayIntersection
  | eRayAnyHit
  | eCallable
  | eCompute
  deriving DecidableEq, Repr

/-- An entry point of the shader (value of the `EntryPoint` enumeration). -/
abbrev EntryPoint := Nat

/-- The `emplace` of a `std::map`: the entry is added unless the key is present. -/
def mapEmplace {κ β : Type} [DecidableEq κ] (m : List (κ × β)) (k : κ) (v : β) : List (κ × β) :=
  if m.any (fun e => decide (e.1 = k)) then m else m ++ [(k, v)]

/-- The `find` of a `std::map`. -/
def mapFind {κ β : Type} [DecidableEq κ] (m : List (κ × β)) (k : κ) : Option β :=
  (m.find? (fun e => decide (e.1 = k))).map Prod.snd

/-- Assignment through an iterator of a map: the value of the entry of key `k` becomes `v`. -/
def mapSet {κ β : Type} [DecidableEq κ] (m : List (κ × β)) (k : κ) (v : β) : List (κ × β) :=
  m.map (fun e => if e.1 = k then (e.1, v) else e)

/-- Every entry of `m` is an entry of `m'`. -/
def MapLe {κ β : Type} [DecidableEq κ] (m m' : List (κ × β)) : Prop :=
  ∀ k v, mapFind m k = some v → mapFind m' k = some v

/-- Type and location of a shader input, output or specialisation constant. -/
structure LocationInfo where
  type : ast.type.TypePtr
  location : Nat
  deriving DecidableEq

/-- Type, binding and set of a sampler, texture or image. -/
structure BindingInfo where
  type : ast.type.TypePtr
  binding : Nat
  set : Nat
  deriving DecidableEq

/-- Handle on the description of a buffer (`SsboInfo`, `UboInfo`, `InterfaceBlock`,
`ShaderRecordInfo`), whose structure the builder does not look into. -/
abbrev BufferInfo := Nat

/-- The data of the shader the builder writes to (`ShaderData`): the counter of variable ids, a
32-bit unsigned integer, and the maps filled by the registration operations, each keyed by name.
The type of a constant is a shared pointer, which can be null (`none`). -/
structure ShaderData where
  nextVarId : Nat
  tessellationControlPoints : Nat
  constants : List (String × Option ast.type.TypePtr)
  specConstants : List (String × LocationInfo)
  samplers : List (String × BindingInfo)
  sampled : List (String × BindingInfo)
  textures : List (String × BindingInfo)
  uniformTexels : List (String × BindingInfo)
  storageTexels : List (String × BindingInfo)
  images : List (String × BindingInfo)
  inputs : List (EntryPoint × List (String × LocationInfo))
  outputs : List (EntryPoint × List (String × LocationInfo))
  inOuts : List (String × ast.type.TypePtr)
  accelerationStruct : Option BindingInfo
  ssbos : List (String × BufferInfo)
  ubos : List (String × BufferInfo)
  pcbs : List (String × BufferInfo)
  shaderRecords : List (String × BufferInfo)

/-- The shader: its stage, its data, the variables registered per scope level
(`Shader::registerVar`), the statement arena with the next free address, and the address of the
root container (`Shader::getStatements`). -/
structure Shader where
  stage : ShaderStage
  data : ShaderData
  vars : List (Nat × var.Variable)
  arena : stmt.Arena
  arenaNext : Nat
  statements : Nat

/-- Modelled from the spec: `Shader::registerVar( level, var )` records the variable under its
scope level in the registry of the shader. -/
def Shader.registerVar (sh : Shader) (level : Nat) (v : var.Variable) : Shader :=
  { sh with vars := sh.vars ++ [(level, v)] }

/-- Modelled from the spec: a statement made by the statement cache (`makeIf`, `makeSwitch`,
`makeElse`, ...) is a new object of the arena; the arena hands out its next free address. -/
def Shader.makeContainer (sh : Shader) (kind : stmt.Kind) (ctrl : Option expr.Expr) :
    Nat × Shader :=
  (sh.arenaNext,
    { sh with
      arena := sh.arena.set sh.arenaNext { kind := kind, ctrl := ctrl, stmts := [], branches := [] }
      arenaNext := sh.arenaNext + 1 })

/-- Modelled from the spec: `If::createElseIf`, `If::createElse`, `Switch::createCase` and
`Switch::createDefault` make a new branch body and append it to the branches of the statement at
`owner`; the address of the new body is returned. -/
def Shader.createBranch (sh : Shader) (owner : Nat) (kind : stmt.Kind)
    (ctrl : Option expr.Expr) : Nat × Shader :=
  let r := sh.makeContainer kind ctrl
  let o := r.2.arena owner
  (r.1, { r.2 with arena := r.2.arena.set owner { o with branches := o.branches ++ [r.1] } })

/-- A shader with an empty root container at address 0 and no variable. -/
def Shader.empty (stage : ShaderStage) : Shader :=
  { stage := stage
    data :=
      { nextVarId := 0, tessellationControlPoints := 0, constants := [], specConstants := [],
        samplers := [], sampled := [], textures := [], uniformTexels := [], storageTexels := [],
        images := [], inputs := [], outputs := [], inOuts := [], accelerationStruct := none,
        ssbos := [], ubos := [], pcbs := [], shaderRecords := [] }
    vars := []
    arena := fun _ => { kind := .eContainer, ctrl := none, stmts := [], branches := [] }
    arenaNext := 1
    statements := 0 }

/-! ## The builder -/

/-- How an operation can fail. -/
inductive Error where
  | undefinedBehaviour
  | runtimeError (text : String)
  deriving DecidableEq, Repr

/-- Outcome of a builder operation. -/
abbrev Result (α : Type) := Except Error α

/-- A scope frame (`ShaderBuilder::Block`). -/
structure Block where
  registered : List var.Variable
  container : Nat
  deriving DecidableEq

/-- The state of a `ShaderBuilder`. -/
structure ShaderBuilder where
  m_shader : Shader
  m_blocks : List Block
  m_ignore : Bool
  m_savedStmt : Option stmt.Stmt
  m_ifStmt : List Nat
  m_switchStmt : List Nat
  m_currentStmts : List Nat

namespace builder

/-- The lookup `builder::findVariable`: the first variable of the set, in set order, whose full
name or name is `name`. -/
def findVariable (vars : List var.Variable) (name : String) : Option var.Variable :=
  vars.find? (fun v => decide (v.getFullName = name) || decide (v.getName = name))

/-- The lookup `builder::findMbrVariable`: the first member of `outer` in the set whose full name
or name is `name`. -/
def findMbrVariable (vars : List var.Variable) (outer : var.Variable) (name : String) :
    Option var.Variable :=
  vars.find? (fun v =>
    v.isMember && decide (v.getOuter = some outer.ptr)
      && (decide (v.getFullName = name) || decide (v.getName = name)))

end builder

/-- Apply `f` to the element at index `i` of a vector. -/
def modifyAt {α : Type} (f : α → α) : Nat → List α → List α
  | _, [] => []
  | 0, x :: xs => f x :: xs
  | i + 1, x :: xs => x :: modifyAt f i xs

namespace ShaderBuilder

/-- The accessor `getContainer`: the container of the top frame. -/
def getContainer (b : ShaderBuilder) : Result Nat :=
  match b.m_blocks.getLast? with
  | none => .error .undefinedBehaviour
  | some block => .ok block.container

/-- The accessor `getGlobalContainer`: the container of the bottom frame. -/
def getGlobalContainer (b : ShaderBuilder) : Result Nat :=
  match b.m_blocks.head? with
  | none => .error .undefinedBehaviour
  | some block => .ok block.container

/-- The operation `registerVariable`: the variable enters the set of the top frame and the registry
of the shader; a tessellation-control input sets the number of control points. -/
def registerVariable (b : ShaderBuilder) (v : var.Variable) : Result ShaderBuilder :=
  match b.m_blocks.getLast? with
  | none => .error .undefinedBehaviour
  | some block =>
    let block1 : Block := { block with registered := var.setInsert v block.registered }
    let sh1 := b.m_shader.registerVar b.m_blocks.length v
    let sh2 : Shader :=
      if v.type.getRawKind = .eWrapper .eTessellationControlInput then
        { sh1 with data := { sh1.data with tessellationControlPoints := v.type.getInputVertices } }
      else sh1
    .ok { b with m_blocks := b.m_blocks.dropLast ++ [block1], m_shader := sh2 }

/-- First loop of `push`: each variable of `vars` is erased from the frame below the top one
(index `size - 2`) and registered in the top frame. -/
def pushMoveVars : List var.Variable → ShaderBuilder → Result ShaderBuilder
  | [], b => .ok b
  | v :: vars, b =>
    let b1 : ShaderBuilder :=
      { b with
        m_blocks :=
          modifyAt (fun blk : Block => { blk with registered := var.setErase blk.registered v.ptr })
            (b.m_blocks.length - 2) b.m_blocks }
    match registerVariable b1 v with
    | .error e => .error e
    | .ok b2 => pushMoveVars vars b2

/-- Second loop of `push`: every variable of every frame below the top one is inserted into the
top frame, from the bottom frame upwards. -/
def pushInherit (b : ShaderBuilder) : Result ShaderBuilder :=
  match b.m_blocks.getLast? with
  | none => .error .undefinedBehaviour
  | some block =>
    let registered :=
      b.m_blocks.dropLast.foldl
        (fun acc blk => blk.registered.foldl (fun acc1 v => var.setInsert v acc1) acc)
        block.registered
    .ok { b with m_blocks := b.m_blocks.dropLast ++ [{ block with registered := registered }] }

/-- The operation `push( container, vars )`. -/
def push (b : ShaderBuilder) (container : Nat) (vars : List var.Variable) :
    Result ShaderBuilder :=
  let b1 : ShaderBuilder :=
    { b with m_blocks := b.m_blocks ++ [{ registered := [], container := container }] }
  if b1.m_blocks.length > 1 then
    match pushMoveVars vars b1 with
    | .error e => .error e
    | .ok b2 => pushInherit b2
  else .ok b1

/-- The constructor: one frame on the root container of the shader. -/
def create (shader : Shader) : Result ShaderBuilder :=
  push
    { m_shader := shader, m_blocks := [], m_ignore := false, m_savedStmt := none, m_ifStmt := [],
      m_switchStmt := [], m_currentStmts := [] }
    shader.statements []

/-- The operation `pop`: the top frame is erased. -/
def pop (b : ShaderBuilder) : Result ShaderBuilder :=
  if b.m_blocks = [] then .error .undefinedBehaviour
  else .ok { b with m_blocks := b.m_blocks.dropLast }

/-- The operation `saveNextExpr`. -/
def saveNextExpr (b : ShaderBuilder) : ShaderBuilder :=
  { b with m_ignore := true }

/-- The operation `loadExpr( expr )`. -/
def loadExpr (b : ShaderBuilder) (e : expr.Expr) : Result (expr.Expr × ShaderBuilder) :=
  match b.m_savedStmt with
  | some (.simple saved) => .ok (ExprCloner.submit saved, { b with m_savedStmt := none })
  | some _ => .error .undefinedBehaviour
  | none => .ok (e, { b with m_ignore := false })

/-- The operation `addStmt( stmt )`. -/
def addStmt (b : ShaderBuilder) (s : stmt.Stmt) : Result ShaderBuilder :=
  if b.m_ignore then
    .ok { b with m_savedStmt := if s.isSimple then some s else b.m_savedStmt, m_ignore := false }
  else
    match b.getContainer with
    | .error e => .error e
    | .ok c =>
      .ok { b with
        m_shader := { b.m_shader with arena := b.m_shader.arena.set c ((b.m_shader.arena c).addStmt s) } }

/-- The operation `addGlobalStmt( stmt )`. -/
def addGlobalStmt (b : ShaderBuilder) (s : stmt.Stmt) : Result ShaderBuilder :=
  if b.m_ignore then
    .ok { b with m_savedStmt := if s.isSimple then some s else b.m_savedStmt, m_ignore := false }
  else
    match b.getGlobalContainer with
    | .error e => .error e
    | .ok c =>
      .ok { b with
        m_shader := { b.m_shader with arena := b.m_shader.arena.set c ((b.m_shader.arena c).addStmt s) } }

/-- The operation `pushScope( container )`. -/
def pushScope (b : ShaderBuilder) (container : Nat) : Result ShaderBuilder :=
  push { b with m_currentStmts := b.m_currentStmts ++ [container] } container []

/-- The operation `popScope`. -/
def popScope (b : ShaderBuilder) : Result ShaderBuilder :=
  match pop b with
  | .error e => .error e
  | .ok b1 =>
    match b1.m_currentStmts.getLast? with
    | none => .error .undefinedBehaviour
    | some c =>
      match addStmt b1 (.container c) with
      | .error e => .error e
      | .ok b2 => .ok { b2 with m_currentStmts := b2.m_currentStmts.dropLast }

/-- The operation `beginIf( condition )`. -/
def beginIf (b : ShaderBuilder) (condition : expr.Expr) : Result ShaderBuilder :=
  let r := b.m_shader.makeContainer .eIf (some condition)
  pushScope { b with m_shader := r.2, m_ifStmt := b.m_ifStmt ++ [r.1] } r.1

/-- The operation `beginElseIf( condition )`. -/
def beginElseIf (b : ShaderBuilder) (condition : expr.Expr) : Result ShaderBuilder :=
  match b.m_ifStmt.getLast? with
  | none => .error .undefinedBehaviour
  | some top =>
    let r := b.m_shader.createBranch top .eElseIf (some condition)
    push { b with m_shader := r.2 } r.1 []

/-- The operation `beginElse`. -/
def beginElse (b : ShaderBuilder) : Result ShaderBuilder :=
  match b.m_ifStmt.getLast? with
  | none => .error .undefinedBehaviour
  | some top =>
    let r := b.m_shader.createBranch top .eElse none
    push { b with m_shader := r.2 } r.1 []

/-- The operation `endIf`. -/
def endIf (b : ShaderBuilder) : Result ShaderBuilder :=
  if b.m_ifStmt = [] then .error .undefinedBehaviour
  else .ok { b with m_ifStmt := b.m_ifStmt.dropLast }

/-- The operation `beginSwitch( value )`. -/
def beginSwitch (b : ShaderBuilder) (value : expr.Expr) : Result ShaderBuilder :=
  let r := b.m_shader.makeContainer .eSwitch (some (.switchTest value))
  pushScope { b with m_shader := r.2, m_switchStmt := b.m_switchStmt ++ [r.1] } r.1

/-- The operation `beginCase( literal )`. -/
def beginCase (b : ShaderBuilder) (literal : expr.Expr) : Result ShaderBuilder :=
  match b.m_switchStmt.getLast? with
  | none => .error .undefinedBehaviour
  | some top =>
    let r := b.m_shader.createBranch top .eSwitchCase (some (.switchCase literal))
    push { b with m_shader := r.2 } r.1 []

/-- The operation `beginDefault`. -/
def beginDefault (b : ShaderBuilder) : Result ShaderBuilder :=
  match b.m_switchStmt.getLast? with
  | none => .error .undefinedBehaviour
  | some top =>
    let r := b.m_shader.createBranch top .eSwitchCase none
    push { b with m_shader := r.2 } r.1 []

/-- The operation `endSwitch`. -/
def endSwitch (b : ShaderBuilder) : Result ShaderBuilder :=
  if b.m_switchStmt = [] then .error .undefinedBehaviour
  else .ok { b with m_switchStmt := b.m_switchStmt.dropLast }

/-- The lookup `hasFunction( name )`, in the bottom frame. -/
def hasFunction (b : ShaderBuilder) (name : String) : Result Bool :=
  match b.m_blocks.head? with
  | none => .error .undefinedBehaviour
  | some front => .ok (builder.findVariable front.registered name).isSome

/-- The lookup `getFunction( name )`, in the bottom frame. -/
def getFunction (b : ShaderBuilder) (name : String) : Result var.Variable :=
  match b.m_blocks.head? with
  | none => .error .undefinedBehaviour
  | some front =>
    match builder.findVariable front.registered name with
    | none => .error (.runtimeError ("No registered function with the name [" ++ name ++ "]."))
    | some v => .ok v

/-- The operation `registerFunction( name, type )`; `ptr` is the address of the new variable. -/
def registerFunction (b : ShaderBuilder) (ptr : Nat) (name : String) (type : ast.type.TypePtr) :
    Result (var.Variable × ShaderBuilder) :=
  match b.m_blocks with
  | [] => .error .undefinedBehaviour
  | front :: rest =>
    let it := builder.findVariable front.registered name
    if it.isSome && decide (some type ≠ it.map (fun v => v.type)) then
      .error (.runtimeError
        ("A function with the name [" ++ name ++ "] is already registered, with a different type."))
    else
      let id := (b.m_shader.data.nextVarId + 1) % 2 ^ 32
      let result := var.makeFunction ptr id type name
      let sh1 : Shader := { b.m_shader with data := { b.m_shader.data with nextVarId := id } }
      let sh2 := sh1.registerVar 1 result
      .ok (result,
        { b with
          m_shader := sh2
          m_blocks := { front with registered := var.setInsert result front.registered } :: rest })

/-- The operation `getNextVarId`: the 32-bit counter is incremented and returned. -/
def getNextVarId (b : ShaderBuilder) : Nat × ShaderBuilder :=
  ((b.m_shader.data.nextVarId + 1) % 2 ^ 32,
    { b with
      m_shader :=
        { b.m_shader with
          data :=
            { b.m_shader.data with nextVarId := (b.m_shader.data.nextVarId + 1) % 2 ^ 32 } } })

/-- The lookup `hasVariable( name )`, in the top frame only. -/
def hasVariable (b : ShaderBuilder) (name : String) : Result Bool :=
  match b.m_blocks.getLast? with
  | none => .error .undefinedBehaviour
  | some block => .ok (builder.findVariable block.registered name).isSome

/-- The operation `registerName( name, type, flags )`; `ptr` is the address of the new
variable. -/
def registerName (b : ShaderBuilder) (ptr : Nat) (name : String) (type : ast.type.TypePtr)
    (flags : Finset var.Flag) : Result (var.Variable × ShaderBuilder) :=
  let id := (b.m_shader.data.nextVarId + 1) % 2 ^ 32
  let v := var.makeVariable ptr id type name flags
  let b1 : ShaderBuilder :=
    { b with m_shader := { b.m_shader with data := { b.m_shader.data with nextVarId := id } } }
  match registerVariable b1 v with
  | .error e => .error e
  | .ok b2 => .ok (v, b2)

/-- The operation `registerMember( outer, name, type, flags )`; `ptr` is the address of the new
variable and `fullName` the qualified name its class computes. -/
def registerMember (b : ShaderBuilder) (ptr : Nat) (outer : var.Variable) (name : String)
    (fullName : String) (type : ast.type.TypePtr) (flags : Finset var.Flag) :
    Result (var.Variable × ShaderBuilder) :=
  let flags1 := flags ∪ {var.Flag.eMember}
  let id := (b.m_shader.data.nextVarId + 1) % 2 ^ 32
  let v := var.makeMemberVariable ptr id outer type name fullName flags1
  let b1 : ShaderBuilder :=
    { b with m_shader := { b.m_shader with data := { b.m_shader.data with nextVarId := id } } }
  match registerVariable b1 v with
  | .error e => .error e
  | .ok b2 => .ok (v, b2)

/-- The lookup `hasVar( name )`: the frames are searched from the top one down. -/
def hasVar (b : ShaderBuilder) (name : String) : Bool :=
  (b.m_blocks.reverse.find?
    (fun lookup => (builder.findVariable lookup.registered name).isSome)).isSome

/-- The lookup `getVar( name )`: the variable found in the first frame, from the top one down,
that holds one. -/
def getVar (b : ShaderBuilder) (name : String) : Result var.Variable :=
  match b.m_blocks.reverse.findSome? (fun lookup => builder.findVariable lookup.registered name) with
  | none => .error (.runtimeError ("No registered variable with the name [" ++ name ++ "]."))
  | some v => .ok v

/-- The lookup `getMemberVar( outer, name )`. -/
def getMemberVar (b : ShaderBuilder) (outer : var.Variable) (name : String) :
    Result var.Variable :=
  match b.m_blocks.reverse.findSome?
      (fun lookup => builder.findMbrVariable lookup.registered outer name) with
  | none =>
    .error (.runtimeError ("No registered member variable with the name [" ++ name ++ "]."))
  | some v => .ok v

/-- The depth of the scope stack. -/
def depth (b : ShaderBuilder) : Nat := b.m_blocks.length

/-- The statements of the container at address `p`. -/
def stmtsAt (b : ShaderBuilder) (p : Nat) : List stmt.Stmt := (b.m_shader.arena p).stmts

/-! ### Sequences of operations and derived notions -/

/-- The builder that the constructor returns on the empty shader of a stage: one frame on the
root container. -/
def fresh (stage : ShaderStage) : ShaderBuilder :=
  { m_shader := Shader.empty stage
    m_blocks := [{ registered := [], container := 0 }]
    m_ignore := false
    m_savedStmt := none
    m_ifStmt := []
    m_switchStmt := []
    m_currentStmts := [] }

/-- The variables a new frame inherits from the frames `blocks` below it, starting from the
set `start`: the second loop of `push`. -/
def inherited (blocks : List Block) (start : List var.Variable) : List var.Variable :=
  blocks.foldl (fun acc blk => blk.registered.foldl (fun acc1 v => var.setInsert v acc1) acc) start

/-- The set `l` after the erasure of every variable of `vars`. -/
def eraseAll (vars : List var.Variable) (l : List var.Variable) : List var.Variable :=
  vars.foldl (fun acc v => var.setErase acc v.ptr) l

/-- The set `l` after the insertion of every variable of `vars`. -/
def insertAll (vars : List var.Variable) (l : List var.Variable) : List var.Variable :=
  vars.foldl (fun acc v => var.setInsert v acc) l

/-- Every address designates one variable: two variables of `vs` with the same `ptr` are
equal. -/
def ptrsAgree (vs : List var.Variable) : Prop :=
  ∀ v ∈ vs, ∀ w ∈ vs, v.ptr = w.ptr → v = w

/-- All the variables registered in the frames of the builder. -/
def allRegistered (b : ShaderBuilder) : List var.Variable :=
  b.m_blocks.flatMap (fun blk => blk.registered)

/-- A run of `addStmt` calls, in order. -/
def addStmts : ShaderBuilder → List stmt.Stmt → Result ShaderBuilder
  | b, [] => .ok b
  | b, s :: ss =>
    match addStmt b s with
    | .error e => .error e
    | .ok b1 => addStmts b1 ss

/-- The sequence `pushScope( c )`, a run of `addStmt` calls, `popScope()`. -/
def scopeSequence (b : ShaderBuilder) (c : Nat) (ss : List stmt.Stmt) : Result ShaderBuilder :=
  match pushScope b c with
  | .error e => .error e
  | .ok b1 =>
    match addStmts b1 ss with
    | .error e => .error e
    | .ok b2 => popScope b2

/-- The state in which the statements `ss` are appended to the container at `p`. -/
def appended (b : ShaderBuilder) (p : Nat) (ss : List stmt.Stmt) : ShaderBuilder :=
  { b with
    m_shader :=
      { b.m_shader with
        arena :=
          b.m_shader.arena.set p
            { b.m_shader.arena p with stmts := (b.m_shader.arena p).stmts ++ ss } } }

/-- The if/else scenario with both scopes closed by `popScope`: `beginIf( cond )`,
`addStmt( A )`, `popScope()`, `beginElse()`, `addStmt( B )`, `popScope()`, `endIf()` on a new
builder. -/
def ifElseScenario (sh : Shader) (cond : expr.Expr) (A B : stmt.Stmt) : Result ShaderBuilder := do
  let b0 ← create sh
  let b1 ← beginIf b0 cond
  let b2 ← addStmt b1 A
  let b3 ← popScope b2
  let b4 ← beginElse b3
  let b5 ← addStmt b4 B
  let b6 ← popScope b5
  endIf b6

/-- The if/else scenario with the else scope, which `beginElse` opens by `push`, closed by
`pop`: `beginIf( cond )`, `addStmt( A )`, `popScope()`, `beginElse()`, `addStmt( B )`, `pop()`,
`endIf()` on a new builder. -/
def ifElseScenarioPop (sh : Shader) (cond : expr.Expr) (A B : stmt.Stmt) :
    Result ShaderBuilder := do
  let b0 ← create sh
  let b1 ← beginIf b0 cond
  let b2 ← addStmt b1 A
  let b3 ← popScope b2
  let b4 ← beginElse b3
  let b5 ← addStmt b4 B
  let b6 ← pop b5
  endIf b6

/-- The pair `beginIf( cond )`, `endIf()`. -/
def ifPair (b : ShaderBuilder) (cond : expr.Expr) : Result ShaderBuilder := do
  let b1 ← beginIf b cond
  endIf b1

/-- The pair `beginSwitch( value )`, `endSwitch()`. -/
def switchPair (b : ShaderBuilder) (value : expr.Expr) : Result ShaderBuilder := do
  let b1 ← beginSwitch b value
  endSwitch b1

/-- The sequence `beginIf( cond )`, `popScope()`, `endIf()`. -/
def ifScoped (b : ShaderBuilder) (cond : expr.Expr) : Result ShaderBuilder := do
  let b1 ← beginIf b cond
  let b2 ← popScope b1
  endIf b2

/-- The sequence `beginSwitch( value )`, `popScope()`, `endSwitch()`. -/
def switchScoped (b : ShaderBuilder) (value : expr.Expr) : Result ShaderBuilder := do
  let b1 ← beginSwitch b value
  let b2 ← popScope b1
  endSwitch b2

/-- A new builder, one scope pushed on the container at address 1, then a function `f`
registered (its variable at address 100). -/
def functionInInnerScope : Result (var.Variable × ShaderBuilder) :=
  match pushScope (fresh .eFragment) 1 with
  | .error e => .error e
  | .ok b1 => registerFunction b1 100 "f" (.function (.basic .eVoid false) .nil)

/-- A builder two frames deep: the root frame and a frame on the container at address 1. -/
def twoFrames : ShaderBuilder :=
  { fresh .eFragment with
    m_blocks := [{ registered := [], container := 0 }, { registered := [], container := 1 }]
    m_currentStmts := [1] }

/-- A sample variable: a local `x` at address 7. -/
def sampleVariable : var.Variable :=
  var.makeVariable 7 1 (.basic (.eScalar .eInt32) false) "x" {var.Flag.eLocale}

/-- A sample member variable: the member `m` of `sampleVariable`, at address 9. -/
def sampleMember : var.Variable :=
  var.makeMemberVariable 9 2 sampleVariable (.basic (.eScalar .eFloat) true) "m" "x.m"
    {var.Flag.eMember}

/-- A builder whose only frame holds `sampleVariable` and `sampleMember`. -/
def sampleBuilder : ShaderBuilder :=
  { fresh .eFragment with
    m_blocks := [{ registered := [sampleVariable, sampleMember], container := 0 }] }

end ShaderBuilder
end ast

/-! ## The SPIR-V type registry -/

namespace ast
namespace type

mutual
/-- Number of nodes of a type, the measure the registration recursion descends on. -/
def Ty.size : Ty → Nat
  | .basic (.eMat _ _ _) _ => 3
  | .basic (.eVec _ _) _ => 2
  | .basic _ _ => 1
  | .array elem _ => elem.size + 2
  | .pointer pointee _ _ => pointee.size + 1
  | .sampler _ => 1
  | .image _ => 2
  | .combinedImage _ _ => 3
  | .sampledImage _ _ => 3
  | .accelerationStructure => 1
  | .struct _ _ _ _ members => members.size + 1
  | .function _ _ => 1
  | .wrapper _ inner _ => inner.size + 1
/-- Number of nodes of a member list. -/
def MemberList.size : MemberList → Nat
  | .nil => 0
  | .cons type _ _ _ _ _ _ _ rest => type.size + 1 + rest.size
end

/-- Modelled from the spec: `TypesCache::getBasicType( kind )`, the interned type of a basic
kind; it is no member type. -/
def getBasicType (kind : BasicKind) : Ty := .basic kind false

/-- Whether the kind is a vector kind. -/
def isVectorType : BasicKind → Bool
  | .eVec _ _ => true
  | _ => false

/-- Whether the kind is a matrix kind. -/
def isMatrixType : BasicKind → Bool
  | .eMat _ _ _ => true
  | _ => false

/-- Modelled from the spec: the component kind: the scalar of a vector, the column vector of a
matrix (a matrix is column kind × cols × rows). -/
def getComponentType : BasicKind → BasicKind
  | .eVec s _ => .eScalar s
  | .eMat s _ rows => .eVec s rows
  | k => k

/-- Modelled from the spec: the component count: the components of a vector, the columns of a
matrix. -/
def getComponentCount : BasicKind → Nat
  | .eVec _ count => count
  | .eMat _ cols _ => cols
  | _ => 1

/-- The array size of the type: `getArraySize`; a type that is no array has size `NotArray`
(0). -/
def getArraySize : Ty → Nat
  | .array _ size => size
  | _ => 0

/-- The type below every array level: `getNonArrayType`. -/
def getNonArrayType : Ty → Ty
  | .array elem _ => getNonArrayType elem
  | t => t

/-- The raw kind below every array level: `getNonArrayKind`. -/
def getNonArrayKind (t : Ty) : Kind := (getNonArrayType t).getRawKind

end type
end ast

namespace spirv

open ast ast.type

/-- A type id (`TypeId`): the SPIR-V id and the type it stands for. -/
structure TypeId where
  id : Nat
  type : TypePtr
  deriving DecidableEq, Repr

/-- Modelled from the spec: a value id with its type (`DebugId`), the handle on an image, a
sampler or a merged sampled image; a registry keyed by such values is keyed by their ids (§4.7:
"keyed by (image-id, sampler-id)"). -/
structure DebugId where
  id : Nat
  type : TypePtr
  deriving DecidableEq, Repr

/-- The test `TypeId::isPointer`. -/
def TypeId.isPointer (t : TypeId) : Bool := decide (t.type.getRawKind = Kind.ePointer)

/-- The opcodes of the instructions the registry emits. -/
inductive Op where
  | OpTypeVoid
  | OpTypeBool
  | OpTypeInt
  | OpTypeFloat
  | OpTypeVector
  | OpTypeMatrix
  | OpTypeImage
  | OpTypeSampler
  | OpTypeSampledImage
  | OpTypeArray
  | OpTypeRuntimeArray
  | OpTypeStruct
  | OpTypePointer
  | OpTypeFunction
  | OpTypeForwardPointer
  | OpTypeAccelerationStructureKHR
  | OpConstant
  | OpSampledImage
  deriving DecidableEq, Repr

/-- An instruction: opcode, result type id, result id and operand words. -/
structure Instruction where
  op : Op
  returnTypeId : Option Nat
  resultId : Option Nat
  operands : List Nat
  deriving DecidableEq, Repr

/-- The decorations of the SPIR-V specification the registry writes. -/
def DecorationBlock : Nat := 2
/-- The decoration `ColMajor`. -/
def DecorationColMajor : Nat := 5
/-- The decoration `ArrayStride`. -/
def DecorationArrayStride : Nat := 6
/-- The decoration `MatrixStride`. -/
def DecorationMatrixStride : Nat := 7
/-- The decoration `BuiltIn`. -/
def DecorationBuiltIn : Nat := 11
/-- The decoration `Offset`. -/
def DecorationOffset : Nat := 35

/-- Modelled from the spec: the part of `spirv::Module` the registry writes to: the id counter
(§4.7, a monotonic counter), the decorations of ids and of structure members, the execution modes
registered from stage wrappers, the table of unsigned literals and the execution model. -/
structure Module where
  nextId : Nat
  decorations : List (Nat × List Nat)
  memberDecorations : List (Nat × Nat × List Nat)
  executionModes : List (WrapperKind × List Nat)
  literals : List (Nat × Nat)
  executionModel : Nat
  deriving DecidableEq

/-- Modelled from the spec: `Module::decorate( id, decoration )`. -/
def Module.decorate (m : Module) (id : Nat) (decoration : List Nat) : Module :=
  { m with decorations := m.decorations ++ [(id, decoration)] }

/-- Modelled from the spec: `Module::decorateMember( id, index, decoration )`. -/
def Module.decorateMember (m : Module) (id : Nat) (index : Nat) (decoration : List Nat) :
    Module :=
  { m with memberDecorations := m.memberDecorations ++ [(id, index, decoration)] }

/-- Modelled from the spec: `Module::registerExecutionMode`, recording the layout values of a
stage wrapper. -/
def Module.registerExecutionMode (m : Module) (kind : WrapperKind) (params : List Nat) :
    Module :=
  { m with executionModes := m.executionModes ++ [(kind, params)] }

/-- What the registry takes from code that is not part of the sources: the hash of the image key
(`std::hash` and `ast::type::hashCombine` over dimension, format, isSampled, isArrayed, isMS and
isComparison), the layout size of a type (`ast::type::getSize`) and the SPIR-V builtin of a
member builtin, with the additional decorations it asks for (`getBuiltin`; `none` is
`spv::BuiltInMax`). -/
structure TypesEnv where
  hashImage : Nat → Nat → Trinary → Bool → Bool → Trinary → Nat
  getSize : Ty → MemoryLayout → Nat
  getBuiltin : Builtin → Nat → Option (Nat × List Nat)

/-- The state of a `ModuleTypes`: the module, the declarations list it appends to and its
registries.  The debug sections (`m_debugNames`, `m_nonSemanticDebug`) are not represented: the
embedding is the registry at debug level none. -/
structure ModuleTypes where
  m_module : Module
  m_declarations : List Instruction
  m_registeredTypes : List (Ty × TypeId)
  m_registeredImageTypes : List (Nat × TypeId)
  m_registeredPointerTypes : List (Nat × TypeId)
  m_registeredSamplerImages : List (Nat × List (Nat × DebugId))
  deriving DecidableEq

/-- Modelled from the spec: `Module::getNextId`: the current value of the counter, which is then
incremented. -/
def ModuleTypes.getNextId (s : ModuleTypes) : Nat × ModuleTypes :=
  (s.m_module.nextId, { s with m_module := { s.m_module with nextId := s.m_module.nextId + 1 } })

/-- Append an instruction to the declarations list. -/
def ModuleTypes.pushDeclaration (s : ModuleTypes) (i : Instruction) : ModuleTypes :=
  { s with m_declarations := s.m_declarations ++ [i] }

namespace modtyp

mutual
/-- The unqualified type: `modtyp::getUnqualifiedType`.  An array unqualifies its element; a
structure becomes the structure without flag of the same layout and name (itself when it has no
flag, otherwise the structure whose members are redeclared by `declMember( name, type )` with the
unqualified member types, which carry neither location nor builtin); an image, combined image or
sampled image gets the access kind read-write; a member type of a basic kind becomes the basic
type; every other type is kept. -/
def getUnqualifiedType : Ty → Ty
  | .array elem size => .array (getUnqualifiedType elem) size
  | .struct rayDesc layout name .eNone members => .struct rayDesc layout name .eNone members
  | .struct rayDesc layout name _ members =>
    .struct rayDesc layout name .eNone (getUnqualifiedMembers members)
  | .image config => .image { config with accessKind := .eReadWrite }
  | .combinedImage config isComparison =>
    .combinedImage { config with accessKind := .eReadWrite } isComparison
  | .sampledImage config depth => .sampledImage { config with accessKind := .eReadWrite } depth
  | .sampler isComparison => .sampler isComparison
  | .basic kind _ => getBasicType kind
  | t => t
/-- The members of the structure without flag, redeclared from the members of the qualified
one. -/
def getUnqualifiedMembers : MemberList → MemberList
  | .nil => .nil
  | .cons type index name offset size arrayStride _ _ rest =>
    .cons (getUnqualifiedType type) index name offset size arrayStride NotFound .eNone
      (getUnqualifiedMembers rest)
end

/-- The key of the image registry: `modtyp::myHash`. -/
def myHash (env : TypesEnv) (config : ImageConfiguration) (isComparison : Trinary) : Nat :=
  env.hashImage config.dimension config.format config.isSampled config.isArrayed config.isMS
    isComparison

/-- The decoration of an array type with its stride: `modtyp::writeArrayStride`. -/
def writeArrayStride (env : TypesEnv) (m : Module) (elementType : Ty) (typeId : TypeId)
    (arrayStride : Nat) : Module :=
  let kind := getNonArrayKind elementType
  if kind ≠ .eImage ∧ kind ≠ .eCombinedImage ∧ kind ≠ .eSampler ∧ kind ≠ .eSampledImage then
    let stride := if arrayStride = 0 then env.getSize elementType .eStd140 else arrayStride
    m.decorate typeId.id [DecorationArrayStride, stride]
  else m

end modtyp

/-- Modelled from the spec: the instruction of a scalar or void type (`makeBaseTypeInstruction`):
`OpTypeVoid`, `OpTypeBool`, `OpTypeInt width signedness` or `OpTypeFloat width`. -/
def makeBaseTypeInstruction (kind : BasicKind) (id : Nat) : Instruction :=
  match kind with
  | .eScalar .eBoolean => ⟨.OpTypeBool, none, some id, []⟩
  | .eScalar .eInt8 => ⟨.OpTypeInt, none, some id, [8, 1]⟩
  | .eScalar .eInt16 => ⟨.OpTypeInt, none, some id, [16, 1]⟩
  | .eScalar .eInt32 => ⟨.OpTypeInt, none, some id, [32, 1]⟩
  | .eScalar .eInt64 => ⟨.OpTypeInt, none, some id, [64, 1]⟩
  | .eScalar .eUInt8 => ⟨.OpTypeInt, none, some id, [8, 0]⟩
  | .eScalar .eUInt16 => ⟨.OpTypeInt, none, some id, [16, 0]⟩
  | .eScalar .eUInt32 => ⟨.OpTypeInt, none, some id, [32, 0]⟩
  | .eScalar .eUInt64 => ⟨.OpTypeInt, none, some id, [64, 0]⟩
  | .eScalar .eHalf => ⟨.OpTypeFloat, none, some id, [16]⟩
  | .eScalar .eFloat => ⟨.OpTypeFloat, none, some id, [32]⟩
  | .eScalar .eDouble => ⟨.OpTypeFloat, none, some id, [64]⟩
  | _ => ⟨.OpTypeVoid, none, some id, []⟩

/-- The operand word of a three-valued flag. -/
def trinaryWord : Trinary → Nat
  | .eFalse => 0
  | .eTrue => 1
  | .eDontCare => 2

/-- Modelled from the spec: the `OpTypeImage` instruction (`makeImageTypeInstruction`): sampled
type, dimension, depth, arrayed, multisampled, sampled and format. -/
def makeImageTypeInstruction (config : ImageConfiguration) (isComparison : Trinary) (id : Nat)
    (sampledTypeId : Nat) : Instruction :=
  ⟨.OpTypeImage, none, some id,
    [sampledTypeId, config.dimension, trinaryWord isComparison, config.isArrayed.toNat,
      config.isMS.toNat, trinaryWord config.isSampled, config.format]⟩

/-- The 64-bit key of the pointer registry, as `registerPointerType` packs it. -/
def pointerKey (type : TypeId) (storage : Nat) (isForward : Bool) : Nat :=
  ((type.id <<< 33) % 2 ^ 64)
    ||| ((((type.isPointer.toNat <<< 32) % 2 ^ 64) &&& 1)
    ||| (((storage <<< 1) % 2 ^ 64)
    ||| (isForward.toNat &&& 1)))

/-- The key of the second entry a forward pointer gets, without the forward bit. -/
def pointerKeyNoForward (type : TypeId) (storage : Nat) : Nat :=
  ((type.id <<< 33) % 2 ^ 64)
    ||| ((((type.isPointer.toNat <<< 32) % 2 ^ 64) &&& 1)
    ||| ((storage <<< 1) % 2 ^ 64))

namespace ModuleTypes

/-- The operation `registerPointerType( type, storage, isForward )`. -/
def registerPointerType (s : ModuleTypes) (type : TypeId) (storage : Nat) (isForward : Bool) :
    TypeId × ModuleTypes :=
  let key := pointerKey type storage isForward
  match mapFind s.m_registeredPointerTypes key with
  | some found => (found, s)
  | none =>
    let r := s.getNextId
    let id : TypeId := { id := r.1, type := .pointer type.type storage false }
    let s1 : ModuleTypes :=
      { r.2 with m_registeredPointerTypes := mapEmplace r.2.m_registeredPointerTypes key id }
    if isForward then
      let s2 := s1.pushDeclaration ⟨.OpTypeForwardPointer, none, some id.id, [storage]⟩
      let s3 := s2.pushDeclaration ⟨.OpTypePointer, none, some id.id, [storage, type.id]⟩
      (id,
        { s3 with
          m_registeredPointerTypes :=
            mapEmplace s3.m_registeredPointerTypes (pointerKeyNoForward type storage) id })
    else
      (id, s1.pushDeclaration ⟨.OpTypePointer, none, some id.id, [storage, type.id]⟩)

/-- The overload `doRegisterBaseType( SamplerPtr )`. -/
def doRegisterBaseTypeSampler (s : ModuleTypes) (type : Ty) : TypeId × ModuleTypes :=
  let r := s.getNextId
  let result : TypeId := { id := r.1, type := type }
  let s1 := r.2.pushDeclaration ⟨.OpTypeSampler, none, some result.id, []⟩
  let s2 : ModuleTypes :=
    { s1 with m_registeredTypes := mapEmplace s1.m_registeredTypes type result }
  ((mapFind s2.m_registeredTypes type).getD result, s2)

/-- The overload `doRegisterBaseType( AccelerationStructurePtr )`. -/
def doRegisterBaseTypeAccelerationStructure (s : ModuleTypes) (type : Ty) :
    TypeId × ModuleTypes :=
  let r := s.getNextId
  let result : TypeId := { id := r.1, type := type }
  let s1 := r.2.pushDeclaration ⟨.OpTypeAccelerationStructureKHR, none, some result.id, []⟩
  let s2 : ModuleTypes :=
    { s1 with m_registeredTypes := mapEmplace s1.m_registeredTypes type result }
  ((mapFind s2.m_registeredTypes type).getD result, s2)

/-- The member builtin decorations: `doAddMbrBuiltin`, which only writes to the module. -/
def doAddMbrBuiltin (env : TypesEnv) (m : Module) (pbuiltin : Builtin) (outer : TypeId)
    (mbrIndex : Nat) : Bool × Module :=
  match env.getBuiltin pbuiltin m.executionModel with
  | none => (false, m)
  | some (builtin, additionalDecorations) =>
    let m1 := m.decorateMember outer.id mbrIndex [DecorationBuiltIn, builtin]
    (true, additionalDecorations.foldl (fun acc d => acc.decorateMember outer.id mbrIndex [d]) m1)

/-- The matrix decorations of a member in `doRegisterBaseType( StructPtr )`: `ColMajor` and
`MatrixStride` when the kind below the arrays of the member type is a matrix kind. -/
def decorateMatrixMember (env : TypesEnv) (layout : MemoryLayout) (result : TypeId)
    (type : Ty) (index : Nat) (m : Module) : Module :=
  match getNonArrayKind type with
  | .eBasic (.eMat sc cols rows) =>
    let colKind := getComponentType (.eMat sc cols rows)
    let rowCount := getComponentCount colKind
    let colType : Ty :=
      if rowCount = 3 ∨ (rowCount = 2 ∧ layout = .eStd140) then getBasicType (.eVec sc 4)
      else getBasicType colKind
    let size := env.getSize colType layout
    (m.decorateMember result.id index [DecorationColMajor]).decorateMember result.id index
      [DecorationMatrixStride, size]
  | _ => m

/-- The second loop of `doRegisterBaseType( StructPtr )`: the decorations of the members, which
only write to the module.  The result tells whether a member is a builtin and whether a member
has an unknown array size. -/
def decorateMembers (env : TypesEnv) (layout : MemoryLayout) (result : TypeId) :
    MemberList → Module → Bool → Bool → (Bool × Bool) × Module
  | .nil, m, hasBuiltin, hasDynarray => ((hasBuiltin, hasDynarray), m)
  | .cons type index _ offset _ _ _ builtin rest, m, hasBuiltin, hasDynarray =>
    let r1 : Bool × Module :=
      if builtin = .eNone then
        (hasBuiltin, m.decorateMember result.id index [DecorationOffset, offset])
      else (true, (doAddMbrBuiltin env m builtin result index).2)
    let hasDynarray1 := if getArraySize type = UnknownArraySize then true else hasDynarray
    decorateMembers env layout result rest
      (decorateMatrixMember env layout result type index r1.2) r1.1 hasDynarray1

/-- The registration a callee asks for by `registerType( type )` or `doRegisterTypeRec( type,
..., arrayStride )`: the recursive calls of the functions below go through it. -/
abbrev Registrar := ModuleTypes → Ty → Nat → TypeId × ModuleTypes

/-- Modelled from the spec: `Module::registerLiteral( value )` for an unsigned value: the
literal gets one id; at its first use the type `uint` is registered and an `OpConstant` is
appended to the declarations. -/
def registerLiteral (registerType : Registrar) (s : ModuleTypes) (value : Nat) :
    Nat × ModuleTypes :=
  match mapFind s.m_module.literals value with
  | some id => (id, s)
  | none =>
    let t := registerType s (getBasicType (.eScalar .eUInt32)) 0
    let r := t.2.getNextId
    let s1 := r.2.pushDeclaration ⟨.OpConstant, some t.1.id, some r.1, [value]⟩
    (r.1, { s1 with m_module := { s1.m_module with literals := mapEmplace s1.m_module.literals value r.1 } })

/-- The overload `doRegisterBaseType( Kind )`, for the kinds `getBasicType` serves. -/
def doRegisterBaseTypeKind (registerType : Registrar) (s : ModuleTypes) (kind : BasicKind) :
    TypeId × ModuleTypes :=
  let type := getBasicType kind
  let r := s.getNextId
  let result : TypeId := { id := r.1, type := type }
  let s1 : ModuleTypes := { r.2 with m_registeredTypes := mapEmplace r.2.m_registeredTypes type result }
  let resultId := (mapFind s1.m_registeredTypes type).getD result
  if isVectorType kind || isMatrixType kind then
    let c := registerType s1 (getBasicType (getComponentType kind)) 0
    let componentCount := getComponentCount kind
    if isMatrixType kind then
      (resultId, c.2.pushDeclaration ⟨.OpTypeMatrix, none, some resultId.id, [c.1.id, componentCount]⟩)
    else
      (resultId, c.2.pushDeclaration ⟨.OpTypeVector, none, some resultId.id, [c.1.id, componentCount]⟩)
  else
    (resultId, s1.pushDeclaration (makeBaseTypeInstruction kind resultId.id))

/-- The overload `doRegisterBaseType( ImagePtr, Trinary )`; `type` is the image type and
`config` its configuration.  The entry of the image registry is created first, with a
placeholder id, and receives the id of the image type at the end (`it->second = resultId`). -/
def doRegisterBaseTypeImage (env : TypesEnv) (registerType : Registrar) (s : ModuleTypes)
    (type : Ty) (config : ImageConfiguration) (isComparison : Trinary) : TypeId × ModuleTypes :=
  let key := modtyp.myHash env config isComparison
  match mapFind s.m_registeredImageTypes key with
  | some found => (found, s)
  | none =>
    let s0 : ModuleTypes :=
      { s with
        m_registeredImageTypes := mapEmplace s.m_registeredImageTypes key { id := 0, type := type } }
    let t := registerType s0 (getBasicType (.eScalar config.sampledType)) 0
    let r := t.2.getNextId
    let fresh : TypeId := { id := r.1, type := type }
    let s1 := r.2.pushDeclaration (makeImageTypeInstruction config isComparison fresh.id t.1.id)
    let s2 : ModuleTypes := { s1 with m_registeredTypes := mapEmplace s1.m_registeredTypes type fresh }
    let resultId := (mapFind s2.m_registeredTypes type).getD fresh
    (resultId, { s2 with m_registeredImageTypes := mapSet s2.m_registeredImageTypes key resultId })

/-- The overload `doRegisterBaseType( CombinedImagePtr )`. -/
def doRegisterBaseTypeCombinedImage (env : TypesEnv) (registerType : Registrar)
    (s : ModuleTypes) (type : Ty) (config : ImageConfiguration) (isComparison : Bool) :
    TypeId × ModuleTypes :=
  let img := doRegisterBaseTypeImage env registerType s (.image config) config
    (if isComparison then .eTrue else .eFalse)
  let r := img.2.getNextId
  let result : TypeId := { id := r.1, type := type }
  let s1 := r.2.pushDeclaration ⟨.OpTypeSampledImage, none, some result.id, [img.1.id]⟩
  let s2 : ModuleTypes := { s1 with m_registeredTypes := mapEmplace s1.m_registeredTypes type result }
  ((mapFind s2.m_registeredTypes type).getD result, s2)

/-- The first loop of `doRegisterBaseType( StructPtr )`: the member types are registered in
order, each with its array stride. -/
def registerMembers (registerTypeRec : Registrar) :
    MemberList → ModuleTypes → List TypeId × ModuleTypes
  | .nil, s => ([], s)
  | .cons type _ _ _ _ arrayStride _ _ rest, s =>
    let r := registerTypeRec s type arrayStride
    let rs := registerMembers registerTypeRec rest r.2
    (r.1 :: rs.1, rs.2)

/-- The overload `doRegisterBaseType( StructPtr )`; `type` is the structure type, `layout` and
`members` its layout and members. -/
def doRegisterBaseTypeStruct (env : TypesEnv) (registerTypeRec : Registrar) (s : ModuleTypes)
    (type : Ty) (layout : MemoryLayout) (members : MemberList) : TypeId × ModuleTypes :=
  let r := s.getNextId
  let result : TypeId := { id := r.1, type := type }
  let subTypes := registerMembers registerTypeRec members r.2
  let s1 := subTypes.2.pushDeclaration
    ⟨.OpTypeStruct, none, some result.id, subTypes.1.map (fun t => t.id)⟩
  let d := decorateMembers env layout result members s1.m_module false false
  let s2 : ModuleTypes :=
    { s1 with
      m_module := if d.1.1 || d.1.2 then d.2.decorate result.id [DecorationBlock] else d.2 }
  let s3 : ModuleTypes := { s2 with m_registeredTypes := mapEmplace s2.m_registeredTypes type result }
  ((mapFind s3.m_registeredTypes type).getD result, s3)

/-- The overload `doRegisterBaseType( TypePtr, ... )`, which dispatches on the raw kind.  The
kinds that `getBasicType` does not serve (a pointer, a function, a wrapper, an array of arrays)
never reach it through `registerType`, except a function type, which the registry receives
through `registerFunctionType` only; for them the initial result is returned. -/
def doRegisterBaseType (env : TypesEnv) (registerTypeRec : Registrar) (s : ModuleTypes)
    (type : Ty) : TypeId × ModuleTypes :=
  let type1 : Ty :=
    match type with
    | .array elem _ => elem
    | t => t
  match type1 with
  | .sampler _ => doRegisterBaseTypeSampler s type1
  | .combinedImage config isComparison =>
    doRegisterBaseTypeCombinedImage env registerTypeRec s type1 config isComparison
  | .image config => doRegisterBaseTypeImage env registerTypeRec s type1 config .eFalse
  | .sampledImage config depth =>
    doRegisterBaseTypeImage env registerTypeRec s (.image config) config depth
  | .accelerationStructure => doRegisterBaseTypeAccelerationStructure s type1
  | .struct _ layout _ _ members =>
    doRegisterBaseTypeStruct env registerTypeRec s type1 layout members
  | .basic kind _ => doRegisterBaseTypeKind registerTypeRec s kind
  | _ => ({ id := 0, type := type }, s)

/-- The operation `doRegisterNonArrayType`. -/
def doRegisterNonArrayType (env : TypesEnv) (registerTypeRec : Registrar) (s : ModuleTypes)
    (type : Ty) : TypeId × ModuleTypes :=
  let unqualifiedType := modtyp.getUnqualifiedType type
  match mapFind s.m_registeredTypes unqualifiedType with
  | none => doRegisterBaseType env registerTypeRec s unqualifiedType
  | some found => (found, s)

/-- The branch of `doRegisterTypeRec` that registers an array type whose unqualified type is
not registered yet: `type` is the array type, `elementTypeId` the id of its element type and
`s` the state after the registration of the element type. -/
def doRegisterArrayType (env : TypesEnv) (registerType : Registrar) (s : ModuleTypes)
    (type : Ty) (arrayedType : Ty) (arraySize : Nat) (elementTypeId : TypeId)
    (arrayStride : Nat) : TypeId × ModuleTypes :=
  let unqualifiedType := modtyp.getUnqualifiedType type
  let r := s.getNextId
  let result : TypeId := { id := r.1, type := type }
  let s1 : ModuleTypes :=
    { r.2 with m_registeredTypes := mapEmplace r.2.m_registeredTypes unqualifiedType result }
  let resultId := (mapFind s1.m_registeredTypes unqualifiedType).getD result
  let s2 : ModuleTypes :=
    if arraySize ≠ UnknownArraySize then
      let l := registerLiteral registerType s1 arraySize
      l.2.pushDeclaration ⟨.OpTypeArray, none, some resultId.id, [elementTypeId.id, l.1]⟩
    else
      s1.pushDeclaration ⟨.OpTypeRuntimeArray, none, some resultId.id, [elementTypeId.id]⟩
  (resultId,
    { s2 with m_module := modtyp.writeArrayStride env s2.m_module arrayedType resultId arrayStride })

/-- The body of `doRegisterTypeRec`, its recursive calls going through `registerTypeRec`. -/
def doRegisterTypeRecBody (env : TypesEnv) (registerTypeRec : Registrar) (s : ModuleTypes)
    (type : Ty) (arrayStride : Nat) : TypeId × ModuleTypes :=
  match type with
  | .array arrayedType arraySize =>
    let e := registerTypeRec s arrayedType arrayStride
    match mapFind e.2.m_registeredTypes (modtyp.getUnqualifiedType type) with
    | none => doRegisterArrayType env registerTypeRec e.2 type arrayedType arraySize e.1 arrayStride
    | some found => (found, e.2)
  | .pointer pointee storage isForward =>
    let rawTypeId := registerTypeRec s pointee arrayStride
    registerPointerType rawTypeId.2 rawTypeId.1 storage isForward
  | .wrapper kind inner params =>
    let r := registerTypeRec s inner arrayStride
    if kind = .eGeometryOutput ∨ kind = .eGeometryInput ∨ kind = .eTessellationControlOutput then
      (r.1, { r.2 with m_module := r.2.m_module.registerExecutionMode kind params })
    else r
  | _ => doRegisterNonArrayType env registerTypeRec s type

/-- The operation `doRegisterTypeRec( type, mbrIndex, parentId, arrayStride, debugStatement )`.
The member index, the parent id and the debug statement are only passed along by the source
and are left out.  `fuel` bounds the depth of the recursion; `Ty.size` of the type is enough
(`registerType`). -/
def doRegisterTypeRec (env : TypesEnv) : Nat → Registrar
  | 0 => fun s type _ => ({ id := 0, type := type }, s)
  | fuel + 1 => doRegisterTypeRecBody env (doRegisterTypeRec env fuel)

/-- The operation `registerType( type )`. -/
def registerType (env : TypesEnv) (s : ModuleTypes) (type : Ty) : TypeId × ModuleTypes :=
  doRegisterTypeRec env type.size s type 0

/-- The operation `registerImageType( image, isComparison )`. -/
def registerImageType (env : TypesEnv) (s : ModuleTypes) (image : Ty)
    (config : ImageConfiguration) (isComparison : Bool) : TypeId × ModuleTypes :=
  doRegisterBaseTypeImage env (doRegisterTypeRec env 1) s image config
    (if isComparison then .eTrue else .eFalse)

/-- A registry that has registered nothing, on a module whose next id is 1. -/
def empty (executionModel : Nat) : ModuleTypes :=
  { m_module :=
      { nextId := 1, decorations := [], memberDecorations := [], executionModes := [],
        literals := [], executionModel := executionModel }
    m_declarations := []
    m_registeredTypes := []
    m_registeredImageTypes := []
    m_registeredPointerTypes := []
    m_registeredSamplerImages := [] }

end ModuleTypes
end spirv

/-! ### Predicates on registries -/

namespace spirv

open ast ast.type

namespace ModuleTypes

/-- The keys of the type registry that are image or sampled-image types. -/
def isImageKey : Ty → Bool
  | .image _ => true
  | .sampledImage _ _ => true
  | _ => false

/-- Every entry of the three registries of `s` is an entry of `s'`. -/
structure Grows (s s' : ModuleTypes) : Prop where
  types : MapLe s.m_registeredTypes s'.m_registeredTypes
  images : MapLe s.m_registeredImageTypes s'.m_registeredImageTypes
  pointers : MapLe s.m_registeredPointerTypes s'.m_registeredPointerTypes

/-- The registries grow and the type registry gets no new image or sampled-image key. -/
structure Quiet (s s' : ModuleTypes) : Prop where
  grows : Grows s s'
  imageKeys : ∀ k, isImageKey k = true →
    mapFind s'.m_registeredTypes k = mapFind s.m_registeredTypes k

/-- The states agree on everything but the execution modes of the module. -/
def Same (s s' : ModuleTypes) : Prop :=
  s' = { s with
    m_module := { s.m_module with executionModes := s'.m_module.executionModes } }

/-- The type `u`, an unqualified type that is no array, pointer or wrapper, is served from the
registries: by the type registry, or else, for an image or a sampled image, by the image
registry. -/
def CachedNonArray (env : TypesEnv) (s : ModuleTypes) (u : Ty) (id : TypeId) : Prop :=
  mapFind s.m_registeredTypes u = some id
    ∨ (mapFind s.m_registeredTypes u = none
      ∧ match u with
        | .image config =>
          mapFind s.m_registeredImageTypes (modtyp.myHash env config .eFalse) = some id
        | .sampledImage config depth =>
          mapFind s.m_registeredImageTypes (modtyp.myHash env config depth) = some id
        | _ => False)

/-- The registration of `type` is served from the registries of `s` and yields `id`. -/
def Cached (env : TypesEnv) (s : ModuleTypes) : Ty → TypeId → Prop
  | .array elem size, id =>
    (∃ elemId, Cached env s elem elemId)
      ∧ mapFind s.m_registeredTypes (modtyp.getUnqualifiedType (.array elem size)) = some id
  | .pointer pointee storage isForward, id =>
    ∃ rawTypeId, Cached env s pointee rawTypeId
      ∧ mapFind s.m_registeredPointerTypes (pointerKey rawTypeId storage isForward) = some id
  | .wrapper _ inner _, id => Cached env s inner id
  | .function _ _, _ => False
  | .basic kind isMember, id =>
    CachedNonArray env s (modtyp.getUnqualifiedType (.basic kind isMember)) id
  | .sampler c, id => CachedNonArray env s (modtyp.getUnqualifiedType (.sampler c)) id
  | .image c, id => CachedNonArray env s (modtyp.getUnqualifiedType (.image c)) id
  | .combinedImage c d, id =>
    CachedNonArray env s (modtyp.getUnqualifiedType (.combinedImage c d)) id
  | .sampledImage c d, id =>
    CachedNonArray env s (modtyp.getUnqualifiedType (.sampledImage c d)) id
  | .accelerationStructure, id =>
    CachedNonArray env s (modtyp.getUnqualifiedType .accelerationStructure) id
  | .struct r l n f ms, id =>
    CachedNonArray env s (modtyp.getUnqualifiedType (.struct r l n f ms)) id

end ModuleTypes
end spirv

namespace ast
namespace type

mutual
/-- No function type occurs in the type: function types are registered from their parameter ids
by `registerFunctionType`, not by `registerType`. -/
def Ty.registrable : Ty → Bool
  | .function _ _ => false
  | .array elem _ => elem.registrable
  | .pointer pointee _ _ => pointee.registrable
  | .wrapper _ inner _ => inner.registrable
  | .struct _ _ _ _ members => members.registrable
  | _ => true
/-- No function type occurs in the member types. -/
def MemberList.registrable : MemberList → Bool
  | .nil => true
  | .cons type _ _ _ _ _ _ _ rest => type.registrable && rest.registrable
end

end type
end ast

namespace spirv
namespace ModuleTypes

open ast ast.type

/-- A registrar that only adds entries to the registries. -/
def Registrar.Monotone (r : Registrar) : Prop :=
  ∀ s t stride, Grows s (r s t stride).2

/-- A registrar whose registration of a scalar type is quiet. -/
def Registrar.QuietOnScalars (r : Registrar) : Prop :=
  ∀ s k, Quiet s (r s (getBasicType (.eScalar k)) 0).2

end ModuleTypes
end spirv

namespace spirv

open ast ast.type

/-- A sample environment for closed examples: the image key is a positional code of the six
hashed values, every type has a layout size of four bytes per node and no builtin is known. -/
def TypesEnv.sample : TypesEnv :=
  { hashImage := fun dimension format isSampled isArrayed isMS isComparison =>
      ((((dimension * 64 + format) * 3 + trinaryWord isSampled) * 2 + isArrayed.toNat) * 2
        + isMS.toNat) * 3 + trinaryWord isComparison
    getSize := fun t _ => 4 * t.size
    getBuiltin := fun _ _ => none }

/-- A sample structure type: a shader-input structure `S` under std140 with a `mat3` member and
a member that is an array of four floats. -/
def sampleStruct : Ty :=
  .struct false .eStd140 "S" .eShaderInput
    (.cons (.basic (.eMat .eFloat 3 3) true) 0 "m" 0 48 0 NotFound .eNone
      (.cons (.array (.basic (.eScalar .eFloat) true) 4) 1 "a" 48 64 16 NotFound .eNone .nil))

/-- The sample structure declared as a shader output, its members carrying another location:
a type with the same unqualified type as `sampleStruct`. -/
def sampleStructOutput : Ty :=
  .struct false .eStd140 "S" .eShaderOutput
    (.cons (.basic (.eMat .eFloat 3 3) true) 0 "m" 0 48 0 2 .eNone
      (.cons (.array (.basic (.eScalar .eFloat) true) 4) 1 "a" 48 64 16 3 .eNone .nil))

end spirv

/-! ## The builder: the registration operations -/

namespace ast

namespace type

/-- Modelled from the spec: `Type::getKind`, the kind of the type; for an array type it is the
kind of its elements (the tests of `declInputArray` / `declOutputArray` expect the kind of the
element type with an array size). -/
def Ty.getKind : Ty → Kind
  | .array elem _ => elem.getKind
  | t => t.getRawKind

end type

namespace var

/-- Whether the uniform flag is set: `Variable::isUniform`. -/
def Variable.isUniform (v : Variable) : Bool := decide (Flag.eUniform ∈ v.flags)

/-- Modelled from the spec: `var::makeBuiltin( id, builtin, type, flag )`, allocated at `ptr`; a
builtin variable carries its builtin tag and the builtin flag, and `name` is the name its class
derives from the tag. -/
def makeBuiltin (ptr : Nat) (id : Nat) (builtin : ast.type.Builtin) (type : ast.type.TypePtr)
    (flag : Flag) (name : String) : Variable :=
  { ptr := ptr, id := id, name := name, fullName := name, type := type,
    flags := {flag, Flag.eBuiltin}, outer := none, builtin := builtin }

end var

/-- What the registration operations take from code that is not part of the sources: the stage
predicates `isMeshStage` and `isRayTraceStage`, the kind predicates `isSignedIntType` and
`isUnsignedIntType`, the value of `type::ImageDim::eBuffer` and the name of a builtin variable. -/
structure BuilderEnv where
  isMeshStage : ShaderStage → Bool
  isRayTraceStage : ShaderStage → Bool
  isSignedIntType : ast.type.Kind → Bool
  isUnsignedIntType : ast.type.Kind → Bool
  imageDimBuffer : Nat
  builtinName : ast.type.Builtin → String

namespace ShaderBuilder

/-- The stage of the shader: `getType`. -/
def getType (b : ShaderBuilder) : ShaderStage := b.m_shader.stage

/-- The builder with the data of its shader replaced. -/
def setData (b : ShaderBuilder) (data : ShaderData) : ShaderBuilder :=
  { b with m_shader := { b.m_shader with data := data } }

/-- The overload `registerName( name, type, flag )`. -/
def registerNameFlag (b : ShaderBuilder) (ptr : Nat) (name : String) (type : ast.type.TypePtr)
    (flag : var.Flag) : Result (var.Variable × ShaderBuilder) :=
  registerName b ptr name type {flag}

/-- The overload `registerName( name, type )`. -/
def registerNameDefault (b : ShaderBuilder) (ptr : Nat) (name : String)
    (type : ast.type.TypePtr) : Result (var.Variable × ShaderBuilder) :=
  registerName b ptr name type ∅

/-- The overload `registerMember( outer, name, type, flag )`. -/
def registerMemberFlag (b : ShaderBuilder) (ptr : Nat) (outer : var.Variable) (name : String)
    (fullName : String) (type : ast.type.TypePtr) (flag : Option var.Flag) :
    Result (var.Variable × ShaderBuilder) :=
  registerMember b ptr outer name fullName type
    (match flag with
     | some f => {f}
     | none => ∅)

/-- The overload `registerMember( outer, name, type )`: the member of a uniform is a uniform. -/
def registerMemberDefault (b : ShaderBuilder) (ptr : Nat) (outer : var.Variable)
    (name : String) (fullName : String) (type : ast.type.TypePtr) :
    Result (var.Variable × ShaderBuilder) :=
  registerMemberFlag b ptr outer name fullName type
    (if outer.isUniform then some var.Flag.eUniform else none)

/-- The operation `registerStaticConstant( name, type )`; `ptr` is the address of the new
variable.  The source hands `name` and `type` to `var::makeVariable` through `std::move` and
reads both again for the entry of the constants map: the type is then a null pointer, and
`movedName` stands for the content of the moved-from string, which the language leaves
unspecified (the common implementations leave it empty). -/
def registerStaticConstant (b : ShaderBuilder) (ptr : Nat) (name : String)
    (type : ast.type.TypePtr) (movedName : String) : Result (var.Variable × ShaderBuilder) :=
  match b.m_blocks with
  | [] => .error .undefinedBehaviour
  | front :: rest =>
    let it := builder.findVariable front.registered name
    if it.isSome && decide (some type ≠ it.map (fun v => v.type)) then
      .error (.runtimeError
        ("A static constant with the name [" ++ name
          ++ "] is already registered, with a different type."))
    else
      let id := (b.m_shader.data.nextVarId + 1) % 2 ^ 32
      let made := var.makeVariable ptr id type name {var.Flag.eStatic, var.Flag.eConstant}
      let registered := var.setInsert made front.registered
      let result := (var.setFind registered ptr).getD made
      let sh1 : Shader := { b.m_shader with data := { b.m_shader.data with nextVarId := id } }
      let sh2 := sh1.registerVar 1 result
      let sh3 : Shader :=
        { sh2 with
          data := { sh2.data with constants := mapEmplace sh2.data.constants movedName none } }
      .ok (result, { b with m_shader := sh3, m_blocks := { front with registered := registered } :: rest })

/-- The operation `registerSpecConstant( name, location, type )`. -/
def registerSpecConstant (b : ShaderBuilder) (ptr : Nat) (name : String) (location : Nat)
    (type : ast.type.TypePtr) : Result (var.Variable × ShaderBuilder) :=
  match registerNameFlag b ptr name type var.Flag.eSpecialisationConstant with
  | .error e => .error e
  | .ok (result, b1) =>
    .ok (result,
      b1.setData
        { b1.m_shader.data with
          specConstants :=
            mapEmplace b1.m_shader.data.specConstants name { type := type, location := location } })

/-- The operation `registerAccelerationStructure( name, type, binding, set, enabled )`. -/
def registerAccelerationStructure (b : ShaderBuilder) (ptr : Nat) (name : String)
    (type : ast.type.TypePtr) (binding set : Nat) (enabled : Bool) :
    Result (var.Variable × ShaderBuilder) :=
  match registerName b ptr name type {var.Flag.eUniform, var.Flag.eConstant} with
  | .error e => .error e
  | .ok (result, b1) =>
    if enabled then
      .ok (result,
        b1.setData
          { b1.m_shader.data with
            accelerationStruct :=
              some { type := ast.type.getNonArrayType type, binding := binding, set := set } })
    else .ok (result, b1)

/-- The operation `registerSampler( name, type, binding, set, enabled )`. -/
def registerSampler (b : ShaderBuilder) (ptr : Nat) (name : String) (type : ast.type.TypePtr)
    (binding set : Nat) (enabled : Bool) : Result (var.Variable × ShaderBuilder) :=
  if enabled then
    match registerName b ptr name type {var.Flag.eUniform, var.Flag.eConstant} with
    | .error e => .error e
    | .ok (result, b1) =>
      .ok (result,
        b1.setData
          { b1.m_shader.data with
            samplers :=
              mapEmplace b1.m_shader.data.samplers name
                { type := type, binding := binding, set := set } })
  else registerName b ptr name type {var.Flag.eUniform, var.Flag.eConstant}

/-- The operation `registerSampledImage( name, type, binding, set, enabled )`.  The source casts
the non-array type to a sampled image to read its dimension, which has no defined behaviour for
another type. -/
def registerSampledImage (env : BuilderEnv) (b : ShaderBuilder) (ptr : Nat) (name : String)
    (type : ast.type.TypePtr) (binding set : Nat) (enabled : Bool) :
    Result (var.Variable × ShaderBuilder) :=
  if enabled then
    match registerName b ptr name type {var.Flag.eUniform, var.Flag.eConstant} with
    | .error e => .error e
    | .ok (result, b1) =>
      match ast.type.getNonArrayType type with
      | .sampledImage config _ =>
        if config.dimension = env.imageDimBuffer then
          .ok (result,
            b1.setData
              { b1.m_shader.data with
                uniformTexels :=
                  mapEmplace b1.m_shader.data.uniformTexels name
                    { type := type, binding := binding, set := set } })
        else
          .ok (result,
            b1.setData
              { b1.m_shader.data with
                sampled :=
                  mapEmplace b1.m_shader.data.sampled name
                    { type := type, binding := binding, set := set } })
      | _ => .error .undefinedBehaviour
  else registerName b ptr name type {var.Flag.eUniform, var.Flag.eConstant}

/-- The operation `registerTexture( name, type, binding, set, enabled )`. -/
def registerTexture (env : BuilderEnv) (b : ShaderBuilder) (ptr : Nat) (name : String)
    (type : ast.type.TypePtr) (binding set : Nat) (enabled : Bool) :
    Result (var.Variable × ShaderBuilder) :=
  if enabled then
    match registerName b ptr name type {var.Flag.eUniform, var.Flag.eConstant} with
    | .error e => .error e
    | .ok (result, b1) =>
      match ast.type.getNonArrayType type with
      | .combinedImage config _ =>
        if config.dimension = env.imageDimBuffer then
          .ok (result,
            b1.setData
              { b1.m_shader.data with
                uniformTexels :=
                  mapEmplace b1.m_shader.data.uniformTexels name
                    { type := type, binding := binding, set := set } })
        else
          .ok (result,
            b1.setData
              { b1.m_shader.data with
                textures :=
                  mapEmplace b1.m_shader.data.textures name
                    { type := type, binding := binding, set := set } })
      | _ => .error .undefinedBehaviour
  else registerName b ptr name type {var.Flag.eUniform, var.Flag.eConstant}

/-- The operation `registerImage( name, type, binding, set, enabled )`. -/
def registerImage (env : BuilderEnv) (b : ShaderBuilder) (ptr : Nat) (name : String)
    (type : ast.type.TypePtr) (binding set : Nat) (enabled : Bool) :
    Result (var.Variable × ShaderBuilder) :=
  if enabled then
    match registerName b ptr name type {var.Flag.eUniform, var.Flag.eConstant} with
    | .error e => .error e
    | .ok (result, b1) =>
      match ast.type.getNonArrayType type with
      | .image config =>
        if config.dimension = env.imageDimBuffer then
          .ok (result,
            b1.setData
              { b1.m_shader.data with
                storageTexels :=
                  mapEmplace b1.m_shader.data.storageTexels name
                    { type := type, binding := binding, set := set } })
        else
          .ok (result,
            b1.setData
              { b1.m_shader.data with
                images :=
                  mapEmplace b1.m_shader.data.images name
                    { type := type, binding := binding, set := set } })
      | _ => .error .undefinedBehaviour
  else registerName b ptr name type {var.Flag.eUniform, var.Flag.eConstant}

/-- The location map of an entry point after a registration of `name` at `location`: the entry
is emplaced under `name` when no entry of the map has that location. -/
def emplaceLocation (m : List (String × LocationInfo)) (name : String) (location : Nat)
    (type : ast.type.TypePtr) : List (String × LocationInfo) :=
  if (m.find? (fun lookup => decide (lookup.2.location = location))).isNone then
    mapEmplace m name { type := type, location := location }
  else m

/-- The per-entry-point maps after `emplace( entryPoint, {} )` and the registration of `name`
at `location` in the map of the entry point. -/
def registerLocation (maps : List (EntryPoint × List (String × LocationInfo)))
    (entryPoint : EntryPoint) (name : String) (location : Nat) (type : ast.type.TypePtr) :
    List (EntryPoint × List (String × LocationInfo)) :=
  let maps1 := mapEmplace maps entryPoint []
  mapSet maps1 entryPoint
    (emplaceLocation ((mapFind maps1 entryPoint).getD []) name location type)

/-- The flags of a new input or output: `flat` is added to the attributes for an integer kind
in a stage that is not `skipped` (vertex for inputs, fragment for outputs), compute, a mesh stage
or a ray-tracing stage. -/
def implicitFlat (env : BuilderEnv) (stage skipped : ShaderStage) (attributes : Finset var.Flag)
    (type : ast.type.TypePtr) : Finset var.Flag :=
  let kind := (ast.type.getNonArrayType type).getKind
  if (decide (stage ≠ skipped) && decide (stage ≠ ShaderStage.eCompute))
      && !env.isMeshStage stage
      && !env.isRayTraceStage stage
      && (env.isSignedIntType kind || env.isUnsignedIntType kind) then
    attributes ∪ {var.Flag.eFlat}
  else attributes

/-- The operation `registerInput( entryPoint, name, location, attributes, type )`. -/
def registerInput (env : BuilderEnv) (b : ShaderBuilder) (ptr : Nat) (entryPoint : EntryPoint)
    (name : String) (location : Nat) (attributes : Finset var.Flag) (type : ast.type.TypePtr) :
    Result (var.Variable × ShaderBuilder) :=
  let b1 :=
    b.setData
      { b.m_shader.data with
        inputs := registerLocation b.m_shader.data.inputs entryPoint name location type }
  if hasVar b1 name then
    match getVar b1 name with
    | .error e => .error e
    | .ok v => .ok (v, b1)
  else
    let flags := implicitFlat env b1.getType ShaderStage.eVertex attributes type
    registerName b1 ptr name type (flags ∪ {var.Flag.eShaderInput})

/-- The operation `registerOutput( entryPoint, name, location, attributes, type )`. -/
def registerOutput (env : BuilderEnv) (b : ShaderBuilder) (ptr : Nat) (entryPoint : EntryPoint)
    (name : String) (location : Nat) (attributes : Finset var.Flag) (type : ast.type.TypePtr) :
    Result (var.Variable × ShaderBuilder) :=
  let b1 :=
    b.setData
      { b.m_shader.data with
        outputs := registerLocation b.m_shader.data.outputs entryPoint name location type }
  if hasVar b1 name then
    match getVar b1 name with
    | .error e => .error e
    | .ok v => .ok (v, b1)
  else
    let flags := implicitFlat env b1.getType ShaderStage.eFragment attributes type
    registerName b1 ptr name type (flags ∪ {var.Flag.eShaderOutput})

/-- The operation `registerInOut( name, attributes, type )`. -/
def registerInOut (b : ShaderBuilder) (ptr : Nat) (name : String)
    (attributes : Finset var.Flag) (type : ast.type.TypePtr) :
    Result (var.Variable × ShaderBuilder) :=
  let b1 :=
    if b.m_shader.data.inOuts.isEmpty then
      b.setData
        { b.m_shader.data with inOuts := mapEmplace b.m_shader.data.inOuts name type }
    else b
  if hasVar b1 name then
    match getVar b1 name with
    | .error e => .error e
    | .ok v => .ok (v, b1)
  else
    registerName b1 ptr name type
      (attributes ∪ {var.Flag.eShaderOutput} ∪ {var.Flag.eShaderInput})

/-- The operation `registerBuiltin( builtin, type, flag )`; `ptr` is the address of the new
variable. -/
def registerBuiltin (env : BuilderEnv) (b : ShaderBuilder) (ptr : Nat)
    (builtin : ast.type.Builtin) (type : ast.type.TypePtr) (flag : var.Flag) :
    Result (var.Variable × ShaderBuilder) :=
  let id := (b.m_shader.data.nextVarId + 1) % 2 ^ 32
  let result := var.makeBuiltin ptr id builtin type flag (env.builtinName builtin)
  match registerVariable (b.setData { b.m_shader.data with nextVarId := id }) result with
  | .error e => .error e
  | .ok b1 => .ok (result, b1)

/-- The operation `registerLocale( name, type )`. -/
def registerLocale (b : ShaderBuilder) (ptr : Nat) (name : String) (type : ast.type.TypePtr) :
    Result (var.Variable × ShaderBuilder) :=
  registerNameFlag b ptr name type var.Flag.eLocale

/-- The operation `registerBlockVariable( name, type )`. -/
def registerBlockVariable (b : ShaderBuilder) (ptr : Nat) (name : String)
    (type : ast.type.TypePtr) : Result (var.Variable × ShaderBuilder) :=
  registerLocale b ptr name type

/-- The operation `registerLoopVar( name, type )`. -/
def registerLoopVar (b : ShaderBuilder) (ptr : Nat) (name : String) (type : ast.type.TypePtr) :
    Result (var.Variable × ShaderBuilder) :=
  registerName b ptr name type {var.Flag.eLocale, var.Flag.eLoopVar}

/-- The operation `registerParam( name, type )`. -/
def registerParam (b : ShaderBuilder) (ptr : Nat) (name : String) (type : ast.type.TypePtr) :
    Result (var.Variable × ShaderBuilder) :=
  registerNameFlag b ptr name type var.Flag.eParam

/-- The operation `registerInParam( name, type )`. -/
def registerInParam (b : ShaderBuilder) (ptr : Nat) (name : String) (type : ast.type.TypePtr) :
    Result (var.Variable × ShaderBuilder) :=
  registerNameFlag b ptr name type var.Flag.eInputParam

/-- The operation `registerOutParam( name, type )`. -/
def registerOutParam (b : ShaderBuilder) (ptr : Nat) (name : String) (type : ast.type.TypePtr) :
    Result (var.Variable × ShaderBuilder) :=
  registerNameFlag b ptr name type var.Flag.eOutputParam

/-- The operation `registerInOutParam( name, type )`. -/
def registerInOutParam (b : ShaderBuilder) (ptr : Nat) (name : String)
    (type : ast.type.TypePtr) : Result (var.Variable × ShaderBuilder) :=
  registerName b ptr name type {var.Flag.eInputParam, var.Flag.eOutputParam}

/-- The operation `registerSsbo( name, info )`. -/
def registerSsbo (b : ShaderBuilder) (name : String) (info : BufferInfo) : ShaderBuilder :=
  b.setData { b.m_shader.data with ssbos := mapEmplace b.m_shader.data.ssbos name info }

/-- The operation `registerUbo( name, info )`. -/
def registerUbo (b : ShaderBuilder) (name : String) (info : BufferInfo) : ShaderBuilder :=
  b.setData { b.m_shader.data with ubos := mapEmplace b.m_shader.data.ubos name info }

/-- The operation `registerPcb( name, info )`. -/
def registerPcb (b : ShaderBuilder) (name : String) (info : BufferInfo) : ShaderBuilder :=
  b.setData { b.m_shader.data with pcbs := mapEmplace b.m_shader.data.pcbs name info }

/-- The operation `registerShaderRecord( name, info )`. -/
def registerShaderRecord (b : ShaderBuilder) (name : String) (info : BufferInfo) :
    ShaderBuilder :=
  b.setData
    { b.m_shader.data with shaderRecords := mapEmplace b.m_shader.data.shaderRecords name info }

end ShaderBuilder
end ast

namespace ast

open ast.type in
/-- A sample environment for closed examples, after the words of §3 and §4.2: the mesh stages
are the mesh and task stages, the ray-tracing stages are the six ray stages, the integer kinds
are the scalars and vectors of signed (unsigned) integers, and the buffer dimension has the
value of `spv::DimBuffer`. -/
def BuilderEnv.sample : BuilderEnv :=
  { isMeshStage := fun s =>
      decide (s = .eMeshNV ∨ s = .eTaskNV ∨ s = .eMesh ∨ s = .eTask)
    isRayTraceStage := fun s =>
      decide (s = .eRayGeneration ∨ s = .eRayClosestHit ∨ s = .eRayMiss ∨ s = .eRayIntersection
        ∨ s = .eRayAnyHit ∨ s = .eCallable)
    isSignedIntType := fun k =>
      match k with
      | .eBasic (.eScalar s) => decide (s = .eInt8 ∨ s = .eInt16 ∨ s = .eInt32 ∨ s = .eInt64)
      | .eBasic (.eVec s _) => decide (s = .eInt8 ∨ s = .eInt16 ∨ s = .eInt32 ∨ s = .eInt64)
      | _ => false
    isUnsignedIntType := fun k =>
      match k with
      | .eBasic (.eScalar s) => decide (s = .eUInt8 ∨ s = .eUInt16 ∨ s = .eUInt32 ∨ s = .eUInt64)
      | .eBasic (.eVec s _) => decide (s = .eUInt8 ∨ s = .eUInt16 ∨ s = .eUInt32 ∨ s = .eUInt64)
      | _ => false
    imageDimBuffer := 5
    builtinName := fun _ => "builtin" }

end ast

/-! ### Failure states, runs of operations and samples -/

namespace ast
namespace ShaderBuilder

/-- The state form of `registerFunction( name, type )`: the variable it returns or the exception
it throws, with the state of the builder when the call ends.  The check that throws comes before
the first write. -/
def registerFunctionOutcome (b : ShaderBuilder) (ptr : Nat) (name : String)
    (type : ast.type.TypePtr) : Result var.Variable × ShaderBuilder :=
  match b.m_blocks with
  | [] => (.error .undefinedBehaviour, b)
  | front :: rest =>
    let it := builder.findVariable front.registered name
    if it.isSome && decide (some type ≠ it.map (fun v => v.type)) then
      (.error (.runtimeError
        ("A function with the name [" ++ name ++ "] is already registered, with a different type.")),
        b)
    else
      let id := (b.m_shader.data.nextVarId + 1) % 2 ^ 32
      let result := var.makeFunction ptr id type name
      let sh1 : Shader := { b.m_shader with data := { b.m_shader.data with nextVarId := id } }
      let sh2 := sh1.registerVar 1 result
      (.ok result,
        { b with
          m_shader := sh2
          m_blocks := { front with registered := var.setInsert result front.registered } :: rest })

/-- The state form of `registerStaticConstant( name, type )`, as `registerFunctionOutcome`. -/
def registerStaticConstantOutcome (b : ShaderBuilder) (ptr : Nat) (name : String)
    (type : ast.type.TypePtr) (movedName : String) : Result var.Variable × ShaderBuilder :=
  match b.m_blocks with
  | [] => (.error .undefinedBehaviour, b)
  | front :: rest =>
    let it := builder.findVariable front.registered name
    if it.isSome && decide (some type ≠ it.map (fun v => v.type)) then
      (.error (.runtimeError
        ("A static constant with the name [" ++ name
          ++ "] is already registered, with a different type.")),
        b)
    else
      let id := (b.m_shader.data.nextVarId + 1) % 2 ^ 32
      let made := var.makeVariable ptr id type name {var.Flag.eStatic, var.Flag.eConstant}
      let registered := var.setInsert made front.registered
      let result := (var.setFind registered ptr).getD made
      let sh1 : Shader := { b.m_shader with data := { b.m_shader.data with nextVarId := id } }
      let sh2 := sh1.registerVar 1 result
      let sh3 : Shader :=
        { sh2 with
          data := { sh2.data with constants := mapEmplace sh2.data.constants movedName none } }
      (.ok result,
        { b with m_shader := sh3, m_blocks := { front with registered := registered } :: rest })

/-- Whether the name or the full name of the variable is `name`: the test of the lookups. -/
def named (v : var.Variable) (name : String) : Prop :=
  v.getFullName = name ∨ v.getName = name

/-- A number of `pop()` calls in a row. -/
def popN : Nat → ShaderBuilder → Result ShaderBuilder
  | 0, b => .ok b
  | k + 1, b =>
    match pop b with
    | .error e => .error e
    | .ok b1 => popN k b1

/-- The input map of an entry point (empty when the entry point has none). -/
def inputsOf (b : ShaderBuilder) (entryPoint : EntryPoint) : List (String × LocationInfo) :=
  (mapFind b.m_shader.data.inputs entryPoint).getD []

/-- The output map of an entry point (empty when the entry point has none). -/
def outputsOf (b : ShaderBuilder) (entryPoint : EntryPoint) : List (String × LocationInfo) :=
  (mapFind b.m_shader.data.outputs entryPoint).getD []

/-- The value of the counter of variable ids. -/
def nextVarId (b : ShaderBuilder) : Nat := b.m_shader.data.nextVarId

end ShaderBuilder

/-- The public operations of the builder that write to it, with their arguments; `ptr` is the
address of the variable an operation allocates. -/
inductive Op where
  | push (container : Nat) (vars : List var.Variable)
  | pop
  | saveNextExpr
  | loadExpr (e : expr.Expr)
  | beginIf (condition : expr.Expr)
  | beginElseIf (condition : expr.Expr)
  | beginElse
  | endIf
  | beginSwitch (value : expr.Expr)
  | beginCase (literal : expr.Expr)
  | beginDefault
  | endSwitch
  | pushScope (container : Nat)
  | popScope
  | registerFunction (ptr : Nat) (name : String) (type : ast.type.TypePtr)
  | getNextVarId
  | registerVariable (v : var.Variable)
  | registerName (ptr : Nat) (name : String) (type : ast.type.TypePtr) (flags : Finset var.Flag)
  | registerNameFlag (ptr : Nat) (name : String) (type : ast.type.TypePtr) (flag : var.Flag)
  | registerNameDefault (ptr : Nat) (name : String) (type : ast.type.TypePtr)
  | registerMember (ptr : Nat) (outer : var.Variable) (name fullName : String)
      (type : ast.type.TypePtr) (flags : Finset var.Flag)
  | registerMemberFlag (ptr : Nat) (outer : var.Variable) (name fullName : String)
      (type : ast.type.TypePtr) (flag : Option var.Flag)
  | registerMemberDefault (ptr : Nat) (outer : var.Variable) (name fullName : String)
      (type : ast.type.TypePtr)
  | registerStaticConstant (ptr : Nat) (name : String) (type : ast.type.TypePtr)
      (movedName : String)
  | registerSpecConstant (ptr : Nat) (name : String) (location : Nat) (type : ast.type.TypePtr)
  | registerAccelerationStructure (ptr : Nat) (name : String) (type : ast.type.TypePtr)
      (binding set : Nat) (enabled : Bool)
  | registerSampler (ptr : Nat) (name : String) (type : ast.type.TypePtr) (binding set : Nat)
      (enabled : Bool)
  | registerSampledImage (ptr : Nat) (name : String) (type : ast.type.TypePtr)
      (binding set : Nat) (enabled : Bool)
  | registerTexture (ptr : Nat) (name : String) (type : ast.type.TypePtr) (binding set : Nat)
      (enabled : Bool)
  | registerImage (ptr : Nat) (name : String) (type : ast.type.TypePtr) (binding set : Nat)
      (enabled : Bool)
  | registerInput (ptr : Nat) (entryPoint : EntryPoint) (name : String) (location : Nat)
      (attributes : Finset var.Flag) (type : ast.type.TypePtr)
  | registerOutput (ptr : Nat) (entryPoint : EntryPoint) (name : String) (location : Nat)
      (attributes : Finset var.Flag) (type : ast.type.TypePtr)
  | registerInOut (ptr : Nat) (name : String) (attributes : Finset var.Flag)
      (type : ast.type.TypePtr)
  | registerBuiltin (ptr : Nat) (builtin : ast.type.Builtin) (type : ast.type.TypePtr)
      (flag : var.Flag)
  | registerBlockVariable (ptr : Nat) (name : String) (type : ast.type.TypePtr)
  | registerLocale (ptr : Nat) (name : String) (type : ast.type.TypePtr)
  | registerLoopVar (ptr : Nat) (name : String) (type : ast.type.TypePtr)
  | registerParam (ptr : Nat) (name : String) (type : ast.type.TypePtr)
  | registerInParam (ptr : Nat) (name : String) (type : ast.type.TypePtr)
  | registerOutParam (ptr : Nat) (name : String) (type : ast.type.TypePtr)
  | registerInOutParam (ptr : Nat) (name : String) (type : ast.type.TypePtr)
  | addStmt (s : stmt.Stmt)
  | addGlobalStmt (s : stmt.Stmt)
  | registerSsbo (name : String) (info : BufferInfo)
  | registerUbo (name : String) (info : BufferInfo)
  | registerPcb (name : String) (info : BufferInfo)
  | registerShaderRecord (name : String) (info : BufferInfo)

namespace ShaderBuilder

/-- The outcome of an operation that always makes a variable. -/
def creating (r : Result (var.Variable × ShaderBuilder)) :
    Result (Option var.Variable × ShaderBuilder) :=
  match r with
  | .error e => .error e
  | .ok (v, b) => .ok (some v, b)

/-- The outcome of an operation that makes a variable unless `found`, when it returns a variable
that exists. -/
def creatingUnless (found : Bool) (r : Result (var.Variable × ShaderBuilder)) :
    Result (Option var.Variable × ShaderBuilder) :=
  match r with
  | .error e => .error e
  | .ok (v, b) => .ok (if found then none else some v, b)

/-- The outcome of an operation that makes no variable. -/
def quiet (r : Result ShaderBuilder) : Result (Option var.Variable × ShaderBuilder) :=
  match r with
  | .error e => .error e
  | .ok b => .ok (none, b)

/-- One operation on the builder: the variable it made, if any, and the new state. -/
def step (env : BuilderEnv) (b : ShaderBuilder) : Op → Result (Option var.Variable × ShaderBuilder)
  | .push container vars => quiet (push b container vars)
  | .pop => quiet (pop b)
  | .saveNextExpr => .ok (none, saveNextExpr b)
  | .loadExpr e => quiet ((loadExpr b e).map Prod.snd)
  | .beginIf condition => quiet (beginIf b condition)
  | .beginElseIf condition => quiet (beginElseIf b condition)
  | .beginElse => quiet (beginElse b)
  | .endIf => quiet (endIf b)
  | .beginSwitch value => quiet (beginSwitch b value)
  | .beginCase literal => quiet (beginCase b literal)
  | .beginDefault => quiet (beginDefault b)
  | .endSwitch => quiet (endSwitch b)
  | .pushScope container => quiet (pushScope b container)
  | .popScope => quiet (popScope b)
  | .registerFunction ptr name type => creating (registerFunction b ptr name type)
  | .getNextVarId => .ok (none, (getNextVarId b).2)
  | .registerVariable v => quiet (registerVariable b v)
  | .registerName ptr name type flags => creating (registerName b ptr name type flags)
  | .registerNameFlag ptr name type flag => creating (registerNameFlag b ptr name type flag)
  | .registerNameDefault ptr name type => creating (registerNameDefault b ptr name type)
  | .registerMember ptr outer name fullName type flags =>
    creating (registerMember b ptr outer name fullName type flags)
  | .registerMemberFlag ptr outer name fullName type flag =>
    creating (registerMemberFlag b ptr outer name fullName type flag)
  | .registerMemberDefault ptr outer name fullName type =>
    creating (registerMemberDefault b ptr outer name fullName type)
  | .registerStaticConstant ptr name type movedName =>
    creating (registerStaticConstant b ptr name type movedName)
  | .registerSpecConstant ptr name location type =>
    creating (registerSpecConstant b ptr name location type)
  | .registerAccelerationStructure ptr name type binding set enabled =>
    creating (registerAccelerationStructure b ptr name type binding set enabled)
  | .registerSampler ptr name type binding set enabled =>
    creating (registerSampler b ptr name type binding set enabled)
  | .registerSampledImage ptr name type binding set enabled =>
    creating (registerSampledImage env b ptr name type binding set enabled)
  | .registerTexture ptr name type binding set enabled =>
    creating (registerTexture env b ptr name type binding set enabled)
  | .registerImage ptr name type binding set enabled =>
    creating (registerImage env b ptr name type binding set enabled)
  | .registerInput ptr entryPoint name location attributes type =>
    creatingUnless (hasVar b name)
      (registerInput env b ptr entryPoint name location attributes type)
  | .registerOutput ptr entryPoint name location attributes type =>
    creatingUnless (hasVar b name)
      (registerOutput env b ptr entryPoint name location attributes type)
  | .registerInOut ptr name attributes type =>
    creatingUnless (hasVar b name) (registerInOut b ptr name attributes type)
  | .registerBuiltin ptr builtin type flag => creating (registerBuiltin env b ptr builtin type flag)
  | .registerBlockVariable ptr name type => creating (registerBlockVariable b ptr name type)
  | .registerLocale ptr name type => creating (registerLocale b ptr name type)
  | .registerLoopVar ptr name type => creating (registerLoopVar b ptr name type)
  | .registerParam ptr name type => creating (registerParam b ptr name type)
  | .registerInParam ptr name type => creating (registerInParam b ptr name type)
  | .registerOutParam ptr name type => creating (registerOutParam b ptr name type)
  | .registerInOutParam ptr name type => creating (registerInOutParam b ptr name type)
  | .addStmt s => quiet (addStmt b s)
  | .addGlobalStmt s => quiet (addGlobalStmt b s)
  | .registerSsbo name info => .ok (none, registerSsbo b name info)
  | .registerUbo name info => .ok (none, registerUbo b name info)
  | .registerPcb name info => .ok (none, registerPcb b name info)
  | .registerShaderRecord name info => .ok (none, registerShaderRecord b name info)

/-- A run of operations: the variables made, in the order of their creation, and the last
state. -/
def run (env : BuilderEnv) : ShaderBuilder → List Op → Result (List var.Variable × ShaderBuilder)
  | b, [] => .ok ([], b)
  | b, op :: ops =>
    match step env b op with
    | .error e => .error e
    | .ok (made, b1) =>
      match run env b1 ops with
      | .error e => .error e
      | .ok (rest, b2) => .ok (made.toList ++ rest, b2)

/-- The step from `b` to `b1` made the variable `v` with the next id: the counter is
incremented (a 32-bit increment) and its new value is the id of `v`. -/
def madeNext (b : ShaderBuilder) (v : var.Variable) (b1 : ShaderBuilder) : Prop :=
  nextVarId b1 = (nextVarId b + 1) % 2 ^ 32 ∧ v.id = (nextVarId b + 1) % 2 ^ 32

/-- No variable registered in a frame lives at the address `ptr`. -/
def addressFree (b : ShaderBuilder) (ptr : Nat) : Bool :=
  b.m_blocks.all (fun blk => !var.setContains blk.registered ptr)

/-- The address at which an operation allocates its new variable, if it allocates one. -/
def allocated : Op → Option Nat
  | .registerFunction ptr _ _ => some ptr
  | .registerName ptr _ _ _ => some ptr
  | .registerNameFlag ptr _ _ _ => some ptr
  | .registerNameDefault ptr _ _ => some ptr
  | .registerMember ptr _ _ _ _ _ => some ptr
  | .registerMemberFlag ptr _ _ _ _ _ => some ptr
  | .registerMemberDefault ptr _ _ _ _ => some ptr
  | .registerStaticConstant ptr _ _ _ => some ptr
  | .registerSpecConstant ptr _ _ _ => some ptr
  | .registerAccelerationStructure ptr _ _ _ _ _ => some ptr
  | .registerSampler ptr _ _ _ _ _ => some ptr
  | .registerSampledImage ptr _ _ _ _ _ => some ptr
  | .registerTexture ptr _ _ _ _ _ => some ptr
  | .registerImage ptr _ _ _ _ _ => some ptr
  | .registerInput ptr _ _ _ _ _ => some ptr
  | .registerOutput ptr _ _ _ _ _ => some ptr
  | .registerInOut ptr _ _ _ => some ptr
  | .registerBuiltin ptr _ _ _ => some ptr
  | .registerBlockVariable ptr _ _ => some ptr
  | .registerLocale ptr _ _ => some ptr
  | .registerLoopVar ptr _ _ => some ptr
  | .registerParam ptr _ _ => some ptr
  | .registerInParam ptr _ _ => some ptr
  | .registerOutParam ptr _ _ => some ptr
  | .registerInOutParam ptr _ _ => some ptr
  | _ => none

/-- Sample types: `int`, `float`, and the types of a function without parameter that returns
an `int` and a `float`. -/
def sampleInt : ast.type.Ty := .basic (.eScalar .eInt32) false

/-- The sample type `float`. -/
def sampleFloat : ast.type.Ty := .basic (.eScalar .eFloat) false

/-- The sample type of a function that returns an `int`. -/
def sampleFunctionInt : ast.type.Ty := .function sampleInt .nil

/-- The sample type of a function that returns a `float`. -/
def sampleFunctionFloat : ast.type.Ty := .function sampleFloat .nil

/-- A second sample variable named `x`, a `float` local at address 3. -/
def sampleInnerVariable : var.Variable :=
  var.makeVariable 3 2 sampleFloat "x" {var.Flag.eLocale}

/-- A builder two frames deep in which the inner frame holds `sampleInnerVariable` next to the
`sampleVariable` of the enclosing frame, which has the same name. -/
def sampleShadow : ShaderBuilder :=
  { fresh .eFragment with
    m_blocks :=
      [{ registered := [sampleVariable], container := 0 },
        { registered := [sampleInnerVariable, sampleVariable], container := 1 }]
    m_currentStmts := [1] }

end ShaderBuilder
end ast

/-! ## Emission: structure members, sampled images and the serialisation entry points -/

namespace ast
namespace type

/-- A member of a structure (`Struct::Member`), with the index of its type in the structure. -/
structure Member where
  type : Ty
  index : Nat
  name : String
  offset : Nat
  size : Nat
  arrayStride : Nat
  location : Nat
  builtin : Builtin
  deriving DecidableEq

/-- The members of a structure in declaration order, as a list. -/
def MemberList.toList : MemberList → List Member
  | .nil => []
  | .cons type index name offset size arrayStride location builtin rest =>
    ⟨type, index, name, offset, size, arrayStride, location, builtin⟩ :: rest.toList

/-- Two types of the same image kind (image, sampled image with the same depth flag, combined
image with the same comparison flag) whose configurations agree on every field but the access
kind. -/
def sameButAccessKind : Ty → Ty → Bool
  | .image c, .image c' => decide ({ c with accessKind := c'.accessKind } = c')
  | .sampledImage c d, .sampledImage c' d' =>
    decide ({ c with accessKind := c'.accessKind } = c') && decide (d = d')
  | .combinedImage c d, .combinedImage c' d' =>
    decide ({ c with accessKind := c'.accessKind } = c') && decide (d = d')
  | _, _ => false

/-- The access kind of the configuration of an image, sampled image or combined image type. -/
def Ty.accessKind? : Ty → Option AccessKind
  | .image c => some c.accessKind
  | .sampledImage c _ => some c.accessKind
  | .combinedImage c _ => some c.accessKind
  | _ => none

end type
end ast

namespace spirv

open ast ast.type

/-- The values of the `Offset` decorations that a list of member decorations holds for member
`index` of the structure `id`. -/
def offsetsIn (decorations : List (Nat × Nat × List Nat)) (id index : Nat) : List Nat :=
  decorations.filterMap fun d =>
    match d with
    | (i, j, [decoration, value]) =>
      if i = id ∧ j = index ∧ decoration = DecorationOffset then some value else none
    | _ => none

/-- The values of the `Offset` decorations that member `index` of the structure `id` carries. -/
def Module.offsetsOf (m : Module) (id index : Nat) : List Nat :=
  offsetsIn m.memberDecorations id index

/-- The key under which `doRegisterBaseType` looks up, in the image registry, the image type of
an image, of a sampled image (with its depth flag) or of a combined image (with its comparison
flag). -/
def imageKey (env : TypesEnv) : Ty → Option Nat
  | .image c => some (modtyp.myHash env c .eFalse)
  | .sampledImage c depth => some (modtyp.myHash env c depth)
  | .combinedImage c isComparison =>
    some (modtyp.myHash env c (if isComparison then .eTrue else .eFalse))
  | _ => none

/-- Every decorated id has been allocated: it is below the id counter. -/
def Module.idsAllocated (m : Module) : Prop :=
  (∀ d ∈ m.decorations, d.1 < m.nextId) ∧ ∀ d ∈ m.memberDecorations, d.1 < m.nextId

/-- Modelled from the spec: a basic block of a function (`spirv::Block`, §4.7): its label and its
instructions. -/
structure Block where
  label : Nat
  instructions : List Instruction
  deriving DecidableEq

namespace ModuleTypes

/-- From `s` to `s'` the id counter does not go back, every decoration that is new is on an id
allocated since `s`, and the registry of sampled images is untouched. -/
structure Numbered (s s' : ModuleTypes) : Prop where
  nextId : s.m_module.nextId ≤ s'.m_module.nextId
  decorations : ∀ d ∈ s'.m_module.decorations,
    d ∈ s.m_module.decorations ∨ s.m_module.nextId ≤ d.1
  memberDecorations : ∀ d ∈ s'.m_module.memberDecorations,
    d ∈ s.m_module.memberDecorations ∨ s.m_module.nextId ≤ d.1
  samplerImages : s'.m_registeredSamplerImages = s.m_registeredSamplerImages

/-- A registrar all of whose registrations are numbered. -/
def Registrar.Numbering (r : Registrar) : Prop :=
  ∀ s t stride, Numbered s (r s t stride).2

/-- From `s` to `s'` instructions of scalar types at most are appended to the declarations, and
the decorations and the literals of the module are kept. -/
structure ScalarOnly (s s' : ModuleTypes) : Prop where
  declarations : ∃ added, s'.m_declarations = s.m_declarations ++ added
    ∧ ∀ i ∈ added, i.op = .OpTypeVoid ∨ i.op = .OpTypeBool ∨ i.op = .OpTypeInt
      ∨ i.op = .OpTypeFloat
  decorations : s'.m_module.decorations = s.m_module.decorations
  literals : s'.m_module.literals = s.m_module.literals

/-- The entry of the registry of sampled images for the pair of an image id and a sampler
id. -/
def lookupSamplerImage (s : ModuleTypes) (image sampler : Nat) : Option DebugId :=
  (mapFind s.m_registeredSamplerImages image).bind fun inner => mapFind inner sampler

/-- Assignment through the iterator `it` of `mergeSamplerImage`: the entry of the sampler id in
the map of the image id receives `value`. -/
def setSamplerImage (s : ModuleTypes) (image sampler : Nat) (value : DebugId) : ModuleTypes :=
  { s with
    m_registeredSamplerImages :=
      mapSet s.m_registeredSamplerImages image
        (mapSet ((mapFind s.m_registeredSamplerImages image).getD []) sampler value) }

/-- The operation `mergeSamplerImage( image, sampler, currentBlock )`.  The types of the two
operands are cast to an image type and a sampler type without a test.  The entry of the pair is
created first, with the default `DebugId` (id 0; its type is left as the type of the image here),
and receives the merged id after the registration of the combined image type. -/
def mergeSamplerImage (env : TypesEnv) (s : ModuleTypes) (image sampler : DebugId)
    (currentBlock : spirv.Block) : Result (DebugId × ModuleTypes × spirv.Block) :=
  match getNonArrayType image.type, getNonArrayType sampler.type with
  | .image config, .sampler isComparison =>
    let s0 : ModuleTypes :=
      { s with m_registeredSamplerImages := mapEmplace s.m_registeredSamplerImages image.id [] }
    let lhs := (mapFind s0.m_registeredSamplerImages image.id).getD []
    match mapFind lhs sampler.id with
    | some found => .ok (found, s0, currentBlock)
    | none =>
      let s1 : ModuleTypes :=
        { s0 with
          m_registeredSamplerImages :=
            mapSet s0.m_registeredSamplerImages image.id
              (mapEmplace lhs sampler.id { id := 0, type := image.type }) }
      let typeId := registerType env s1 (.combinedImage config isComparison)
      let r := typeId.2.getNextId
      let merged : DebugId := { id := r.1, type := typeId.1.type }
      .ok (merged, setSamplerImage r.2 image.id sampler.id merged,
        { currentBlock with
          instructions :=
            currentBlock.instructions
              ++ [⟨.OpSampledImage, some typeId.1.id, some merged.id, [image.id, sampler.id]⟩] })
  | _, _ => .error .undefinedBehaviour

/-- The registry of sampled images is well numbered: every merged id has been allocated, and
two pairs with the same merged id are the same pair. -/
structure SamplerImagesOk (s : ModuleTypes) : Prop where
  allocated : ∀ i j d, lookupSamplerImage s i j = some d → d.id < s.m_module.nextId
  injective : ∀ i j i' j' d d', lookupSamplerImage s i j = some d →
    lookupSamplerImage s i' j' = some d' → d.id = d'.id → i = i' ∧ j = j'

end ModuleTypes

/-! ### The serialisation entry points (`compileSpirV.cpp`) -/

/-- A sample environment in which a scalar takes four bytes and a vector four bytes for each
component, whatever the layout; the image key and the builtins are those of
`TypesEnv.sample`. -/
def TypesEnv.sampleLayout : TypesEnv :=
  { TypesEnv.sample with
    getSize := fun t _ =>
      match t with
      | .basic (.eVec _ count) _ => 4 * count
      | .basic (.eMat _ cols _) _ => 16 * cols
      | _ => 4 }

/-- A sample image configuration: a sampled two-dimensional image of floats, read only. -/
def sampleImageConfig : ImageConfiguration :=
  { dimension := 1, format := 0, sampledType := .eFloat, isSampled := .eTrue, isArrayed := false,
    isMS := false, accessKind := .eRead }

/-- The sample image configuration with the access kind write. -/
def sampleImageConfigWrite : ImageConfiguration :=
  { sampleImageConfig with accessKind := .eWrite }

/-- The members of a sample structure: `float a` at offset 0, which is no builtin, a builtin
member `vec4 position`, a member `mat3 m` at offset 32 and a member `float data[]` of unknown
array size at offset 80. -/
def sampleBuiltinMembers : MemberList :=
  .cons (.basic (.eScalar .eFloat) true) 0 "a" 0 4 0 NotFound .eNone
    (.cons (.basic (.eVec .eFloat 4) true) 1 "position" 16 16 0 NotFound (.eTag 0)
      (.cons (.basic (.eMat .eFloat 3 3) true) 2 "m" 32 48 0 NotFound .eNone
        (.cons (.array (.basic (.eScalar .eFloat) true) UnknownArraySize) 3 "data" 80 4 4
          NotFound .eNone .nil)))

/-- A sample structure without flag, `B`, under std140, with the sample members. -/
def sampleBlockStruct : Ty := .struct false .eStd140 "B" .eNone sampleBuiltinMembers

/-- A sample image value, of id 10. -/
def sampleImage : DebugId := { id := 10, type := .image sampleImageConfig }

/-- A sample sampler value, of id 11. -/
def sampleSampler : DebugId := { id := 11, type := .sampler false }

/-- A second sample sampler value, of id 12. -/
def sampleSamplerOther : DebugId := { id := 12, type := .sampler false }

/-- A registry that has registered nothing, on a module whose next id is 20. -/
def sampleTypes : ModuleTypes :=
  { ModuleTypes.empty 0 with
    m_module := { (ModuleTypes.empty 0).m_module with nextId := 20 } }

/-- A sample pointee: the type `float` registered under the id 10. -/
def samplePointee : TypeId := { id := 10, type := getBasicType (.eScalar .eFloat) }

/-- A sample block, of label 1, without instructions. -/
def sampleBlock : spirv.Block := { label := 1, instructions := [] }

/-- A second sample block, of label 2, without instructions. -/
def sampleBlockOther : spirv.Block := { label := 2, instructions := [] }

end spirv
/-! ## Registrations, the armed capture and the DSL values

Definitions for the properties of the registration operations as a family, and a model of the
DSL layer above the builder: the compound assignments of `Vec2T` (`Vec2.inl`) and the member
declarations of a uniform buffer (`Ubo.inl`, `BoInfo.hpp`).

* The DSL functions that the sources call and do not define (`findContainer`, `makeExpr`,
  `makeSimple`, the `make...Assign` family, the free `addStmt( container, stmt )`,
  `registerName( container, name, kind )`, `type::makeType`, the two-argument
  `var::makeVariable`, `stmt::makeVariableDecl`) are modelled from their use, or taken as
  parameters.
* The value an operator or a declaration returns is a handle on its operand or on the new
  member; the functions below return the state they leave.
-/

namespace ast
namespace ShaderBuilder

/-- The outcome `r` of a registration on the builder `b` is a success whose variable has the
name, the type and exactly the flags, and is a member of the registered set of the top frame of
the new state; the frames below the top one are those of `b`. -/
def RegisteredInTop (b : ShaderBuilder) (name : String) (type : ast.type.TypePtr)
    (flags : Finset var.Flag) (r : Result (var.Variable × ShaderBuilder)) : Prop :=
  ∃ v b1 top1, r = .ok (v, b1)
    ∧ v.getName = name ∧ v.type = type ∧ v.flags = flags
    ∧ b1.m_blocks = b.m_blocks.dropLast ++ [top1]
    ∧ v ∈ top1.registered

/-- The builder on the empty fragment shader after `saveNextExpr()`: the capture is armed. -/
def sampleArmed : ShaderBuilder := saveNextExpr (fresh .eFragment)

/-- The builder two frames deep after `saveNextExpr()`: the capture is armed and the container 1
of the inner scope waits for `popScope`. -/
def twoFramesArmed : ShaderBuilder := saveNextExpr twoFrames

/-- The builder over the empty fragment shader after `registerInOut( "a", float )`. -/
def sampleInOut : ShaderBuilder :=
  match registerInOut (fresh .eFragment) 50 "a" ∅ sampleFloat with
  | .ok (_, b) => b
  | .error _ => fresh .eFragment

/-- The states `b` and `b1` hold the same containers with the same statements: the arena of the
container statements and the address of the root container are equal. -/
def SameStatements (b b1 : ShaderBuilder) : Prop :=
  b1.m_shader.arena = b.m_shader.arena ∧ b1.m_shader.statements = b.m_shader.statements

end ShaderBuilder

/-- The operations of the builder whose name starts with `register`. -/
def Op.isRegistration : Op → Bool
  | .registerFunction _ _ _ => true
  | .registerVariable _ => true
  | .registerName _ _ _ _ => true
  | .registerNameFlag _ _ _ _ => true
  | .registerNameDefault _ _ _ => true
  | .registerMember _ _ _ _ _ _ => true
  | .registerMemberFlag _ _ _ _ _ _ => true
  | .registerMemberDefault _ _ _ _ _ => true
  | .registerStaticConstant _ _ _ _ => true
  | .registerSpecConstant _ _ _ _ => true
  | .registerAccelerationStructure _ _ _ _ _ _ => true
  | .registerSampler _ _ _ _ _ _ => true
  | .registerSampledImage _ _ _ _ _ _ => true
  | .registerTexture _ _ _ _ _ _ => true
  | .registerImage _ _ _ _ _ _ => true
  | .registerInput _ _ _ _ _ _ => true
  | .registerOutput _ _ _ _ _ _ => true
  | .registerInOut _ _ _ _ => true
  | .registerBuiltin _ _ _ _ => true
  | .registerBlockVariable _ _ _ => true
  | .registerLocale _ _ _ => true
  | .registerLoopVar _ _ _ => true
  | .registerParam _ _ _ => true
  | .registerInParam _ _ _ => true
  | .registerOutParam _ _ _ => true
  | .registerInOutParam _ _ _ => true
  | .registerSsbo _ _ => true
  | .registerUbo _ _ => true
  | .registerPcb _ _ => true
  | .registerShaderRecord _ _ => true
  | _ => false

/-- A run of registrations on a fragment shader: a builtin, a sampler enabled and one disabled,
an input, an output, a local and a specialisation constant. -/
def sampleRegistrations : List Op :=
  [ .registerBuiltin 50 .eNone ShaderBuilder.sampleFloat var.Flag.eShaderInput,
    .registerSampler 51 "s" (.sampler false) 0 0 true,
    .registerSampler 52 "t" (.sampler false) 1 0 false,
    .registerInput 53 0 "in" 0 ∅ ShaderBuilder.sampleFloat,
    .registerOutput 54 0 "out" 0 ∅ ShaderBuilder.sampleFloat,
    .registerLocale 55 "x" ShaderBuilder.sampleInt,
    .registerSpecConstant 56 "c" 3 ShaderBuilder.sampleInt ]

end ast

namespace sdw

open ast

/-! ### Values and compound assignments (`Vec2.inl`) -/

/-- Modelled from the spec: the expressions that matter to the compound assignments: the
expression of an operand and the four expressions `sdw::makeAddAssign( type, lhs, rhs )`,
`sdw::makeMinusAssign`, `sdw::makeTimesAssign` and `sdw::makeDivideAssign`. -/
inductive Expr where
  | operand (tag : Nat)
  | addAssign (type : ast.type.TypePtr) (lhs rhs : Expr)
  | minusAssign (type : ast.type.TypePtr) (lhs rhs : Expr)
  | timesAssign (type : ast.type.TypePtr) (lhs rhs : Expr)
  | divideAssign (type : ast.type.TypePtr) (lhs rhs : Expr)
  deriving DecidableEq, Repr

/-- Modelled from the spec: a statement of the DSL: `sdw::makeSimple( expr )` is a simple
statement that wraps the expression; `other` is any statement of another kind. -/
inductive Stmt where
  | simple (expr : Expr)
  | other (tag : Nat)
  deriving DecidableEq, Repr

/-- The test `stmt->getKind() == stmt::Kind::eSimple`. -/
def Stmt.isSimple : Stmt → Bool
  | .simple _ => true
  | .other _ => false

/-- Modelled from the spec: the containers of the shader by address, each an ordered sequence of
statements. -/
abbrev Containers := Nat → List Stmt

/-- Modelled from the spec: the free function `addStmt( container, stmt )`: the statement is
appended to the container. -/
def addStmt (cs : Containers) (c : Nat) (s : Stmt) : Containers :=
  fun q => if q = c then cs q ++ [s] else cs q

/-- A DSL value (`sdw::Value`): its expression, the type of the expression and the container it
writes to (`none` is the null pointer). -/
structure Value where
  m_expr : Expr
  type : ast.type.TypePtr
  m_container : Option Nat
  deriving DecidableEq, Repr

/-- The accessor `getType`: the type of the expression. -/
def Value.getType (v : Value) : ast.type.TypePtr := v.type

/-- The accessor `getContainer`. -/
def Value.getContainer (v : Value) : Option Nat := v.m_container

/-- Modelled from the spec: `Optional< T >`, a value of type `T` with the flag that tells whether
the shader holds it. -/
structure Optional where
  value : Value
  m_enabled : Bool
  deriving DecidableEq, Repr

/-- Modelled from the spec: the accessor `isEnabled`. -/
def Optional.isEnabled (o : Optional) : Bool := o.m_enabled

/-- Modelled from the spec: `makeExpr( value )`, the expression of the value. -/
def makeExpr (v : Value) : Expr := v.m_expr

/-- Modelled from the spec: `findContainer( lhs, rhs )`, the container of the first of the values
that has one, or the null pointer. -/
def findContainer (lhs rhs : Value) : Option Nat :=
  match lhs.getContainer with
  | some c => some c
  | none => rhs.getContainer

/-- The call `addStmt( *findContainer( lhs, rhs ), stmt )` that the operators share;
dereferencing the null pointer is undefined behaviour. -/
def addStmtFound (cs : Containers) (lhs rhs : Value) (s : Stmt) : Result Containers :=
  match findContainer lhs rhs with
  | none => .error .undefinedBehaviour
  | some c => .ok (addStmt cs c s)

namespace Vec2T

/-- The operator `operator+=( Optional< Vec2T< ValueT > > const & rhs )`. -/
def addAssignOptional (cs : Containers) (self : Value) (rhs : Optional) : Result Containers :=
  if rhs.isEnabled then
    addStmtFound cs self rhs.value
      (.simple (.addAssign self.getType (makeExpr self) (makeExpr rhs.value)))
  else .ok cs

/-- The operator `operator-=( Optional< Vec2T< ValueT > > const & rhs )`. -/
def minusAssignOptional (cs : Containers) (self : Value) (rhs : Optional) : Result Containers :=
  if rhs.isEnabled then
    addStmtFound cs self rhs.value
      (.simple (.minusAssign self.getType (makeExpr self) (makeExpr rhs.value)))
  else .ok cs

/-- The operator `operator*=( Optional< Vec2T< ValueT > > const & rhs )`. -/
def timesAssignOptional (cs : Containers) (self : Value) (rhs : Optional) : Result Containers :=
  if rhs.isEnabled then
    addStmtFound cs self rhs.value
      (.simple (.timesAssign self.getType (makeExpr self) (makeExpr rhs.value)))
  else .ok cs

/-- The operator `operator/=( Optional< Vec2T< ValueT > > const & rhs )`. -/
def divideAssignOptional (cs : Containers) (self : Value) (rhs : Optional) : Result Containers :=
  if rhs.isEnabled then
    addStmtFound cs self rhs.value
      (.simple (.divideAssign self.getType (makeExpr self) (makeExpr rhs.value)))
  else .ok cs

/-- The operator `operator+=( Optional< ValueT > const & rhs )`: the source does not test
`rhs.isEnabled()`. -/
def addAssignOptionalValue (cs : Containers) (self : Value) (rhs : Optional) :
    Result Containers :=
  addStmtFound cs self rhs.value
    (.simple (.addAssign self.getType (makeExpr self) (makeExpr rhs.value)))

/-- The operator `operator-=( Optional< ValueT > const & rhs )`. -/
def minusAssignOptionalValue (cs : Containers) (self : Value) (rhs : Optional) :
    Result Containers :=
  if rhs.isEnabled then
    addStmtFound cs self rhs.value
      (.simple (.minusAssign self.getType (makeExpr self) (makeExpr rhs.value)))
  else .ok cs

/-- The operator `operator*=( Optional< ValueT > const & rhs )`. -/
def timesAssignOptionalValue (cs : Containers) (self : Value) (rhs : Optional) :
    Result Containers :=
  if rhs.isEnabled then
    addStmtFound cs self rhs.value
      (.simple (.timesAssign self.getType (makeExpr self) (makeExpr rhs.value)))
  else .ok cs

/-- The operator `operator/=( Optional< ValueT > const & rhs )`. -/
def divideAssignOptionalValue (cs : Containers) (self : Value) (rhs : Optional) :
    Result Containers :=
  if rhs.isEnabled then
    addStmtFound cs self rhs.value
      (.simple (.divideAssign self.getType (makeExpr self) (makeExpr rhs.value)))
  else .ok cs

end Vec2T

/-- The four compound assignments. -/
inductive AssignOp where
  | add
  | minus
  | times
  | divide
  deriving DecidableEq, Repr

/-- The two optional right-hand sides of a compound assignment of `Vec2T< ValueT >`:
`Optional< Vec2T< ValueT > >` and `Optional< ValueT >`. -/
inductive RhsType where
  | vec
  | value
  deriving DecidableEq, Repr

/-- The compound-assign expression that matches an operator. -/
def AssignOp.expr : AssignOp → ast.type.TypePtr → Expr → Expr → Expr
  | .add => .addAssign
  | .minus => .minusAssign
  | .times => .timesAssign
  | .divide => .divideAssign

/-- The operator of `Vec2T` that overload resolution selects for a compound assignment and the
type of its optional right-hand side. -/
def Vec2T.compoundAssign : AssignOp → RhsType → Containers → Value → Optional → Result Containers
  | .add, .vec => Vec2T.addAssignOptional
  | .minus, .vec => Vec2T.minusAssignOptional
  | .times, .vec => Vec2T.timesAssignOptional
  | .divide, .vec => Vec2T.divideAssignOptional
  | .add, .value => Vec2T.addAssignOptionalValue
  | .minus, .value => Vec2T.minusAssignOptionalValue
  | .times, .value => Vec2T.timesAssignOptionalValue
  | .divide, .value => Vec2T.divideAssignOptionalValue

/-- The containers without statements. -/
def Containers.empty : Containers := fun _ => []

/-- A sample vector `v`, of type `vec2`, that writes to the container 0. -/
def sampleVec : Value :=
  { m_expr := .operand 1, type := .basic (.eVec .eFloat 2) false, m_container := some 0 }

/-- A sample scalar `f`, of type `float`, that is disabled. -/
def sampleDisabled : Optional :=
  { value := { m_expr := .operand 2, type := .basic (.eScalar .eFloat) false, m_container := none }
    m_enabled := false }

/-- A sample scalar `g`, of type `float`, that is enabled. -/
def sampleEnabled : Optional :=
  { value :=
      { m_expr := .operand 3, type := .basic (.eScalar .eFloat) false, m_container := some 0 }
    m_enabled := true }

/-! ### Uniform buffers (`Ubo.inl`, `BoInfo.hpp`) -/

/-- Modelled from the spec: the variable of a member, `var::makeVariable( type, name )`. -/
structure MemberVariable where
  type : ast.type.TypePtr
  name : String
  deriving DecidableEq, Repr

/-- Modelled from the spec: `var::makeVariable( type, name )`. -/
def makeVariable (type : ast.type.TypePtr) (name : String) : MemberVariable :=
  { type := type, name := name }

/-- Modelled from the spec: a variable declaration, `stmt::makeVariableDecl( var )`. -/
structure VariableDecl where
  var : MemberVariable
  deriving DecidableEq, Repr

/-- Modelled from the spec: `stmt::makeVariableDecl( var )`. -/
def makeVariableDecl (v : MemberVariable) : VariableDecl := { var := v }

/-- The description of a buffer (`BoInfo`): binding point, set and the kinds of the members by
name. -/
structure BoInfo where
  m_bind : Nat
  m_set : Nat
  m_members : List (String × ast.type.Kind)
  deriving DecidableEq, Repr

/-- The operation `BoInfo::registerMember( name, type )`: an `emplace`. -/
def BoInfo.registerMember (info : BoInfo) (name : String) (type : ast.type.Kind) : BoInfo :=
  { info with m_members := mapEmplace info.m_members name type }

/-- The lookup `BoInfo::getMember( name )`: `at` throws when the name is absent. -/
def BoInfo.getMember (info : BoInfo) (name : String) : Result ast.type.Kind :=
  match mapFind info.m_members name with
  | some kind => .ok kind
  | none => .error (.runtimeError "map::at")

/-- What the declarations of a buffer use and this development does not define:
`registerName( container, name, kind )` on the state `σ` of the container, `type::makeType( kind )`
and `type::makeType( kind, dimension )`. -/
structure UboEnv (σ : Type) where
  registerName : σ → String → ast.type.Kind → Result σ
  makeType : ast.type.Kind → ast.type.TypePtr
  makeArrayType : ast.type.Kind → Nat → ast.type.TypePtr

/-- A uniform buffer (`Ubo`): the container it registers names in, the declarations of its
statement (`m_stmt`, in the order of `add`) and its description. -/
structure Ubo (σ : Type) where
  m_container : σ
  m_stmt : List VariableDecl
  m_info : BoInfo

namespace Ubo

/-- Modelled from the spec: `m_stmt->add( decl )`, appending to the declarations. -/
def add {σ : Type} (u : Ubo σ) (decl : VariableDecl) : Ubo σ :=
  { u with m_stmt := u.m_stmt ++ [decl] }

/-- The first two statements of every declaration: `registerName( m_container, name, kind )` and
`m_info.registerMember( name, kind )`. -/
def registerMember {σ : Type} (env : UboEnv σ) (u : Ubo σ) (name : String) (kind : ast.type.Kind) :
    Result (Ubo σ) :=
  match env.registerName u.m_container name kind with
  | .error e => .error e
  | .ok c => .ok { u with m_container := c, m_info := u.m_info.registerMember name kind }

/-- The declaration `declMember< T >( name, enabled )`; `kind` is `TypeTraits< T >::TypeEnum`. -/
def declMemberOptional {σ : Type} (env : UboEnv σ) (u : Ubo σ) (name : String) (kind : ast.type.Kind)
    (enabled : Bool) : Result (Ubo σ) :=
  match registerMember env u name kind with
  | .error e => .error e
  | .ok u1 =>
    let v := makeVariable (env.makeType kind) name
    if enabled then .ok (u1.add (makeVariableDecl v)) else .ok u1

/-- The declaration `declMember< T >( name, dimension, enabled )`. -/
def declMemberDimOptional {σ : Type} (env : UboEnv σ) (u : Ubo σ) (name : String) (kind : ast.type.Kind)
    (dimension : Nat) (enabled : Bool) : Result (Ubo σ) :=
  match registerMember env u name kind with
  | .error e => .error e
  | .ok u1 =>
    let v := makeVariable (env.makeArrayType kind dimension) name
    if enabled then .ok (u1.add (makeVariableDecl v)) else .ok u1

/-- The declaration `declMemberArray< T >( name, enabled )`: the source adds the declaration
before the test of `enabled`, and once more when `enabled` holds. -/
def declMemberArrayOptional {σ : Type} (env : UboEnv σ) (u : Ubo σ) (name : String)
    (kind : ast.type.Kind) (enabled : Bool) : Result (Ubo σ) :=
  match registerMember env u name kind with
  | .error e => .error e
  | .ok u1 =>
    let v := makeVariable (env.makeArrayType kind ast.type.UnknownArraySize) name
    let u2 := u1.add (makeVariableDecl v)
    if enabled then .ok (u2.add (makeVariableDecl v)) else .ok u2

/-- The declaration `declMemberArray< T >( name )`, without the flag. -/
def declMemberArray {σ : Type} (env : UboEnv σ) (u : Ubo σ) (name : String) (kind : ast.type.Kind) :
    Result (Ubo σ) :=
  match registerMember env u name kind with
  | .error e => .error e
  | .ok u1 =>
    let v := makeVariable (env.makeArrayType kind ast.type.UnknownArraySize) name
    .ok (u1.add (makeVariableDecl v))

end Ubo

/-- A sample environment: names are registered in a map by `emplace`, the type of a kind is
`float` and the type of an array of a kind is an array of `float`. -/
def UboEnv.sample : UboEnv (List (String × ast.type.Kind)) :=
  { registerName := fun c name kind => .ok (mapEmplace c name kind)
    makeType := fun _ => .basic (.eScalar .eFloat) true
    makeArrayType := fun _ dimension => .array (.basic (.eScalar .eFloat) true) dimension }

/-- A sample buffer without members, at binding 0 of set 0. -/
def Ubo.sample : Ubo (List (String × ast.type.Kind)) :=
  { m_container := [], m_stmt := [], m_info := { m_bind := 0, m_set := 0, m_members := [] } }

end sdw

/-! ## Lemmas on maps -/

namespace ast

theorem mapFind_mapEmplace {κ β : Type} [DecidableEq κ] (m : List (κ × β)) (k k' : κ) (v : β) :
    mapFind (mapEmplace m k v) k'
      = if k' = k then some ((mapFind m k).getD v) else mapFind m k' := by
  unfold mapEmplace
  by_cases hany : m.any (fun e => decide (e.1 = k)) = true
  · rw [if_pos hany]
    by_cases hk : k' = k
    · subst hk
      rw [if_pos rfl]
      obtain ⟨e, he, hek⟩ := List.any_eq_true.mp hany
      have : (m.find? (fun e => decide (e.1 = k'))).isSome = true :=
        List.find?_isSome.mpr ⟨e, he, hek⟩
      unfold mapFind
      cases hf : m.find? (fun e => decide (e.1 = k')) with
      | none => simp [hf] at this
      | some x => simp
    · rw [if_neg hk]
  · rw [if_neg hany]
    have hnone : m.find? (fun e => decide (e.1 = k)) = none := by
      rw [List.find?_eq_none]
      intro x hx hxk
      exact hany (List.any_eq_true.mpr ⟨x, hx, hxk⟩)
    unfold mapFind
    rw [List.find?_append]
    by_cases hk : k' = k
    · subst hk
      simp [hnone]
    · rw [if_neg hk]
      have : ([(k, v)] : List (κ × β)).find? (fun e => decide (e.1 = k')) = none := by
        simp [List.find?_cons, Ne.symm hk]
      simp [this]

theorem mapFind_mapEmplace_of_some {κ β : Type} [DecidableEq κ] (m : List (κ × β)) (k k' : κ)
    (v w : β) (h : mapFind m k' = some w) : mapFind (mapEmplace m k v) k' = some w := by
  rw [mapFind_mapEmplace]
  by_cases hk : k' = k
  · subst hk; simp [h]
  · simp [hk, h]

theorem mapFind_mapSet {κ β : Type} [DecidableEq κ] (m : List (κ × β)) (k k' : κ) (v : β) :
    mapFind (mapSet m k v) k'
      = if k' = k then (mapFind m k).map (fun _ => v) else mapFind m k' := by
  unfold mapFind mapSet
  induction m with
  | nil => by_cases hk : k' = k <;> simp [hk]
  | cons e es ih =>
    simp only [List.map_cons, List.find?_cons]
    by_cases he : e.1 = k
    · by_cases he' : e.1 = k'
      · have hk : k' = k := he' ▸ he
        simp only [if_pos he, he', decide_True, if_pos hk, Option.map_some']
        simp [hk]
      · have hk : ¬ k' = k := fun h => he' (h ▸ he)
        simp only [if_pos he, he', decide_False, if_neg hk] at ih ⊢
        exact ih
    · by_cases he' : e.1 = k'
      · have hk : ¬ k' = k := fun h => he (h ▸ he')
        simp only [if_neg he, he', decide_True, if_neg hk, Option.map_some']
      · simp only [if_neg he, he', he, decide_False, if_false]
        exact ih

theorem MapLe.mapLe_refl {κ β : Type} [DecidableEq κ] (m : List (κ × β)) : MapLe m m :=
  fun _ _ h => h

theorem MapLe.mapLe_trans {κ β : Type} [DecidableEq κ] {a b c : List (κ × β)} (h1 : MapLe a b)
    (h2 : MapLe b c) : MapLe a c :=
  fun k v h => h2 k v (h1 k v h)

theorem MapLe.emplace {κ β : Type} [DecidableEq κ] (m : List (κ × β)) (k : κ) (v : β) :
    MapLe m (mapEmplace m k v) :=
  fun k' w h => mapFind_mapEmplace_of_some m k k' v w h

end ast

/-! ## The builder: scopes, statements and lookups -/

namespace ast
namespace var

theorem setContains_iff (l : List Variable) (p : Nat) :
    setContains l p = true ↔ ∃ w ∈ l, w.ptr = p := by
  simp [setContains]

theorem mem_setInsert_of_mem {x v : Variable} {l : List Variable} (h : x ∈ l) :
    x ∈ setInsert v l := by
  induction l with
  | nil => cases h
  | cons w ws ih =>
    unfold setInsert
    split
    · exact List.mem_cons_of_mem _ h
    · split
      · exact h
      · rcases List.mem_cons.mp h with h1 | h1
        · exact h1 ▸ List.mem_cons_self _ _
        · exact List.mem_cons_of_mem _ (ih h1)

theorem mem_setInsert {x v : Variable} {l : List Variable} (h : x ∈ setInsert v l) :
    x = v ∨ x ∈ l := by
  induction l with
  | nil => simpa [setInsert] using h
  | cons w ws ih =>
    unfold setInsert at h
    split at h
    · rcases List.mem_cons.mp h with h1 | h1
      · exact Or.inl h1
      · exact Or.inr h1
    · split at h
      · exact Or.inr h
      · rcases List.mem_cons.mp h with h1 | h1
        · exact Or.inr (h1 ▸ List.mem_cons_self _ _)
        · rcases ih h1 with h2 | h2
          · exact Or.inl h2
          · exact Or.inr (List.mem_cons_of_mem _ h2)

theorem exists_ptr_setInsert (v : Variable) (l : List Variable) :
    ∃ w ∈ setInsert v l, w.ptr = v.ptr := by
  induction l with
  | nil => exact ⟨v, by simp [setInsert], rfl⟩
  | cons w ws ih =>
    unfold setInsert
    split
    · exact ⟨v, List.mem_cons_self _ _, rfl⟩
    · split
      · rename_i h; exact ⟨w, List.mem_cons_self _ _, h.symm⟩
      · obtain ⟨u, hu, hp⟩ := ih
        exact ⟨u, List.mem_cons_of_mem _ hu, hp⟩

theorem setContains_setErase_self (l : List Variable) (p : Nat) :
    setContains (setErase l p) p = false := by
  simp [setContains, setErase]

theorem setContains_setErase_of_not {l : List Variable} {p : Nat} (q : Nat)
    (h : setContains l p = false) : setContains (setErase l q) p = false := by
  simp only [setContains, setErase, List.any_eq_false, List.mem_filter] at *
  intro x hx
  exact h x hx.1

end var

namespace ShaderBuilder

/-! ### `push` -/

theorem create_empty (stage : ShaderStage) : create (Shader.empty stage) = .ok (fresh stage) :=
  rfl

theorem push_nil (b : ShaderBuilder) (c : Nat) :
    push b c []
      = .ok { b with
          m_blocks := b.m_blocks ++ [{ registered := inherited b.m_blocks [], container := c }] } := by
  unfold push
  by_cases h : b.m_blocks = []
  · simp [h, inherited]
  · have hl : 0 < b.m_blocks.length := List.length_pos.mpr h
    simp [pushMoveVars, pushInherit, inherited, hl]

theorem pushScope_eq (b : ShaderBuilder) (c : Nat) :
    pushScope b c
      = .ok { b with
          m_blocks := b.m_blocks ++ [{ registered := inherited b.m_blocks [], container := c }]
          m_currentStmts := b.m_currentStmts ++ [c] } := by
  simp [pushScope, push_nil]

theorem exists_getLast {α : Type} {l : List α} (h : l ≠ []) : ∃ x, l.getLast? = some x := by
  cases hl : l.getLast? with
  | none => exact absurd (List.getLast?_eq_none_iff.mp hl) h
  | some x => exact ⟨x, rfl⟩

theorem exists_dropLast_getLast {α : Type} {l : List α} (h : l ≠ []) :
    ∃ pre x, l = pre ++ [x] :=
  ⟨l.dropLast, l.getLast h, (List.dropLast_append_getLast h).symm⟩

theorem eraseAll_not_contains (vars : List var.Variable) (l : List var.Variable) (p : Nat)
    (h : var.setContains l p = false ∨ ∃ v ∈ vars, v.ptr = p) :
    var.setContains (eraseAll vars l) p = false := by
  induction vars generalizing l with
  | nil =>
    rcases h with h | ⟨v, hv, _⟩
    · exact h
    · cases hv
  | cons v vs ih =>
    simp only [eraseAll, List.foldl_cons]
    apply ih
    rcases h with h | ⟨w, hw, hp⟩
    · exact Or.inl (var.setContains_setErase_of_not _ h)
    · rcases List.mem_cons.mp hw with h1 | h1
      · subst h1; subst hp; exact Or.inl (var.setContains_setErase_self _ _)
      · exact Or.inr ⟨w, h1, hp⟩

theorem mem_eraseAll {x : var.Variable} (vars l : List var.Variable) (h : x ∈ eraseAll vars l) :
    x ∈ l := by
  induction vars generalizing l with
  | nil => exact h
  | cons v vs ih =>
    have := ih _ h
    simp only [var.setErase, List.mem_filter] at this
    exact this.1

theorem mem_insertAll_of_mem {x : var.Variable} (vars : List var.Variable)
    (l : List var.Variable) (h : x ∈ l) : x ∈ insertAll vars l := by
  induction vars generalizing l with
  | nil => exact h
  | cons v vs ih => exact ih _ (var.mem_setInsert_of_mem h)

theorem exists_ptr_insertAll (vars : List var.Variable) (l : List var.Variable)
    (v : var.Variable) (hv : v ∈ vars) : ∃ w ∈ insertAll vars l, w.ptr = v.ptr := by
  induction vars generalizing l with
  | nil => cases hv
  | cons u us ih =>
    rcases List.mem_cons.mp hv with h1 | h1
    · subst h1
      obtain ⟨w, hw, hp⟩ := var.exists_ptr_setInsert v l
      exact ⟨w, mem_insertAll_of_mem us _ hw, hp⟩
    · exact ih _ h1

theorem mem_insertAll {x : var.Variable} (vars : List var.Variable) (l : List var.Variable)
    (h : x ∈ insertAll vars l) : x ∈ vars ∨ x ∈ l := by
  induction vars generalizing l with
  | nil => exact Or.inr h
  | cons v vs ih =>
    rcases ih _ h with h1 | h1
    · exact Or.inl (List.mem_cons_of_mem _ h1)
    · rcases var.mem_setInsert h1 with h2 | h2
      · exact Or.inl (h2 ▸ List.mem_cons_self _ _)
      · exact Or.inr h2

theorem inherited_eq (blocks : List Block) (start : List var.Variable) :
    inherited blocks start = insertAll (blocks.flatMap (fun blk => blk.registered)) start := by
  induction blocks generalizing start with
  | nil => rfl
  | cons blk blks ih =>
    have h := ih (List.foldl (fun acc1 v => var.setInsert v acc1) start blk.registered)
    simp only [inherited, List.foldl_cons, List.flatMap_cons, insertAll, List.foldl_append] at *
    exact h

theorem modifyAt_append {α : Type} (f : α → α) (pre : List α) (x : α) (xs : List α) :
    modifyAt f pre.length (pre ++ x :: xs) = pre ++ f x :: xs := by
  induction pre with
  | nil => rfl
  | cons p ps ih => simp [modifyAt, ih]

/-- The first loop of `push` on a stack `pre ++ [enc, top]`: the variables leave `enc` and
enter `top`. -/
theorem pushMoveVars_blocks (vars : List var.Variable) (b1 : ShaderBuilder) (pre : List Block)
    (enc top : Block) (h : b1.m_blocks = pre ++ [enc, top]) :
    ∃ b2, pushMoveVars vars b1 = .ok b2
      ∧ b2.m_blocks = pre ++ [{ enc with registered := eraseAll vars enc.registered },
          { top with registered := insertAll vars top.registered }] := by
  induction vars generalizing b1 enc top with
  | nil => exact ⟨b1, rfl, by simpa [eraseAll, insertAll] using h⟩
  | cons v vs ih =>
    have hlen : b1.m_blocks.length - 2 = pre.length := by simp [h]
    have hmod : modifyAt
        (fun blk : Block => { blk with registered := var.setErase blk.registered v.ptr })
        (b1.m_blocks.length - 2) b1.m_blocks
        = pre ++ [{ enc with registered := var.setErase enc.registered v.ptr }, top] := by
      rw [hlen, h]; exact modifyAt_append _ pre enc [top]
    simp only [pushMoveVars, hmod]
    have hlast : (pre ++ [{ enc with registered := var.setErase enc.registered v.ptr },
        top]).getLast? = some top := by
      simp
    have hdrop : (pre ++ [{ enc with registered := var.setErase enc.registered v.ptr },
        top]).dropLast
        = pre ++ [{ enc with registered := var.setErase enc.registered v.ptr }] := by
      rw [show pre ++ [{ enc with registered := var.setErase enc.registered v.ptr }, top]
        = (pre ++ [{ enc with registered := var.setErase enc.registered v.ptr }]) ++ [top] by
          simp]
      exact List.dropLast_concat
    simp only [registerVariable, hlast, hdrop]
    obtain ⟨b2, hb2, hblocks⟩ := ih
      { b1 with
        m_blocks := pre ++ [{ enc with registered := var.setErase enc.registered v.ptr }]
          ++ [{ top with registered := var.setInsert v top.registered }]
        m_shader :=
          if v.type.getRawKind = .eWrapper .eTessellationControlInput then
            { b1.m_shader.registerVar
                (pre ++ [{ enc with registered := var.setErase enc.registered v.ptr },
                  top]).length v with
              data := { (b1.m_shader.registerVar
                (pre ++ [{ enc with registered := var.setErase enc.registered v.ptr },
                  top]).length v).data with
                tessellationControlPoints := v.type.getInputVertices } }
          else b1.m_shader.registerVar
            (pre ++ [{ enc with registered := var.setErase enc.registered v.ptr }, top]).length
            v }
      { enc with registered := var.setErase enc.registered v.ptr }
      { top with registered := var.setInsert v top.registered } (by simp)
    exact ⟨b2, hb2, by simpa [eraseAll, insertAll] using hblocks⟩

/-- The frames after `push( c, vars )` on a stack `pre ++ [enc]`. -/
theorem push_blocks (b : ShaderBuilder) (c : Nat) (vars : List var.Variable) (pre : List Block)
    (enc : Block) (h : b.m_blocks = pre ++ [enc]) :
    ∃ b1 enc1 top1, push b c vars = .ok b1
      ∧ b1.m_blocks = pre ++ [enc1, top1]
      ∧ enc1.registered = eraseAll vars enc.registered
      ∧ enc1.container = enc.container
      ∧ top1.container = c
      ∧ top1.registered
          = insertAll ((pre ++ [enc1]).flatMap (fun blk => blk.registered)) (insertAll vars []) := by
  obtain ⟨b2, h2, hb2⟩ := pushMoveVars_blocks vars
    { b with m_blocks := b.m_blocks ++ [{ registered := [], container := c }] } pre enc
    { registered := [], container := c } (by simp [h])
  have hlast : b2.m_blocks.getLast? = some { registered := insertAll vars [], container := c } := by
    rw [hb2]; simp
  have hdrop : b2.m_blocks.dropLast
      = pre ++ [{ enc with registered := eraseAll vars enc.registered }] := by
    rw [hb2, show pre ++ [{ enc with registered := eraseAll vars enc.registered },
        { registered := insertAll vars [], container := c }]
      = (pre ++ [{ enc with registered := eraseAll vars enc.registered }])
        ++ [{ registered := insertAll vars [], container := c }] by simp]
    exact List.dropLast_concat
  have hpush : push b c vars = pushInherit b2 := by
    unfold push
    simp only [h, List.length_append, List.length_singleton, List.length_cons, List.length_nil]
    rw [if_pos (by omega)]
    simp only [h] at h2
    rw [h2]
  rw [hpush]
  simp only [pushInherit, hlast, hdrop]
  refine ⟨_, Block.mk (eraseAll vars enc.registered) enc.container,
    Block.mk (inherited (pre ++ [Block.mk (eraseAll vars enc.registered) enc.container])
      (insertAll vars [])) c, rfl, ?_, rfl, rfl, rfl, ?_⟩
  · simp [inherited]
  · exact inherited_eq _ _

/-! ### Statements -/

theorem addStmt_unarmed (b : ShaderBuilder) (s : stmt.Stmt) (top : Block)
    (hi : b.m_ignore = false) (htop : b.m_blocks.getLast? = some top) :
    addStmt b s = .ok { b with m_shader := { b.m_shader with
      arena := b.m_shader.arena.set top.container ((b.m_shader.arena top.container).addStmt s) } } := by
  simp [addStmt, hi, getContainer, htop]

theorem appended_nil (b : ShaderBuilder) (p : Nat) : appended b p [] = b := by
  have : b.m_shader.arena.set p
      { b.m_shader.arena p with stmts := (b.m_shader.arena p).stmts } = b.m_shader.arena := by
    funext q
    by_cases h : q = p <;> simp [stmt.Arena.set, h]
  simp [appended, this]

theorem appended_cons (b : ShaderBuilder) (p : Nat) (s : stmt.Stmt) (ss : List stmt.Stmt) :
    appended (appended b p [s]) p ss = appended b p (s :: ss) := by
  have : ((b.m_shader.arena.set p
        { b.m_shader.arena p with stmts := (b.m_shader.arena p).stmts ++ [s] }).set p
      { (b.m_shader.arena.set p
          { b.m_shader.arena p with stmts := (b.m_shader.arena p).stmts ++ [s] }) p with
        stmts := ((b.m_shader.arena.set p
          { b.m_shader.arena p with stmts := (b.m_shader.arena p).stmts ++ [s] }) p).stmts
            ++ ss })
      = b.m_shader.arena.set p
          { b.m_shader.arena p with stmts := (b.m_shader.arena p).stmts ++ s :: ss } := by
    funext q
    by_cases h : q = p <;> simp [stmt.Arena.set, h]
  simp [appended, this]

theorem addStmts_unarmed (ss : List stmt.Stmt) (b : ShaderBuilder) (top : Block)
    (hi : b.m_ignore = false) (htop : b.m_blocks.getLast? = some top) :
    addStmts b ss = .ok (appended b top.container ss) := by
  induction ss generalizing b with
  | nil => simp [addStmts, appended_nil]
  | cons s ss ih =>
    have h1 : addStmt b s = .ok (appended b top.container [s]) := by
      rw [addStmt_unarmed b s top hi htop]; rfl
    simp only [addStmts, h1]
    rw [ih (appended b top.container [s]) hi htop, appended_cons]

/-! ### Lookups -/

theorem findVariable_isSome (l : List var.Variable) (name : String) :
    (builder.findVariable l name).isSome = true
      ↔ ∃ v ∈ l, v.getFullName = name ∨ v.getName = name := by
  simp [builder.findVariable, List.find?_isSome]

theorem findVariable_some {l : List var.Variable} {name : String} {v : var.Variable}
    (h : builder.findVariable l name = some v) :
    v ∈ l ∧ (v.getFullName = name ∨ v.getName = name) := by
  unfold builder.findVariable at h
  refine ⟨List.mem_of_find?_eq_some h, ?_⟩
  simpa using List.find?_some h

theorem findVariable_none {l : List var.Variable} {name : String} :
    builder.findVariable l name = none
      ↔ ∀ v ∈ l, ¬ (v.getFullName = name ∨ v.getName = name) := by
  simp only [builder.findVariable, List.find?_eq_none, Bool.or_eq_true, decide_eq_true_eq]

theorem findMbrVariable_some {l : List var.Variable} {outer : var.Variable} {name : String}
    {v : var.Variable} (h : builder.findMbrVariable l outer name = some v) :
    v ∈ l ∧ v.isMember = true ∧ v.getOuter = some outer.ptr
      ∧ (v.getFullName = name ∨ v.getName = name) := by
  unfold builder.findMbrVariable at h
  refine ⟨List.mem_of_find?_eq_some h, ?_⟩
  have := List.find?_some h
  simp only [Bool.and_eq_true, Bool.or_eq_true, decide_eq_true_eq] at this
  exact ⟨this.1.1, this.1.2, this.2⟩

theorem findMbrVariable_none {l : List var.Variable} {outer : var.Variable} {name : String} :
    builder.findMbrVariable l outer name = none
      ↔ ∀ v ∈ l, ¬ (v.isMember = true ∧ v.getOuter = some outer.ptr
          ∧ (v.getFullName = name ∨ v.getName = name)) := by
  simp only [builder.findMbrVariable, List.find?_eq_none, Bool.and_eq_true, Bool.or_eq_true,
    decide_eq_true_eq, and_assoc]

theorem hasVar_iff (b : ShaderBuilder) (name : String) :
    hasVar b name = true
      ↔ ∃ blk ∈ b.m_blocks, ∃ v ∈ blk.registered, v.getFullName = name ∨ v.getName = name := by
  simp only [hasVar, List.find?_isSome, List.mem_reverse, findVariable_isSome]

theorem hasVariable_imp_hasVar (b : ShaderBuilder) (name : String)
    (h : hasVariable b name = .ok true) : hasVar b name = true := by
  unfold hasVariable at h
  cases hl : b.m_blocks.getLast? with
  | none => simp [hl] at h
  | some top =>
    simp only [hl, Except.ok.injEq] at h
    rw [hasVar_iff]
    obtain ⟨v, hv, hn⟩ := (findVariable_isSome _ _).mp h
    exact ⟨top, List.mem_of_getLast?_eq_some hl, v, hv, hn⟩

/-- Right after `push` the top frame holds every variable of every frame. -/
theorem push_single_frame (b b1 : ShaderBuilder) (container : Nat) (vars : List var.Variable)
    (hpush : push b container vars = .ok b1)
    (hwf : ptrsAgree (vars ++ allRegistered b)) :
    ∃ top, b1.m_blocks.getLast? = some top
      ∧ (∀ blk ∈ b1.m_blocks, ∀ v ∈ blk.registered, v ∈ top.registered) := by
  by_cases h : b.m_blocks = []
  · have : b1 = { b with m_blocks := [{ registered := [], container := container }] } := by
      simp [push, h] at hpush
      exact hpush.symm
    subst this
    exact ⟨{ registered := [], container := container }, rfl, by simp⟩
  · obtain ⟨pre, enc, hpre⟩ := exists_dropLast_getLast h
    obtain ⟨b2, enc1, top1, h2, hb2, henc, _, _, htr⟩ := push_blocks b container vars pre enc hpre
    rw [hpush] at h2
    cases h2
    refine ⟨top1, by rw [hb2]; simp, ?_⟩
    intro blk hblk v hv
    rw [hb2] at hblk
    have hcases : blk ∈ pre ++ [enc1] ∨ blk = top1 := by
      simp only [List.mem_append, List.mem_cons, List.mem_singleton, List.not_mem_nil,
        or_false] at hblk ⊢
      tauto
    rcases hcases with hlow | htop
    · -- a frame below the top one: its variables were inserted into the top frame
      have hvin : v ∈ (pre ++ [enc1]).flatMap (fun blk => blk.registered) :=
        List.mem_flatMap.mpr ⟨blk, hlow, hv⟩
      obtain ⟨w, hw, hp⟩ := exists_ptr_insertAll _ (insertAll vars []) v hvin
      have hold : ∀ x, x ∈ (pre ++ [enc1]).flatMap (fun blk => blk.registered) →
          x ∈ allRegistered b := by
        intro x hx
        obtain ⟨k, hk, hxk⟩ := List.mem_flatMap.mp hx
        simp only [allRegistered, hpre]
        apply List.mem_flatMap.mpr
        simp only [List.mem_append, List.mem_singleton] at hk
        rcases hk with hk | hk
        · exact ⟨k, by simp [hk], hxk⟩
        · subst hk
          rw [henc] at hxk
          exact ⟨enc, by simp, mem_eraseAll _ _ hxk⟩
      have hwall : w ∈ vars ++ allRegistered b := by
        rcases mem_insertAll _ _ hw with h1 | h1
        · exact List.mem_append_right _ (hold w h1)
        · rcases mem_insertAll _ _ h1 with h3 | h3
          · exact List.mem_append_left _ h3
          · cases h3
      have hvall : v ∈ vars ++ allRegistered b := List.mem_append_right _ (hold v hvin)
      have : w = v := hwf w hwall v hvall hp
      rw [htr, ← this]; exact hw
    · subst htop
      exact hv

end ShaderBuilder
end ast

/-! ## The builder: the properties of the specification -/

namespace ast
namespace ShaderBuilder

/-- C2, as stated, fails: on a new builder the sequence `beginIf( cond )`, `addStmt( A )`,
`popScope()`, `beginElse()`, `addStmt( B )`, `popScope()`, `endIf()` does not complete.
`beginElse` opens its scope by `push`, which stages no container, so the second `popScope`
reads the last element of an empty `m_currentStmts`. -/
theorem ifElseScenario_popScope_undefined :
    ifElseScenario (Shader.empty .eFragment) (.leaf 0) (.other 1) (.other 2)
      = .error .undefinedBehaviour := by
  rfl

/-- C2, amended: with the else scope closed by `pop()`, the if/else scenario on a new builder
completes, whatever the stage, the condition and the statements `A` and `B`.  The root
container then holds exactly one statement, an If statement on `cond` whose body is exactly
`A` and whose only branch is an Else container whose body is exactly `B`; one frame is left
and the if stack and the staged containers are empty. -/
theorem ifElseScenario_closed_by_pop (stage : ShaderStage) (cond : expr.Expr)
    (A B : stmt.Stmt) :
    ∃ b ifPtr elsePtr, ifElseScenarioPop (Shader.empty stage) cond A B = .ok b
      ∧ stmtsAt b b.m_shader.statements = [.container ifPtr]
      ∧ b.m_shader.arena ifPtr
          = { kind := .eIf, ctrl := some cond, stmts := [A], branches := [elsePtr] }
      ∧ b.m_shader.arena elsePtr
          = { kind := .eElse, ctrl := none, stmts := [B], branches := [] }
      ∧ b.m_blocks.length = 1 ∧ b.m_ifStmt = [] ∧ b.m_currentStmts = [] := by
  refine ⟨_, 1, 2, rfl, ?_, ?_, ?_, ?_, ?_, ?_⟩ <;> rfl

/-- C3, as stated, fails: on a new builder, whose frame stack has depth 1, `beginIf( cond )`
followed by `endIf()` leaves a frame stack of depth 2.  `endIf` only pops the if stack. -/
theorem ifPair_depth_not_restored :
    ∃ b, ifPair (fresh .eFragment) (.leaf 0) = .ok b
      ∧ depth (fresh .eFragment) = 1 ∧ depth b = 2 :=
  ⟨_, rfl, rfl, rfl⟩

/-- C3, amended: for every builder state with at least one frame, `beginIf( cond )` followed
by `endIf()` (and `beginSwitch( value )` followed by `endSwitch()`) leaves the frame stack one
frame deeper than before the begin call; the depth is restored when the scope that the begin
call opened is closed by `popScope()` before the end call, and then the frames, the if (or
switch) stack and the staged containers are the ones from before the begin call. -/
theorem scope_balance (b : ShaderBuilder) (e : expr.Expr) (h : b.m_blocks ≠ []) :
    (∃ b2, ifPair b e = .ok b2 ∧ depth b2 = depth b + 1)
    ∧ (∃ b2, switchPair b e = .ok b2 ∧ depth b2 = depth b + 1)
    ∧ (∃ b3, ifScoped b e = .ok b3 ∧ depth b3 = depth b ∧ b3.m_blocks = b.m_blocks
        ∧ b3.m_ifStmt = b.m_ifStmt ∧ b3.m_currentStmts = b.m_currentStmts)
    ∧ (∃ b3, switchScoped b e = .ok b3 ∧ depth b3 = depth b ∧ b3.m_blocks = b.m_blocks
        ∧ b3.m_switchStmt = b.m_switchStmt ∧ b3.m_currentStmts = b.m_currentStmts) := by
  obtain ⟨top, htop⟩ := exists_getLast h
  refine ⟨?_, ?_, ?_, ?_⟩
  · simp [ifPair, beginIf, pushScope_eq, endIf, bind, Except.bind, depth]
  · simp [switchPair, beginSwitch, pushScope_eq, endSwitch, bind, Except.bind, depth]
  · by_cases hi : b.m_ignore = true
    · simp [ifScoped, beginIf, pushScope_eq, popScope, pop, addStmt, hi, endIf, bind,
        Except.bind, depth]
    · simp [ifScoped, beginIf, pushScope_eq, popScope, pop, addStmt, hi, endIf, bind,
        Except.bind, depth, getContainer, htop]
  · by_cases hi : b.m_ignore = true
    · simp [switchScoped, beginSwitch, pushScope_eq, popScope, pop, addStmt, hi, endSwitch,
        bind, Except.bind, depth]
    · simp [switchScoped, beginSwitch, pushScope_eq, popScope, pop, addStmt, hi, endSwitch,
        bind, Except.bind, depth, getContainer, htop]

/-- C3, amended, on the new builder: the pair leaves depth 2, the scoped sequence depth 1. -/
theorem scope_balance_witness :
    (fresh .eFragment).m_blocks ≠ []
      ∧ (∃ b2, ifPair (fresh .eFragment) (.leaf 0) = .ok b2
          ∧ depth b2 = depth (fresh .eFragment) + 1)
      ∧ (∃ b3, ifScoped (fresh .eFragment) (.leaf 0) = .ok b3
          ∧ depth b3 = depth (fresh .eFragment)) :=
  have h := scope_balance (fresh .eFragment) (.leaf 0) (List.cons_ne_nil _ _)
  ⟨List.cons_ne_nil _ _, h.1, h.2.2.1.imp (fun _ h3 => ⟨h3.1, h3.2.1⟩)⟩

/-- C4: one-shot capture.  In the state armed by `saveNextExpr()`, `addStmt( s )` with a simple
statement `s` leaves every container as it was, stores `s` in the saved slot and disarms the
capture; the following `addStmt( t )` appends `t` to the container of the top frame and
changes no other container. -/
theorem saveNextExpr_addStmt_captures (b : ShaderBuilder) (s t : stmt.Stmt) (top : Block)
    (hs : s.isSimple = true) (htop : b.m_blocks.getLast? = some top) :
    ∃ b1 b2, addStmt (saveNextExpr b) s = .ok b1
      ∧ b1.m_shader.arena = b.m_shader.arena
      ∧ b1.m_savedStmt = some s
      ∧ b1.m_ignore = false
      ∧ addStmt b1 t = .ok b2
      ∧ stmtsAt b2 top.container = stmtsAt b top.container ++ [t]
      ∧ (∀ p, p ≠ top.container → b2.m_shader.arena p = b.m_shader.arena p)
      ∧ b2.m_savedStmt = some s := by
  refine ⟨{ b with m_savedStmt := some s, m_ignore := false }, _,
    by simp [addStmt, saveNextExpr, hs], rfl, rfl, rfl,
    addStmt_unarmed _ t top rfl htop, ?_, ?_, ?_⟩
  · simp [stmtsAt, stmt.Arena.set, stmt.Container.addStmt]
  · intro p hp
    simp [stmt.Arena.set, hp]
  · rfl

/-- C4 on the new builder: a simple statement is captured, the next statement lands in the
root container. -/
theorem saveNextExpr_addStmt_captures_witness :
    ∃ b1 b2, addStmt (saveNextExpr (fresh .eFragment)) (.simple (.leaf 1)) = .ok b1
      ∧ b1.m_savedStmt = some (.simple (.leaf 1))
      ∧ addStmt b1 (.other 2) = .ok b2
      ∧ stmtsAt b2 0 = [.other 2] :=
  have h := saveNextExpr_addStmt_captures (fresh .eFragment) (.simple (.leaf 1)) (.other 2)
    { registered := [], container := 0 } rfl rfl
  h.imp (fun _ h1 => h1.imp (fun _ h2 => ⟨h2.1, h2.2.2.1, h2.2.2.2.2.1, h2.2.2.2.2.2.1⟩))

/-- C5: `loadExpr( placeholder )`.  When a simple statement is saved, the call returns the clone
of its expression (the same expression) and empties the saved slot, and a second `loadExpr`
right after returns its own placeholder; when nothing is saved, the call returns the
placeholder and leaves the builder disarmed with an empty saved slot. -/
theorem loadExpr_spec (b : ShaderBuilder) (placeholder second : expr.Expr) :
    (∀ saved, b.m_savedStmt = some (.simple saved) →
      ∃ b1, loadExpr b placeholder = .ok (ExprCloner.submit saved, b1)
        ∧ ExprCloner.submit saved = saved
        ∧ b1.m_savedStmt = none
        ∧ ∃ b2, loadExpr b1 second = .ok (second, b2)
          ∧ b2.m_savedStmt = none ∧ b2.m_ignore = false)
    ∧ (b.m_savedStmt = none →
      ∃ b1, loadExpr b placeholder = .ok (placeholder, b1) ∧ b1.m_ignore = false
        ∧ b1.m_savedStmt = none) := by
  constructor
  · intro saved h
    refine ⟨{ b with m_savedStmt := none }, by simp [loadExpr, h], rfl, rfl, _,
      by simp [loadExpr]; rfl, rfl, rfl⟩
  · intro h
    exact ⟨{ b with m_ignore := false }, by simp [loadExpr, h], rfl, h⟩

/-- C6: when the builder is not armed, `addStmt( s )` appends `s` to the statements of the
container of the top frame and changes no other container, and `addGlobalStmt( s )` appends
`s` to the statements of the container of the bottom frame and changes no other container,
whatever the depth. -/
theorem addStmt_addGlobalStmt_append (b : ShaderBuilder) (s : stmt.Stmt) (top front : Block)
    (hi : b.m_ignore = false) (htop : b.m_blocks.getLast? = some top)
    (hfront : b.m_blocks.head? = some front) :
    (∃ b1, addStmt b s = .ok b1
      ∧ stmtsAt b1 top.container = stmtsAt b top.container ++ [s]
      ∧ (∀ p, p ≠ top.container → b1.m_shader.arena p = b.m_shader.arena p))
    ∧ (∃ b1, addGlobalStmt b s = .ok b1
      ∧ stmtsAt b1 front.container = stmtsAt b front.container ++ [s]
      ∧ (∀ p, p ≠ front.container → b1.m_shader.arena p = b.m_shader.arena p)) := by
  constructor
  · refine ⟨_, addStmt_unarmed b s top hi htop, ?_, ?_⟩
    · simp [stmtsAt, stmt.Arena.set, stmt.Container.addStmt]
    · intro p hp
      simp [stmt.Arena.set, hp]
  · refine ⟨_, by simp [addGlobalStmt, hi, getGlobalContainer, hfront]; rfl, ?_, ?_⟩
    · simp [stmtsAt, stmt.Arena.set, stmt.Container.addStmt]
    · intro p hp
      simp [stmt.Arena.set, hp]

/-- C6 on a builder two frames deep: `addStmt` reaches the container of the inner frame,
`addGlobalStmt` the root container. -/
theorem addStmt_addGlobalStmt_append_witness :
    (∃ b1, addStmt twoFrames (.other 5) = .ok b1 ∧ stmtsAt b1 1 = stmtsAt twoFrames 1 ++ [.other 5])
    ∧ (∃ b1, addGlobalStmt twoFrames (.other 5) = .ok b1
        ∧ stmtsAt b1 0 = stmtsAt twoFrames 0 ++ [.other 5]) :=
  have h := addStmt_addGlobalStmt_append twoFrames (.other 5)
    { registered := [], container := 1 } { registered := [], container := 0 } rfl rfl rfl
  ⟨h.1.imp (fun _ h1 => ⟨h1.1, h1.2.1⟩), h.2.imp (fun _ h1 => ⟨h1.1, h1.2.1⟩)⟩

/-- C7: for every builder state with at least one frame and every list `vars`,
`push( container, vars )` succeeds and leaves the frames below the old top frame in place, the
old top frame (now the enclosing frame) without any variable of `vars`, and on top a new frame
on `container` in which every variable of `vars` is registered. -/
theorem push_moves_vars (b : ShaderBuilder) (container : Nat) (vars : List var.Variable)
    (h : b.m_blocks ≠ []) :
    ∃ b1 below enclosing top, push b container vars = .ok b1
      ∧ b1.m_blocks = below ++ [enclosing, top]
      ∧ below = b.m_blocks.dropLast
      ∧ top.container = container
      ∧ (∀ v ∈ vars, var.setContains enclosing.registered v.ptr = false)
      ∧ (∀ v ∈ vars, var.setContains top.registered v.ptr = true) := by
  obtain ⟨pre, enc, hpre⟩ := exists_dropLast_getLast h
  obtain ⟨b1, enc1, top1, h1, hb1, henc, _, htopc, htopr⟩ :=
    push_blocks b container vars pre enc hpre
  refine ⟨b1, pre, enc1, top1, h1, hb1, by simp [hpre], htopc, ?_, ?_⟩
  · intro v hv
    rw [henc]
    exact eraseAll_not_contains vars _ _ (Or.inr ⟨v, hv, rfl⟩)
  · intro v hv
    rw [var.setContains_iff, htopr]
    obtain ⟨w, hw, hp⟩ := exists_ptr_insertAll vars [] v hv
    exact ⟨w, mem_insertAll_of_mem _ _ hw, hp⟩

/-- C7 on the sample builder: the sample variable, at address 7, moves from the only frame to
the new frame on container 1. -/
theorem push_moves_vars_witness :
    ∃ b1 enclosing top, push sampleBuilder 1 [sampleVariable] = .ok b1
      ∧ b1.m_blocks = [enclosing, top]
      ∧ top.container = 1
      ∧ var.setContains enclosing.registered 7 = false
      ∧ var.setContains top.registered 7 = true := by
  obtain ⟨b1, below, enclosing, top, h1, h2, h3, h4, h5, h6⟩ :=
    push_moves_vars sampleBuilder 1 [sampleVariable] (List.cons_ne_nil _ _)
  have hbelow : below = [] := h3
  subst hbelow
  exact ⟨b1, enclosing, top, h1, h2, h4, h5 _ (List.mem_singleton_self _),
    h6 _ (List.mem_singleton_self _)⟩

/-- C8, as stated, fails: a new builder, one scope pushed, then a function `f` registered, is a
state reached through public operations in which the all-frames lookup `hasVar( "f" )` finds
the name and the top-frame lookup `hasVariable( "f" )` does not.  `registerFunction` inserts
into the bottom frame only. -/
theorem hasVariable_ne_hasVar_after_registerFunction :
    ∃ v b, functionInInnerScope = .ok (v, b)
      ∧ hasVar b "f" = true ∧ hasVariable b "f" = .ok false :=
  ⟨_, _, rfl, rfl, rfl⟩

/-- C8, amended: right after `push( container, vars )`, in a state in which an address
designates one variable, the top frame holds every variable registered in any frame and the
top-frame lookup `hasVariable( name )` answers as the all-frames lookup `hasVar( name )`; in
every state a name found by `hasVariable` is found by `hasVar`. -/
theorem single_frame_lookup_after_push (b b1 : ShaderBuilder) (container : Nat)
    (vars : List var.Variable) (name : String)
    (hpush : push b container vars = .ok b1)
    (hwf : ptrsAgree (vars ++ allRegistered b)) :
    hasVariable b1 name = .ok (hasVar b1 name)
      ∧ (∃ top, b1.m_blocks.getLast? = some top
          ∧ ∀ blk ∈ b1.m_blocks, ∀ v ∈ blk.registered, v ∈ top.registered)
      ∧ (∀ b2 : ShaderBuilder, hasVariable b2 name = .ok true → hasVar b2 name = true) := by
  obtain ⟨top, htop, hall⟩ := push_single_frame b b1 container vars hpush hwf
  refine ⟨?_, ⟨top, htop, hall⟩, fun b2 => hasVariable_imp_hasVar b2 name⟩
  simp only [hasVariable, htop, Except.ok.injEq]
  rw [Bool.eq_iff_iff, findVariable_isSome, hasVar_iff]
  constructor
  · rintro ⟨v, hv, hn⟩
    exact ⟨top, List.mem_of_getLast?_eq_some htop, v, hv, hn⟩
  · rintro ⟨blk, hblk, v, hv, hn⟩
    exact ⟨v, hall blk hblk v hv, hn⟩

/-- C8, amended, on the sample builder: after a push without variables both lookups agree on
the name `x`. -/
theorem single_frame_lookup_after_push_witness :
    ∃ b1, push sampleBuilder 1 [] = .ok b1 ∧ hasVariable b1 "x" = .ok (hasVar b1 "x") := by
  have hwf : ptrsAgree ([] ++ allRegistered sampleBuilder) := by
    intro v hv w hw hp
    simp only [allRegistered, sampleBuilder, List.nil_append, List.flatMap_cons,
      List.flatMap_nil, List.append_nil, List.mem_cons, List.mem_singleton,
      List.not_mem_nil, or_false] at hv hw
    rcases hv with rfl | rfl <;> rcases hw with rfl | rfl
    · rfl
    · exact absurd hp (by decide)
    · exact absurd hp (by decide)
    · rfl
  exact ⟨_, rfl, (single_frame_lookup_after_push sampleBuilder _ 1 [] "x" rfl hwf).1⟩

/-- C9: for every unarmed builder state and every container `c` other than the one on top,
`pushScope( c )` followed by a run of `addStmt` calls and `popScope()` succeeds, restores the
frames, their depth and the staged containers, appends the statement of `c` as the last
statement of the container that was on top, appends the added statements in order to `c` (so
that a `c` that was empty holds exactly them) and changes no other container. -/
theorem pushScope_popScope_appends (b : ShaderBuilder) (c : Nat) (ss : List stmt.Stmt)
    (top : Block) (hi : b.m_ignore = false) (htop : b.m_blocks.getLast? = some top)
    (hc : c ≠ top.container) :
    ∃ b1, scopeSequence b c ss = .ok b1
      ∧ depth b1 = depth b
      ∧ b1.m_blocks = b.m_blocks
      ∧ b1.m_currentStmts = b.m_currentStmts
      ∧ stmtsAt b1 top.container = stmtsAt b top.container ++ [.container c]
      ∧ stmtsAt b1 c = stmtsAt b c ++ ss
      ∧ (stmtsAt b c = [] → stmtsAt b1 c = ss)
      ∧ (∀ p, p ≠ c → p ≠ top.container → b1.m_shader.arena p = b.m_shader.arena p) := by
  have hrun : scopeSequence b c ss = .ok
      { appended b c ss with
        m_shader := { (appended b c ss).m_shader with
          arena := (appended b c ss).m_shader.arena.set top.container
            (((appended b c ss).m_shader.arena top.container).addStmt (.container c)) } } := by
    unfold scopeSequence
    rw [pushScope_eq]
    simp only []
    rw [addStmts_unarmed ss
      { b with
        m_blocks := b.m_blocks ++ [{ registered := inherited b.m_blocks [], container := c }]
        m_currentStmts := b.m_currentStmts ++ [c] }
      { registered := inherited b.m_blocks [], container := c } hi (by simp)]
    simp [popScope, pop, appended, addStmt, hi, getContainer, htop]
  refine ⟨_, hrun, rfl, rfl, rfl, ?_, ?_, ?_, ?_⟩
  · simp [stmtsAt, appended, stmt.Arena.set, stmt.Container.addStmt, Ne.symm hc]
  · simp [stmtsAt, appended, stmt.Arena.set, stmt.Container.addStmt, hc]
  · intro h0
    simp [stmtsAt] at h0
    simp [stmtsAt, appended, stmt.Arena.set, stmt.Container.addStmt, hc, h0]
  · intro p hp1 hp2
    simp [appended, stmt.Arena.set, hp1, hp2]

/-- C9 on the new builder: a scope on the container at address 1 with two statements. -/
theorem pushScope_popScope_appends_witness :
    ∃ b1, scopeSequence (fresh .eFragment) 1 [.other 1, .other 2] = .ok b1
      ∧ depth b1 = 1
      ∧ stmtsAt b1 0 = [.container 1]
      ∧ stmtsAt b1 1 = [.other 1, .other 2] :=
  have h := pushScope_popScope_appends (fresh .eFragment) 1 [.other 1, .other 2]
    { registered := [], container := 0 } rfl rfl (by decide)
  h.imp (fun _ h1 => ⟨h1.1, h1.2.1, h1.2.2.2.2.1, h1.2.2.2.2.2.2.1 rfl⟩)

/-- C10: lookup failure is raises-iff, for every builder state with at least one frame.
`getVar( name )` throws exactly when `hasVar( name )` is false, `getFunction( name )` throws
exactly when `hasFunction( name )` is false, and `getMemberVar( outer, name )` throws exactly
when no frame holds a member variable of `outer` whose name or full name is `name`; none of
them has another failure, and a returned variable has `name` as its name or its full name (for
`getMemberVar` it is moreover a member of `outer`). -/
theorem lookup_raises_iff (b : ShaderBuilder) (outer : var.Variable) (name : String) (h : b.m_blocks ≠ []) :
    ((∃ text, getVar b name = .error (.runtimeError text)) ↔ hasVar b name = false)
    ∧ (∀ v, getVar b name = .ok v → v.getFullName = name ∨ v.getName = name)
    ∧ getVar b name ≠ .error .undefinedBehaviour
    ∧ ((∃ text, getFunction b name = .error (.runtimeError text)) ↔ hasFunction b name = .ok false)
    ∧ (∀ v, getFunction b name = .ok v → v.getFullName = name ∨ v.getName = name)
    ∧ getFunction b name ≠ .error .undefinedBehaviour
    ∧ ((∃ text, getMemberVar b outer name = .error (.runtimeError text))
        ↔ ∀ blk ∈ b.m_blocks, ∀ v ∈ blk.registered,
            ¬ (v.isMember = true ∧ v.getOuter = some outer.ptr
              ∧ (v.getFullName = name ∨ v.getName = name)))
    ∧ (∀ v, getMemberVar b outer name = .ok v →
        v.isMember = true ∧ v.getOuter = some outer.ptr
          ∧ (v.getFullName = name ∨ v.getName = name))
    ∧ getMemberVar b outer name ≠ .error .undefinedBehaviour := by
  refine ⟨?_, ?_, ?_, ?_, ?_, ?_, ?_, ?_, ?_⟩
  · -- getVar throws iff hasVar is false
    rw [← Bool.not_eq_true, hasVar_iff]
    unfold getVar
    cases hf : b.m_blocks.reverse.findSome? (fun lookup => builder.findVariable lookup.registered name) with
    | none =>
      simp only [Except.error.injEq, Error.runtimeError.injEq, exists_eq', true_iff]
      rw [List.findSome?_eq_none_iff] at hf
      rintro ⟨blk, hblk, v, hv, hn⟩
      have := hf blk (List.mem_reverse.mpr hblk)
      exact (findVariable_none.mp this) v hv hn
    | some v =>
      simp only [reduceCtorEq, exists_false, false_iff, not_not]
      obtain ⟨blk, hblk, hfind⟩ := List.exists_of_findSome?_eq_some hf
      exact ⟨blk, List.mem_reverse.mp hblk, v, (findVariable_some hfind).1, (findVariable_some hfind).2⟩
  · intro v hv
    unfold getVar at hv
    cases hf : b.m_blocks.reverse.findSome? (fun lookup => builder.findVariable lookup.registered name) with
    | none => simp [hf] at hv
    | some w =>
      simp only [hf, Except.ok.injEq] at hv
      subst hv
      obtain ⟨blk, _, hfind⟩ := List.exists_of_findSome?_eq_some hf
      exact (findVariable_some hfind).2
  · unfold getVar
    split <;> simp
  · obtain ⟨front, rest, hb⟩ := List.exists_cons_of_ne_nil h
    unfold getFunction hasFunction
    simp only [hb, List.head?_cons]
    cases hf : builder.findVariable front.registered name <;> simp
  · intro v hv
    obtain ⟨front, rest, hb⟩ := List.exists_cons_of_ne_nil h
    unfold getFunction at hv
    simp only [hb, List.head?_cons] at hv
    cases hf : builder.findVariable front.registered name with
    | none => simp [hf] at hv
    | some w =>
      simp only [hf, Except.ok.injEq] at hv
      subst hv
      exact (findVariable_some hf).2
  · obtain ⟨front, rest, hb⟩ := List.exists_cons_of_ne_nil h
    unfold getFunction
    simp only [hb, List.head?_cons]
    split <;> simp
  · unfold getMemberVar
    cases hf : b.m_blocks.reverse.findSome?
        (fun lookup => builder.findMbrVariable lookup.registered outer name) with
    | none =>
      simp only [Except.error.injEq, Error.runtimeError.injEq, exists_eq', true_iff]
      rw [List.findSome?_eq_none_iff] at hf
      intro blk hblk
      exact findMbrVariable_none.mp (hf blk (List.mem_reverse.mpr hblk))
    | some v =>
      simp only [reduceCtorEq, exists_false, false_iff]
      obtain ⟨blk, hblk, hfind⟩ := List.exists_of_findSome?_eq_some hf
      intro hall
      have := findMbrVariable_some hfind
      exact hall blk (List.mem_reverse.mp hblk) v this.1 this.2
  · intro v hv
    unfold getMemberVar at hv
    cases hf : b.m_blocks.reverse.findSome?
        (fun lookup => builder.findMbrVariable lookup.registered outer name) with
    | none => simp [hf] at hv
    | some w =>
      simp only [hf, Except.ok.injEq] at hv
      subst hv
      obtain ⟨blk, _, hfind⟩ := List.exists_of_findSome?_eq_some hf
      exact (findMbrVariable_some hfind).2
  · unfold getMemberVar
    split <;> simp

/-- C10 on the sample builder: the name `y` is unknown, so `getVar` throws, and the lookup of
`x` returns a variable of that name. -/
theorem lookup_raises_iff_witness :
    sampleBuilder.m_blocks ≠ []
      ∧ (∃ text, getVar sampleBuilder "y" = .error (.runtimeError text))
      ∧ (∀ v, getVar sampleBuilder "x" = .ok v → v.getFullName = "x" ∨ v.getName = "x") :=
  ⟨List.cons_ne_nil _ _,
    (lookup_raises_iff sampleBuilder sampleVariable "y" (List.cons_ne_nil _ _)).1.mpr rfl,
    (lookup_raises_iff sampleBuilder sampleVariable "x" (List.cons_ne_nil _ _)).2.1⟩

end ShaderBuilder
end ast

/-! ## The type registry: growth of the registries -/

namespace spirv
namespace ModuleTypes

open ast ast.type

theorem Grows.grows_refl (s : ModuleTypes) : Grows s s :=
  ⟨MapLe.mapLe_refl _, MapLe.mapLe_refl _, MapLe.mapLe_refl _⟩

theorem Grows.grows_trans {a b c : ModuleTypes} (h1 : Grows a b) (h2 : Grows b c) : Grows a c :=
  ⟨h1.types.mapLe_trans h2.types, h1.images.mapLe_trans h2.images, h1.pointers.mapLe_trans h2.pointers⟩

/-- A state with the same three registries grows. -/
theorem Grows.grows_of_eq {s s' : ModuleTypes} (h1 : s'.m_registeredTypes = s.m_registeredTypes)
    (h2 : s'.m_registeredImageTypes = s.m_registeredImageTypes)
    (h3 : s'.m_registeredPointerTypes = s.m_registeredPointerTypes) : Grows s s' :=
  ⟨h1 ▸ MapLe.mapLe_refl _, h2 ▸ MapLe.mapLe_refl _, h3 ▸ MapLe.mapLe_refl _⟩

theorem Quiet.quiet_refl (s : ModuleTypes) : Quiet s s :=
  ⟨Grows.grows_refl s, fun _ _ => rfl⟩

theorem Quiet.quiet_trans {a b c : ModuleTypes} (h1 : Quiet a b) (h2 : Quiet b c) : Quiet a c :=
  ⟨h1.grows.grows_trans h2.grows, fun k hk => (h2.imageKeys k hk).trans (h1.imageKeys k hk)⟩

theorem Quiet.quiet_of_eq {s s' : ModuleTypes} (h1 : s'.m_registeredTypes = s.m_registeredTypes)
    (h2 : s'.m_registeredImageTypes = s.m_registeredImageTypes)
    (h3 : s'.m_registeredPointerTypes = s.m_registeredPointerTypes) : Quiet s s' :=
  ⟨Grows.grows_of_eq h1 h2 h3, fun _ _ => by rw [h1]⟩

/-- Adding a key that is no image key to the type registry is quiet. -/
theorem Quiet.quiet_emplaceType {s s' : ModuleTypes} (k : Ty) (v : TypeId)
    (hk : isImageKey k = false)
    (h1 : s'.m_registeredTypes = mapEmplace s.m_registeredTypes k v)
    (h2 : s'.m_registeredImageTypes = s.m_registeredImageTypes)
    (h3 : s'.m_registeredPointerTypes = s.m_registeredPointerTypes) : Quiet s s' := by
  refine ⟨⟨h1 ▸ MapLe.emplace _ _ _, h2 ▸ MapLe.mapLe_refl _, h3 ▸ MapLe.mapLe_refl _⟩, ?_⟩
  intro k' hk'
  rw [h1, mapFind_mapEmplace, if_neg]
  intro h
  rw [h, hk] at hk'
  cases hk'

theorem Grows.grows_emplaceType {s s' : ModuleTypes} (k : Ty) (v : TypeId)
    (h1 : s'.m_registeredTypes = mapEmplace s.m_registeredTypes k v)
    (h2 : s'.m_registeredImageTypes = s.m_registeredImageTypes)
    (h3 : s'.m_registeredPointerTypes = s.m_registeredPointerTypes) : Grows s s' :=
  ⟨h1 ▸ MapLe.emplace _ _ _, h2 ▸ MapLe.mapLe_refl _, h3 ▸ MapLe.mapLe_refl _⟩

theorem Same.same_refl (s : ModuleTypes) : Same s s := by
  cases s with
  | mk m d t i p si => cases m; rfl

theorem Same.same_trans {a b c : ModuleTypes} (h1 : Same a b) (h2 : Same b c) : Same a c := by
  unfold Same at *
  rw [h2, h1]

theorem Same.registerExecutionMode {s s' : ModuleTypes} (h : Same s s') (kind : WrapperKind)
    (params : List Nat) :
    Same s { s' with m_module := s'.m_module.registerExecutionMode kind params } := by
  unfold Same at *
  rw [h]
  rfl

theorem Same.types {s s' : ModuleTypes} (h : Same s s') :
    s'.m_registeredTypes = s.m_registeredTypes := by
  unfold Same at h; rw [h]

theorem Same.images {s s' : ModuleTypes} (h : Same s s') :
    s'.m_registeredImageTypes = s.m_registeredImageTypes := by
  unfold Same at h; rw [h]

theorem Same.pointers {s s' : ModuleTypes} (h : Same s s') :
    s'.m_registeredPointerTypes = s.m_registeredPointerTypes := by
  unfold Same at h; rw [h]

theorem Same.declarations {s s' : ModuleTypes} (h : Same s s') :
    s'.m_declarations = s.m_declarations := by
  unfold Same at h; rw [h]

theorem Same.nextId {s s' : ModuleTypes} (h : Same s s') :
    s'.m_module.nextId = s.m_module.nextId := by
  unfold Same at h; rw [h]

theorem Same.decorations {s s' : ModuleTypes} (h : Same s s') :
    s'.m_module.decorations = s.m_module.decorations
      ∧ s'.m_module.memberDecorations = s.m_module.memberDecorations := by
  unfold Same at h; rw [h]; exact ⟨rfl, rfl⟩

end ModuleTypes
end spirv

namespace spirv
namespace ModuleTypes

open ast ast.type

theorem quiet_registerPointerType (s : ModuleTypes) (type : TypeId) (storage : Nat)
    (isForward : Bool) : Quiet s (registerPointerType s type storage isForward).2 := by
  unfold registerPointerType
  dsimp only
  split
  · exact Quiet.quiet_refl s
  · split
    · exact ⟨⟨MapLe.mapLe_refl _, MapLe.mapLe_refl _, (MapLe.emplace _ _ _).mapLe_trans (MapLe.emplace _ _ _)⟩,
        fun _ _ => rfl⟩
    · exact ⟨⟨MapLe.mapLe_refl _, MapLe.mapLe_refl _, MapLe.emplace _ _ _⟩, fun _ _ => rfl⟩

theorem grows_sampler (s : ModuleTypes) (type : Ty) :
    Grows s (doRegisterBaseTypeSampler s type).2 :=
  ⟨MapLe.emplace _ _ _, MapLe.mapLe_refl _, MapLe.mapLe_refl _⟩

theorem grows_accelerationStructure (s : ModuleTypes) (type : Ty) :
    Grows s (doRegisterBaseTypeAccelerationStructure s type).2 :=
  ⟨MapLe.emplace _ _ _, MapLe.mapLe_refl _, MapLe.mapLe_refl _⟩

theorem grows_registerLiteral (r : Registrar) (hm : Registrar.Monotone r) (s : ModuleTypes)
    (value : Nat) : Grows s (registerLiteral r s value).2 := by
  unfold registerLiteral
  dsimp only
  split
  · exact Grows.grows_refl s
  · exact (hm s _ 0).grows_trans (Grows.grows_of_eq rfl rfl rfl)

theorem quiet_registerLiteral (r : Registrar) (hq : Registrar.QuietOnScalars r)
    (s : ModuleTypes) (value : Nat) : Quiet s (registerLiteral r s value).2 := by
  unfold registerLiteral
  dsimp only
  split
  · exact Quiet.quiet_refl s
  · exact (hq s .eUInt32).quiet_trans (Quiet.quiet_of_eq rfl rfl rfl)

theorem grows_kind (r : Registrar) (hm : Registrar.Monotone r) (s : ModuleTypes)
    (kind : BasicKind) : Grows s (doRegisterBaseTypeKind r s kind).2 := by
  unfold doRegisterBaseTypeKind
  have h1 : Grows s
      { s.getNextId.2 with
        m_registeredTypes := mapEmplace s.getNextId.2.m_registeredTypes (getBasicType kind)
          { id := s.getNextId.1, type := getBasicType kind } } :=
    ⟨MapLe.emplace _ _ _, MapLe.mapLe_refl _, MapLe.mapLe_refl _⟩
  dsimp only
  split
  · split
    · exact h1.grows_trans ((hm _ _ 0).grows_trans (Grows.grows_of_eq rfl rfl rfl))
    · exact h1.grows_trans ((hm _ _ 0).grows_trans (Grows.grows_of_eq rfl rfl rfl))
  · exact h1.grows_trans (Grows.grows_of_eq rfl rfl rfl)

theorem quiet_kind_scalar (r : Registrar) (s : ModuleTypes) (k : ScalarKind) :
    Quiet s (doRegisterBaseTypeKind r s (.eScalar k)).2 := by
  unfold doRegisterBaseTypeKind
  simp only [isVectorType, isMatrixType, Bool.or_self, Bool.false_eq_true, if_false]
  exact ⟨⟨MapLe.emplace _ _ _, MapLe.mapLe_refl _, MapLe.mapLe_refl _⟩, by
    intro k' hk'
    show mapFind (mapEmplace s.m_registeredTypes (getBasicType (.eScalar k)) _) k' = _
    rw [mapFind_mapEmplace, if_neg]
    intro h; rw [h] at hk'; cases hk'⟩

theorem MapLe.set_of_none {κ β : Type} [DecidableEq κ] (m m' : List (κ × β)) (k : κ) (v : β)
    (hnone : mapFind m k = none) (h : MapLe m m') : MapLe m (mapSet m' k v) := by
  intro k' w hw
  rw [mapFind_mapSet]
  by_cases hk : k' = k
  · subst hk; rw [hnone] at hw; cases hw
  · rw [if_neg hk]; exact h k' w hw

theorem grows_image (env : TypesEnv) (r : Registrar) (hm : Registrar.Monotone r)
    (s : ModuleTypes) (type : Ty) (config : ImageConfiguration) (isComparison : Trinary) :
    Grows s (doRegisterBaseTypeImage env r s type config isComparison).2 := by
  unfold doRegisterBaseTypeImage
  dsimp only
  split
  · exact Grows.grows_refl s
  · rename_i hnone
    have h0 : Grows s
        { s with m_registeredImageTypes :=
            (mapEmplace s.m_registeredImageTypes (modtyp.myHash env config isComparison)
              ⟨0, type⟩) } :=
      ⟨MapLe.mapLe_refl _, MapLe.emplace _ _ _, MapLe.mapLe_refl _⟩
    have h1 := h0.grows_trans (hm _ (getBasicType (.eScalar config.sampledType)) 0)
    exact ⟨h1.types.mapLe_trans (MapLe.emplace _ _ _),
      MapLe.set_of_none _ _ _ _ hnone h1.images, h1.pointers⟩

theorem grows_combinedImage (env : TypesEnv) (r : Registrar) (hm : Registrar.Monotone r)
    (s : ModuleTypes) (type : Ty) (config : ImageConfiguration) (isComparison : Bool) :
    Grows s (doRegisterBaseTypeCombinedImage env r s type config isComparison).2 := by
  unfold doRegisterBaseTypeCombinedImage
  exact (grows_image env r hm s _ config _).grows_trans
    ⟨MapLe.emplace _ _ _, MapLe.mapLe_refl _, MapLe.mapLe_refl _⟩

theorem grows_registerMembers (r : Registrar) (hm : Registrar.Monotone r) :
    ∀ (ms : MemberList) (s : ModuleTypes), Grows s (registerMembers r ms s).2
  | .nil, s => Grows.grows_refl s
  | .cons type _ _ _ _ arrayStride _ _ rest, s => by
    unfold registerMembers
    exact (hm s type arrayStride).grows_trans (grows_registerMembers r hm rest _)

theorem grows_struct (env : TypesEnv) (r : Registrar) (hm : Registrar.Monotone r)
    (s : ModuleTypes) (type : Ty) (layout : MemoryLayout) (ms : MemberList) :
    Grows s (doRegisterBaseTypeStruct env r s type layout ms).2 := by
  unfold doRegisterBaseTypeStruct
  dsimp only
  have h1 : Grows s (registerMembers r ms s.getNextId.2).2 :=
    (Grows.grows_of_eq rfl rfl rfl : Grows s s.getNextId.2).grows_trans (grows_registerMembers r hm ms _)
  exact ⟨h1.types.mapLe_trans (MapLe.emplace _ _ _), h1.images, h1.pointers⟩

theorem grows_doRegisterBaseType (env : TypesEnv) (r : Registrar) (hm : Registrar.Monotone r)
    (s : ModuleTypes) (type : Ty) : Grows s (doRegisterBaseType env r s type).2 := by
  unfold doRegisterBaseType
  dsimp only
  split
  · exact grows_sampler s _
  · exact grows_combinedImage env r hm s _ _ _
  · exact grows_image env r hm s _ _ _
  · exact grows_image env r hm s _ _ _
  · exact grows_accelerationStructure s _
  · exact grows_struct env r hm s _ _ _
  · exact grows_kind r hm s _
  · exact Grows.grows_refl s

theorem grows_doRegisterNonArrayType (env : TypesEnv) (r : Registrar)
    (hm : Registrar.Monotone r) (s : ModuleTypes) (type : Ty) :
    Grows s (doRegisterNonArrayType env r s type).2 := by
  unfold doRegisterNonArrayType
  dsimp only
  split
  · exact grows_doRegisterBaseType env r hm s _
  · exact Grows.grows_refl s

theorem quiet_doRegisterArrayType (env : TypesEnv) (r : Registrar)
    (hq : Registrar.QuietOnScalars r) (s : ModuleTypes) (arrayedType : Ty) (arraySize : Nat)
    (elementTypeId : TypeId) (arrayStride : Nat) :
    Quiet s (doRegisterArrayType env r s (.array arrayedType arraySize) arrayedType arraySize
      elementTypeId arrayStride).2 := by
  unfold doRegisterArrayType
  dsimp only
  have h1 : Quiet s
      { s.getNextId.2 with
        m_registeredTypes :=
          (mapEmplace s.getNextId.2.m_registeredTypes
            (modtyp.getUnqualifiedType (.array arrayedType arraySize))
            ⟨s.getNextId.1, .array arrayedType arraySize⟩) } :=
    Quiet.quiet_emplaceType (modtyp.getUnqualifiedType (.array arrayedType arraySize))
      ⟨s.getNextId.1, .array arrayedType arraySize⟩
      (by simp [modtyp.getUnqualifiedType, isImageKey]) rfl rfl rfl
  refine h1.quiet_trans (Quiet.quiet_trans ?_ (Quiet.quiet_of_eq rfl rfl rfl))
  split
  · exact (quiet_registerLiteral r hq _ _).quiet_trans (Quiet.quiet_of_eq rfl rfl rfl)
  · exact Quiet.quiet_of_eq rfl rfl rfl

theorem grows_doRegisterArrayType (env : TypesEnv) (r : Registrar)
    (hm : Registrar.Monotone r) (s : ModuleTypes) (type arrayedType : Ty) (arraySize : Nat)
    (elementTypeId : TypeId) (arrayStride : Nat) :
    Grows s (doRegisterArrayType env r s type arrayedType arraySize
      elementTypeId arrayStride).2 := by
  unfold doRegisterArrayType
  dsimp only
  have h1 : Grows s
      { s.getNextId.2 with
        m_registeredTypes :=
          (mapEmplace s.getNextId.2.m_registeredTypes (modtyp.getUnqualifiedType type)
            ⟨s.getNextId.1, type⟩) } :=
    Grows.grows_emplaceType _ _ rfl rfl rfl
  refine h1.grows_trans (Grows.grows_trans ?_ (Grows.grows_of_eq rfl rfl rfl))
  split
  · exact (grows_registerLiteral r hm _ _).grows_trans (Grows.grows_of_eq rfl rfl rfl)
  · exact Grows.grows_of_eq rfl rfl rfl

theorem grows_body (env : TypesEnv) (r : Registrar) (hm : Registrar.Monotone r)
    (s : ModuleTypes) (type : Ty) (arrayStride : Nat) :
    Grows s (doRegisterTypeRecBody env r s type arrayStride).2 := by
  unfold doRegisterTypeRecBody
  split
  · -- array
    dsimp only
    split
    · exact (hm s _ arrayStride).grows_trans (grows_doRegisterArrayType env r hm _ _ _ _ _ _)
    · exact hm s _ arrayStride
  · exact (hm s _ arrayStride).grows_trans (quiet_registerPointerType _ _ _ _).grows
  · dsimp only
    split
    · exact (hm s _ arrayStride).grows_trans (Grows.grows_of_eq rfl rfl rfl)
    · exact hm s _ arrayStride
  · exact grows_doRegisterNonArrayType env r hm s _

theorem monotone_doRegisterTypeRec (env : TypesEnv) (fuel : Nat) :
    Registrar.Monotone (doRegisterTypeRec env fuel) := by
  induction fuel with
  | zero => intro s t stride; exact Grows.grows_refl s
  | succ n ih => intro s t stride; exact grows_body env _ ih s t stride

end ModuleTypes
end spirv

namespace spirv
namespace ModuleTypes

open ast ast.type

theorem quietOnScalars_doRegisterTypeRec (env : TypesEnv) (fuel : Nat) :
    Registrar.QuietOnScalars (doRegisterTypeRec env fuel) := by
  intro s k
  cases fuel with
  | zero => exact Quiet.quiet_refl s
  | succ n =>
    show Quiet s (doRegisterTypeRecBody env _ s (getBasicType (.eScalar k)) 0).2
    unfold doRegisterTypeRecBody getBasicType
    dsimp only
    unfold doRegisterNonArrayType
    dsimp only
    split
    · simp only [modtyp.getUnqualifiedType, getBasicType, doRegisterBaseType]
      exact quiet_kind_scalar _ s k
    · exact Quiet.quiet_refl s

theorem cachedNonArray_of_quiet (env : TypesEnv) {s s' : ModuleTypes} (h : Quiet s s')
    (u : Ty) (id : TypeId) (hc : CachedNonArray env s u id) : CachedNonArray env s' u id := by
  rcases hc with hc | ⟨hnone, hc⟩
  · exact Or.inl (h.grows.types _ _ hc)
  · cases u with
    | image config =>
      exact Or.inr ⟨by rw [h.imageKeys (.image config) rfl]; exact hnone,
        h.grows.images _ _ hc⟩
    | sampledImage config depth =>
      exact Or.inr ⟨by rw [h.imageKeys (.sampledImage config depth) rfl]; exact hnone,
        h.grows.images _ _ hc⟩
    | _ => exact absurd hc (by simp)

theorem cached_of_quiet (env : TypesEnv) {s s' : ModuleTypes} (h : Quiet s s') :
    ∀ (t : Ty) (id : TypeId), Cached env s t id → Cached env s' t id
  | .array elem size, id, hc => by
    unfold Cached at hc ⊢
    obtain ⟨⟨elemId, he⟩, hf⟩ := hc
    exact ⟨⟨elemId, cached_of_quiet env h elem elemId he⟩, h.grows.types _ _ hf⟩
  | .pointer pointee storage isForward, id, hc => by
    unfold Cached at hc ⊢
    obtain ⟨raw, hp, hf⟩ := hc
    exact ⟨raw, cached_of_quiet env h pointee raw hp, h.grows.pointers _ _ hf⟩
  | .wrapper _ inner _, id, hc => by
    unfold Cached at hc ⊢
    exact cached_of_quiet env h inner id hc
  | .function _ _, _, hc => by unfold Cached at hc; exact hc.elim
  | .basic _ _, id, hc => by
    unfold Cached at hc ⊢; exact cachedNonArray_of_quiet env h _ id hc
  | .sampler _, id, hc => by
    unfold Cached at hc ⊢; exact cachedNonArray_of_quiet env h _ id hc
  | .image _, id, hc => by
    unfold Cached at hc ⊢; exact cachedNonArray_of_quiet env h _ id hc
  | .combinedImage _ _, id, hc => by
    unfold Cached at hc ⊢; exact cachedNonArray_of_quiet env h _ id hc
  | .sampledImage _ _, id, hc => by
    unfold Cached at hc ⊢; exact cachedNonArray_of_quiet env h _ id hc
  | .accelerationStructure, id, hc => by
    unfold Cached at hc ⊢; exact cachedNonArray_of_quiet env h _ id hc
  | .struct _ _ _ _ _, id, hc => by
    unfold Cached at hc ⊢; exact cachedNonArray_of_quiet env h _ id hc

theorem mapFind_emplace_getD {κ β : Type} [DecidableEq κ] (m : List (κ × β)) (k : κ) (v : β) :
    mapFind (mapEmplace m k v) k = some ((mapFind (mapEmplace m k v) k).getD v) := by
  rw [mapFind_mapEmplace, if_pos rfl]
  rfl

theorem find_kind (r : Registrar) (hm : Registrar.Monotone r) (s : ModuleTypes)
    (kind : BasicKind) :
    mapFind (doRegisterBaseTypeKind r s kind).2.m_registeredTypes (getBasicType kind)
      = some (doRegisterBaseTypeKind r s kind).1 := by
  unfold doRegisterBaseTypeKind
  dsimp only
  have h1 := mapFind_emplace_getD s.m_registeredTypes (getBasicType kind)
    { id := s.getNextId.1, type := getBasicType kind }
  split
  · split
    · exact (hm _ _ 0).types _ _ h1
    · exact (hm _ _ 0).types _ _ h1
  · exact h1

theorem find_sampler (s : ModuleTypes) (type : Ty) :
    mapFind (doRegisterBaseTypeSampler s type).2.m_registeredTypes type
      = some (doRegisterBaseTypeSampler s type).1 :=
  mapFind_emplace_getD _ _ _

theorem find_accelerationStructure (s : ModuleTypes) (type : Ty) :
    mapFind (doRegisterBaseTypeAccelerationStructure s type).2.m_registeredTypes type
      = some (doRegisterBaseTypeAccelerationStructure s type).1 :=
  mapFind_emplace_getD _ _ _

theorem find_combinedImage (env : TypesEnv) (r : Registrar) (s : ModuleTypes) (type : Ty)
    (config : ImageConfiguration) (isComparison : Bool) :
    mapFind (doRegisterBaseTypeCombinedImage env r s type config isComparison).2.m_registeredTypes
        type
      = some (doRegisterBaseTypeCombinedImage env r s type config isComparison).1 :=
  mapFind_emplace_getD _ _ _

theorem find_struct (env : TypesEnv) (r : Registrar) (s : ModuleTypes) (type : Ty)
    (layout : MemoryLayout) (ms : MemberList) :
    mapFind (doRegisterBaseTypeStruct env r s type layout ms).2.m_registeredTypes type
      = some (doRegisterBaseTypeStruct env r s type layout ms).1 :=
  mapFind_emplace_getD _ _ _

/-- After the registration of an image type both registries serve it. -/
theorem find_image (env : TypesEnv) (r : Registrar) (hm : Registrar.Monotone r)
    (s : ModuleTypes) (type : Ty) (config : ImageConfiguration) (isComparison : Trinary) :
    mapFind (doRegisterBaseTypeImage env r s type config isComparison).2.m_registeredImageTypes
        (modtyp.myHash env config isComparison)
      = some (doRegisterBaseTypeImage env r s type config isComparison).1 := by
  unfold doRegisterBaseTypeImage
  dsimp only
  split
  · rename_i found hf; exact hf
  · rename_i hnone
    rw [mapFind_mapSet, if_pos rfl]
    have h0 : mapFind (mapEmplace s.m_registeredImageTypes (modtyp.myHash env config isComparison)
        ({ id := 0, type := type } : TypeId)) (modtyp.myHash env config isComparison)
        = some { id := 0, type := type } := by
      rw [mapFind_mapEmplace, if_pos rfl, hnone]; rfl
    have h1 := (hm { s with m_registeredImageTypes :=
      (mapEmplace s.m_registeredImageTypes (modtyp.myHash env config isComparison)
        ⟨0, type⟩) } (getBasicType (.eScalar config.sampledType)) 0).images _ _ h0
    show Option.map _ (mapFind (r _ _ 0).2.m_registeredImageTypes _) = _
    rw [h1]
    rfl

/-- A first registration of an image type enters it in the type registry. -/
theorem find_image_type (env : TypesEnv) (r : Registrar) (s : ModuleTypes) (type : Ty)
    (config : ImageConfiguration) (isComparison : Trinary)
    (hnone : mapFind s.m_registeredImageTypes (modtyp.myHash env config isComparison) = none) :
    mapFind (doRegisterBaseTypeImage env r s type config isComparison).2.m_registeredTypes type
      = some (doRegisterBaseTypeImage env r s type config isComparison).1 := by
  unfold doRegisterBaseTypeImage
  dsimp only
  rw [hnone]
  exact mapFind_emplace_getD _ _ _

/-- The registration of an image type is quiet on the keys other than the image type. -/
theorem find_image_other (env : TypesEnv) (r : Registrar) (hq : Registrar.QuietOnScalars r)
    (s : ModuleTypes) (type : Ty) (config : ImageConfiguration) (isComparison : Trinary)
    (k : Ty) (hk : isImageKey k = true) (hne : k ≠ type) :
    mapFind (doRegisterBaseTypeImage env r s type config isComparison).2.m_registeredTypes k
      = mapFind s.m_registeredTypes k := by
  unfold doRegisterBaseTypeImage
  dsimp only
  split
  · rfl
  · show mapFind (mapEmplace (r _ _ 0).2.m_registeredTypes type _) k = _
    rw [mapFind_mapEmplace, if_neg hne]
    exact (hq _ config.sampledType).imageKeys k hk

theorem find_registerPointerType (s : ModuleTypes) (type : TypeId) (storage : Nat)
    (isForward : Bool) :
    mapFind (registerPointerType s type storage isForward).2.m_registeredPointerTypes
        (pointerKey type storage isForward)
      = some (registerPointerType s type storage isForward).1 := by
  unfold registerPointerType
  dsimp only
  split
  · rename_i found hf; exact hf
  · rename_i hnone
    have h1 : mapFind (mapEmplace s.m_registeredPointerTypes (pointerKey type storage isForward)
        ({ id := s.getNextId.1, type := .pointer type.type storage false } : TypeId))
        (pointerKey type storage isForward)
        = some { id := s.getNextId.1, type := .pointer type.type storage false } := by
      rw [mapFind_mapEmplace, if_pos rfl, hnone]; rfl
    split
    · exact MapLe.emplace _ _ _ _ _ h1
    · exact h1

theorem find_doRegisterArrayType (env : TypesEnv) (r : Registrar) (hm : Registrar.Monotone r)
    (s : ModuleTypes) (type arrayedType : Ty) (arraySize : Nat) (elementTypeId : TypeId)
    (arrayStride : Nat) :
    mapFind (doRegisterArrayType env r s type arrayedType arraySize elementTypeId
        arrayStride).2.m_registeredTypes (modtyp.getUnqualifiedType type)
      = some (doRegisterArrayType env r s type arrayedType arraySize elementTypeId
        arrayStride).1 := by
  unfold doRegisterArrayType
  dsimp only
  have h1 := mapFind_emplace_getD s.m_registeredTypes (modtyp.getUnqualifiedType type)
    { id := s.getNextId.1, type := type }
  split
  · exact (grows_registerLiteral r hm _ _).types _ _ h1
  · exact h1

theorem Ty.size_pos : ∀ t : Ty, 0 < t.size
  | .basic (.eMat _ _ _) _ => by simp [Ty.size]
  | .basic (.eVec _ _) _ => by simp [Ty.size]
  | .basic (.eScalar _) _ => by simp [Ty.size]
  | .basic .eVoid _ => by simp [Ty.size]
  | .array _ _ => by simp [Ty.size]
  | .pointer _ _ _ => by simp [Ty.size]
  | .sampler _ => by simp [Ty.size]
  | .image _ => by simp [Ty.size]
  | .combinedImage _ _ => by simp [Ty.size]
  | .sampledImage _ _ => by simp [Ty.size]
  | .accelerationStructure => by simp [Ty.size]
  | .struct _ _ _ _ _ => by simp [Ty.size]
  | .function _ _ => by simp [Ty.size]
  | .wrapper _ _ _ => by simp [Ty.size]

end ModuleTypes
end spirv

namespace spirv
namespace ModuleTypes

open ast ast.type

/-- A type that is no array, pointer, wrapper or function is served from the registries after
`doRegisterNonArrayType`. -/
theorem cachedNonArray_doRegisterNonArrayType (env : TypesEnv) (r : Registrar)
    (hm : Registrar.Monotone r) (hq : Registrar.QuietOnScalars r) (s : ModuleTypes) (u : Ty)
    (hu : (∃ k, u = .basic k false) ∨ (∃ c, u = .sampler c) ∨ (∃ c, u = .image c)
      ∨ (∃ c d, u = .combinedImage c d) ∨ (∃ c d, u = .sampledImage c d)
      ∨ u = .accelerationStructure ∨ (∃ a l n f ms, u = .struct a l n f ms))
    (t : Ty) (ht : modtyp.getUnqualifiedType t = u) :
    CachedNonArray env (doRegisterNonArrayType env r s t).2 u
      (doRegisterNonArrayType env r s t).1 := by
  unfold doRegisterNonArrayType
  dsimp only
  rw [ht]
  split
  · rename_i hnone
    rcases hu with ⟨k, rfl⟩ | ⟨c, rfl⟩ | ⟨c, rfl⟩ | ⟨c, d, rfl⟩ | ⟨c, d, rfl⟩ | rfl
      | ⟨a, l, n, f, ms, rfl⟩
    · exact Or.inl (find_kind r hm s k)
    · exact Or.inl (find_sampler s _)
    · -- image
      show CachedNonArray env (doRegisterBaseTypeImage env r s (.image c) c .eFalse).2 _
        (doRegisterBaseTypeImage env r s (.image c) c .eFalse).1
      cases hh : mapFind s.m_registeredImageTypes (modtyp.myHash env c .eFalse) with
      | none => exact Or.inl (find_image_type env r s _ c _ hh)
      | some found =>
        have hs : doRegisterBaseTypeImage env r s (.image c) c .eFalse = (found, s) := by
          unfold doRegisterBaseTypeImage; dsimp only; rw [hh]
        rw [hs]
        exact Or.inr ⟨hnone, hh⟩
    · exact Or.inl (find_combinedImage env r s _ c d)
    · -- sampled image
      show CachedNonArray env (doRegisterBaseTypeImage env r s (.image c) c d).2 _
        (doRegisterBaseTypeImage env r s (.image c) c d).1
      refine Or.inr ⟨?_, find_image env r hm s _ c d⟩
      rw [find_image_other env r hq s (.image c) c d (.sampledImage c d) rfl (by simp)]
      exact hnone
    · exact Or.inl (find_accelerationStructure s _)
    · exact Or.inl (find_struct env r s _ l ms)
  · rename_i found hf
    exact Or.inl hf

/-- **Registration fills the registries.**  After `doRegisterTypeRec` with enough fuel the type
is served from the registries, with the id that was returned. -/
theorem cached_doRegisterTypeRec (env : TypesEnv) :
    ∀ (fuel : Nat) (s : ModuleTypes) (t : Ty) (stride : Nat),
      t.registrable = true → t.size ≤ fuel →
      Cached env (doRegisterTypeRec env fuel s t stride).2 t
        (doRegisterTypeRec env fuel s t stride).1 := by
  intro fuel
  induction fuel with
  | zero =>
    intro s t stride _ hsize
    exact absurd (Ty.size_pos t) (by omega)
  | succ n ih =>
    intro s t stride hreg hsize
    have hm := monotone_doRegisterTypeRec env n
    have hq := quietOnScalars_doRegisterTypeRec env n
    show Cached env (doRegisterTypeRecBody env (doRegisterTypeRec env n) s t stride).2 t
      (doRegisterTypeRecBody env (doRegisterTypeRec env n) s t stride).1
    cases t with
    | array elem size =>
      have hreg' : elem.registrable = true := by simpa [Ty.registrable] using hreg
      have hsize' : elem.size ≤ n := by simp [Ty.size] at hsize; omega
      have he := ih s elem stride hreg' hsize'
      unfold doRegisterTypeRecBody
      dsimp only
      split
      · unfold Cached
        exact ⟨⟨_, cached_of_quiet env (quiet_doRegisterArrayType env _ hq _ elem size _ stride)
          elem _ he⟩, find_doRegisterArrayType env _ hm _ _ _ _ _ _⟩
      · rename_i found hf
        unfold Cached
        exact ⟨⟨_, he⟩, hf⟩
    | pointer pointee storage isForward =>
      have hreg' : pointee.registrable = true := by simpa [Ty.registrable] using hreg
      have hsize' : pointee.size ≤ n := by simp [Ty.size] at hsize; omega
      have hp := ih s pointee stride hreg' hsize'
      unfold doRegisterTypeRecBody
      dsimp only
      unfold Cached
      exact ⟨_, cached_of_quiet env (quiet_registerPointerType _ _ _ _) pointee _ hp,
        find_registerPointerType _ _ _ _⟩
    | wrapper kind inner params =>
      have hreg' : inner.registrable = true := by simpa [Ty.registrable] using hreg
      have hsize' : inner.size ≤ n := by simp [Ty.size] at hsize; omega
      have hi := ih s inner stride hreg' hsize'
      unfold doRegisterTypeRecBody
      dsimp only
      unfold Cached
      split
      · have hq' : Quiet (doRegisterTypeRec env n s inner stride).2
            { (doRegisterTypeRec env n s inner stride).2 with
              m_module :=
                ((doRegisterTypeRec env n s inner stride).2.m_module.registerExecutionMode
                  kind params) } :=
          Quiet.quiet_of_eq rfl rfl rfl
        exact cached_of_quiet env hq' inner _ hi
      · exact hi
    | function ret params => simp [Ty.registrable] at hreg
    | basic kind isMember =>
      unfold Cached
      exact cachedNonArray_doRegisterNonArrayType env _ hm hq s _ (Or.inl ⟨kind, rfl⟩) _ rfl
    | sampler c =>
      unfold Cached
      exact cachedNonArray_doRegisterNonArrayType env _ hm hq s _
        (Or.inr (Or.inl ⟨c, rfl⟩)) _ rfl
    | image c =>
      unfold Cached
      exact cachedNonArray_doRegisterNonArrayType env _ hm hq s _
        (Or.inr (Or.inr (Or.inl ⟨_, rfl⟩))) _ rfl
    | combinedImage c d =>
      unfold Cached
      exact cachedNonArray_doRegisterNonArrayType env _ hm hq s _
        (Or.inr (Or.inr (Or.inr (Or.inl ⟨_, d, rfl⟩)))) _ rfl
    | sampledImage c d =>
      unfold Cached
      exact cachedNonArray_doRegisterNonArrayType env _ hm hq s _
        (Or.inr (Or.inr (Or.inr (Or.inr (Or.inl ⟨_, d, rfl⟩))))) _ rfl
    | accelerationStructure =>
      unfold Cached
      exact cachedNonArray_doRegisterNonArrayType env _ hm hq s _
        (Or.inr (Or.inr (Or.inr (Or.inr (Or.inr (Or.inl rfl)))))) _ rfl
    | struct a l name f ms =>
      unfold Cached
      cases f with
      | eNone =>
        exact cachedNonArray_doRegisterNonArrayType env _ hm hq s _
          (Or.inr (Or.inr (Or.inr (Or.inr (Or.inr (Or.inr ⟨a, l, name, .eNone, ms, rfl⟩))))))
          _ rfl
      | eShaderInput =>
        exact cachedNonArray_doRegisterNonArrayType env _ hm hq s _
          (Or.inr (Or.inr (Or.inr (Or.inr (Or.inr (Or.inr ⟨a, l, name, .eNone,
            modtyp.getUnqualifiedMembers ms, rfl⟩)))))) _ rfl
      | eShaderOutput =>
        exact cachedNonArray_doRegisterNonArrayType env _ hm hq s _
          (Or.inr (Or.inr (Or.inr (Or.inr (Or.inr (Or.inr ⟨a, l, name, .eNone,
            modtyp.getUnqualifiedMembers ms, rfl⟩)))))) _ rfl

end ModuleTypes
end spirv

namespace spirv
namespace ModuleTypes

open ast ast.type

theorem doRegisterNonArrayType_of_cached (env : TypesEnv) (r : Registrar) (s : ModuleTypes)
    (t : Ty) (id : TypeId) (h : CachedNonArray env s (modtyp.getUnqualifiedType t) id) :
    doRegisterNonArrayType env r s t = (id, s) := by
  unfold doRegisterNonArrayType
  dsimp only
  rcases h with h | ⟨hnone, h⟩
  · rw [h]
  · rw [hnone]
    dsimp only
    generalize modtyp.getUnqualifiedType t = u at h
    cases u with
    | image c =>
      show doRegisterBaseTypeImage env r s (.image c) c .eFalse = _
      unfold doRegisterBaseTypeImage
      dsimp only at h ⊢
      rw [h]
    | sampledImage c d =>
      show doRegisterBaseTypeImage env r s (.image c) c d = _
      unfold doRegisterBaseTypeImage
      dsimp only at h ⊢
      rw [h]
    | _ => exact absurd h (by simp)

/-- **A cached type is registered by lookups only.**  With enough fuel, the registration of a
type that the registries serve returns the cached id and changes nothing but, for a stage
wrapper, the execution modes of the module. -/
theorem doRegisterTypeRec_of_cached (env : TypesEnv) :
    ∀ (fuel : Nat) (s : ModuleTypes) (t : Ty) (stride : Nat) (id : TypeId),
      Cached env s t id → t.size ≤ fuel →
      ∃ s', doRegisterTypeRec env fuel s t stride = (id, s') ∧ Same s s' := by
  intro fuel
  induction fuel with
  | zero =>
    intro s t stride id _ hsize
    exact absurd (Ty.size_pos t) (by omega)
  | succ n ih =>
    intro s t stride id hc hsize
    show ∃ s', doRegisterTypeRecBody env (doRegisterTypeRec env n) s t stride = (id, s') ∧ _
    cases t with
    | array elem size =>
      unfold Cached at hc
      obtain ⟨⟨elemId, he⟩, hf⟩ := hc
      have hsize' : elem.size ≤ n := by simp [Ty.size] at hsize; omega
      obtain ⟨s1, h1, hs1⟩ := ih s elem stride elemId he hsize'
      refine ⟨s1, ?_, hs1⟩
      unfold doRegisterTypeRecBody
      dsimp only
      rw [h1]
      dsimp only
      rw [hs1.types, hf]
    | pointer pointee storage isForward =>
      unfold Cached at hc
      obtain ⟨raw, hp, hf⟩ := hc
      have hsize' : pointee.size ≤ n := by simp [Ty.size] at hsize; omega
      obtain ⟨s1, h1, hs1⟩ := ih s pointee stride raw hp hsize'
      refine ⟨s1, ?_, hs1⟩
      unfold doRegisterTypeRecBody
      dsimp only
      rw [h1]
      unfold registerPointerType
      dsimp only
      rw [hs1.pointers, hf]
    | wrapper kind inner params =>
      unfold Cached at hc
      have hsize' : inner.size ≤ n := by simp [Ty.size] at hsize; omega
      obtain ⟨s1, h1, hs1⟩ := ih s inner stride id hc hsize'
      unfold doRegisterTypeRecBody
      dsimp only
      rw [h1]
      split
      · exact ⟨_, rfl, hs1.registerExecutionMode kind params⟩
      · exact ⟨s1, rfl, hs1⟩
    | function ret params => unfold Cached at hc; exact hc.elim
    | basic kind isMember =>
      unfold Cached at hc
      exact ⟨s, doRegisterNonArrayType_of_cached env _ s _ id hc, Same.same_refl s⟩
    | sampler c =>
      unfold Cached at hc
      exact ⟨s, doRegisterNonArrayType_of_cached env _ s _ id hc, Same.same_refl s⟩
    | image c =>
      unfold Cached at hc
      exact ⟨s, doRegisterNonArrayType_of_cached env _ s _ id hc, Same.same_refl s⟩
    | combinedImage c d =>
      unfold Cached at hc
      exact ⟨s, doRegisterNonArrayType_of_cached env _ s _ id hc, Same.same_refl s⟩
    | sampledImage c d =>
      unfold Cached at hc
      exact ⟨s, doRegisterNonArrayType_of_cached env _ s _ id hc, Same.same_refl s⟩
    | accelerationStructure =>
      unfold Cached at hc
      exact ⟨s, doRegisterNonArrayType_of_cached env _ s _ id hc, Same.same_refl s⟩
    | struct a l name f ms =>
      unfold Cached at hc
      exact ⟨s, doRegisterNonArrayType_of_cached env _ s _ id hc, Same.same_refl s⟩

theorem getUnqualifiedType_struct (a : Bool) (l : MemoryLayout) (n : String) (f : StructFlag)
    (ms : MemberList) :
    ∃ ms', modtyp.getUnqualifiedType (.struct a l n f ms) = .struct a l n .eNone ms' := by
  cases f
  · exact ⟨ms, rfl⟩
  · exact ⟨_, rfl⟩
  · exact ⟨_, rfl⟩

/-- **Types with the same unqualified type are served alike.** -/
theorem cached_of_unqualified_eq (env : TypesEnv) (s : ModuleTypes) :
    ∀ (t t' : Ty) (id : TypeId),
      modtyp.getUnqualifiedType t' = modtyp.getUnqualifiedType t → t'.registrable = true →
      Cached env s t id → Cached env s t' id
  | .array elem size, t', id, h, hr, hc => by
    cases t' with
    | array elem' size' =>
      simp only [modtyp.getUnqualifiedType, Ty.array.injEq] at h
      unfold Cached at hc ⊢
      obtain ⟨⟨elemId, he⟩, hf⟩ := hc
      have hr' : elem'.registrable = true := by simpa [Ty.registrable] using hr
      refine ⟨⟨elemId, cached_of_unqualified_eq env s elem elem' elemId h.1 hr' he⟩, ?_⟩
      simp only [modtyp.getUnqualifiedType, h.1, h.2]
      simpa only [modtyp.getUnqualifiedType] using hf
    | struct a l n f ms =>
      obtain ⟨ms', hms⟩ := getUnqualifiedType_struct a l n f ms
      rw [hms] at h; simp [modtyp.getUnqualifiedType] at h
    | _ => simp [modtyp.getUnqualifiedType, getBasicType] at h
  | .pointer pointee storage isForward, t', id, h, _, hc => by
    cases t' with
    | pointer p' s' f' =>
      simp only [modtyp.getUnqualifiedType] at h
      rw [h]; exact hc
    | struct a l n f ms =>
      obtain ⟨ms', hms⟩ := getUnqualifiedType_struct a l n f ms
      rw [hms] at h; simp [modtyp.getUnqualifiedType] at h
    | _ => simp [modtyp.getUnqualifiedType, getBasicType] at h
  | .wrapper kind inner params, t', id, h, _, hc => by
    cases t' with
    | wrapper k' i' p' =>
      simp only [modtyp.getUnqualifiedType] at h
      rw [h]; exact hc
    | struct a l n f ms =>
      obtain ⟨ms', hms⟩ := getUnqualifiedType_struct a l n f ms
      rw [hms] at h; simp [modtyp.getUnqualifiedType] at h
    | _ => simp [modtyp.getUnqualifiedType, getBasicType] at h
  | .function _ _, _, _, _, _, hc => by unfold Cached at hc; exact hc.elim
  | .basic kind isMember, t', id, h, hr, hc => by
    unfold Cached at hc
    rw [← h] at hc
    cases t' with
    | struct a l n f ms => unfold Cached; exact hc
    | function _ _ => simp [Ty.registrable] at hr
    | array _ _ => simp [modtyp.getUnqualifiedType, getBasicType] at h
    | pointer _ _ _ => simp [modtyp.getUnqualifiedType, getBasicType] at h
    | wrapper _ _ _ => simp [modtyp.getUnqualifiedType, getBasicType] at h
    | _ => unfold Cached; exact hc
  | .sampler c, t', id, h, hr, hc => by
    unfold Cached at hc
    rw [← h] at hc
    cases t' with
    | struct a l n f ms => unfold Cached; exact hc
    | function _ _ => simp [Ty.registrable] at hr
    | array _ _ => simp [modtyp.getUnqualifiedType, getBasicType] at h
    | pointer _ _ _ => simp [modtyp.getUnqualifiedType, getBasicType] at h
    | wrapper _ _ _ => simp [modtyp.getUnqualifiedType, getBasicType] at h
    | _ => unfold Cached; exact hc
  | .image c, t', id, h, hr, hc => by
    unfold Cached at hc
    rw [← h] at hc
    cases t' with
    | struct a l n f ms => unfold Cached; exact hc
    | function _ _ => simp [Ty.registrable] at hr
    | array _ _ => simp [modtyp.getUnqualifiedType, getBasicType] at h
    | pointer _ _ _ => simp [modtyp.getUnqualifiedType, getBasicType] at h
    | wrapper _ _ _ => simp [modtyp.getUnqualifiedType, getBasicType] at h
    | _ => unfold Cached; exact hc
  | .combinedImage c d, t', id, h, hr, hc => by
    unfold Cached at hc
    rw [← h] at hc
    cases t' with
    | struct a l n f ms => unfold Cached; exact hc
    | function _ _ => simp [Ty.registrable] at hr
    | array _ _ => simp [modtyp.getUnqualifiedType, getBasicType] at h
    | pointer _ _ _ => simp [modtyp.getUnqualifiedType, getBasicType] at h
    | wrapper _ _ _ => simp [modtyp.getUnqualifiedType, getBasicType] at h
    | _ => unfold Cached; exact hc
  | .sampledImage c d, t', id, h, hr, hc => by
    unfold Cached at hc
    rw [← h] at hc
    cases t' with
    | struct a l n f ms => unfold Cached; exact hc
    | function _ _ => simp [Ty.registrable] at hr
    | array _ _ => simp [modtyp.getUnqualifiedType, getBasicType] at h
    | pointer _ _ _ => simp [modtyp.getUnqualifiedType, getBasicType] at h
    | wrapper _ _ _ => simp [modtyp.getUnqualifiedType, getBasicType] at h
    | _ => unfold Cached; exact hc
  | .accelerationStructure, t', id, h, hr, hc => by
    unfold Cached at hc
    rw [← h] at hc
    cases t' with
    | struct a l n f ms => unfold Cached; exact hc
    | function _ _ => simp [Ty.registrable] at hr
    | array _ _ => simp [modtyp.getUnqualifiedType, getBasicType] at h
    | pointer _ _ _ => simp [modtyp.getUnqualifiedType, getBasicType] at h
    | wrapper _ _ _ => simp [modtyp.getUnqualifiedType, getBasicType] at h
    | _ => unfold Cached; exact hc
  | .struct a l n f ms, t', id, h, hr, hc => by
    unfold Cached at hc
    rw [← h] at hc
    obtain ⟨ms', hms⟩ := getUnqualifiedType_struct a l n f ms
    rw [hms] at h
    cases t' with
    | struct a l n f ms => unfold Cached; exact hc
    | function _ _ => simp [Ty.registrable] at hr
    | array _ _ => simp [modtyp.getUnqualifiedType, getBasicType] at h
    | pointer _ _ _ => simp [modtyp.getUnqualifiedType, getBasicType] at h
    | wrapper _ _ _ => simp [modtyp.getUnqualifiedType, getBasicType] at h
    | _ => unfold Cached; exact hc

end ModuleTypes
end spirv

namespace spirv
namespace ModuleTypes

open ast ast.type

/-- C1: `registerType` is idempotent per unqualified type.  For every registry state `s` and all
types `T` and `T'` with the same unqualified type (in which no function type occurs), the
registration of `T'` after the one of `T` returns the `TypeId` that the registration of `T`
returned, appends no instruction to the declarations, and leaves the four registries, the id
counter and the decorations of the module as they were. -/
theorem registerType_idempotent (env : TypesEnv) (s : ModuleTypes) (T T' : Ty)
    (hT : T.registrable = true) (hT' : T'.registrable = true)
    (h : modtyp.getUnqualifiedType T' = modtyp.getUnqualifiedType T) :
    (registerType env (registerType env s T).2 T').1 = (registerType env s T).1
      ∧ (registerType env (registerType env s T).2 T').2.m_declarations
          = (registerType env s T).2.m_declarations
      ∧ (registerType env (registerType env s T).2 T').2.m_registeredTypes
          = (registerType env s T).2.m_registeredTypes
      ∧ (registerType env (registerType env s T).2 T').2.m_registeredImageTypes
          = (registerType env s T).2.m_registeredImageTypes
      ∧ (registerType env (registerType env s T).2 T').2.m_registeredPointerTypes
          = (registerType env s T).2.m_registeredPointerTypes
      ∧ (registerType env (registerType env s T).2 T').2.m_registeredSamplerImages
          = (registerType env s T).2.m_registeredSamplerImages
      ∧ (registerType env (registerType env s T).2 T').2.m_module.nextId
          = (registerType env s T).2.m_module.nextId
      ∧ (registerType env (registerType env s T).2 T').2.m_module.decorations
          = (registerType env s T).2.m_module.decorations
      ∧ (registerType env (registerType env s T).2 T').2.m_module.memberDecorations
          = (registerType env s T).2.m_module.memberDecorations := by
  have h1 : Cached env (registerType env s T).2 T (registerType env s T).1 :=
    cached_doRegisterTypeRec env T.size s T 0 hT (Nat.le_refl _)
  have h2 : Cached env (registerType env s T).2 T' (registerType env s T).1 :=
    cached_of_unqualified_eq env _ T T' _ h hT' h1
  obtain ⟨s', hs', hsame⟩ :=
    doRegisterTypeRec_of_cached env T'.size (registerType env s T).2 T' 0 _ h2 (Nat.le_refl _)
  have hreg : registerType env (registerType env s T).2 T' = ((registerType env s T).1, s') := hs'
  rw [hreg]
  unfold Same at hsame
  refine ⟨rfl, ?_, ?_, ?_, ?_, ?_, ?_, ?_, ?_⟩ <;> rw [hsame]

/-- C1, a closed instance: the sample structure registered as a shader input and then as a
shader output, in the empty registry. -/
theorem registerType_idempotent_witness :
    (registerType TypesEnv.sample (registerType TypesEnv.sample (empty 0) sampleStruct).2
        sampleStructOutput).1
      = (registerType TypesEnv.sample (empty 0) sampleStruct).1
    ∧ (registerType TypesEnv.sample (registerType TypesEnv.sample (empty 0) sampleStruct).2
        sampleStructOutput).2.m_declarations
      = (registerType TypesEnv.sample (empty 0) sampleStruct).2.m_declarations :=
  have h := registerType_idempotent TypesEnv.sample (empty 0) sampleStruct sampleStructOutput
    (by decide) (by decide) (by decide)
  ⟨h.1, h.2.1⟩

end ModuleTypes
end spirv

/-! ## The builder: lemmas on the registration operations -/

namespace ast
namespace ShaderBuilder

theorem registerVariable_ok (b : ShaderBuilder) (v : var.Variable) (top : Block)
    (htop : b.m_blocks.getLast? = some top) :
    ∃ tcp, registerVariable b v
      = .ok { b with
          m_blocks :=
            b.m_blocks.dropLast ++ [{ top with registered := var.setInsert v top.registered }]
          m_shader :=
            { b.m_shader with
              vars := b.m_shader.vars ++ [(b.m_blocks.length, v)]
              data := { b.m_shader.data with tessellationControlPoints := tcp } } } := by
  unfold registerVariable
  simp only [htop]
  by_cases h : v.type.getRawKind = .eWrapper .eTessellationControlInput
  · exact ⟨v.type.getInputVertices, by simp [h, Shader.registerVar]⟩
  · exact ⟨b.m_shader.data.tessellationControlPoints, by simp [h, Shader.registerVar]⟩

theorem registerVariable_isOk (b : ShaderBuilder) (v : var.Variable) (b1 : ShaderBuilder)
    (h : registerVariable b v = .ok b1) : ∃ top, b.m_blocks.getLast? = some top := by
  unfold registerVariable at h
  cases hl : b.m_blocks.getLast? with
  | none => simp [hl] at h
  | some top => exact ⟨top, rfl⟩

theorem registerName_ok (b : ShaderBuilder) (ptr : Nat) (name : String)
    (type : ast.type.TypePtr) (flags : Finset var.Flag) (top : Block)
    (htop : b.m_blocks.getLast? = some top) :
    ∃ tcp, registerName b ptr name type flags
      = .ok (var.makeVariable ptr ((b.m_shader.data.nextVarId + 1) % 2 ^ 32) type name flags,
          { b with
            m_blocks :=
              b.m_blocks.dropLast
                ++ [{ top with
                      registered :=
                        var.setInsert
                          (var.makeVariable ptr ((b.m_shader.data.nextVarId + 1) % 2 ^ 32) type
                            name flags)
                          top.registered }]
            m_shader :=
              { b.m_shader with
                vars :=
                  b.m_shader.vars
                    ++ [(b.m_blocks.length,
                        var.makeVariable ptr ((b.m_shader.data.nextVarId + 1) % 2 ^ 32) type name
                          flags)]
                data :=
                  { b.m_shader.data with
                    nextVarId := (b.m_shader.data.nextVarId + 1) % 2 ^ 32
                    tessellationControlPoints := tcp } } }) := by
  obtain ⟨tcp, h⟩ := registerVariable_ok
    { b with
      m_shader :=
        { b.m_shader with
          data := { b.m_shader.data with nextVarId := (b.m_shader.data.nextVarId + 1) % 2 ^ 32 } } }
    (var.makeVariable ptr ((b.m_shader.data.nextVarId + 1) % 2 ^ 32) type name flags) top htop
  refine ⟨tcp, ?_⟩
  unfold registerName
  simp only [h]

theorem registerName_isOk (b : ShaderBuilder) (ptr : Nat) (name : String)
    (type : ast.type.TypePtr) (flags : Finset var.Flag) (v : var.Variable) (b1 : ShaderBuilder)
    (h : registerName b ptr name type flags = .ok (v, b1)) :
    ∃ top, b.m_blocks.getLast? = some top := by
  cases hl : b.m_blocks.getLast? with
  | none => simp [registerName, registerVariable, hl] at h
  | some top => exact ⟨top, rfl⟩

theorem hasVar_setData (b : ShaderBuilder) (data : ShaderData) (name : String) :
    hasVar (b.setData data) name = hasVar b name := rfl

theorem getVar_setData (b : ShaderBuilder) (data : ShaderData) (name : String) :
    getVar (b.setData data) name = getVar b name := rfl

theorem getVar_of_hasVar (b : ShaderBuilder) (name : String) (h : hasVar b name = true) :
    ∃ v, getVar b name = .ok v := by
  unfold getVar
  cases hf : b.m_blocks.reverse.findSome?
      (fun lookup => builder.findVariable lookup.registered name) with
  | some v => exact ⟨v, rfl⟩
  | none =>
    exfalso
    rw [hasVar_iff] at h
    obtain ⟨blk, hblk, v, hv, hn⟩ := h
    rw [List.findSome?_eq_none_iff] at hf
    exact (findVariable_none.mp (hf blk (List.mem_reverse.mpr hblk))) v hv hn

end ShaderBuilder
end ast

namespace ast

theorem mapFind_eq_none_iff {κ β : Type} [DecidableEq κ] (m : List (κ × β)) (k : κ) :
    mapFind m k = none ↔ m.any (fun e => decide (e.1 = k)) = false := by
  unfold mapFind
  simp only [Option.map_eq_none', List.find?_eq_none, List.any_eq_false]

theorem mapEmplace_of_none {κ β : Type} [DecidableEq κ] (m : List (κ × β)) (k : κ) (v : β)
    (h : mapFind m k = none) : mapEmplace m k v = m ++ [(k, v)] := by
  unfold mapEmplace
  rw [(mapFind_eq_none_iff m k).mp h]
  simp

theorem mapEmplace_of_some {κ β : Type} [DecidableEq κ] (m : List (κ × β)) (k : κ) (v w : β)
    (h : mapFind m k = some w) : mapEmplace m k v = m := by
  unfold mapEmplace
  have : m.any (fun e => decide (e.1 = k)) = true := by
    cases hany : m.any (fun e => decide (e.1 = k)) with
    | true => rfl
    | false => rw [(mapFind_eq_none_iff m k).mpr hany] at h; cases h
  rw [this]
  simp

namespace ShaderBuilder

theorem emplaceLocation_spec (m : List (String × LocationInfo)) (name : String)
    (location : Nat) (type : ast.type.TypePtr) :
    ((∃ entry ∈ m, entry.2.location = location) → emplaceLocation m name location type = m)
      ∧ ((∀ entry ∈ m, entry.2.location ≠ location) → mapFind m name = none →
          emplaceLocation m name location type
              = m ++ [(name, { type := type, location := location })]
            ∧ mapFind (emplaceLocation m name location type) name
              = some { type := type, location := location })
      ∧ ((∀ entry ∈ m, entry.2.location ≠ location) → ∀ info, mapFind m name = some info →
          emplaceLocation m name location type = m) := by
  refine ⟨?_, ?_, ?_⟩
  · rintro ⟨entry, hmem, hloc⟩
    unfold emplaceLocation
    have : (m.find? (fun lookup => decide (lookup.2.location = location))).isSome = true := by
      rw [List.find?_isSome]
      exact ⟨entry, hmem, by simpa using hloc⟩
    have hn : (m.find? (fun lookup => decide (lookup.2.location = location))).isNone = false := by
      cases hf : m.find? (fun lookup => decide (lookup.2.location = location)) with
      | none => rw [hf] at this; cases this
      | some x => rfl
    rw [hn]
    rfl
  · intro hall hnone
    have hfind : m.find? (fun lookup => decide (lookup.2.location = location)) = none := by
      rw [List.find?_eq_none]
      intro x hx
      simpa using hall x hx
    unfold emplaceLocation
    rw [hfind]
    simp only [Option.isNone_none, if_true]
    refine ⟨mapEmplace_of_none m name _ hnone, ?_⟩
    rw [mapFind_mapEmplace, if_pos rfl, hnone]
    rfl
  · intro hall info hsome
    have hfind : m.find? (fun lookup => decide (lookup.2.location = location)) = none := by
      rw [List.find?_eq_none]
      intro x hx
      simpa using hall x hx
    unfold emplaceLocation
    rw [hfind]
    simp only [Option.isNone_none, if_true]
    exact mapEmplace_of_some m name _ info hsome

theorem mapFind_registerLocation (maps : List (EntryPoint × List (String × LocationInfo)))
    (entryPoint : EntryPoint) (name : String) (location : Nat) (type : ast.type.TypePtr) :
    (mapFind (registerLocation maps entryPoint name location type) entryPoint).getD []
      = emplaceLocation ((mapFind maps entryPoint).getD []) name location type := by
  unfold registerLocation
  simp only [mapFind_mapSet, if_pos, mapFind_mapEmplace]
  rfl

theorem registerInput_ok (env : BuilderEnv) (b : ShaderBuilder) (ptr : Nat)
    (entryPoint : EntryPoint) (name : String) (location : Nat) (attributes : Finset var.Flag)
    (type : ast.type.TypePtr) (h : b.m_blocks ≠ []) :
    ∃ v b1, registerInput env b ptr entryPoint name location attributes type = .ok (v, b1)
      ∧ b1.m_shader.data.inputs
        = registerLocation b.m_shader.data.inputs entryPoint name location type
      ∧ b1.m_shader.data.outputs = b.m_shader.data.outputs := by
  obtain ⟨top, htop⟩ := exists_getLast h
  unfold registerInput
  by_cases hv : hasVar b name = true
  · obtain ⟨v, hget⟩ := getVar_of_hasVar b name hv
    simp only [hasVar_setData, hv, getVar_setData, hget, if_true]
    exact ⟨_, _, rfl, rfl, rfl⟩
  · simp only [hasVar_setData, hv]
    obtain ⟨tcp, hreg⟩ := registerName_ok
      (b.setData
        { b.m_shader.data with
          inputs := registerLocation b.m_shader.data.inputs entryPoint name location type })
      ptr name type
      (implicitFlat env
          (b.setData
            { b.m_shader.data with
              inputs :=
                registerLocation b.m_shader.data.inputs entryPoint name location type }).getType
          ShaderStage.eVertex attributes type ∪ {var.Flag.eShaderInput})
      top htop
    simp only [Bool.false_eq_true, if_false]
    rw [hreg]
    exact ⟨_, _, rfl, rfl, rfl⟩

theorem registerOutput_ok (env : BuilderEnv) (b : ShaderBuilder) (ptr : Nat)
    (entryPoint : EntryPoint) (name : String) (location : Nat) (attributes : Finset var.Flag)
    (type : ast.type.TypePtr) (h : b.m_blocks ≠ []) :
    ∃ v b1, registerOutput env b ptr entryPoint name location attributes type = .ok (v, b1)
      ∧ b1.m_shader.data.outputs
        = registerLocation b.m_shader.data.outputs entryPoint name location type
      ∧ b1.m_shader.data.inputs = b.m_shader.data.inputs := by
  obtain ⟨top, htop⟩ := exists_getLast h
  unfold registerOutput
  by_cases hv : hasVar b name = true
  · obtain ⟨v, hget⟩ := getVar_of_hasVar b name hv
    simp only [hasVar_setData, hv, getVar_setData, hget, if_true]
    exact ⟨_, _, rfl, rfl, rfl⟩
  · simp only [hasVar_setData, hv]
    obtain ⟨tcp, hreg⟩ := registerName_ok
      (b.setData
        { b.m_shader.data with
          outputs := registerLocation b.m_shader.data.outputs entryPoint name location type })
      ptr name type
      (implicitFlat env
          (b.setData
            { b.m_shader.data with
              outputs :=
                registerLocation b.m_shader.data.outputs entryPoint name location type }).getType
          ShaderStage.eFragment attributes type ∪ {var.Flag.eShaderOutput})
      top htop
    simp only [Bool.false_eq_true, if_false]
    rw [hreg]
    exact ⟨_, _, rfl, rfl, rfl⟩

end ShaderBuilder
end ast

namespace ast
namespace ShaderBuilder

theorem registerInput_new (env : BuilderEnv) (b : ShaderBuilder) (ptr : Nat)
    (entryPoint : EntryPoint) (name : String) (location : Nat) (attributes : Finset var.Flag)
    (type : ast.type.TypePtr) (h : b.m_blocks ≠ []) (hv : hasVar b name = false) :
    ∃ b1, registerInput env b ptr entryPoint name location attributes type
        = .ok (var.makeVariable ptr ((nextVarId b + 1) % 2 ^ 32) type name
            (implicitFlat env b.getType ShaderStage.eVertex attributes type
              ∪ {var.Flag.eShaderInput}), b1)
      ∧ nextVarId b1 = (nextVarId b + 1) % 2 ^ 32 := by
  obtain ⟨top, htop⟩ := exists_getLast h
  unfold registerInput
  simp only [hasVar_setData, hv]
  obtain ⟨tcp, hreg⟩ := registerName_ok
    (b.setData
      { b.m_shader.data with
        inputs := registerLocation b.m_shader.data.inputs entryPoint name location type })
    ptr name type
    (implicitFlat env b.getType ShaderStage.eVertex attributes type ∪ {var.Flag.eShaderInput})
    top htop
  simp only [Bool.false_eq_true, if_false]
  exact ⟨_, hreg, rfl⟩

theorem registerOutput_new (env : BuilderEnv) (b : ShaderBuilder) (ptr : Nat)
    (entryPoint : EntryPoint) (name : String) (location : Nat) (attributes : Finset var.Flag)
    (type : ast.type.TypePtr) (h : b.m_blocks ≠ []) (hv : hasVar b name = false) :
    ∃ b1, registerOutput env b ptr entryPoint name location attributes type
        = .ok (var.makeVariable ptr ((nextVarId b + 1) % 2 ^ 32) type name
            (implicitFlat env b.getType ShaderStage.eFragment attributes type
              ∪ {var.Flag.eShaderOutput}), b1)
      ∧ nextVarId b1 = (nextVarId b + 1) % 2 ^ 32 := by
  obtain ⟨top, htop⟩ := exists_getLast h
  unfold registerOutput
  simp only [hasVar_setData, hv]
  obtain ⟨tcp, hreg⟩ := registerName_ok
    (b.setData
      { b.m_shader.data with
        outputs := registerLocation b.m_shader.data.outputs entryPoint name location type })
    ptr name type
    (implicitFlat env b.getType ShaderStage.eFragment attributes type ∪ {var.Flag.eShaderOutput})
    top htop
  simp only [Bool.false_eq_true, if_false]
  exact ⟨_, hreg, rfl⟩

theorem mem_implicitFlat (env : BuilderEnv) (stage skipped : ShaderStage)
    (attributes : Finset var.Flag) (type : ast.type.TypePtr) (f : var.Flag) :
    f ∈ implicitFlat env stage skipped attributes type
      ↔ f ∈ attributes
        ∨ (f = var.Flag.eFlat
          ∧ (env.isSignedIntType (ast.type.getNonArrayType type).getKind = true
              ∨ env.isUnsignedIntType (ast.type.getNonArrayType type).getKind = true)
          ∧ stage ≠ skipped ∧ stage ≠ ShaderStage.eCompute
          ∧ env.isMeshStage stage = false ∧ env.isRayTraceStage stage = false) := by
  unfold implicitFlat
  dsimp only
  split
  · rename_i hc
    simp only [Bool.and_eq_true, Bool.or_eq_true, decide_eq_true_eq, Bool.not_eq_true'] at hc
    simp only [Finset.mem_union, Finset.mem_singleton]
    constructor
    · rintro (h1 | h1)
      · exact Or.inl h1
      · exact Or.inr ⟨h1, hc.2, hc.1.1.1.1, hc.1.1.1.2, hc.1.1.2, hc.1.2⟩
    · rintro (h1 | h1)
      · exact Or.inl h1
      · exact Or.inr h1.1
  · rename_i hc
    simp only [Bool.and_eq_true, Bool.or_eq_true, decide_eq_true_eq, Bool.not_eq_true'] at hc
    constructor
    · exact Or.inl
    · rintro (h1 | h1)
      · exact h1
      · exact absurd ⟨⟨⟨⟨h1.2.2.1, h1.2.2.2.1⟩, h1.2.2.2.2.1⟩, h1.2.2.2.2.2⟩, h1.2.1⟩ hc

end ShaderBuilder
end ast

namespace ast

theorem var.setFind_setInsert_self (v : var.Variable) (l : List var.Variable)
    (h : var.setContains l v.ptr = false) : var.setFind (var.setInsert v l) v.ptr = some v := by
  induction l with
  | nil => simp [var.setInsert, var.setFind]
  | cons w ws ih =>
    have hw : w.ptr ≠ v.ptr := by
      intro heq
      simp [var.setContains, heq] at h
    have hws : var.setContains ws v.ptr = false := by
      simp only [var.setContains, List.any_cons, Bool.or_eq_false_iff] at h ⊢
      exact h.2
    unfold var.setInsert
    split
    · simp [var.setFind]
    · split
      · rename_i heq
        exact absurd heq.symm hw
      · have := ih hws
        simp only [var.setFind, List.find?_cons] at this ⊢
        have hne : (w.ptr == v.ptr) = false := by simpa using hw
        rw [hne]
        exact this

theorem var.mem_setInsert_self (v : var.Variable) (l : List var.Variable)
    (h : var.setContains l v.ptr = false) : v ∈ var.setInsert v l :=
  List.mem_of_find?_eq_some (var.setFind_setInsert_self v l h)

namespace ShaderBuilder

theorem findVariable_setInsert (r : var.Variable) (l : List var.Variable) (name : String)
    (hr : named r name) (hfree : var.setContains l r.ptr = false) :
    ∃ u, builder.findVariable (var.setInsert r l) name = some u
      ∧ (u = r ∨ builder.findVariable l name = some u) := by
  have hrp : (decide (r.getFullName = name) || decide (r.getName = name)) = true := by
    unfold named at hr
    simpa using hr
  induction l with
  | nil => exact ⟨r, by simp [var.setInsert, builder.findVariable, hrp], Or.inl rfl⟩
  | cons w ws ih =>
    have hw : w.ptr ≠ r.ptr := by
      intro heq
      simp [var.setContains, heq] at hfree
    have hws : var.setContains ws r.ptr = false := by
      simp only [var.setContains, List.any_cons, Bool.or_eq_false_iff] at hfree ⊢
      exact hfree.2
    unfold var.setInsert
    split
    · exact ⟨r, by simp [builder.findVariable, hrp], Or.inl rfl⟩
    · split
      · rename_i heq
        exact absurd heq.symm hw
      · by_cases hwp : (decide (w.getFullName = name) || decide (w.getName = name)) = true
        · exact ⟨w, by simp only [builder.findVariable, List.find?_cons, hwp],
            Or.inr (by simp only [builder.findVariable, List.find?_cons, hwp])⟩
        · have hwp' : (decide (w.getFullName = name) || decide (w.getName = name)) = false := by
            simpa using hwp
          obtain ⟨u, hu, hor⟩ := ih hws
          refine ⟨u, ?_, ?_⟩
          · simp only [builder.findVariable, List.find?_cons, hwp'] at hu ⊢
            exact hu
          · rcases hor with h1 | h1
            · exact Or.inl h1
            · right
              simp only [builder.findVariable, List.find?_cons, hwp'] at h1 ⊢
              exact h1

theorem head?_dropLast {α : Type} (l : List α) (h : 2 ≤ l.length) :
    l.dropLast.head? = l.head? := by
  match l, h with
  | a :: b :: t, _ => rfl

theorem popN_keeps_front (k : Nat) :
    ∀ b : ShaderBuilder, k < b.m_blocks.length →
      ∃ bk, popN k b = .ok bk ∧ bk.m_blocks.head? = b.m_blocks.head?
        ∧ bk.m_blocks.length = b.m_blocks.length - k := by
  induction k with
  | zero => intro b _; exact ⟨b, rfl, rfl, rfl⟩
  | succ k ih =>
    intro b hk
    have hne : b.m_blocks ≠ [] := by
      intro h; rw [h] at hk; cases hk
    have hpop : pop b = .ok { b with m_blocks := b.m_blocks.dropLast } := by
      simp [pop, hne]
    obtain ⟨bk, h1, h2, h3⟩ := ih { b with m_blocks := b.m_blocks.dropLast }
      (by simp only [List.length_dropLast]; omega)
    refine ⟨bk, ?_, ?_, ?_⟩
    · simp only [popN, hpop]
      exact h1
    · rw [h2]
      exact head?_dropLast b.m_blocks (by omega)
    · rw [h3]
      simp only [List.length_dropLast]
      omega

theorem hasFunction_congr (b b1 : ShaderBuilder) (name : String)
    (h : b1.m_blocks.head? = b.m_blocks.head?) : hasFunction b1 name = hasFunction b name := by
  unfold hasFunction
  rw [h]

theorem getFunction_congr (b b1 : ShaderBuilder) (name : String)
    (h : b1.m_blocks.head? = b.m_blocks.head?) : getFunction b1 name = getFunction b name := by
  unfold getFunction
  rw [h]

end ShaderBuilder
end ast

/-! ## The builder: the counter of variable ids -/

namespace ast
namespace ShaderBuilder

end ShaderBuilder
end ast

namespace ast

namespace ShaderBuilder

theorem creating_ok {r : Result (var.Variable × ShaderBuilder)} {made : Option var.Variable}
    {b1 : ShaderBuilder} (h : creating r = .ok (made, b1)) :
    ∃ v, made = some v ∧ r = .ok (v, b1) := by
  unfold creating at h
  split at h
  · cases h
  · cases h
    exact ⟨_, rfl, rfl⟩

theorem quiet_ok {r : Result ShaderBuilder} {made : Option var.Variable} {b1 : ShaderBuilder}
    (h : quiet r = .ok (made, b1)) : made = none ∧ r = .ok b1 := by
  unfold quiet at h
  split at h
  · cases h
  · cases h
    exact ⟨rfl, rfl⟩

theorem creatingUnless_ok {found : Bool} {r : Result (var.Variable × ShaderBuilder)}
    {made : Option var.Variable} {b1 : ShaderBuilder}
    (h : creatingUnless found r = .ok (made, b1)) :
    ∃ v, r = .ok (v, b1) ∧ made = if found then none else some v := by
  unfold creatingUnless at h
  split at h
  · cases h
  · cases h
    exact ⟨_, rfl, rfl⟩

theorem madeNext_registerStaticConstant (b : ShaderBuilder) (ptr : Nat) (name : String)
    (type : ast.type.TypePtr) (movedName : String) (v : var.Variable) (b1 : ShaderBuilder)
    (hfree : addressFree b ptr = true)
    (h : registerStaticConstant b ptr name type movedName = .ok (v, b1)) :
    madeNext b v b1
      ∧ v = var.makeVariable ptr ((nextVarId b + 1) % 2 ^ 32) type name
          {var.Flag.eStatic, var.Flag.eConstant} := by
  unfold registerStaticConstant at h
  split at h
  · cases h
  · rename_i front rest hb
    have hfront : var.setContains front.registered ptr = false := by
      unfold addressFree at hfree
      rw [hb] at hfree
      simpa using (List.all_eq_true.mp hfree) front (List.mem_cons_self _ _)
    dsimp only at h
    split at h
    · cases h
    · have hfind := var.setFind_setInsert_self
        (var.makeVariable ptr ((b.m_shader.data.nextVarId + 1) % 2 ^ 32) type name
          {var.Flag.eStatic, var.Flag.eConstant}) front.registered hfront
      simp only [var.makeVariable] at hfind
      simp only [var.makeVariable, hfind, Option.getD_some, Except.ok.injEq,
        Prod.mk.injEq] at h
      obtain ⟨hv, hb1⟩ := h
      subst hv
      subst hb1
      exact ⟨⟨rfl, rfl⟩, rfl⟩

end ShaderBuilder
end ast

namespace ast
namespace ShaderBuilder

end ShaderBuilder
end ast

namespace ast
namespace ShaderBuilder

end ShaderBuilder
end ast

/-! ## The builder: the properties of the registration operations -/

namespace ast
namespace ShaderBuilder

theorem registerFunction_of_outcome (b : ShaderBuilder) (ptr : Nat) (name : String)
    (type : ast.type.TypePtr) :
    registerFunction b ptr name type
      = match (registerFunctionOutcome b ptr name type).1 with
        | .ok v => .ok (v, (registerFunctionOutcome b ptr name type).2)
        | .error e => .error e := by
  unfold registerFunction registerFunctionOutcome
  cases b.m_blocks with
  | nil => rfl
  | cons front rest =>
    dsimp only
    split <;> rfl

theorem registerStaticConstant_of_outcome (b : ShaderBuilder) (ptr : Nat) (name : String)
    (type : ast.type.TypePtr) (movedName : String) :
    registerStaticConstant b ptr name type movedName
      = match (registerStaticConstantOutcome b ptr name type movedName).1 with
        | .ok v => .ok (v, (registerStaticConstantOutcome b ptr name type movedName).2)
        | .error e => .error e := by
  unfold registerStaticConstant registerStaticConstantOutcome
  cases b.m_blocks with
  | nil => rfl
  | cons front rest =>
    dsimp only
    split <;> rfl

theorem registerFunctionOutcome_error_iff (b : ShaderBuilder) (ptr : Nat) (name : String)
    (type : ast.type.TypePtr) (front : Block) (rest : List Block)
    (hb : b.m_blocks = front :: rest) :
    (∃ text, registerFunctionOutcome b ptr name type = (.error (.runtimeError text), b))
      ↔ ∃ w, builder.findVariable front.registered name = some w ∧ w.type ≠ type := by
  unfold registerFunctionOutcome
  simp only [hb]
  cases hf : builder.findVariable front.registered name with
  | none => simp
  | some w =>
    by_cases ht : w.type = type
    · simp [ht]
    · have ht' : ¬ type = w.type := fun h => ht h.symm
      simp [ht, ht']

theorem registerStaticConstantOutcome_error_iff (b : ShaderBuilder) (ptr : Nat) (name : String)
    (type : ast.type.TypePtr) (movedName : String) (front : Block) (rest : List Block)
    (hb : b.m_blocks = front :: rest) :
    (∃ text,
        registerStaticConstantOutcome b ptr name type movedName
          = (.error (.runtimeError text), b))
      ↔ ∃ w, builder.findVariable front.registered name = some w ∧ w.type ≠ type := by
  unfold registerStaticConstantOutcome
  simp only [hb]
  cases hf : builder.findVariable front.registered name with
  | none => simp
  | some w =>
    by_cases ht : w.type = type
    · simp [ht]
    · have ht' : ¬ type = w.type := fun h => ht h.symm
      simp [ht, ht']

theorem findVariable_exists {l : List var.Variable} {name : String}
    (h : ∃ u ∈ l, named u name) : ∃ w, builder.findVariable l name = some w := by
  cases hf : builder.findVariable l name with
  | some w => exact ⟨w, rfl⟩
  | none =>
    obtain ⟨u, hu, hn⟩ := h
    exact absurd hn (findVariable_none.mp hf u hu)

/-- C11, as stated, fails: a function `f` is registered, then a variable `f` of another type in
the same (global) frame at a higher address, and a second `registerFunction` of `f` with the
first type succeeds although the global frame holds a symbol `f` whose type differs.  The check
looks at the first symbol of that name only. -/
theorem registerFunction_accepts_second_symbol :
    ∃ v1 b1 v2 b2 v3 b3 front rest,
      registerFunction (fresh .eFragment) 10 "f" sampleFunctionInt = .ok (v1, b1)
        ∧ registerName b1 20 "f" sampleFunctionFloat ∅ = .ok (v2, b2)
        ∧ b2.m_blocks = front :: rest
        ∧ v2 ∈ front.registered ∧ v2.getName = "f" ∧ v2.type ≠ sampleFunctionInt
        ∧ registerFunction b2 30 "f" sampleFunctionInt = .ok (v3, b3)
        ∧ nextVarId b3 = nextVarId b2 + 1 :=
  ⟨_, _, _, _, _, _, _, _, rfl, rfl, rfl, by decide, rfl, by decide, rfl, rfl⟩

/-- C11, amended: `registerFunction( name, type )` and `registerStaticConstant( name, type )`
throw exactly when the symbol that the lookup of the global frame finds for `name` (the first
one, in the address order of the frame, whose name or full name is `name`) has a type other
than `type`; this is so whenever the global frame holds a symbol of that name and every symbol
of that name in it has another type.  The state of the builder when the call ends on the
exception is the state before the call: the counter of ids, the frames and the maps of the
shader data are unchanged. -/
theorem register_conflict_fails (b : ShaderBuilder) (ptr : Nat) (name : String)
    (type : ast.type.TypePtr) (movedName : String) (front : Block) (rest : List Block)
    (hb : b.m_blocks = front :: rest) :
    ((∃ text, registerFunctionOutcome b ptr name type = (.error (.runtimeError text), b))
        ↔ ∃ w, builder.findVariable front.registered name = some w ∧ w.type ≠ type)
      ∧ ((∃ text,
            registerStaticConstantOutcome b ptr name type movedName
              = (.error (.runtimeError text), b))
          ↔ ∃ w, builder.findVariable front.registered name = some w ∧ w.type ≠ type)
      ∧ ((∃ u ∈ front.registered, named u name) →
          (∀ u ∈ front.registered, named u name → u.type ≠ type) →
          (∃ text, registerFunctionOutcome b ptr name type = (.error (.runtimeError text), b))
            ∧ (∃ text, registerFunction b ptr name type = .error (.runtimeError text))
            ∧ (∃ text,
                registerStaticConstantOutcome b ptr name type movedName
                  = (.error (.runtimeError text), b))
            ∧ (∃ text,
                registerStaticConstant b ptr name type movedName
                  = .error (.runtimeError text))) := by
  refine ⟨registerFunctionOutcome_error_iff b ptr name type front rest hb,
    registerStaticConstantOutcome_error_iff b ptr name type movedName front rest hb, ?_⟩
  intro hex hall
  obtain ⟨w, hw⟩ := findVariable_exists hex
  have hwt : w.type ≠ type := hall w (findVariable_some hw).1 (findVariable_some hw).2
  obtain ⟨t1, h1⟩ :=
    (registerFunctionOutcome_error_iff b ptr name type front rest hb).mpr ⟨w, hw, hwt⟩
  obtain ⟨t2, h2⟩ :=
    (registerStaticConstantOutcome_error_iff b ptr name type movedName front rest hb).mpr
      ⟨w, hw, hwt⟩
  refine ⟨⟨t1, h1⟩, ⟨t1, ?_⟩, ⟨t2, h2⟩, ⟨t2, ?_⟩⟩
  · rw [registerFunction_of_outcome, h1]
  · rw [registerStaticConstant_of_outcome, h2]

/-- C11, amended, on the sample builder: its global frame holds the `int` variable `x`, and the
registration of a function `x` throws and leaves the builder as it was. -/
theorem register_conflict_fails_witness :
    ∃ text,
      registerFunctionOutcome sampleBuilder 30 "x" sampleFunctionInt
        = (.error (.runtimeError text), sampleBuilder) :=
  (register_conflict_fails sampleBuilder 30 "x" sampleFunctionInt ""
    { registered := [sampleVariable, sampleMember], container := 0 } [] rfl).1.mpr
    ⟨sampleVariable, rfl, by decide⟩

theorem find_first_of_ordered (l : List var.Variable) (p : var.Variable → Bool)
    (v : var.Variable) (hord : var.setOrdered l) (hv : v ∈ l) (hp : p v = true) :
    l.find? p = some v ↔ ∀ u ∈ l, p u = true → v.ptr ≤ u.ptr := by
  induction l with
  | nil => cases hv
  | cons a t ih =>
    have hlt : ∀ u ∈ t, a.ptr < u.ptr := (List.pairwise_cons.mp hord).1
    have hordt : var.setOrdered t := (List.pairwise_cons.mp hord).2
    by_cases hpa : p a = true
    · simp only [List.find?_cons, hpa, Option.some.injEq]
      constructor
      · intro hav u hu _
        subst hav
        rcases List.mem_cons.mp hu with h1 | h1
        · exact h1 ▸ Nat.le_refl _
        · exact Nat.le_of_lt (hlt u h1)
      · intro hall
        rcases List.mem_cons.mp hv with h1 | h1
        · exact h1.symm
        · have h2 := hall a (List.mem_cons_self _ _) hpa
          have h3 := hlt v h1
          omega
    · have hva : v ∈ t := by
        rcases List.mem_cons.mp hv with h1 | h1
        · exact absurd (h1 ▸ hp) hpa
        · exact h1
      have hpa' : p a = false := by simpa using hpa
      simp only [List.find?_cons, hpa']
      rw [ih hordt hva]
      constructor
      · intro hall u hu hpu
        rcases List.mem_cons.mp hu with h1 | h1
        · exact absurd (h1 ▸ hpu) hpa
        · exact hall u h1 hpu
      · intro hall u hu hpu
        exact hall u (List.mem_cons_of_mem _ hu) hpu

theorem named_iff (u : var.Variable) (n : String) :
    (decide (u.getFullName = n) || decide (u.getName = n)) = true ↔ named u n := by
  simp [named]

theorem getVar_in_frame (b : ShaderBuilder) (below : List Block) (inner : Block)
    (above : List Block) (n : String) (x : var.Variable)
    (hb : b.m_blocks = below ++ inner :: above)
    (habove : ∀ blk ∈ above, ∀ u ∈ blk.registered, ¬ named u n)
    (hx : builder.findVariable inner.registered n = some x) :
    getVar b n = .ok x := by
  have hnone : above.reverse.findSome?
      (fun lookup => builder.findVariable lookup.registered n) = none := by
    rw [List.findSome?_eq_none_iff]
    intro blk hblk
    exact findVariable_none.mpr (habove blk (List.mem_reverse.mp hblk))
  unfold getVar
  rw [hb, List.reverse_append, List.reverse_cons, List.append_assoc, List.findSome?_append,
    hnone]
  simp [hx]

/-- C12, as stated, fails: a local `x` is registered in the global frame, a scope is pushed and
a second local `x` is registered in it at a higher address.  The inner frame inherited the first
variable, its set is in address order, and `getVar( "x" )` returns the variable of the
enclosing frame. -/
theorem getVar_returns_enclosing_variable :
    ∃ w b1 b2 v b3 enclosing inner,
      registerName (fresh .eFragment) 5 "x" sampleInt {var.Flag.eLocale} = .ok (w, b1)
        ∧ pushScope b1 1 = .ok b2
        ∧ registerName b2 9 "x" sampleFloat {var.Flag.eLocale} = .ok (v, b3)
        ∧ b3.m_blocks = [enclosing, inner]
        ∧ w ∈ enclosing.registered ∧ v ∉ enclosing.registered ∧ v ∈ inner.registered
        ∧ v ≠ w ∧ v.getName = "x" ∧ w.getName = "x"
        ∧ getVar b3 "x" = .ok w :=
  ⟨_, _, _, _, _, _, _, rfl, rfl, rfl, rfl, by decide, by decide, by decide, by decide, rfl, rfl,
    rfl⟩

/-- C12, amended: let `inner` be the innermost frame that holds a variable named `n`, its set
in address order, and `v` a variable named `n` of that frame.  Then `getVar( n )` returns a
variable named `n` of that frame, the first one in the order of the set: it returns `v` exactly
when no variable named `n` of the frame has a lower address than `v`, in particular when `v` is
the only variable named `n` in the frame.  (A frame inherits the variables of the enclosing
frames, so a same-named variable `w` of an enclosing frame is in `inner` too and is returned
when its address is the lower one.) -/
theorem getVar_innermost_first (b : ShaderBuilder) (below : List Block) (inner : Block)
    (above : List Block) (n : String) (v : var.Variable)
    (hb : b.m_blocks = below ++ inner :: above)
    (habove : ∀ blk ∈ above, ∀ u ∈ blk.registered, ¬ named u n)
    (hord : var.setOrdered inner.registered)
    (hv : v ∈ inner.registered) (hn : named v n) :
    (∃ x, getVar b n = .ok x ∧ x ∈ inner.registered ∧ named x n
        ∧ ∀ u ∈ inner.registered, named u n → x.ptr ≤ u.ptr)
      ∧ (getVar b n = .ok v ↔ ∀ u ∈ inner.registered, named u n → v.ptr ≤ u.ptr)
      ∧ ((∀ u ∈ inner.registered, named u n → u = v) → getVar b n = .ok v) := by
  obtain ⟨x, hx⟩ := findVariable_exists ⟨v, hv, hn⟩
  have hget : getVar b n = .ok x := getVar_in_frame b below inner above n x hb habove hx
  have hxmem := (findVariable_some hx).1
  have hxn : named x n := (findVariable_some hx).2
  have hfirst := fun (y : var.Variable) (hy : y ∈ inner.registered) (hyn : named y n) =>
    find_first_of_ordered inner.registered
      (fun u => decide (u.getFullName = n) || decide (u.getName = n)) y hord hy
      ((named_iff y n).mpr hyn)
  have hxmin : ∀ u ∈ inner.registered, named u n → x.ptr ≤ u.ptr := by
    intro u hu hun
    exact (hfirst x hxmem hxn).mp hx u hu ((named_iff u n).mpr hun)
  have hiff : getVar b n = .ok v ↔ ∀ u ∈ inner.registered, named u n → v.ptr ≤ u.ptr := by
    rw [hget]
    constructor
    · intro h
      cases h
      exact hxmin
    · intro hall
      have : builder.findVariable inner.registered n = some v :=
        (hfirst v hv hn).mpr (fun u hu hpu => hall u hu ((named_iff u n).mp hpu))
      rw [hx] at this
      exact congrArg _ (Option.some.inj this)
  refine ⟨⟨x, hget, hxmem, hxn, hxmin⟩, hiff, ?_⟩
  intro honly
  exact hiff.mpr (fun u hu hun => by rw [honly u hu hun])

/-- C12, amended, on the sample builder with two variables `x`: the one registered in the
inner frame has the lower address and `getVar( "x" )` returns it. -/
theorem getVar_innermost_first_witness :
    getVar sampleShadow "x" = .ok sampleInnerVariable :=
  (getVar_innermost_first sampleShadow [{ registered := [sampleVariable], container := 0 }]
    { registered := [sampleInnerVariable, sampleVariable], container := 1 } [] "x"
    sampleInnerVariable rfl (by simp) (by simp [var.setOrdered, sampleInnerVariable,
      sampleVariable, var.makeVariable]) (by simp) (Or.inl rfl)).2.1.mpr
    (by
      intro u hu _
      simp only [List.mem_cons, List.mem_singleton, List.not_mem_nil, or_false] at hu
      rcases hu with rfl | rfl
      · exact Nat.le_refl _
      · decide)

/-- C13, as stated, fails: the input `a` is registered at location 0 and then again at location
1, which no entry has.  The entry is emplaced under its name, which the map already holds, so
after the second call the map has no entry for `a` at location 1. -/
theorem registerInput_keeps_entry_of_name :
    ∃ v1 b1 v2 b2,
      registerInput BuilderEnv.sample (fresh .eFragment) 5 0 "a" 0 ∅ sampleInt = .ok (v1, b1)
        ∧ (∀ entry ∈ inputsOf b1 0, entry.2.location ≠ 1)
        ∧ registerInput BuilderEnv.sample b1 6 0 "a" 1 ∅ sampleFloat = .ok (v2, b2)
        ∧ inputsOf b2 0 = [("a", { type := sampleInt, location := 0 })]
        ∧ mapFind (inputsOf b2 0) "a" ≠ some { type := sampleFloat, location := 1 } :=
  ⟨_, _, _, _, rfl, by decide, rfl, rfl, by decide⟩

/-- C13, amended: for every builder state with a frame, `registerInput( e, name, l, attrs, type )`
succeeds and, on the input map of `e` (empty when `e` had none): if the map holds an entry with
location `l`, it is unchanged; if no entry has location `l` and the map has no entry for
`name`, the entry of `name` with location `l` and type `type` is added at the end; if no entry
has location `l` but the map has an entry for `name`, it is unchanged.  The same holds for
`registerOutput` and the output map. -/
theorem location_collision_keeps_first (env : BuilderEnv) (b : ShaderBuilder) (ptr : Nat)
    (e : EntryPoint) (name : String) (l : Nat) (attrs : Finset var.Flag)
    (type : ast.type.TypePtr) (h : b.m_blocks ≠ []) :
    (∃ v b1, registerInput env b ptr e name l attrs type = .ok (v, b1)
        ∧ ((∃ entry ∈ inputsOf b e, entry.2.location = l) → inputsOf b1 e = inputsOf b e)
        ∧ ((∀ entry ∈ inputsOf b e, entry.2.location ≠ l) → mapFind (inputsOf b e) name = none →
            inputsOf b1 e = inputsOf b e ++ [(name, { type := type, location := l })]
              ∧ mapFind (inputsOf b1 e) name = some { type := type, location := l })
        ∧ ((∀ entry ∈ inputsOf b e, entry.2.location ≠ l) →
            ∀ info, mapFind (inputsOf b e) name = some info → inputsOf b1 e = inputsOf b e))
      ∧ (∃ v b1, registerOutput env b ptr e name l attrs type = .ok (v, b1)
        ∧ ((∃ entry ∈ outputsOf b e, entry.2.location = l) → outputsOf b1 e = outputsOf b e)
        ∧ ((∀ entry ∈ outputsOf b e, entry.2.location ≠ l) →
            mapFind (outputsOf b e) name = none →
            outputsOf b1 e = outputsOf b e ++ [(name, { type := type, location := l })]
              ∧ mapFind (outputsOf b1 e) name = some { type := type, location := l })
        ∧ ((∀ entry ∈ outputsOf b e, entry.2.location ≠ l) →
            ∀ info, mapFind (outputsOf b e) name = some info →
              outputsOf b1 e = outputsOf b e)) := by
  constructor
  · obtain ⟨v, b1, hreg, hin, _⟩ := registerInput_ok env b ptr e name l attrs type h
    have hmap : inputsOf b1 e = emplaceLocation (inputsOf b e) name l type := by
      unfold inputsOf
      rw [hin]
      exact mapFind_registerLocation _ _ _ _ _
    refine ⟨v, b1, hreg, ?_, ?_, ?_⟩
    · intro hex; rw [hmap]; exact (emplaceLocation_spec _ name l type).1 hex
    · intro hall hnone; rw [hmap]; exact (emplaceLocation_spec _ name l type).2.1 hall hnone
    · intro hall info hsome
      rw [hmap]; exact (emplaceLocation_spec _ name l type).2.2 hall info hsome
  · obtain ⟨v, b1, hreg, hout, _⟩ := registerOutput_ok env b ptr e name l attrs type h
    have hmap : outputsOf b1 e = emplaceLocation (outputsOf b e) name l type := by
      unfold outputsOf
      rw [hout]
      exact mapFind_registerLocation _ _ _ _ _
    refine ⟨v, b1, hreg, ?_, ?_, ?_⟩
    · intro hex; rw [hmap]; exact (emplaceLocation_spec _ name l type).1 hex
    · intro hall hnone; rw [hmap]; exact (emplaceLocation_spec _ name l type).2.1 hall hnone
    · intro hall info hsome
      rw [hmap]; exact (emplaceLocation_spec _ name l type).2.2 hall info hsome

/-- C13, amended, on the new builder: the first input of an entry point enters its map. -/
theorem location_collision_keeps_first_witness :
    ∃ v b1,
      registerInput BuilderEnv.sample (fresh .eFragment) 5 0 "a" 3 ∅ sampleInt = .ok (v, b1)
        ∧ mapFind (inputsOf b1 0) "a" = some { type := sampleInt, location := 3 } := by
  obtain ⟨v, b1, hreg, _, hnew, _⟩ :=
    (location_collision_keeps_first BuilderEnv.sample (fresh .eFragment) 5 0 "a" 3 ∅ sampleInt
      (List.cons_ne_nil _ _)).1
  exact ⟨v, b1, hreg, (hnew (by intro entry hentry; cases hentry) rfl).2⟩

/-- C14: when a variable named `name` is visible (`hasVar( name )` holds), each of
`registerInput`, `registerOutput` and `registerInOut` succeeds, returns exactly the variable
that `getVar( name )` returns, leaves the counter of variable ids as it was and leaves every
frame and the registry of variables of the shader unchanged. -/
theorem register_existing_returns_getVar (env : BuilderEnv) (b : ShaderBuilder) (ptr : Nat)
    (e : EntryPoint) (name : String) (l : Nat) (attrs : Finset var.Flag)
    (type : ast.type.TypePtr) (h : hasVar b name = true) :
    ∃ v, getVar b name = .ok v
      ∧ (∃ b1, registerInput env b ptr e name l attrs type = .ok (v, b1)
          ∧ nextVarId b1 = nextVarId b ∧ b1.m_blocks = b.m_blocks
          ∧ b1.m_shader.vars = b.m_shader.vars)
      ∧ (∃ b1, registerOutput env b ptr e name l attrs type = .ok (v, b1)
          ∧ nextVarId b1 = nextVarId b ∧ b1.m_blocks = b.m_blocks
          ∧ b1.m_shader.vars = b.m_shader.vars)
      ∧ (∃ b1, registerInOut b ptr name attrs type = .ok (v, b1)
          ∧ nextVarId b1 = nextVarId b ∧ b1.m_blocks = b.m_blocks
          ∧ b1.m_shader.vars = b.m_shader.vars) := by
  obtain ⟨v, hget⟩ := getVar_of_hasVar b name h
  refine ⟨v, hget, ?_, ?_, ?_⟩
  · unfold registerInput
    simp only [hasVar_setData, h, getVar_setData, hget, if_true]
    exact ⟨_, rfl, rfl, rfl, rfl⟩
  · unfold registerOutput
    simp only [hasVar_setData, h, getVar_setData, hget, if_true]
    exact ⟨_, rfl, rfl, rfl, rfl⟩
  · unfold registerInOut
    by_cases hempty : b.m_shader.data.inOuts.isEmpty = true
    · simp only [hempty, if_true, hasVar_setData, h, getVar_setData, hget]
      exact ⟨_, rfl, rfl, rfl, rfl⟩
    · have hempty' : b.m_shader.data.inOuts.isEmpty = false := by simpa using hempty
      simp only [hempty', Bool.false_eq_true, if_false, h, hget, if_true]
      exact ⟨_, rfl, rfl, rfl, rfl⟩

/-- C14 on the sample builder, where `x` is visible: `registerInput` of `x` returns the sample
variable and allocates no id. -/
theorem register_existing_returns_getVar_witness :
    ∃ b1, registerInput BuilderEnv.sample sampleBuilder 50 0 "x" 0 ∅ sampleFloat
        = .ok (sampleVariable, b1)
      ∧ nextVarId b1 = nextVarId sampleBuilder := by
  obtain ⟨v, hget, ⟨b1, hreg, hid, _⟩, _⟩ :=
    register_existing_returns_getVar BuilderEnv.sample sampleBuilder 50 0 "x" 0 ∅ sampleFloat rfl
  have hv : v = sampleVariable := by
    have : getVar sampleBuilder "x" = .ok sampleVariable := rfl
    rw [this] at hget
    cases hget
    rfl
  subst hv
  exact ⟨b1, hreg, hid⟩

/-- C15, as stated, fails: on the sample builder, where an `int` local `x` is visible,
`registerInput` of the name `x` with type `float` returns that local, whose type is not `float`
and which does not carry the shader-input flag. -/
theorem registerInput_returns_existing_variable :
    ∃ v b1,
      registerInput BuilderEnv.sample sampleBuilder 50 0 "x" 0 ∅ sampleFloat = .ok (v, b1)
        ∧ v.type ≠ sampleFloat ∧ var.Flag.eShaderInput ∉ v.flags :=
  ⟨_, _, rfl, by decide, by decide⟩

/-- C15, amended: for every builder state with a frame in which no variable named `name` is
visible, and every entry point, location, attributes and type, `registerInput` succeeds and
returns a variable with the given name and type that carries the shader-input flag, and
`registerOutput` succeeds and returns a variable with the given name and type that carries the
shader-output flag. -/
theorem register_input_output_flags (env : BuilderEnv) (b : ShaderBuilder) (ptr : Nat)
    (e : EntryPoint) (name : String) (l : Nat) (attrs : Finset var.Flag)
    (type : ast.type.TypePtr) (h : b.m_blocks ≠ []) (hv : hasVar b name = false) :
    (∃ v b1, registerInput env b ptr e name l attrs type = .ok (v, b1)
        ∧ v.getName = name ∧ v.type = type ∧ var.Flag.eShaderInput ∈ v.flags)
      ∧ (∃ v b1, registerOutput env b ptr e name l attrs type = .ok (v, b1)
        ∧ v.getName = name ∧ v.type = type ∧ var.Flag.eShaderOutput ∈ v.flags) := by
  obtain ⟨b1, h1, _⟩ := registerInput_new env b ptr e name l attrs type h hv
  obtain ⟨b2, h2, _⟩ := registerOutput_new env b ptr e name l attrs type h hv
  refine ⟨⟨_, b1, h1, rfl, rfl, ?_⟩, ⟨_, b2, h2, rfl, rfl, ?_⟩⟩
  · simp [var.makeVariable]
  · simp [var.makeVariable]

/-- C15, amended, on the new builder: the input `a` is made with its name, its type and the
shader-input flag. -/
theorem register_input_output_flags_witness :
    ∃ v b1,
      registerInput BuilderEnv.sample (fresh .eFragment) 5 0 "a" 3 ∅ sampleFloat = .ok (v, b1)
        ∧ v.getName = "a" ∧ v.type = sampleFloat ∧ var.Flag.eShaderInput ∈ v.flags :=
  (register_input_output_flags BuilderEnv.sample (fresh .eFragment) 5 0 "a" 3 ∅ sampleFloat
    (List.cons_ne_nil _ _) rfl).1

/-- C16: implicit flat.  For a name that is not visible yet, the variable that `registerInput`
makes has the flat flag iff the attributes hold it or the kind of the non-array type is a signed
or unsigned integer kind and the stage is neither vertex nor compute, nor a mesh or task stage,
nor a ray-tracing stage; every other flag is a flag of the attributes or the shader-input flag.
The same holds for `registerOutput` with fragment in the place of vertex and the shader-output
flag. -/
theorem implicit_flat (env : BuilderEnv) (b : ShaderBuilder) (ptr : Nat) (e : EntryPoint)
    (name : String) (l : Nat) (attrs : Finset var.Flag) (type : ast.type.TypePtr)
    (h : b.m_blocks ≠ []) (hv : hasVar b name = false) :
    (∃ v b1, registerInput env b ptr e name l attrs type = .ok (v, b1)
        ∧ (var.Flag.eFlat ∈ v.flags
            ↔ var.Flag.eFlat ∈ attrs
              ∨ ((env.isSignedIntType (ast.type.getNonArrayType type).getKind = true
                    ∨ env.isUnsignedIntType (ast.type.getNonArrayType type).getKind = true)
                ∧ b.getType ≠ ShaderStage.eVertex ∧ b.getType ≠ ShaderStage.eCompute
                ∧ env.isMeshStage b.getType = false ∧ env.isRayTraceStage b.getType = false))
        ∧ (∀ f, f ≠ var.Flag.eFlat →
            (f ∈ v.flags ↔ f ∈ attrs ∨ f = var.Flag.eShaderInput)))
      ∧ (∃ v b1, registerOutput env b ptr e name l attrs type = .ok (v, b1)
        ∧ (var.Flag.eFlat ∈ v.flags
            ↔ var.Flag.eFlat ∈ attrs
              ∨ ((env.isSignedIntType (ast.type.getNonArrayType type).getKind = true
                    ∨ env.isUnsignedIntType (ast.type.getNonArrayType type).getKind = true)
                ∧ b.getType ≠ ShaderStage.eFragment ∧ b.getType ≠ ShaderStage.eCompute
                ∧ env.isMeshStage b.getType = false ∧ env.isRayTraceStage b.getType = false))
        ∧ (∀ f, f ≠ var.Flag.eFlat →
            (f ∈ v.flags ↔ f ∈ attrs ∨ f = var.Flag.eShaderOutput))) := by
  obtain ⟨b1, h1, _⟩ := registerInput_new env b ptr e name l attrs type h hv
  obtain ⟨b2, h2, _⟩ := registerOutput_new env b ptr e name l attrs type h hv
  refine ⟨⟨_, b1, h1, ?_, ?_⟩, ⟨_, b2, h2, ?_, ?_⟩⟩
  · simp only [var.makeVariable, Finset.mem_union, Finset.mem_singleton, mem_implicitFlat]
    constructor
    · rintro ((h3 | h3) | h3)
      · exact Or.inl h3
      · exact Or.inr h3.2
      · cases h3
    · rintro (h3 | h3)
      · exact Or.inl (Or.inl h3)
      · exact Or.inl (Or.inr ⟨trivial, h3⟩)
  · intro f hf
    simp only [var.makeVariable, Finset.mem_union, Finset.mem_singleton, mem_implicitFlat]
    constructor
    · rintro ((h3 | h3) | h3)
      · exact Or.inl h3
      · exact absurd h3.1 hf
      · exact Or.inr h3
    · rintro (h3 | h3)
      · exact Or.inl (Or.inl h3)
      · exact Or.inr h3
  · simp only [var.makeVariable, Finset.mem_union, Finset.mem_singleton, mem_implicitFlat]
    constructor
    · rintro ((h3 | h3) | h3)
      · exact Or.inl h3
      · exact Or.inr h3.2
      · cases h3
    · rintro (h3 | h3)
      · exact Or.inl (Or.inl h3)
      · exact Or.inl (Or.inr ⟨trivial, h3⟩)
  · intro f hf
    simp only [var.makeVariable, Finset.mem_union, Finset.mem_singleton, mem_implicitFlat]
    constructor
    · rintro ((h3 | h3) | h3)
      · exact Or.inl h3
      · exact absurd h3.1 hf
      · exact Or.inr h3
    · rintro (h3 | h3)
      · exact Or.inl (Or.inl h3)
      · exact Or.inr h3

/-- C16 on the new builder of a fragment shader: an `int` input is made flat, an `int` output
is not. -/
theorem implicit_flat_witness :
    (∃ v b1,
        registerInput BuilderEnv.sample (fresh .eFragment) 5 0 "a" 3 ∅ sampleInt = .ok (v, b1)
          ∧ var.Flag.eFlat ∈ v.flags)
      ∧ (∃ v b1,
        registerOutput BuilderEnv.sample (fresh .eFragment) 5 0 "a" 3 ∅ sampleInt = .ok (v, b1)
          ∧ var.Flag.eFlat ∉ v.flags) := by
  have h := implicit_flat BuilderEnv.sample (fresh .eFragment) 5 0 "a" 3 ∅ sampleInt
    (List.cons_ne_nil _ _) rfl
  obtain ⟨⟨v, b1, h1, hflat, _⟩, ⟨w, b2, h2, hflat2, _⟩⟩ := h
  refine ⟨⟨v, b1, h1, hflat.mpr (Or.inr ?_)⟩, ⟨w, b2, h2, fun hw => ?_⟩⟩
  · exact ⟨Or.inl rfl, by decide, by decide, rfl, rfl⟩
  · rcases hflat2.mp hw with h3 | h3
    · cases h3
    · exact h3.2.1 rfl

/-- C18, what the code does: after a successful `registerStaticConstant( name, type )` at a free
address, the returned variable has the name, the type and exactly the flags static and
constant, but the entry that the constants map receives is keyed by the moved-from string and
holds a null type; on a shader whose constants map has no entry for `name` the map therefore
has no entry for `name` whose value is `type`. -/
theorem registerStaticConstant_entry (b : ShaderBuilder) (ptr : Nat) (name : String)
    (type : ast.type.TypePtr) (movedName : String) (v : var.Variable) (b1 : ShaderBuilder)
    (hfree : addressFree b ptr = true)
    (h : registerStaticConstant b ptr name type movedName = .ok (v, b1))
    (hnone : mapFind b.m_shader.data.constants name = none) :
    v.getName = name ∧ v.type = type ∧ v.flags = {var.Flag.eStatic, var.Flag.eConstant}
      ∧ b1.m_shader.data.constants = mapEmplace b.m_shader.data.constants movedName none
      ∧ mapFind b1.m_shader.data.constants name ≠ some (some type) := by
  have hv := (madeNext_registerStaticConstant b ptr name type movedName v b1 hfree h).2
  have hc : b1.m_shader.data.constants
      = mapEmplace b.m_shader.data.constants movedName none := by
    unfold registerStaticConstant at h
    split at h
    · cases h
    · dsimp only at h
      split at h
      · cases h
      · cases h
        rfl
  refine ⟨by rw [hv]; rfl, by rw [hv]; rfl, by rw [hv]; rfl, hc, ?_⟩
  rw [hc, mapFind_mapEmplace]
  by_cases hk : name = movedName
  · subst hk
    simp [hnone]
  · simp [hk, hnone]

/-- C18 at the failing input: on the new builder `registerStaticConstant( "c", int )` leaves a
constants map whose only entry is the moved-from string with a null type. -/
theorem registerStaticConstant_entry_witness :
    ∃ v b1,
      registerStaticConstant (fresh .eFragment) 50 "c" sampleInt "" = .ok (v, b1)
        ∧ b1.m_shader.data.constants = [("", none)]
        ∧ mapFind b1.m_shader.data.constants "c" ≠ some (some sampleInt) :=
  ⟨_, _, rfl, rfl,
    (registerStaticConstant_entry (fresh .eFragment) 50 "c" sampleInt "" _ _ rfl rfl rfl).2.2.2.2⟩

theorem registerSampler_ok (b : ShaderBuilder) (ptr : Nat) (name : String)
    (type : ast.type.TypePtr) (binding set : Nat) (enabled : Bool) (top : Block)
    (htop : b.m_blocks.getLast? = some top) :
    ∃ b1, registerSampler b ptr name type binding set enabled
        = .ok (var.makeVariable ptr ((nextVarId b + 1) % 2 ^ 32) type name
            {var.Flag.eUniform, var.Flag.eConstant}, b1)
      ∧ b1.m_blocks
        = b.m_blocks.dropLast
          ++ [{ top with
                registered :=
                  var.setInsert
                    (var.makeVariable ptr ((nextVarId b + 1) % 2 ^ 32) type name
                      {var.Flag.eUniform, var.Flag.eConstant})
                    top.registered }] := by
  obtain ⟨tcp, hreg⟩ := registerName_ok b ptr name type
    {var.Flag.eUniform, var.Flag.eConstant} top htop
  unfold registerSampler
  cases enabled with
  | true =>
    simp only [if_true, hreg]
    exact ⟨_, rfl, rfl⟩
  | false =>
    simp only [Bool.false_eq_true, if_false, hreg]
    exact ⟨_, rfl, rfl⟩

/-- C19, as stated, fails: on a builder two frames deep `registerSampler` registers the sampler
in the top frame only; the bottom (global) frame does not hold it, and after a `pop()` that
keeps the global frame the name is not visible. -/
theorem registerSampler_not_in_global_frame :
    ∃ v b1 bottom rest b2,
      registerSampler twoFrames 50 "s" (.sampler false) 0 0 true = .ok (v, b1)
        ∧ b1.m_blocks = bottom :: rest ∧ v ∉ bottom.registered
        ∧ pop b1 = .ok b2 ∧ depth b2 = 1 ∧ hasVar b2 "s" = false :=
  ⟨_, _, _, _, _, rfl, rfl, by decide, rfl, rfl, rfl⟩

/-- C19, amended: samplers are registered in the current scope.  For every builder state with
a frame, at any depth, `registerSampler( name, type, binding, set, enabled )` at a free address
succeeds; the returned variable has the name and the type, is a member of the registered set of
the top frame, and the frames below are unchanged.  The variable is then visible, it is in the
bottom (global) frame when the depth is 1, and a `pop()` leaves exactly the frames that were
below the top one. -/
theorem registerSampler_in_top_frame (b : ShaderBuilder) (ptr : Nat) (name : String)
    (type : ast.type.TypePtr) (binding set : Nat) (enabled : Bool) (top : Block)
    (htop : b.m_blocks.getLast? = some top)
    (hfree : var.setContains top.registered ptr = false) :
    ∃ v b1 top1, registerSampler b ptr name type binding set enabled = .ok (v, b1)
      ∧ v.getName = name ∧ v.type = type
      ∧ b1.m_blocks = b.m_blocks.dropLast ++ [top1]
      ∧ top1.container = top.container
      ∧ v ∈ top1.registered ∧ (∀ u ∈ top.registered, u ∈ top1.registered)
      ∧ hasVar b1 name = true
      ∧ (b.m_blocks.length = 1 → b1.m_blocks.head? = some top1)
      ∧ (∃ b2, pop b1 = .ok b2 ∧ b2.m_blocks = b.m_blocks.dropLast) := by
  obtain ⟨b1, hreg, hblocks⟩ := registerSampler_ok b ptr name type binding set enabled top htop
  have hmem : var.makeVariable ptr ((nextVarId b + 1) % 2 ^ 32) type name
      {var.Flag.eUniform, var.Flag.eConstant}
      ∈ var.setInsert
          (var.makeVariable ptr ((nextVarId b + 1) % 2 ^ 32) type name
            {var.Flag.eUniform, var.Flag.eConstant})
          top.registered :=
    var.mem_setInsert_self _ _ hfree
  refine ⟨_, b1, _, hreg, rfl, rfl, hblocks, rfl, hmem, ?_, ?_, ?_, ?_⟩
  · intro u hu
    exact var.mem_setInsert_of_mem hu
  · rw [hasVar_iff, hblocks]
    exact ⟨Block.mk
        (var.setInsert
          (var.makeVariable ptr ((nextVarId b + 1) % 2 ^ 32) type name
            {var.Flag.eUniform, var.Flag.eConstant})
          top.registered)
        top.container, by simp,
      var.makeVariable ptr ((nextVarId b + 1) % 2 ^ 32) type name
        {var.Flag.eUniform, var.Flag.eConstant}, hmem, Or.inr rfl⟩
  · intro hlen
    rw [hblocks]
    have : b.m_blocks.dropLast = [] := by
      apply List.eq_nil_of_length_eq_zero
      simp [hlen]
    rw [this]
    rfl
  · refine ⟨{ b1 with m_blocks := b1.m_blocks.dropLast }, ?_, ?_⟩
    · have hne : b1.m_blocks ≠ [] := by rw [hblocks]; simp
      simp [pop, hne]
    · show b1.m_blocks.dropLast = b.m_blocks.dropLast
      rw [hblocks]
      exact List.dropLast_concat

/-- C19, amended, on the builder two frames deep: the sampler enters the inner frame. -/
theorem registerSampler_in_top_frame_witness :
    ∃ v b1 top1,
      registerSampler twoFrames 50 "s" (.sampler false) 0 0 true = .ok (v, b1)
        ∧ b1.m_blocks = [{ registered := [], container := 0 }, top1]
        ∧ v ∈ top1.registered := by
  obtain ⟨v, b1, top1, hreg, _, _, hblocks, _, hmem, _⟩ :=
    registerSampler_in_top_frame twoFrames 50 "s" (.sampler false) 0 0 true
      { registered := [], container := 1 } rfl rfl
  exact ⟨v, b1, top1, hreg, hblocks, hmem⟩

/-- C20: register/lookup round trip for functions.  For every builder state, at any depth, if
`registerFunction( name, type )` at a free address succeeds, then afterwards `hasFunction( name )`
is true and `getFunction( name )` returns a variable whose name (or full name) is `name` and
whose type is `type`: the new variable, or the one the global frame already held for the name.
Its name is `name` when no variable of the global frame has `name` as its full name only (a
variable that is not a member has its name as full name).  The same holds, with the same
variable, after any number of `pop()` calls that keep the global frame. -/
theorem registerFunction_round_trip (b : ShaderBuilder) (ptr : Nat) (name : String)
    (type : ast.type.TypePtr) (r : var.Variable) (b1 : ShaderBuilder)
    (hfree : addressFree b ptr = true)
    (h : registerFunction b ptr name type = .ok (r, b1)) :
    r.getName = name ∧ r.type = type
      ∧ ∃ v, (v = r ∨ ∃ front ∈ b.m_blocks.head?, builder.findVariable front.registered name = some v)
        ∧ named v name ∧ v.type = type
        ∧ ((∀ front ∈ b.m_blocks.head?, ∀ w ∈ front.registered,
              w.getFullName = name → w.getName = name) → v.getName = name)
        ∧ ∀ k, k < b1.m_blocks.length →
            ∃ bk, popN k b1 = .ok bk ∧ hasFunction bk name = .ok true
              ∧ getFunction bk name = .ok v := by
  unfold registerFunction at h
  split at h
  · cases h
  · rename_i front rest hb
    have hfront : var.setContains front.registered ptr = false := by
      unfold addressFree at hfree
      rw [hb] at hfree
      simpa using (List.all_eq_true.mp hfree) front (List.mem_cons_self _ _)
    dsimp only at h
    split at h
    · cases h
    · rename_i hcheck
      simp only [Except.ok.injEq, Prod.mk.injEq] at h
      obtain ⟨hr, hb1⟩ := h
      subst hr
      refine ⟨rfl, rfl, ?_⟩
      obtain ⟨u, hu, hor⟩ := findVariable_setInsert
        (var.makeFunction ptr ((b.m_shader.data.nextVarId + 1) % 2 ^ 32) type name)
        front.registered name (Or.inr rfl) hfront
      have hhead : b1.m_blocks.head?
          = some { front with
              registered :=
                var.setInsert
                  (var.makeFunction ptr ((b.m_shader.data.nextVarId + 1) % 2 ^ 32) type name)
                  front.registered } := by
        rw [← hb1]
        rfl
      have hutype : u.type = type := by
        rcases hor with h1 | h1
        · rw [h1]; rfl
        · rw [h1] at hcheck
          simp only [Option.isSome_some, Option.map_some', ne_eq, Option.some.injEq,
            Bool.true_and, decide_eq_true_eq, not_not] at hcheck
          exact hcheck.symm
      refine ⟨u, ?_, (findVariable_some hu).2, hutype, ?_, ?_⟩
      · rcases hor with h1 | h1
        · exact Or.inl h1
        · exact Or.inr ⟨front, by rw [hb]; rfl, h1⟩
      · intro hnames
        rcases hor with h1 | h1
        · rw [h1]; rfl
        · rcases (findVariable_some h1).2 with h2 | h2
          · exact hnames front (by rw [hb]; rfl) u (findVariable_some h1).1 h2
          · exact h2
      · intro k hk
        obtain ⟨bk, hpop, hh, _⟩ := popN_keeps_front k b1 hk
        refine ⟨bk, hpop, ?_, ?_⟩
        · unfold hasFunction
          rw [hh, hhead]
          dsimp only
          rw [hu]
          rfl
        · unfold getFunction
          rw [hh, hhead]
          dsimp only
          rw [hu]

/-- C20 on the builder two frames deep: the function `f` is found after its registration and
after the inner scope is popped. -/
theorem registerFunction_round_trip_witness :
    ∃ r b1 bk,
      registerFunction twoFrames 100 "f" sampleFunctionInt = .ok (r, b1)
        ∧ popN 1 b1 = .ok bk ∧ hasFunction bk "f" = .ok true ∧ getFunction bk "f" = .ok r := by
  obtain ⟨_, _, v, hv, _, _, _, hall⟩ :=
    registerFunction_round_trip twoFrames 100 "f" sampleFunctionInt _ _ rfl rfl
  obtain ⟨bk, hpop, hhas, hget⟩ := hall 1 (by decide)
  refine ⟨_, _, bk, rfl, hpop, hhas, ?_⟩
  rcases hv with h1 | ⟨front, hfront, hfind⟩
  · rw [hget, h1]
  · simp only [twoFrames, List.head?_cons, Option.mem_def, Option.some.injEq] at hfront
    subst hfront
    cases hfind

end ShaderBuilder
end ast

/-! ## The type registry: numbering of the decorations -/

namespace spirv
namespace ModuleTypes

open ast ast.type

theorem Numbered.numbered_refl (s : ModuleTypes) : Numbered s s :=
  ⟨Nat.le_refl _, fun _ h => Or.inl h, fun _ h => Or.inl h, rfl⟩

theorem Numbered.numbered_trans {a b c : ModuleTypes} (h1 : Numbered a b) (h2 : Numbered b c) :
    Numbered a c := by
  refine ⟨Nat.le_trans h1.nextId h2.nextId, ?_, ?_, h2.samplerImages.trans h1.samplerImages⟩
  · intro d hd
    rcases h2.decorations d hd with h | h
    · exact h1.decorations d h
    · exact Or.inr (Nat.le_trans h1.nextId h)
  · intro d hd
    rcases h2.memberDecorations d hd with h | h
    · exact h1.memberDecorations d h
    · exact Or.inr (Nat.le_trans h1.nextId h)

/-- A state with the same decorations and sampled images, whose counter did not go back. -/
theorem Numbered.numbered_of_eq {s s' : ModuleTypes}
    (h1 : s.m_module.nextId ≤ s'.m_module.nextId)
    (h2 : s'.m_module.decorations = s.m_module.decorations)
    (h3 : s'.m_module.memberDecorations = s.m_module.memberDecorations)
    (h4 : s'.m_registeredSamplerImages = s.m_registeredSamplerImages) : Numbered s s' :=
  ⟨h1, fun _ h => Or.inl (h2 ▸ h), fun _ h => Or.inl (h3 ▸ h), h4⟩

theorem numbered_registerPointerType (s : ModuleTypes) (type : TypeId) (storage : Nat)
    (isForward : Bool) : Numbered s (registerPointerType s type storage isForward).2 := by
  unfold registerPointerType
  dsimp only
  split
  · exact Numbered.numbered_refl s
  · split
    · exact Numbered.numbered_of_eq (Nat.le_succ _) rfl rfl rfl
    · exact Numbered.numbered_of_eq (Nat.le_succ _) rfl rfl rfl

theorem numbered_sampler (s : ModuleTypes) (type : Ty) :
    Numbered s (doRegisterBaseTypeSampler s type).2 :=
  Numbered.numbered_of_eq (Nat.le_succ _) rfl rfl rfl

theorem numbered_accelerationStructure (s : ModuleTypes) (type : Ty) :
    Numbered s (doRegisterBaseTypeAccelerationStructure s type).2 :=
  Numbered.numbered_of_eq (Nat.le_succ _) rfl rfl rfl

theorem numbered_registerLiteral (r : Registrar) (hr : Registrar.Numbering r) (s : ModuleTypes)
    (value : Nat) : Numbered s (registerLiteral r s value).2 := by
  unfold registerLiteral
  dsimp only
  split
  · exact Numbered.numbered_refl s
  · exact (hr s _ 0).numbered_trans (Numbered.numbered_of_eq (Nat.le_succ _) rfl rfl rfl)

theorem numbered_kind (r : Registrar) (hr : Registrar.Numbering r) (s : ModuleTypes)
    (kind : BasicKind) : Numbered s (doRegisterBaseTypeKind r s kind).2 := by
  unfold doRegisterBaseTypeKind
  have h1 : Numbered s
      { s.getNextId.2 with
        m_registeredTypes := mapEmplace s.getNextId.2.m_registeredTypes (getBasicType kind)
          { id := s.getNextId.1, type := getBasicType kind } } :=
    Numbered.numbered_of_eq (Nat.le_succ _) rfl rfl rfl
  dsimp only
  split
  · split
    · exact h1.numbered_trans ((hr _ _ 0).numbered_trans
        (Numbered.numbered_of_eq (Nat.le_refl _) rfl rfl rfl))
    · exact h1.numbered_trans ((hr _ _ 0).numbered_trans
        (Numbered.numbered_of_eq (Nat.le_refl _) rfl rfl rfl))
  · exact h1.numbered_trans (Numbered.numbered_of_eq (Nat.le_refl _) rfl rfl rfl)

theorem numbered_image (env : TypesEnv) (r : Registrar) (hr : Registrar.Numbering r)
    (s : ModuleTypes) (type : Ty) (config : ImageConfiguration) (isComparison : Trinary) :
    Numbered s (doRegisterBaseTypeImage env r s type config isComparison).2 := by
  unfold doRegisterBaseTypeImage
  dsimp only
  split
  · exact Numbered.numbered_refl s
  · have h0 : Numbered s
        { s with m_registeredImageTypes :=
            (mapEmplace s.m_registeredImageTypes (modtyp.myHash env config isComparison)
              ⟨0, type⟩) } :=
      Numbered.numbered_of_eq (Nat.le_refl _) rfl rfl rfl
    exact (h0.numbered_trans (hr _ (getBasicType (.eScalar config.sampledType)) 0)).numbered_trans
      (Numbered.numbered_of_eq (Nat.le_succ _) rfl rfl rfl)

theorem numbered_combinedImage (env : TypesEnv) (r : Registrar) (hr : Registrar.Numbering r)
    (s : ModuleTypes) (type : Ty) (config : ImageConfiguration) (isComparison : Bool) :
    Numbered s (doRegisterBaseTypeCombinedImage env r s type config isComparison).2 := by
  unfold doRegisterBaseTypeCombinedImage
  exact (numbered_image env r hr s _ config _).numbered_trans
    (Numbered.numbered_of_eq (Nat.le_succ _) rfl rfl rfl)

theorem numbered_registerMembers (r : Registrar) (hr : Registrar.Numbering r) :
    ∀ (ms : MemberList) (s : ModuleTypes), Numbered s (registerMembers r ms s).2
  | .nil, s => Numbered.numbered_refl s
  | .cons type _ _ _ _ arrayStride _ _ rest, s => by
    unfold registerMembers
    exact (hr s type arrayStride).numbered_trans (numbered_registerMembers r hr rest _)

end ModuleTypes
end spirv

namespace spirv
namespace ModuleTypes

open ast ast.type

theorem offsetsIn_append (a b : List (Nat × Nat × List Nat)) (id index : Nat) :
    offsetsIn (a ++ b) id index = offsetsIn a id index ++ offsetsIn b id index := by
  unfold offsetsIn
  rw [List.filterMap_append]

/-- Decorations on other ids hold no offset of the structure `id`. -/
theorem offsetsIn_of_ne (l : List (Nat × Nat × List Nat)) (id index : Nat)
    (h : ∀ d ∈ l, d.1 ≠ id) : offsetsIn l id index = [] := by
  unfold offsetsIn
  rw [List.filterMap_eq_nil_iff]
  intro d hd
  obtain ⟨i, j, dec⟩ := d
  have hne : i ≠ id := h _ hd
  split
  · rename_i i' j' decoration value heq
    cases heq
    rw [if_neg]
    intro hc
    exact hne hc.1
  · rfl

/-- The member builtin decorations: what `doAddMbrBuiltin` appends is on the member it is
called for and holds no `Offset` decoration. -/
theorem doAddMbrBuiltin_added (env : TypesEnv) (m : Module) (pbuiltin : Builtin)
    (outer : TypeId) (mbrIndex : Nat) :
    ∃ added, (doAddMbrBuiltin env m pbuiltin outer mbrIndex).2
        = { m with memberDecorations := m.memberDecorations ++ added }
      ∧ (∀ d ∈ added, d.1 = outer.id)
      ∧ ∀ id index, offsetsIn added id index = [] := by
  unfold doAddMbrBuiltin
  split
  · exact ⟨[], by simp, by simp, fun _ _ => rfl⟩
  · rename_i builtin additionalDecorations _
    dsimp only
    have hfold : ∀ (ds : List Nat) (m0 : Module) (added0 : List (Nat × Nat × List Nat)),
        (∀ d ∈ added0, d.1 = outer.id) → (∀ id index, offsetsIn added0 id index = []) →
        m0 = { m with memberDecorations := m.memberDecorations ++ added0 } →
        ∃ added, ds.foldl (fun acc d => acc.decorateMember outer.id mbrIndex [d]) m0
            = { m with memberDecorations := m.memberDecorations ++ added }
          ∧ (∀ d ∈ added, d.1 = outer.id)
          ∧ ∀ id index, offsetsIn added id index = [] := by
      intro ds
      induction ds with
      | nil => intro m0 added0 h1 h2 h3; exact ⟨added0, h3, h1, h2⟩
      | cons d ds ih =>
        intro m0 added0 h1 h2 h3
        rw [List.foldl_cons]
        apply ih (m0.decorateMember outer.id mbrIndex [d]) (added0 ++ [(outer.id, mbrIndex, [d])])
        · intro x hx
          rcases List.mem_append.mp hx with hx | hx
          · exact h1 x hx
          · rw [List.mem_singleton.mp hx]
        · intro id index
          rw [offsetsIn_append, h2]
          rfl
        · rw [h3]
          unfold Module.decorateMember
          simp
    apply hfold additionalDecorations _ [(outer.id, mbrIndex, [DecorationBuiltIn, builtin])]
    · intro x hx
      rw [List.mem_singleton.mp hx]
    · intro id index
      unfold offsetsIn
      simp [DecorationBuiltIn, DecorationOffset]
    · rfl

/-- The matrix decorations of a member: what `decorateMatrixMember` appends is on the structure,
holds no `Offset` decoration and, for a matrix member, holds `ColMajor` and the `MatrixStride`
of the column type, a `vec3` column (and a `vec2` column under std140) counting as a `vec4`. -/
theorem decorateMatrixMember_added (env : TypesEnv) (layout : MemoryLayout) (result : TypeId)
    (type : Ty) (index : Nat) (m : Module) :
    ∃ added, decorateMatrixMember env layout result type index m
        = { m with memberDecorations := m.memberDecorations ++ added }
      ∧ (∀ d ∈ added, d.1 = result.id)
      ∧ (∀ id i, offsetsIn added id i = [])
      ∧ ∀ sc cols rows, getNonArrayKind type = .eBasic (.eMat sc cols rows) →
          (result.id, index, [DecorationColMajor]) ∈ added
            ∧ (result.id, index,
                [DecorationMatrixStride,
                  if rows = 3 ∨ (rows = 2 ∧ layout = .eStd140) then
                    env.getSize (getBasicType (.eVec sc 4)) layout
                  else env.getSize (getBasicType (.eVec sc rows)) layout]) ∈ added := by
  unfold decorateMatrixMember
  split
  · rename_i sc cols rows hk
    refine ⟨[(result.id, index, [DecorationColMajor]),
      (result.id, index, [DecorationMatrixStride,
        if rows = 3 ∨ (rows = 2 ∧ layout = .eStd140) then
          env.getSize (getBasicType (.eVec sc 4)) layout
        else env.getSize (getBasicType (.eVec sc rows)) layout])], ?_, ?_, ?_, ?_⟩
    · unfold Module.decorateMember
      simp only [getComponentType, getComponentCount]
      split <;> simp
    · intro d hd
      simp only [List.mem_cons, List.mem_singleton, List.not_mem_nil, or_false] at hd
      rcases hd with hd | hd <;> rw [hd]
    · intro id i
      unfold offsetsIn
      simp [DecorationMatrixStride, DecorationOffset]
    · intro sc' cols' rows' hk'
      rw [hk] at hk'
      cases hk'
      exact ⟨List.mem_cons_self _ _, List.mem_cons_of_mem _ (List.mem_singleton.mpr rfl)⟩
  · rename_i hk
    exact ⟨[], by simp, by simp, fun _ _ => rfl, fun sc cols rows h => absurd h (hk sc cols rows)⟩

end ModuleTypes
end spirv

namespace spirv
namespace ModuleTypes

open ast ast.type

/-- The first step of the member loop: the `Offset` decoration of a member that is no builtin,
the builtin decorations otherwise. -/
theorem decorateMember_step (env : TypesEnv) (result : TypeId) (m : Module) (index offset : Nat)
    (builtin : Builtin) (hasBuiltin : Bool) :
    ∃ added,
      (if builtin = .eNone then
          (hasBuiltin, m.decorateMember result.id index [DecorationOffset, offset])
        else (true, (doAddMbrBuiltin env m builtin result index).2))
        = (hasBuiltin || decide (builtin ≠ .eNone),
            { m with memberDecorations := m.memberDecorations ++ added })
      ∧ (∀ d ∈ added, d.1 = result.id)
      ∧ ∀ i, offsetsIn added result.id i
          = if i = index ∧ builtin = .eNone then [offset] else [] := by
  by_cases hb : builtin = .eNone
  · refine ⟨[(result.id, index, [DecorationOffset, offset])], ?_, ?_, ?_⟩
    · rw [if_pos hb]
      simp [hb, Module.decorateMember]
    · intro d hd
      rw [List.mem_singleton.mp hd]
    · intro i
      unfold offsetsIn
      by_cases hi : i = index
      · simp [hi, hb]
      · have hi' : ¬ index = i := fun h => hi h.symm
        simp [hi, hi', hb]
  · obtain ⟨added, h1, h2, h3⟩ := doAddMbrBuiltin_added env m builtin result index
    refine ⟨added, ?_, h2, ?_⟩
    · rw [if_neg hb, h1]
      simp [hb]
    · intro i
      rw [h3, if_neg]
      intro hc
      exact hb hc.2

/-- **The member loop of the structure registration.**  What `decorateMembers` appends to the
member decorations is on the structure; its `Offset` decorations are those of the members that
are no builtin, in order, with their offsets; the flags it returns tell whether a member is a
builtin and whether a member has an unknown array size; a matrix member gets `ColMajor` and its
`MatrixStride`. -/
theorem decorateMembers_added (env : TypesEnv) (layout : MemoryLayout) (result : TypeId) :
    ∀ (ms : MemberList) (m : Module) (hasBuiltin hasDynarray : Bool),
      ∃ added, (decorateMembers env layout result ms m hasBuiltin hasDynarray).2
          = { m with memberDecorations := m.memberDecorations ++ added }
        ∧ (∀ d ∈ added, d.1 = result.id)
        ∧ (∀ i, offsetsIn added result.id i
            = (ms.toList.filter
                (fun mb => decide (mb.index = i) && decide (mb.builtin = .eNone))).map
                  (fun mb => mb.offset))
        ∧ (decorateMembers env layout result ms m hasBuiltin hasDynarray).1
            = (hasBuiltin || ms.toList.any (fun mb => decide (mb.builtin ≠ .eNone)),
                hasDynarray
                  || ms.toList.any (fun mb => decide (getArraySize mb.type = UnknownArraySize)))
        ∧ ∀ mb ∈ ms.toList, ∀ sc cols rows,
            getNonArrayKind mb.type = .eBasic (.eMat sc cols rows) →
            (result.id, mb.index, [DecorationColMajor]) ∈ added
              ∧ (result.id, mb.index,
                  [DecorationMatrixStride,
                    if rows = 3 ∨ (rows = 2 ∧ layout = .eStd140) then
                      env.getSize (getBasicType (.eVec sc 4)) layout
                    else env.getSize (getBasicType (.eVec sc rows)) layout]) ∈ added
  | .nil, m, hasBuiltin, hasDynarray => by
    refine ⟨[], ?_, ?_, ?_, ?_, ?_⟩
    · simp [decorateMembers]
    · simp
    · intro i; rfl
    · simp [decorateMembers, MemberList.toList]
    · intro mb hmb; simp [MemberList.toList] at hmb
  | .cons type index name offset size arrayStride location builtin rest, m, hasBuiltin,
      hasDynarray => by
    obtain ⟨a1, h1, h1id, h1off⟩ := decorateMember_step env result m index offset builtin hasBuiltin
    obtain ⟨a2, h2, h2id, h2off, h2mat⟩ := decorateMatrixMember_added env layout result type index
      { m with memberDecorations := m.memberDecorations ++ a1 }
    obtain ⟨a3, h3, h3id, h3off, h3flags, h3mat⟩ := decorateMembers_added env layout result rest
      ({ m with memberDecorations := m.memberDecorations ++ a1 ++ a2 } : Module)
      (hasBuiltin || decide (builtin ≠ .eNone))
      (if getArraySize type = UnknownArraySize then true else hasDynarray)
    have hstep : decorateMembers env layout result
        (.cons type index name offset size arrayStride location builtin rest) m hasBuiltin
        hasDynarray
        = decorateMembers env layout result rest
          ({ m with memberDecorations := m.memberDecorations ++ a1 ++ a2 } : Module)
          (hasBuiltin || decide (builtin ≠ .eNone))
          (if getArraySize type = UnknownArraySize then true else hasDynarray) := by
      rw [decorateMembers, h1]
      dsimp only at h2 ⊢
      rw [h2]
    rw [hstep]
    refine ⟨a1 ++ a2 ++ a3, ?_, ?_, ?_, ?_, ?_⟩
    · rw [h3]
      simp [List.append_assoc]
    · intro d hd
      rcases List.mem_append.mp hd with hd | hd
      · rcases List.mem_append.mp hd with hd | hd
        · exact h1id d hd
        · exact h2id d hd
      · exact h3id d hd
    · intro i
      rw [offsetsIn_append, offsetsIn_append, h1off, h2off, h3off]
      simp only [MemberList.toList, List.filter_cons, List.append_nil]
      by_cases hi : i = index
      · by_cases hb : builtin = .eNone
        · simp [hi, hb]
        · simp [hi, hb]
      · have hi' : ¬ index = i := fun h => hi h.symm
        simp [hi, hi']
    · rw [h3flags]
      simp only [MemberList.toList, List.any_cons]
      by_cases hdyn : getArraySize type = UnknownArraySize
      · simp [hdyn, Bool.or_assoc]
      · simp [hdyn, Bool.or_assoc]
    · intro mb hmb sc cols rows hk
      simp only [MemberList.toList, List.mem_cons] at hmb
      rcases hmb with hmb | hmb
      · subst hmb
        obtain ⟨hc, hs⟩ := h2mat sc cols rows hk
        exact ⟨List.mem_append_left _ (List.mem_append_right _ hc),
          List.mem_append_left _ (List.mem_append_right _ hs)⟩
      · obtain ⟨hc, hs⟩ := h3mat mb hmb sc cols rows hk
        exact ⟨List.mem_append_right _ hc, List.mem_append_right _ hs⟩

end ModuleTypes
end spirv

namespace spirv
namespace ModuleTypes

open ast ast.type

theorem numbered_struct (env : TypesEnv) (r : Registrar) (hr : Registrar.Numbering r)
    (s : ModuleTypes) (type : Ty) (layout : MemoryLayout) (ms : MemberList) :
    Numbered s (doRegisterBaseTypeStruct env r s type layout ms).2 := by
  unfold doRegisterBaseTypeStruct
  dsimp only
  have h1 : Numbered s (registerMembers r ms s.getNextId.2).2 :=
    (Numbered.numbered_of_eq (Nat.le_succ _) rfl rfl rfl : Numbered s s.getNextId.2).numbered_trans
      (numbered_registerMembers r hr ms _)
  obtain ⟨added, hadd, hid, -, -, -⟩ := decorateMembers_added env layout
    ⟨s.getNextId.1, type⟩ ms
    ((registerMembers r ms s.getNextId.2).2.pushDeclaration
      ⟨.OpTypeStruct, none, some s.getNextId.1,
        (registerMembers r ms s.getNextId.2).1.map (fun t => t.id)⟩).m_module false false
  rw [hadd]
  refine ⟨?_, ?_, ?_, ?_⟩
  · have := h1.nextId
    split <;> exact this
  · intro d hd
    have hd' : d ∈ (registerMembers r ms s.getNextId.2).2.m_module.decorations
        ∨ d = (s.m_module.nextId, [DecorationBlock]) := by
      split at hd
      · rcases List.mem_append.mp hd with h | h
        · exact Or.inl h
        · exact Or.inr (List.mem_singleton.mp h)
      · exact Or.inl hd
    rcases hd' with h | h
    · exact h1.decorations d h
    · rw [h]; exact Or.inr (Nat.le_refl _)
  · intro d hd
    have hd' : d ∈ (registerMembers r ms s.getNextId.2).2.m_module.memberDecorations
        ∨ d ∈ added := by
      split at hd
      · exact List.mem_append.mp hd
      · exact List.mem_append.mp hd
    rcases hd' with h | h
    · exact h1.memberDecorations d h
    · exact Or.inr (Nat.le_of_eq (hid d h).symm)
  · exact h1.samplerImages

theorem numbered_doRegisterBaseType (env : TypesEnv) (r : Registrar)
    (hr : Registrar.Numbering r) (s : ModuleTypes) (type : Ty) :
    Numbered s (doRegisterBaseType env r s type).2 := by
  unfold doRegisterBaseType
  dsimp only
  split
  · exact numbered_sampler s _
  · exact numbered_combinedImage env r hr s _ _ _
  · exact numbered_image env r hr s _ _ _
  · exact numbered_image env r hr s _ _ _
  · exact numbered_accelerationStructure s _
  · exact numbered_struct env r hr s _ _ _
  · exact numbered_kind r hr s _
  · exact Numbered.numbered_refl s

theorem numbered_doRegisterNonArrayType (env : TypesEnv) (r : Registrar)
    (hr : Registrar.Numbering r) (s : ModuleTypes) (type : Ty) :
    Numbered s (doRegisterNonArrayType env r s type).2 := by
  unfold doRegisterNonArrayType
  dsimp only
  split
  · exact numbered_doRegisterBaseType env r hr s _
  · exact Numbered.numbered_refl s

/-- What `writeArrayStride` appends to the decorations: nothing, or the `ArrayStride` of the
array id. -/
theorem writeArrayStride_eq (env : TypesEnv) (m : Module) (elementType : Ty) (typeId : TypeId)
    (arrayStride : Nat) :
    modtyp.writeArrayStride env m elementType typeId arrayStride
      = { m with
          decorations := m.decorations
            ++ (if getNonArrayKind elementType ≠ .eImage
                  ∧ getNonArrayKind elementType ≠ .eCombinedImage
                  ∧ getNonArrayKind elementType ≠ .eSampler
                  ∧ getNonArrayKind elementType ≠ .eSampledImage then
                [(typeId.id,
                  [DecorationArrayStride,
                    if arrayStride = 0 then env.getSize elementType .eStd140 else arrayStride])]
              else []) } := by
  unfold modtyp.writeArrayStride
  dsimp only
  split
  · rfl
  · simp

theorem numbered_writeArrayStride (env : TypesEnv) {s s2 : ModuleTypes} (h2 : Numbered s s2)
    (elementType : Ty) (typeId : TypeId) (arrayStride : Nat)
    (hid : s.m_module.nextId ≤ typeId.id) :
    Numbered s
      { s2 with
        m_module := modtyp.writeArrayStride env s2.m_module elementType typeId arrayStride } := by
  rw [writeArrayStride_eq]
  refine ⟨h2.nextId, ?_, h2.memberDecorations, h2.samplerImages⟩
  intro d hd
  rcases List.mem_append.mp hd with h | h
  · exact h2.decorations d h
  · split at h
    · rw [List.mem_singleton.mp h]
      exact Or.inr hid
    · cases h

/-- The registration of an array type that is not registered yet decorates the id it
allocates. -/
theorem numbered_doRegisterArrayType (env : TypesEnv) (r : Registrar)
    (hr : Registrar.Numbering r) (s : ModuleTypes) (type arrayedType : Ty) (arraySize : Nat)
    (elementTypeId : TypeId) (arrayStride : Nat)
    (hnone : mapFind s.m_registeredTypes (modtyp.getUnqualifiedType type) = none) :
    Numbered s (doRegisterArrayType env r s type arrayedType arraySize
      elementTypeId arrayStride).2 := by
  unfold doRegisterArrayType
  dsimp only
  have hres : (mapFind (mapEmplace s.getNextId.2.m_registeredTypes (modtyp.getUnqualifiedType type)
      ({ id := s.getNextId.1, type := type } : TypeId)) (modtyp.getUnqualifiedType type)).getD
      ({ id := s.getNextId.1, type := type } : TypeId) = { id := s.getNextId.1, type := type } := by
    rw [mapFind_mapEmplace, if_pos rfl]
    show ((mapFind s.m_registeredTypes (modtyp.getUnqualifiedType type)).getD _) = _
    rw [hnone]
    rfl
  rw [hres]
  have h1 : Numbered s
      { s.getNextId.2 with
        m_registeredTypes :=
          (mapEmplace s.getNextId.2.m_registeredTypes (modtyp.getUnqualifiedType type)
            ⟨s.getNextId.1, type⟩) } :=
    Numbered.numbered_of_eq (Nat.le_succ _) rfl rfl rfl
  have h2 : Numbered s
      (if arraySize ≠ UnknownArraySize then
        (registerLiteral r
          { s.getNextId.2 with
            m_registeredTypes :=
              (mapEmplace s.getNextId.2.m_registeredTypes (modtyp.getUnqualifiedType type)
                ⟨s.getNextId.1, type⟩) } arraySize).2.pushDeclaration
          ⟨.OpTypeArray, none, some s.getNextId.1,
            [elementTypeId.id,
              (registerLiteral r
                { s.getNextId.2 with
                  m_registeredTypes :=
                    (mapEmplace s.getNextId.2.m_registeredTypes (modtyp.getUnqualifiedType type)
                      ⟨s.getNextId.1, type⟩) } arraySize).1]⟩
      else
        ({ s.getNextId.2 with
            m_registeredTypes :=
              (mapEmplace s.getNextId.2.m_registeredTypes (modtyp.getUnqualifiedType type)
                ⟨s.getNextId.1, type⟩) } : ModuleTypes).pushDeclaration
          ⟨.OpTypeRuntimeArray, none, some s.getNextId.1, [elementTypeId.id]⟩) := by
    split
    · exact h1.numbered_trans ((numbered_registerLiteral r hr _ _).numbered_trans
        (Numbered.numbered_of_eq (Nat.le_refl _) rfl rfl rfl))
    · exact h1.numbered_trans (Numbered.numbered_of_eq (Nat.le_refl _) rfl rfl rfl)
  exact numbered_writeArrayStride env h2 arrayedType ⟨s.getNextId.1, type⟩ arrayStride
    (Nat.le_refl _)

theorem numbered_body (env : TypesEnv) (r : Registrar) (hr : Registrar.Numbering r)
    (s : ModuleTypes) (type : Ty) (arrayStride : Nat) :
    Numbered s (doRegisterTypeRecBody env r s type arrayStride).2 := by
  unfold doRegisterTypeRecBody
  split
  · dsimp only
    split
    · rename_i hnone
      exact (hr s _ arrayStride).numbered_trans
        (numbered_doRegisterArrayType env r hr _ _ _ _ _ _ hnone)
    · exact hr s _ arrayStride
  · exact (hr s _ arrayStride).numbered_trans (numbered_registerPointerType _ _ _ _)
  · dsimp only
    split
    · exact (hr s _ arrayStride).numbered_trans
        (Numbered.numbered_of_eq (Nat.le_refl _) rfl rfl rfl)
    · exact hr s _ arrayStride
  · exact numbered_doRegisterNonArrayType env r hr s _

/-- **Registration numbers its decorations.**  Whatever the fuel, `doRegisterTypeRec` does not
move the id counter back, decorates no id allocated before it, and leaves the registry of
sampled images alone. -/
theorem numbering_doRegisterTypeRec (env : TypesEnv) (fuel : Nat) :
    Registrar.Numbering (doRegisterTypeRec env fuel) := by
  induction fuel with
  | zero => intro s t stride; exact Numbered.numbered_refl s
  | succ n ih => intro s t stride; exact numbered_body env _ ih s t stride

theorem numbered_registerType (env : TypesEnv) (s : ModuleTypes) (type : Ty) :
    Numbered s (registerType env s type).2 :=
  numbering_doRegisterTypeRec env type.size s type 0

end ModuleTypes
end spirv

/-! ## The type registry: what the registration of a scalar emits -/

namespace spirv
namespace ModuleTypes

open ast ast.type

theorem ScalarOnly.scalarOnly_refl (s : ModuleTypes) : ScalarOnly s s :=
  ⟨⟨[], by simp, by simp⟩, rfl, rfl⟩

theorem makeBaseTypeInstruction_op (k : ScalarKind) (id : Nat) :
    (makeBaseTypeInstruction (.eScalar k) id).op = .OpTypeVoid
      ∨ (makeBaseTypeInstruction (.eScalar k) id).op = .OpTypeBool
      ∨ (makeBaseTypeInstruction (.eScalar k) id).op = .OpTypeInt
      ∨ (makeBaseTypeInstruction (.eScalar k) id).op = .OpTypeFloat := by
  cases k <;> simp [makeBaseTypeInstruction]

theorem scalarOnly_kind_scalar (r : Registrar) (s : ModuleTypes) (k : ScalarKind) :
    ScalarOnly s (doRegisterBaseTypeKind r s (.eScalar k)).2 := by
  unfold doRegisterBaseTypeKind
  simp only [isVectorType, isMatrixType, Bool.or_self, Bool.false_eq_true, if_false]
  refine ⟨⟨[makeBaseTypeInstruction (.eScalar k) _], rfl, ?_⟩, rfl, rfl⟩
  intro i hi
  rw [List.mem_singleton.mp hi]
  exact makeBaseTypeInstruction_op k _

/-- **The registration of a scalar type** appends an instruction of a scalar type at most and
keeps the decorations and the literals, whatever the fuel. -/
theorem scalarOnly_doRegisterTypeRec (env : TypesEnv) (fuel : Nat) (s : ModuleTypes)
    (k : ScalarKind) :
    ScalarOnly s (doRegisterTypeRec env fuel s (getBasicType (.eScalar k)) 0).2 := by
  cases fuel with
  | zero => exact ScalarOnly.scalarOnly_refl s
  | succ n =>
    show ScalarOnly s (doRegisterTypeRecBody env _ s (getBasicType (.eScalar k)) 0).2
    unfold doRegisterTypeRecBody getBasicType
    dsimp only
    unfold doRegisterNonArrayType
    dsimp only
    split
    · simp only [modtyp.getUnqualifiedType, getBasicType, doRegisterBaseType]
      exact scalarOnly_kind_scalar _ s k
    · exact ScalarOnly.scalarOnly_refl s

/-- The registration of a literal appends the instruction of `uint` and the `OpConstant` of the
literal at most, keeps the decorations, and leaves the literal in the table of the module under
the id it returns. -/
theorem registerLiteral_emits (env : TypesEnv) (fuel : Nat) (s : ModuleTypes) (value : Nat) :
    (∃ added, (registerLiteral (doRegisterTypeRec env fuel) s value).2.m_declarations
          = s.m_declarations ++ added
        ∧ ∀ i ∈ added, i.op ≠ .OpTypeArray ∧ i.op ≠ .OpTypeRuntimeArray ∧ i.op ≠ .OpTypeImage)
      ∧ (registerLiteral (doRegisterTypeRec env fuel) s value).2.m_module.decorations
          = s.m_module.decorations
      ∧ mapFind (registerLiteral (doRegisterTypeRec env fuel) s value).2.m_module.literals value
          = some (registerLiteral (doRegisterTypeRec env fuel) s value).1 := by
  unfold registerLiteral
  dsimp only
  split
  · rename_i id hfound
    exact ⟨⟨[], by simp, by simp⟩, rfl, hfound⟩
  · rename_i hnone
    have hs := scalarOnly_doRegisterTypeRec env fuel s .eUInt32
    obtain ⟨added, hadd, hops⟩ := hs.declarations
    refine ⟨⟨added ++ [⟨.OpConstant,
      some (doRegisterTypeRec env fuel s (getBasicType (.eScalar .eUInt32)) 0).1.id,
      some (doRegisterTypeRec env fuel s (getBasicType (.eScalar .eUInt32)) 0).2.getNextId.1,
      [value]⟩], ?_, ?_⟩, hs.decorations, ?_⟩
    · show (doRegisterTypeRec env fuel s (getBasicType (.eScalar .eUInt32)) 0).2.m_declarations
        ++ [_] = _
      rw [hadd, List.append_assoc]
    · intro i hi
      rcases List.mem_append.mp hi with h | h
      · rcases hops i h with h' | h' | h' | h' <;> rw [h'] <;> simp
      · rw [List.mem_singleton.mp h]
        simp
    · show mapFind (mapEmplace
        (doRegisterTypeRec env fuel s (getBasicType (.eScalar .eUInt32)) 0).2.m_module.literals
        value _) value = _
      rw [mapFind_mapEmplace, if_pos rfl, hs.literals, hnone]
      rfl

end ModuleTypes
end spirv

/-! ## The type registry: what the registration of an image type emits -/

namespace spirv
namespace ModuleTypes

open ast ast.type

theorem ite_one_zero_le (p : Prop) [Decidable p] : (if p then 1 else 0) ≤ 1 := by
  split <;> omega

/-- One more instruction, an `OpTypeImage`, after instructions of scalar types. -/
theorem emits_one_image (decl tdecl base added : List Instruction) (i : Instruction)
    (hadd : tdecl = base ++ added)
    (hops : ∀ i ∈ added, i.op = .OpTypeVoid ∨ i.op = .OpTypeBool ∨ i.op = .OpTypeInt
      ∨ i.op = .OpTypeFloat)
    (hi : i.op = .OpTypeImage) (hdecl : decl = tdecl ++ [i]) :
    ∃ added', decl = base ++ added'
      ∧ (added'.filter (fun i => decide (i.op = .OpTypeImage))).length = 1 := by
  refine ⟨added ++ [i], by rw [hdecl, hadd, List.append_assoc], ?_⟩
  rw [List.filter_append]
  have hnil : added.filter (fun i => decide (i.op = .OpTypeImage)) = [] := by
    rw [List.filter_eq_nil_iff]
    intro i hi hc
    simp only [decide_eq_true_eq] at hc
    rcases hops i hi with h | h | h | h <;> rw [h] at hc <;> cases hc
  rw [hnil]
  simp [hi]

/-- One more instruction, which is no `OpTypeImage`. -/
theorem emits_no_image (decl tdecl base added : List Instruction) (i : Instruction)
    (hadd : tdecl = base ++ added) (hi : i.op ≠ .OpTypeImage) (hdecl : decl = tdecl ++ [i]) :
    ∃ added', decl = base ++ added'
      ∧ (added'.filter (fun i => decide (i.op = .OpTypeImage))).length
        = (added.filter (fun i => decide (i.op = .OpTypeImage))).length := by
  refine ⟨added ++ [i], by rw [hdecl, hadd, List.append_assoc], ?_⟩
  rw [List.filter_append]
  simp [hi]

/-- The image overload appends one `OpTypeImage` instruction when no image type is registered
under the key, after the instruction of the sampled type if that is new, and nothing
otherwise. -/
theorem image_emits (env : TypesEnv) (fuel : Nat) (s : ModuleTypes) (type : Ty)
    (config : ImageConfiguration) (isComparison : Trinary) :
    ∃ added,
      (doRegisterBaseTypeImage env (doRegisterTypeRec env fuel) s type config
          isComparison).2.m_declarations = s.m_declarations ++ added
        ∧ (added.filter (fun i => decide (i.op = .OpTypeImage))).length
          = if mapFind s.m_registeredImageTypes (modtyp.myHash env config isComparison) = none
            then 1 else 0 := by
  unfold doRegisterBaseTypeImage
  dsimp only
  split
  · rename_i found hfound
    refine ⟨[], by simp, ?_⟩
    rw [if_neg (by rw [hfound]; exact fun h => Option.noConfusion h)]
    rfl
  · rename_i hnone
    have hs := scalarOnly_doRegisterTypeRec env fuel
      { s with
        m_registeredImageTypes :=
          mapEmplace s.m_registeredImageTypes (modtyp.myHash env config isComparison)
            { id := 0, type := type } }
      config.sampledType
    obtain ⟨added, hadd, hops⟩ := hs.declarations
    rw [if_pos hnone]
    exact emits_one_image _ _ _ added _ hadd hops rfl rfl

/-- The combined image overload appends the instructions of its image type and one
`OpTypeSampledImage` instruction. -/
theorem combinedImage_emits (env : TypesEnv) (fuel : Nat) (s : ModuleTypes) (type : Ty)
    (config : ImageConfiguration) (isComparison : Bool) :
    ∃ added,
      (doRegisterBaseTypeCombinedImage env (doRegisterTypeRec env fuel) s type config
          isComparison).2.m_declarations = s.m_declarations ++ added
        ∧ (added.filter (fun i => decide (i.op = .OpTypeImage))).length
          = if mapFind s.m_registeredImageTypes
                (modtyp.myHash env config (if isComparison then .eTrue else .eFalse)) = none
            then 1 else 0 := by
  obtain ⟨added, hadd, hlen⟩ := image_emits env fuel s (.image config) config
    (if isComparison then .eTrue else .eFalse)
  rw [← hlen]
  unfold doRegisterBaseTypeCombinedImage
  dsimp only
  exact emits_no_image _ _ _ added _ hadd (by simp) rfl

/-- **The registration of an image, sampled image or combined image type** appends at most one
`OpTypeImage` instruction, and exactly one when neither the unqualified type nor an image type
under its key is registered. -/
theorem imageLike_emits (env : TypesEnv) (s : ModuleTypes) (T : Ty)
    (hT : sameButAccessKind T T = true) :
    ∃ added,
      (registerType env s T).2.m_declarations = s.m_declarations ++ added
        ∧ (added.filter (fun i => decide (i.op = .OpTypeImage))).length ≤ 1
        ∧ (mapFind s.m_registeredTypes (modtyp.getUnqualifiedType T) = none →
            (∀ k, imageKey env (modtyp.getUnqualifiedType T) = some k →
              mapFind s.m_registeredImageTypes k = none) →
            (added.filter (fun i => decide (i.op = .OpTypeImage))).length = 1) := by
  cases T with
  | image c =>
    show ∃ added, (doRegisterTypeRecBody env (doRegisterTypeRec env 1) s (.image c)
      0).2.m_declarations = _ ∧ _
    unfold doRegisterTypeRecBody
    dsimp only
    unfold doRegisterNonArrayType
    dsimp only
    split
    · simp only [modtyp.getUnqualifiedType, doRegisterBaseType]
      obtain ⟨added, hadd, hlen⟩ := image_emits env 1 s
        (.image { c with accessKind := .eReadWrite }) { c with accessKind := .eReadWrite } .eFalse
      refine ⟨added, hadd, ?_, ?_⟩
      · rw [hlen]; exact ite_one_zero_le _
      · intro _ hkey
        rw [hlen, if_pos (hkey _ rfl)]
    · rename_i found hfound
      exact ⟨[], by simp, by simp, fun h => by rw [h] at hfound; cases hfound⟩
  | sampledImage c d =>
    show ∃ added, (doRegisterTypeRecBody env (doRegisterTypeRec env 2) s (.sampledImage c d)
      0).2.m_declarations = _ ∧ _
    unfold doRegisterTypeRecBody
    dsimp only
    unfold doRegisterNonArrayType
    dsimp only
    split
    · simp only [modtyp.getUnqualifiedType, doRegisterBaseType]
      obtain ⟨added, hadd, hlen⟩ := image_emits env 2 s
        (.image { c with accessKind := .eReadWrite }) { c with accessKind := .eReadWrite } d
      refine ⟨added, hadd, ?_, ?_⟩
      · rw [hlen]; exact ite_one_zero_le _
      · intro _ hkey
        rw [hlen, if_pos (hkey _ rfl)]
    · rename_i found hfound
      exact ⟨[], by simp, by simp, fun h => by rw [h] at hfound; cases hfound⟩
  | combinedImage c d =>
    show ∃ added, (doRegisterTypeRecBody env (doRegisterTypeRec env 2) s (.combinedImage c d)
      0).2.m_declarations = _ ∧ _
    unfold doRegisterTypeRecBody
    dsimp only
    unfold doRegisterNonArrayType
    dsimp only
    split
    · simp only [modtyp.getUnqualifiedType, doRegisterBaseType]
      obtain ⟨added, hadd, hlen⟩ := combinedImage_emits env 2 s
        (.combinedImage { c with accessKind := .eReadWrite } d)
        { c with accessKind := .eReadWrite } d
      refine ⟨added, hadd, ?_, ?_⟩
      · rw [hlen]; exact ite_one_zero_le _
      · intro _ hkey
        rw [hlen, if_pos (hkey _ rfl)]
    · rename_i found hfound
      exact ⟨[], by simp, by simp, fun h => by rw [h] at hfound; cases hfound⟩
  | _ => simp [sameButAccessKind] at hT

end ModuleTypes
end spirv

/-! ## The registry of sampled images -/

namespace spirv
namespace ModuleTypes

open ast ast.type

/-- The entries of a registry of sampled images after the creation of the map of `image`. -/
theorem lookup_emplace_image (m : List (Nat × List (Nat × DebugId))) (image i j : Nat) :
    (mapFind (mapEmplace m image []) i).bind (fun inner => mapFind inner j)
      = (mapFind m i).bind (fun inner => mapFind inner j) := by
  rw [mapFind_mapEmplace]
  by_cases hi : i = image
  · subst hi
    rw [if_pos rfl]
    cases hm : mapFind m i with
    | none => rfl
    | some inner => rfl
  · rw [if_neg hi]

/-- The entries of a registry of sampled images after an assignment to the entry of
`( image, sampler )`, whose map holds the sampler. -/
theorem lookup_set (m : List (Nat × List (Nat × DebugId))) (image sampler i j : Nat)
    (inner : List (Nat × DebugId)) (old value : DebugId)
    (hm : mapFind m image = some inner) (hinner : mapFind inner sampler = some old) :
    (mapFind (mapSet m image (mapSet inner sampler value)) i).bind
        (fun inner => mapFind inner j)
      = if i = image ∧ j = sampler then some value
        else (mapFind m i).bind (fun inner => mapFind inner j) := by
  rw [mapFind_mapSet]
  by_cases hi : i = image
  · subst hi
    rw [if_pos rfl, hm]
    show mapFind (mapSet inner sampler value) j = _
    rw [mapFind_mapSet]
    by_cases hj : j = sampler
    · subst hj
      rw [if_pos rfl, if_pos ⟨rfl, rfl⟩, hinner]
      rfl
    · rw [if_neg hj, if_neg (fun h => hj h.2)]
      rfl
  · rw [if_neg hi, if_neg (fun h => hi h.1)]

/-- The entries of a registry of sampled images after the creation of the entry of
`( image, sampler )`, in the map of the image. -/
theorem lookup_emplace_sampler (m : List (Nat × List (Nat × DebugId))) (image sampler i j : Nat)
    (inner : List (Nat × DebugId)) (value : DebugId)
    (hm : mapFind m image = some inner) (hinner : mapFind inner sampler = none) :
    (mapFind (mapSet m image (mapEmplace inner sampler value)) i).bind
        (fun inner => mapFind inner j)
      = if i = image ∧ j = sampler then some value
        else (mapFind m i).bind (fun inner => mapFind inner j) := by
  rw [mapFind_mapSet]
  by_cases hi : i = image
  · subst hi
    rw [if_pos rfl, hm]
    show mapFind (mapEmplace inner sampler value) j = _
    rw [mapFind_mapEmplace]
    by_cases hj : j = sampler
    · subst hj
      rw [if_pos rfl, if_pos ⟨rfl, rfl⟩, hinner]
      rfl
    · rw [if_neg hj, if_neg (fun h => hj h.2)]
      rfl
  · rw [if_neg hi, if_neg (fun h => hi h.1)]

end ModuleTypes
end spirv

namespace spirv
namespace ModuleTypes

open ast ast.type

/-- The entry that `mergeSamplerImage` reads in the map of the image is the entry of the
pair. -/
theorem lookup_lhs (s : ModuleTypes) (image sampler : Nat) :
    mapFind ((mapFind (mapEmplace s.m_registeredSamplerImages image []) image).getD []) sampler
      = lookupSamplerImage s image sampler := by
  unfold lookupSamplerImage
  rw [mapFind_mapEmplace, if_pos rfl]
  cases hm : mapFind s.m_registeredSamplerImages image with
  | none => rfl
  | some inner => rfl

/-- The entries of the registry of sampled images after the three writes of a call for a new
pair: the creation of the map of the image, the creation of the entry of the pair and the
assignment of the merged id. -/
theorem lookup_after_merge (m : List (Nat × List (Nat × DebugId))) (image sampler i j : Nat)
    (placeholder merged : DebugId)
    (hnone : (mapFind m image).bind (fun inner => mapFind inner sampler) = none) :
    (mapFind
        (mapSet
          (mapSet (mapEmplace m image []) image
            (mapEmplace ((mapFind (mapEmplace m image []) image).getD []) sampler placeholder))
          image
          (mapSet
            ((mapFind
              (mapSet (mapEmplace m image []) image
                (mapEmplace ((mapFind (mapEmplace m image []) image).getD []) sampler
                  placeholder)) image).getD [])
            sampler merged)) i).bind (fun inner => mapFind inner j)
      = if i = image ∧ j = sampler then some merged
        else (mapFind m i).bind (fun inner => mapFind inner j) := by
  obtain ⟨lhs, hlhs, hlhsNone⟩ : ∃ lhs, mapFind (mapEmplace m image []) image = some lhs
      ∧ mapFind lhs sampler = none := by
    refine ⟨(mapFind m image).getD [], by rw [mapFind_mapEmplace, if_pos rfl], ?_⟩
    cases hm : mapFind m image with
    | none => rfl
    | some inner => rw [hm] at hnone; exact hnone
  rw [hlhs]
  simp only [Option.getD_some]
  have hfind : mapFind (mapSet (mapEmplace m image []) image (mapEmplace lhs sampler placeholder))
      image = some (mapEmplace lhs sampler placeholder) := by
    rw [mapFind_mapSet, if_pos rfl, hlhs]
    rfl
  rw [hfind]
  simp only [Option.getD_some]
  rw [lookup_set _ image sampler i j _ placeholder merged hfind
    (by rw [mapFind_mapEmplace, if_pos rfl, hlhsNone]; rfl)]
  by_cases hp : i = image ∧ j = sampler
  · rw [if_pos hp, if_pos hp]
  · rw [if_neg hp, if_neg hp, lookup_emplace_sampler _ image sampler i j _ _ hlhs hlhsNone,
      if_neg hp, lookup_emplace_image]

/-- The entries of the registry after the assignment of the merged id, in a state whose registry
holds the entry created for the pair. -/
theorem lookup_setSamplerImage (s' : ModuleTypes) (m : List (Nat × List (Nat × DebugId)))
    (image sampler i j : Nat) (placeholder merged : DebugId)
    (hs' : s'.m_registeredSamplerImages
      = mapSet (mapEmplace m image []) image
          (mapEmplace ((mapFind (mapEmplace m image []) image).getD []) sampler placeholder))
    (hnone : (mapFind m image).bind (fun inner => mapFind inner sampler) = none) :
    lookupSamplerImage (setSamplerImage s' image sampler merged) i j
      = if i = image ∧ j = sampler then some merged
        else (mapFind m i).bind (fun inner => mapFind inner j) := by
  unfold lookupSamplerImage setSamplerImage
  dsimp only
  rw [hs']
  exact lookup_after_merge m image sampler i j placeholder merged hnone

/-- A call that returns was made on an image and a sampler. -/
theorem mergeSamplerImage_types (env : TypesEnv) (s : ModuleTypes) (image sampler : DebugId)
    (block : spirv.Block) (out : DebugId × ModuleTypes × spirv.Block)
    (h : mergeSamplerImage env s image sampler block = .ok out) :
    ∃ config isComparison, getNonArrayType image.type = .image config
      ∧ getNonArrayType sampler.type = .sampler isComparison := by
  unfold mergeSamplerImage at h
  split at h
  · rename_i config isComparison hi hs
    exact ⟨config, isComparison, hi, hs⟩
  · cases h

/-- **A merged pair is served from the registry**: the call returns the merged id, appends
nothing to the block and leaves the state as it is, whatever the block. -/
theorem mergeSamplerImage_cached (env : TypesEnv) (s : ModuleTypes) (image sampler : DebugId)
    (block : spirv.Block) (config : ImageConfiguration) (isComparison : Bool) (d : DebugId)
    (hi : getNonArrayType image.type = .image config)
    (hs : getNonArrayType sampler.type = .sampler isComparison)
    (hd : lookupSamplerImage s image.id sampler.id = some d) :
    mergeSamplerImage env s image sampler block = .ok (d, s, block) := by
  have hkey : ∃ inner, mapFind s.m_registeredSamplerImages image.id = some inner := by
    unfold lookupSamplerImage at hd
    cases hm : mapFind s.m_registeredSamplerImages image.id with
    | none => rw [hm] at hd; cases hd
    | some inner => exact ⟨inner, rfl⟩
  obtain ⟨inner, hinner⟩ := hkey
  have hsame : mapEmplace s.m_registeredSamplerImages image.id [] = s.m_registeredSamplerImages :=
    mapEmplace_of_some _ _ _ inner hinner
  have hl := lookup_lhs s image.id sampler.id
  rw [hd] at hl
  unfold mergeSamplerImage
  rw [hi, hs]
  dsimp only
  rw [hl]
  dsimp only
  rw [hsame]

/-- **A new pair is merged**: the call registers the combined image type, allocates the next
id, appends one `OpSampledImage` instruction that defines it to the block, and records the id
for the pair; the entries of the other pairs are kept. -/
theorem mergeSamplerImage_new (env : TypesEnv) (s : ModuleTypes) (image sampler : DebugId)
    (block : spirv.Block) (config : ImageConfiguration) (isComparison : Bool)
    (hi : getNonArrayType image.type = .image config)
    (hs : getNonArrayType sampler.type = .sampler isComparison)
    (hd : lookupSamplerImage s image.id sampler.id = none) :
    ∃ d s' typeId,
      mergeSamplerImage env s image sampler block
          = .ok (d, s',
              { block with
                instructions := block.instructions
                  ++ [⟨.OpSampledImage, some typeId, some d.id, [image.id, sampler.id]⟩] })
        ∧ s.m_module.nextId ≤ d.id
        ∧ s'.m_module.nextId = d.id + 1
        ∧ ∀ i j, lookupSamplerImage s' i j
            = if i = image.id ∧ j = sampler.id then some d else lookupSamplerImage s i j := by
  have hl := lookup_lhs s image.id sampler.id
  rw [hd] at hl
  have hnum := numbered_registerType env
    { s with
      m_registeredSamplerImages :=
        mapSet (mapEmplace s.m_registeredSamplerImages image.id []) image.id
          (mapEmplace
            ((mapFind (mapEmplace s.m_registeredSamplerImages image.id []) image.id).getD [])
            sampler.id { id := 0, type := image.type }) }
    (.combinedImage config isComparison)
  obtain ⟨t, ht⟩ : ∃ t, t = registerType env
      { s with
        m_registeredSamplerImages :=
          mapSet (mapEmplace s.m_registeredSamplerImages image.id []) image.id
            (mapEmplace
              ((mapFind (mapEmplace s.m_registeredSamplerImages image.id []) image.id).getD [])
              sampler.id { id := 0, type := image.type }) }
      (.combinedImage config isComparison) := ⟨_, rfl⟩
  refine ⟨⟨t.2.m_module.nextId, t.1.type⟩,
    setSamplerImage t.2.getNextId.2 image.id sampler.id ⟨t.2.m_module.nextId, t.1.type⟩,
    t.1.id, ?_, ?_, ?_, ?_⟩ <;> subst ht
  · unfold mergeSamplerImage
    rw [hi, hs]
    dsimp only
    rw [hl]
    rfl
  · exact hnum.nextId
  · rfl
  · intro i j
    exact lookup_setSamplerImage _ s.m_registeredSamplerImages image.id sampler.id i j
      { id := 0, type := image.type } _ hnum.samplerImages hd

end ModuleTypes
end spirv

namespace spirv
namespace ModuleTypes

open ast ast.type

/-- After a call that returns, the pair is recorded with the id that was returned. -/
theorem mergeSamplerImage_records (env : TypesEnv) (s : ModuleTypes) (image sampler : DebugId)
    (block : spirv.Block) (d : DebugId) (s1 : ModuleTypes) (block1 : spirv.Block)
    (h : mergeSamplerImage env s image sampler block = .ok (d, s1, block1)) :
    lookupSamplerImage s1 image.id sampler.id = some d := by
  obtain ⟨config, isComparison, hi, hs⟩ := mergeSamplerImage_types env s image sampler block _ h
  cases hd : lookupSamplerImage s image.id sampler.id with
  | some found =>
    rw [mergeSamplerImage_cached env s image sampler block config isComparison found hi hs hd]
      at h
    cases h
    exact hd
  | none =>
    obtain ⟨d', s', typeId, hnew, -, -, hlook⟩ :=
      mergeSamplerImage_new env s image sampler block config isComparison hi hs hd
    rw [hnew] at h
    cases h
    rw [hlook, if_pos ⟨rfl, rfl⟩]

/-- **The registry of sampled images belongs to the module, not to a block**: after a call that
returns, a call for the same pair returns the same id, appends nothing and changes nothing,
whatever the block it is given. -/
theorem mergeSamplerImage_again (env : TypesEnv) (s : ModuleTypes) (image sampler : DebugId)
    (block : spirv.Block) (d : DebugId) (s1 : ModuleTypes) (block1 : spirv.Block)
    (h : mergeSamplerImage env s image sampler block = .ok (d, s1, block1))
    (block2 : spirv.Block) :
    mergeSamplerImage env s1 image sampler block2 = .ok (d, s1, block2) := by
  obtain ⟨config, isComparison, hi, hs⟩ := mergeSamplerImage_types env s image sampler block _ h
  exact mergeSamplerImage_cached env s1 image sampler block2 config isComparison d hi hs
    (mergeSamplerImage_records env s image sampler block d s1 block1 h)

/-- A registry without sampled images is well numbered. -/
theorem samplerImagesOk_of_nil (s : ModuleTypes) (h : s.m_registeredSamplerImages = []) :
    SamplerImagesOk s := by
  have hnone : ∀ i j, lookupSamplerImage s i j = none := by
    intro i j
    unfold lookupSamplerImage
    rw [h]
    rfl
  refine ⟨?_, ?_⟩
  · intro i j d hd
    rw [hnone] at hd
    cases hd
  · intro i j i' j' d d' hd
    rw [hnone] at hd
    cases hd

/-- A registration of types keeps the registry of sampled images well numbered. -/
theorem samplerImagesOk_of_numbered {s s' : ModuleTypes} (hok : SamplerImagesOk s)
    (h : Numbered s s') : SamplerImagesOk s' := by
  have hsame : ∀ i j, lookupSamplerImage s' i j = lookupSamplerImage s i j := by
    intro i j
    unfold lookupSamplerImage
    rw [h.samplerImages]
  refine ⟨?_, ?_⟩
  · intro i j d hd
    rw [hsame] at hd
    exact Nat.lt_of_lt_of_le (hok.allocated i j d hd) h.nextId
  · intro i j i' j' d d' hd hd'
    rw [hsame] at hd hd'
    exact hok.injective i j i' j' d d' hd hd'

/-- **`mergeSamplerImage` keeps the registry of sampled images well numbered.** -/
theorem samplerImagesOk_merge (env : TypesEnv) (s : ModuleTypes) (image sampler : DebugId)
    (block : spirv.Block) (d : DebugId) (s1 : ModuleTypes) (block1 : spirv.Block)
    (hok : SamplerImagesOk s)
    (h : mergeSamplerImage env s image sampler block = .ok (d, s1, block1)) :
    SamplerImagesOk s1 := by
  obtain ⟨config, isComparison, hi, hs⟩ := mergeSamplerImage_types env s image sampler block _ h
  cases hd : lookupSamplerImage s image.id sampler.id with
  | some found =>
    rw [mergeSamplerImage_cached env s image sampler block config isComparison found hi hs hd]
      at h
    cases h
    exact hok
  | none =>
    obtain ⟨d', s', typeId, hnew, hle, hnext, hlook⟩ :=
      mergeSamplerImage_new env s image sampler block config isComparison hi hs hd
    rw [hnew] at h
    cases h
    refine ⟨?_, ?_⟩
    · intro i j x hx
      rw [hlook] at hx
      split at hx
      · cases hx
        omega
      · have := hok.allocated i j x hx
        omega
    · intro i j i' j' x x' hx hx' hid
      rw [hlook] at hx hx'
      split at hx
      · rename_i hp
        cases hx
        split at hx'
        · rename_i hp'
          exact ⟨hp.1.trans hp'.1.symm, hp.2.trans hp'.2.symm⟩
        · have := hok.allocated i' j' x' hx'
          omega
      · split at hx'
        · cases hx'
          have := hok.allocated i j x hx
          omega
        · exact hok.injective i j i' j' x x' hx hx' hid

end ModuleTypes
end spirv
/-! ## The serialisation entry points -/

namespace spirv

end spirv

/-! ## The decorations of a structure -/

namespace spirv
namespace ModuleTypes

open ast ast.type

/-- The state the structure registration leaves: the member decorations are those left by the
registration of the member types followed by what the member loop appends, the decorations
those left by the registration of the member types followed by `Block` when a flag of the loop
is set, and the declarations end with the `OpTypeStruct` of the allocated id. -/
theorem doRegisterBaseTypeStruct_module (env : TypesEnv) (r : Registrar) (s : ModuleTypes)
    (type : Ty) (layout : MemoryLayout) (ms : MemberList) (added : List (Nat × Nat × List Nat))
    (flags : Bool × Bool)
    (hadd : decorateMembers env layout ⟨s.m_module.nextId, type⟩ ms
        (registerMembers r ms s.getNextId.2).2.m_module false false
      = (flags,
          { (registerMembers r ms s.getNextId.2).2.m_module with
            memberDecorations :=
              (registerMembers r ms s.getNextId.2).2.m_module.memberDecorations ++ added })) :
    (doRegisterBaseTypeStruct env r s type layout ms).2.m_module.memberDecorations
        = (registerMembers r ms s.getNextId.2).2.m_module.memberDecorations ++ added
      ∧ (doRegisterBaseTypeStruct env r s type layout ms).2.m_module.decorations
        = (registerMembers r ms s.getNextId.2).2.m_module.decorations
          ++ (if flags.1 || flags.2 then [(s.m_module.nextId, [DecorationBlock])] else [])
      ∧ (doRegisterBaseTypeStruct env r s type layout ms).2.m_declarations
        = (registerMembers r ms s.getNextId.2).2.m_declarations
          ++ [⟨.OpTypeStruct, none, some s.m_module.nextId,
              (registerMembers r ms s.getNextId.2).1.map (fun t => t.id)⟩] := by
  have hadd' : decorateMembers env layout ⟨s.getNextId.1, type⟩ ms
      ((registerMembers r ms s.getNextId.2).2.pushDeclaration
        ⟨.OpTypeStruct, none, some s.getNextId.1,
          (registerMembers r ms s.getNextId.2).1.map (fun t => t.id)⟩).m_module false false
      = (flags,
          { (registerMembers r ms s.getNextId.2).2.m_module with
            memberDecorations :=
              (registerMembers r ms s.getNextId.2).2.m_module.memberDecorations ++ added }) :=
    hadd
  unfold doRegisterBaseTypeStruct
  dsimp only
  rw [hadd']
  dsimp only
  refine ⟨?_, ?_, rfl⟩
  · split <;> rfl
  · split
    · rfl
    · simp

/-- In a list whose elements have pairwise different keys, the elements with the key of `a`
that satisfy `p` are `a` alone, if it satisfies `p`. -/
theorem filter_key_of_nodup {α : Type} (f : α → Nat) (p : α → Bool) :
    ∀ (l : List α) (a : α), a ∈ l → (l.map f).Nodup →
      l.filter (fun x => decide (f x = f a) && p x) = if p a = true then [a] else []
  | [], a, h, _ => by cases h
  | x :: xs, a, h, hn => by
    rw [List.map_cons, List.nodup_cons] at hn
    obtain ⟨hx, hxs⟩ := hn
    rcases List.mem_cons.mp h with h | h
    · subst h
      have hrest : xs.filter (fun x => decide (f x = f a) && p x) = [] := by
        rw [List.filter_eq_nil_iff]
        intro y hy hc
        simp only [Bool.and_eq_true, decide_eq_true_eq] at hc
        exact hx (List.mem_map.mpr ⟨y, hy, hc.1⟩)
      rw [List.filter_cons, hrest]
      cases hp : p a <;> simp
    · have hne : ¬ f x = f a := fun hc => hx (List.mem_map.mpr ⟨a, h, hc.symm⟩)
      rw [List.filter_cons]
      simp only [hne, decide_False, Bool.false_and, Bool.false_eq_true, if_false]
      exact filter_key_of_nodup f p xs a h hxs

/-- C22: matrix stride.  For every structure and every member of it whose type is, below its
arrays, a matrix of scalar kind `sc` whose columns have `rows` rows, the structure registration
decorates that member of the id it allocates to the structure (the id of the `OpTypeStruct`
instruction it appends) with `ColMajor` and with `MatrixStride s`, where `s` is the size in the
layout of the structure of the `vec4` of `sc` if `rows = 3` or (`rows = 2` and the layout is
std140), and of the column type otherwise.  For a `float` matrix with three rows under std140
the stride is the size of a `vec4` of floats under std140: 16, as soon as `getSize`, which is no
part of the sources, gives that size. -/
theorem matrix_stride (env : TypesEnv) (r : Registrar) (s : ModuleTypes) (rayDesc : Bool)
    (layout : MemoryLayout) (name : String) (flag : StructFlag) (members : MemberList)
    (member : Member) (sc : ScalarKind) (cols rows : Nat)
    (hmember : member ∈ members.toList)
    (hmatrix : getNonArrayKind member.type = .eBasic (.eMat sc cols rows)) :
    (s.m_module.nextId, member.index, [DecorationColMajor])
        ∈ (doRegisterBaseType env r s
            (.struct rayDesc layout name flag members)).2.m_module.memberDecorations
      ∧ (s.m_module.nextId, member.index,
          [DecorationMatrixStride,
            if rows = 3 ∨ (rows = 2 ∧ layout = .eStd140) then
              env.getSize (getBasicType (.eVec sc 4)) layout
            else env.getSize (getBasicType (.eVec sc rows)) layout])
        ∈ (doRegisterBaseType env r s
            (.struct rayDesc layout name flag members)).2.m_module.memberDecorations
      ∧ (∃ before ids,
          (doRegisterBaseType env r s (.struct rayDesc layout name flag members)).2.m_declarations
            = before ++ [⟨.OpTypeStruct, none, some s.m_module.nextId, ids⟩])
      ∧ (sc = .eFloat → rows = 3 → layout = .eStd140 →
          env.getSize (getBasicType (.eVec .eFloat 4)) .eStd140 = 16 →
          (s.m_module.nextId, member.index, [DecorationMatrixStride, 16])
            ∈ (doRegisterBaseType env r s
                (.struct rayDesc layout name flag members)).2.m_module.memberDecorations) := by
  obtain ⟨added, hadd, -, -, hflags, hmat⟩ := decorateMembers_added env layout
    ⟨s.m_module.nextId, .struct rayDesc layout name flag members⟩ members
    (registerMembers r members s.getNextId.2).2.m_module false false
  obtain ⟨hmd, -, hdecl⟩ := doRegisterBaseTypeStruct_module env r s
    (.struct rayDesc layout name flag members) layout members added _
    (Prod.ext hflags hadd)
  have hreg : doRegisterBaseType env r s (.struct rayDesc layout name flag members)
      = doRegisterBaseTypeStruct env r s (.struct rayDesc layout name flag members) layout
          members := rfl
  rw [hreg, hmd]
  obtain ⟨hc, hs⟩ := hmat member hmember sc cols rows hmatrix
  refine ⟨List.mem_append_right _ hc, List.mem_append_right _ hs, ⟨_, _, hdecl⟩, ?_⟩
  intro hsc hrows hlayout hsize
  subst hsc hrows hlayout
  have h16 := List.mem_append_right
    (registerMembers r members s.getNextId.2).2.m_module.memberDecorations hs
  rw [if_pos (Or.inl rfl), hsize] at h16
  exact h16

/-- C22, a closed instance: the sample structure, under std140, registered by `registerType` in
the empty registry with the sample layout sizes, gets the id 1, and its `mat3` member, of index
2, gets `ColMajor` and `MatrixStride 16`. -/
theorem matrix_stride_witness :
    (1, 2, [DecorationColMajor])
        ∈ (registerType TypesEnv.sampleLayout (empty 0)
            sampleBlockStruct).2.m_module.memberDecorations
      ∧ (1, 2, [DecorationMatrixStride, 16])
        ∈ (registerType TypesEnv.sampleLayout (empty 0)
            sampleBlockStruct).2.m_module.memberDecorations :=
  have h := matrix_stride TypesEnv.sampleLayout
    (doRegisterTypeRec TypesEnv.sampleLayout sampleBuiltinMembers.size)
    (empty 0) false .eStd140 "B" .eNone sampleBuiltinMembers
    ⟨.basic (.eMat .eFloat 3 3) true, 2, "m", 32, 48, 0, NotFound, .eNone⟩ .eFloat 3 3
    (by decide) rfl
  ⟨h.1, h.2.2.2 rfl rfl rfl rfl⟩

end ModuleTypes
end spirv

namespace spirv
namespace ModuleTypes

open ast ast.type

/-- C23: struct decorations.  In a module whose decorated ids have all been allocated, the
registration of a structure whose members have pairwise different indices leaves, on the id it
allocates to the structure (the id of the `OpTypeStruct` instruction it appends), exactly one
`Offset` decoration for every member that is no builtin, whose value is the offset of the
member, and no `Offset` decoration for a member that is a builtin; that id is decorated with
`Block` if and only if a member is a builtin or a member has the unknown array size. -/
theorem struct_decorations (env : TypesEnv) (fuel : Nat) (s : ModuleTypes) (rayDesc : Bool)
    (layout : MemoryLayout) (name : String) (flag : StructFlag) (members : MemberList)
    (hids : s.m_module.idsAllocated)
    (hindex : (members.toList.map (fun mb => mb.index)).Nodup) :
    (∀ member ∈ members.toList,
        (member.builtin = .eNone →
          (doRegisterBaseType env (doRegisterTypeRec env fuel) s
            (.struct rayDesc layout name flag members)).2.m_module.offsetsOf
              s.m_module.nextId member.index = [member.offset])
        ∧ (member.builtin ≠ .eNone →
          (doRegisterBaseType env (doRegisterTypeRec env fuel) s
            (.struct rayDesc layout name flag members)).2.m_module.offsetsOf
              s.m_module.nextId member.index = []))
      ∧ ((s.m_module.nextId, [DecorationBlock])
            ∈ (doRegisterBaseType env (doRegisterTypeRec env fuel) s
                (.struct rayDesc layout name flag members)).2.m_module.decorations
          ↔ (∃ member ∈ members.toList, member.builtin ≠ .eNone)
            ∨ ∃ member ∈ members.toList, getArraySize member.type = UnknownArraySize)
      ∧ ∃ before ids,
          (doRegisterBaseType env (doRegisterTypeRec env fuel) s
            (.struct rayDesc layout name flag members)).2.m_declarations
            = before ++ [⟨.OpTypeStruct, none, some s.m_module.nextId, ids⟩] := by
  obtain ⟨added, hadd, -, hoff, hflags, -⟩ := decorateMembers_added env layout
    ⟨s.m_module.nextId, .struct rayDesc layout name flag members⟩ members
    (registerMembers (doRegisterTypeRec env fuel) members s.getNextId.2).2.m_module false false
  obtain ⟨hmd, hdec, hdecl⟩ := doRegisterBaseTypeStruct_module env (doRegisterTypeRec env fuel) s
    (.struct rayDesc layout name flag members) layout members added _
    (Prod.ext hflags hadd)
  have hreg : doRegisterBaseType env (doRegisterTypeRec env fuel) s
      (.struct rayDesc layout name flag members)
      = doRegisterBaseTypeStruct env (doRegisterTypeRec env fuel) s
          (.struct rayDesc layout name flag members) layout members := rfl
  rw [hreg]
  have hnum : Numbered s.getNextId.2
      (registerMembers (doRegisterTypeRec env fuel) members s.getNextId.2).2 :=
    numbered_registerMembers _ (numbering_doRegisterTypeRec env fuel) members _
  -- no decoration left by the registration of the member types is on the id of the structure
  have hother : ∀ d ∈ (registerMembers (doRegisterTypeRec env fuel) members
      s.getNextId.2).2.m_module.memberDecorations, d.1 ≠ s.m_module.nextId := by
    intro d hd
    rcases hnum.memberDecorations d hd with h | h
    · exact Nat.ne_of_lt (hids.2 d h)
    · have h' : s.m_module.nextId + 1 ≤ d.1 := h
      omega
  have hotherd : ∀ d ∈ (registerMembers (doRegisterTypeRec env fuel) members
      s.getNextId.2).2.m_module.decorations, d.1 ≠ s.m_module.nextId := by
    intro d hd
    rcases hnum.decorations d hd with h | h
    · exact Nat.ne_of_lt (hids.1 d h)
    · have h' : s.m_module.nextId + 1 ≤ d.1 := h
      omega
  refine ⟨?_, ?_, ⟨_, _, hdecl⟩⟩
  · intro member hmember
    have hfilter := filter_key_of_nodup (fun mb : Member => mb.index)
      (fun mb => decide (mb.builtin = .eNone)) members.toList member hmember hindex
    have hall : (doRegisterBaseTypeStruct env (doRegisterTypeRec env fuel) s
        (.struct rayDesc layout name flag members) layout members).2.m_module.offsetsOf
          s.m_module.nextId member.index
        = (if decide (member.builtin = .eNone) = true then [member] else []).map
            (fun mb => mb.offset) := by
      unfold Module.offsetsOf
      rw [hmd, offsetsIn_append, offsetsIn_of_ne _ _ _ hother, hoff, List.nil_append, hfilter]
    rw [hall]
    constructor
    · intro hb
      simp [hb]
    · intro hb
      simp [hb]
  · rw [hdec]
    constructor
    · intro hmem
      rcases List.mem_append.mp hmem with h | h
      · exact absurd rfl (hotherd _ h)
      · split at h
        · rename_i hset
          simp only [Bool.false_or, Bool.or_eq_true, List.any_eq_true, decide_eq_true_eq]
            at hset
          rcases hset with ⟨mb, hmb, hb⟩ | ⟨mb, hmb, hb⟩
          · exact Or.inl ⟨mb, hmb, hb⟩
          · exact Or.inr ⟨mb, hmb, hb⟩
        · cases h
    · intro hex
      apply List.mem_append_right
      have hset : (false || members.toList.any (fun mb => decide (mb.builtin ≠ .eNone))
          || (false || members.toList.any
              (fun mb => decide (getArraySize mb.type = UnknownArraySize)))) = true := by
        simp only [Bool.false_or, Bool.or_eq_true, List.any_eq_true, decide_eq_true_eq]
        rcases hex with ⟨mb, hmb, hb⟩ | ⟨mb, hmb, hb⟩
        · exact Or.inl ⟨mb, hmb, hb⟩
        · exact Or.inr ⟨mb, hmb, hb⟩
      rw [if_pos hset]
      exact List.mem_singleton.mpr rfl

/-- C23, a closed instance: the sample structure, with the members `float a`, builtin
`vec4 position`, `mat3 m` and `float data[]`, registered by `registerType` in the empty
registry, gets the id 1; `a` gets the one `Offset` 0, `position` gets none, `data` gets the one
`Offset` 80, and the id is decorated with `Block`. -/
theorem struct_decorations_witness :
    (registerType TypesEnv.sample (empty 0) sampleBlockStruct).2.m_module.offsetsOf 1 0 = [0]
      ∧ (registerType TypesEnv.sample (empty 0) sampleBlockStruct).2.m_module.offsetsOf 1 1 = []
      ∧ (registerType TypesEnv.sample (empty 0) sampleBlockStruct).2.m_module.offsetsOf 1 3
        = [80]
      ∧ (1, [DecorationBlock])
        ∈ (registerType TypesEnv.sample (empty 0) sampleBlockStruct).2.m_module.decorations := by
  have h := struct_decorations TypesEnv.sample sampleBuiltinMembers.size (empty 0) false
    .eStd140 "B" .eNone sampleBuiltinMembers
    ⟨fun d hd => (by cases hd), fun d hd => (by cases hd)⟩ (by decide)
  refine ⟨?_, ?_, ?_, ?_⟩
  · exact (h.1 ⟨.basic (.eScalar .eFloat) true, 0, "a", 0, 4, 0, NotFound, .eNone⟩
      (by decide)).1 rfl
  · exact (h.1 ⟨.basic (.eVec .eFloat 4) true, 1, "position", 16, 16, 0, NotFound, .eTag 0⟩
      (by decide)).2 (by decide)
  · exact (h.1 ⟨.array (.basic (.eScalar .eFloat) true) UnknownArraySize, 3, "data", 80, 4, 4,
      NotFound, .eNone⟩ (by decide)).1 rfl
  · exact h.2.1.mpr (Or.inl
      ⟨⟨.basic (.eVec .eFloat 4) true, 1, "position", 16, 16, 0, NotFound, .eTag 0⟩,
        (by decide), (by decide)⟩)

end ModuleTypes
end spirv

/-! ## Arrays -/

namespace spirv
namespace ModuleTypes

open ast ast.type

/-- The end of the registration of an array type of known size, from the outcome `l` of the
registration of the literal of its size. -/
theorem array_known_state (env : TypesEnv) (l : Nat × ModuleTypes) (elem type : Ty)
    (id elementId size stride : Nat) (base added : List Instruction)
    (decorations : List (Nat × List Nat))
    (hadd : l.2.m_declarations = base ++ added)
    (hops : ∀ i ∈ added, i.op ≠ .OpTypeArray ∧ i.op ≠ .OpTypeRuntimeArray ∧ i.op ≠ .OpTypeImage)
    (hdec : l.2.m_module.decorations = decorations)
    (hlit : mapFind l.2.m_module.literals size = some l.1)
    (out : ModuleTypes)
    (hout : out
      = { l.2.pushDeclaration ⟨.OpTypeArray, none, some id, [elementId, l.1]⟩ with
          m_module := modtyp.writeArrayStride env
            (l.2.pushDeclaration ⟨.OpTypeArray, none, some id, [elementId, l.1]⟩).m_module
            elem ⟨id, type⟩ stride }) :
    ∃ added',
      out.m_declarations = base ++ added'
        ∧ (∃ lengthId, mapFind out.m_module.literals size = some lengthId
            ∧ added'.filter (fun i => decide (i.op = .OpTypeArray ∨ i.op = .OpTypeRuntimeArray))
              = [⟨.OpTypeArray, none, some id, [elementId, lengthId]⟩])
        ∧ out.m_module.decorations
          = decorations
            ++ (if getNonArrayKind elem ≠ .eImage ∧ getNonArrayKind elem ≠ .eCombinedImage
                  ∧ getNonArrayKind elem ≠ .eSampler ∧ getNonArrayKind elem ≠ .eSampledImage then
                [(id, [DecorationArrayStride,
                    if stride = 0 then env.getSize elem .eStd140 else stride])]
              else []) := by
  subst hout
  refine ⟨added ++ [⟨.OpTypeArray, none, some id, [elementId, l.1]⟩], ?_, ⟨l.1, ?_, ?_⟩, ?_⟩
  · show l.2.m_declarations ++ [_] = _
    rw [hadd, List.append_assoc]
  · show mapFind (modtyp.writeArrayStride env l.2.m_module elem ⟨id, type⟩ stride).literals size
      = _
    rw [writeArrayStride_eq]
    exact hlit
  · rw [List.filter_append]
    have hnil : added.filter
        (fun i => decide (i.op = .OpTypeArray ∨ i.op = .OpTypeRuntimeArray)) = [] := by
      rw [List.filter_eq_nil_iff]
      intro i hi hc
      obtain ⟨h1, h2, -⟩ := hops i hi
      simp only [decide_eq_true_eq] at hc
      rcases hc with hc | hc
      · exact h1 hc
      · exact h2 hc
    rw [hnil]
    rfl
  · show (modtyp.writeArrayStride env l.2.m_module elem ⟨id, type⟩ stride).decorations = _
    rw [writeArrayStride_eq, ← hdec]

/-- C24: array emission.  When the unqualified type of an array type is not registered once its
element type is (the first registration of the array type), `doRegisterTypeRec` appends to the
declarations left by the registration of the element type: for a known size, the instructions of
the literal of the size, if the literal is new, and exactly one `OpTypeArray` instruction, which
defines the returned id from the id of the element type and the id of the literal of the size;
for the unknown size, exactly one `OpTypeRuntimeArray` instruction and nothing else.  It adds the
decoration `ArrayStride` to the returned id iff the kind of the element type below its arrays is
not image, combined image, sampler or sampled image, and the stride is the explicit stride when
that is not zero and the size of the element type under std140 otherwise. -/
theorem array_emission (env : TypesEnv) (fuel : Nat) (s : ModuleTypes) (elem : Ty)
    (size stride : Nat)
    (hfirst : mapFind (doRegisterTypeRec env fuel s elem stride).2.m_registeredTypes
        (modtyp.getUnqualifiedType (.array elem size)) = none) :
    ∃ added,
      (doRegisterTypeRec env (fuel + 1) s (.array elem size) stride).2.m_declarations
          = (doRegisterTypeRec env fuel s elem stride).2.m_declarations ++ added
        ∧ (size ≠ UnknownArraySize →
            ∃ lengthId,
              mapFind (doRegisterTypeRec env (fuel + 1) s (.array elem size)
                  stride).2.m_module.literals size = some lengthId
                ∧ added.filter
                    (fun i => decide (i.op = .OpTypeArray ∨ i.op = .OpTypeRuntimeArray))
                  = [⟨.OpTypeArray, none,
                      some (doRegisterTypeRec env (fuel + 1) s (.array elem size) stride).1.id,
                      [(doRegisterTypeRec env fuel s elem stride).1.id, lengthId]⟩])
        ∧ (size = UnknownArraySize →
            added = [⟨.OpTypeRuntimeArray, none,
              some (doRegisterTypeRec env (fuel + 1) s (.array elem size) stride).1.id,
              [(doRegisterTypeRec env fuel s elem stride).1.id]⟩])
        ∧ (doRegisterTypeRec env (fuel + 1) s (.array elem size) stride).2.m_module.decorations
          = (doRegisterTypeRec env fuel s elem stride).2.m_module.decorations
            ++ (if getNonArrayKind elem ≠ .eImage ∧ getNonArrayKind elem ≠ .eCombinedImage
                  ∧ getNonArrayKind elem ≠ .eSampler ∧ getNonArrayKind elem ≠ .eSampledImage then
                [((doRegisterTypeRec env (fuel + 1) s (.array elem size) stride).1.id,
                  [DecorationArrayStride,
                    if stride = 0 then env.getSize elem .eStd140 else stride])]
              else []) := by
  have hreg : doRegisterTypeRec env (fuel + 1) s (.array elem size) stride
      = doRegisterArrayType env (doRegisterTypeRec env fuel)
          (doRegisterTypeRec env fuel s elem stride).2 (.array elem size) elem size
          (doRegisterTypeRec env fuel s elem stride).1 stride := by
    show doRegisterTypeRecBody env (doRegisterTypeRec env fuel) s (.array elem size) stride = _
    unfold doRegisterTypeRecBody
    dsimp only
    rw [hfirst]
  rw [hreg]
  generalize doRegisterTypeRec env fuel s elem stride = e at hfirst ⊢
  have hres : (mapFind (mapEmplace e.2.getNextId.2.m_registeredTypes
      (modtyp.getUnqualifiedType (.array elem size))
      ({ id := e.2.getNextId.1, type := .array elem size } : TypeId))
      (modtyp.getUnqualifiedType (.array elem size))).getD
      ({ id := e.2.getNextId.1, type := .array elem size } : TypeId)
      = { id := e.2.m_module.nextId, type := .array elem size } := by
    rw [mapFind_mapEmplace, if_pos rfl]
    show ((mapFind e.2.m_registeredTypes (modtyp.getUnqualifiedType (.array elem size))).getD _)
      = _
    rw [hfirst]
    rfl
  unfold doRegisterArrayType
  dsimp only
  rw [hres]
  by_cases hsize : size = UnknownArraySize
  · rw [if_neg (not_not.mpr hsize)]
    refine ⟨_, rfl, fun h => absurd hsize h, fun _ => rfl, ?_⟩
    dsimp only
    rw [writeArrayStride_eq]
    rfl
  · rw [if_pos hsize]
    obtain ⟨⟨added, hadd, hops⟩, hdec, hlit⟩ := registerLiteral_emits env fuel
      { e.2.getNextId.2 with
        m_registeredTypes :=
          mapEmplace e.2.getNextId.2.m_registeredTypes
            (modtyp.getUnqualifiedType (.array elem size))
            ⟨e.2.getNextId.1, .array elem size⟩ }
      size
    obtain ⟨added', h1, h2, h3⟩ := array_known_state env _ elem (.array elem size)
      e.2.m_module.nextId e.1.id size stride _ added _ hadd hops hdec hlit _ rfl
    exact ⟨added', h1, fun _ => h2, fun h => absurd h hsize, h3⟩

/-- C24, a closed instance: the first registration of `float[4]` by `registerType` in the empty
registry, without explicit stride: after `float`, the id 1, the array type is the id 2, the
instructions of the literal 4 (`uint`, the id 3, and the constant, the id 4) come before the one
`OpTypeArray` instruction, and the only decoration is `ArrayStride` on the id 2 with the size of
`float` in the sample environment, 4. -/
theorem array_emission_witness :
    (registerType TypesEnv.sample (empty 0)
        (.array (.basic (.eScalar .eFloat) false) 4)).2.m_module.decorations
      = [(2, [DecorationArrayStride, 4])]
    ∧ ∃ added,
        (registerType TypesEnv.sample (empty 0)
            (.array (.basic (.eScalar .eFloat) false) 4)).2.m_declarations
          = [⟨.OpTypeFloat, none, some 1, [32]⟩] ++ added
        ∧ added.filter (fun i => decide (i.op = .OpTypeArray ∨ i.op = .OpTypeRuntimeArray))
          = [⟨.OpTypeArray, none, some 2, [1, 4]⟩] := by
  obtain ⟨added, h1, h2, -, h4⟩ := array_emission TypesEnv.sample 2 (empty 0)
    (.basic (.eScalar .eFloat) false) 4 0 (by decide)
  obtain ⟨lengthId, hlit, h3⟩ := h2 (by decide)
  have hid : lengthId = 4 := Option.some.inj (hlit.symm.trans (by decide))
  subst hid
  exact ⟨h4, added, h1, h3⟩

end ModuleTypes
end spirv

/-! ## Forward pointers -/

namespace spirv
namespace ModuleTypes

open ast ast.type

/-- The key of a pointer that is not forward is the key without the forward bit. -/
theorem pointerKey_false (type : TypeId) (storage : Nat) :
    pointerKey type storage false = pointerKeyNoForward type storage := by
  unfold pointerKey pointerKeyNoForward
  simp

/-- C25, as stated, fails: in a registry without pointers, the registration of the pointer to
the sample pointee in storage class 7 as not forward, before the forward registration, emits an
`OpTypePointer` and returns the id 20; the forward registration that follows still finds no entry
under its key, emits its two instructions and returns the id 21; a later registration as not
forward returns 20 again. -/
theorem registerPointerType_order_matters :
    (registerPointerType sampleTypes samplePointee 7 false).1.id = 20
      ∧ (registerPointerType sampleTypes samplePointee 7 false).2.m_declarations
          = [⟨.OpTypePointer, none, some 20, [7, 10]⟩]
      ∧ (registerPointerType (registerPointerType sampleTypes samplePointee 7 false).2
          samplePointee 7 true).1.id = 21
      ∧ (registerPointerType (registerPointerType sampleTypes samplePointee 7 false).2
          samplePointee 7 true).2.m_declarations
          = [⟨.OpTypePointer, none, some 20, [7, 10]⟩,
              ⟨.OpTypeForwardPointer, none, some 21, [7]⟩,
              ⟨.OpTypePointer, none, some 21, [7, 10]⟩]
      ∧ (registerPointerType
          (registerPointerType (registerPointerType sampleTypes samplePointee 7 false).2
            samplePointee 7 true).2 samplePointee 7 false).1.id = 20 := by
  decide

/-- C25, amended: forward pointers.  `registerPointerType( t, storage, true )` on a pointer that
is registered neither as forward nor as not forward allocates one id and appends an
`OpTypeForwardPointer` followed by an `OpTypePointer`, both with that id; every later
`registerPointerType` call for the same pointee and storage class, with either value of the
forward flag, returns that id with the type of the pointer, emits nothing and leaves the registry
as it is. -/
theorem forward_pointer_shared (s : ModuleTypes) (t : TypeId) (storage : Nat)
    (hforward : mapFind s.m_registeredPointerTypes (pointerKey t storage true) = none)
    (hplain : mapFind s.m_registeredPointerTypes (pointerKey t storage false) = none) :
    (registerPointerType s t storage true).1.id = s.m_module.nextId
      ∧ (registerPointerType s t storage true).2.m_declarations
          = s.m_declarations
            ++ [⟨.OpTypeForwardPointer, none, some s.m_module.nextId, [storage]⟩,
                ⟨.OpTypePointer, none, some s.m_module.nextId, [storage, t.id]⟩]
      ∧ ∀ isForward : Bool,
          registerPointerType (registerPointerType s t storage true).2 t storage isForward
            = ((registerPointerType s t storage true).1,
                (registerPointerType s t storage true).2) := by
  have hreg : registerPointerType s t storage true
      = (⟨s.m_module.nextId, .pointer t.type storage false⟩,
          { m_module := { s.m_module with nextId := s.m_module.nextId + 1 }
            m_declarations := s.m_declarations
              ++ [⟨.OpTypeForwardPointer, none, some s.m_module.nextId, [storage]⟩]
              ++ [⟨.OpTypePointer, none, some s.m_module.nextId, [storage, t.id]⟩]
            m_registeredTypes := s.m_registeredTypes
            m_registeredImageTypes := s.m_registeredImageTypes
            m_registeredPointerTypes :=
              mapEmplace
                (mapEmplace s.m_registeredPointerTypes (pointerKey t storage true)
                  ⟨s.m_module.nextId, .pointer t.type storage false⟩)
                (pointerKeyNoForward t storage)
                ⟨s.m_module.nextId, .pointer t.type storage false⟩
            m_registeredSamplerImages := s.m_registeredSamplerImages }) := by
    unfold registerPointerType
    dsimp only
    rw [hforward]
    rfl
  rw [hreg]
  refine ⟨rfl, by simp, ?_⟩
  intro isForward
  have hfound : mapFind
      (mapEmplace
        (mapEmplace s.m_registeredPointerTypes (pointerKey t storage true)
          ⟨s.m_module.nextId, .pointer t.type storage false⟩)
        (pointerKeyNoForward t storage)
        (⟨s.m_module.nextId, .pointer t.type storage false⟩ : TypeId))
      (pointerKey t storage isForward)
      = some ⟨s.m_module.nextId, .pointer t.type storage false⟩ := by
    cases isForward
    · rw [pointerKey_false, mapFind_mapEmplace, if_pos rfl, mapFind_mapEmplace]
      by_cases hk : pointerKeyNoForward t storage = pointerKey t storage true
      · rw [if_pos hk, hforward]; rfl
      · rw [if_neg hk, ← pointerKey_false, hplain]; rfl
    · apply MapLe.emplace
      rw [mapFind_mapEmplace, if_pos rfl, hforward]; rfl
  unfold registerPointerType
  dsimp only
  rw [hfound]

/-- C25, amended, a closed instance: the sample pointee in storage class 7, in a registry
without pointers. -/
theorem forward_pointer_shared_witness :
    (registerPointerType sampleTypes samplePointee 7 true).1.id = 20
      ∧ (registerPointerType sampleTypes samplePointee 7 true).2.m_declarations
          = [⟨.OpTypeForwardPointer, none, some 20, [7]⟩,
              ⟨.OpTypePointer, none, some 20, [7, 10]⟩]
      ∧ ∀ isForward : Bool,
          registerPointerType (registerPointerType sampleTypes samplePointee 7 true).2
              samplePointee 7 isForward
            = ((registerPointerType sampleTypes samplePointee 7 true).1,
                (registerPointerType sampleTypes samplePointee 7 true).2) :=
  forward_pointer_shared sampleTypes samplePointee 7 (by decide) (by decide)

end ModuleTypes
end spirv

/-! ## Stage wrappers -/

namespace spirv
namespace ModuleTypes

open ast ast.type

/-- C26: stage-role wrappers are transparent for type ids.  For every wrapper kind, every type
`T`, all layout values of the wrapper and every registry state, `registerType` of the wrapper
around `T` returns the `TypeId` that `registerType` of `T` returns and leaves the declarations
that the registration of `T` leaves: no instruction is emitted for the wrapper.  The two final
states agree on everything but the execution modes of the module. -/
theorem registerType_wrapper_transparent (env : TypesEnv) (s : ModuleTypes)
    (kind : WrapperKind) (T : Ty) (params : List Nat) :
    (registerType env s (.wrapper kind T params)).1 = (registerType env s T).1
      ∧ (registerType env s (.wrapper kind T params)).2.m_declarations
          = (registerType env s T).2.m_declarations
      ∧ Same (registerType env s T).2 (registerType env s (.wrapper kind T params)).2 := by
  have h : registerType env s (.wrapper kind T params)
      = doRegisterTypeRecBody env (doRegisterTypeRec env T.size) s (.wrapper kind T params) 0 :=
    rfl
  rw [h]
  unfold doRegisterTypeRecBody
  dsimp only
  split
  · exact ⟨rfl, rfl, Same.registerExecutionMode (Same.same_refl _) kind params⟩
  · exact ⟨rfl, rfl, Same.same_refl _⟩

end ModuleTypes
end spirv

/-! ## The access kind of images -/

namespace spirv
namespace ModuleTypes

open ast ast.type

/-- Two image types that differ in the access kind only have the same unqualified type, whose
access kind is read-write and which differs from each in the access kind only. -/
theorem sameButAccessKind_unqualified (T T' : Ty) (h : sameButAccessKind T T' = true) :
    modtyp.getUnqualifiedType T' = modtyp.getUnqualifiedType T
      ∧ T.registrable = true ∧ T'.registrable = true
      ∧ sameButAccessKind T T = true
      ∧ (modtyp.getUnqualifiedType T).accessKind? = some .eReadWrite
      ∧ (modtyp.getUnqualifiedType T').accessKind? = some .eReadWrite
      ∧ sameButAccessKind T (modtyp.getUnqualifiedType T) = true
      ∧ sameButAccessKind T' (modtyp.getUnqualifiedType T') = true := by
  cases T <;> cases T' <;>
    simp only [sameButAccessKind, Bool.false_eq_true, Bool.and_eq_true, decide_eq_true_eq] at h
  · rename_i c c'
    obtain ⟨dim, fmt, st, smp, arr, ms, ak⟩ := c
    obtain ⟨dim', fmt', st', smp', arr', ms', ak'⟩ := c'
    simp only [ImageConfiguration.mk.injEq, and_true] at h
    obtain ⟨rfl, rfl, rfl, rfl, rfl, rfl⟩ := h
    simp [modtyp.getUnqualifiedType, Ty.registrable, sameButAccessKind, Ty.accessKind?]
  · rename_i c d c' d'
    obtain ⟨h1, rfl⟩ := h
    obtain ⟨dim, fmt, st, smp, arr, ms, ak⟩ := c
    obtain ⟨dim', fmt', st', smp', arr', ms', ak'⟩ := c'
    simp only [ImageConfiguration.mk.injEq, and_true] at h1
    obtain ⟨rfl, rfl, rfl, rfl, rfl, rfl⟩ := h1
    simp [modtyp.getUnqualifiedType, Ty.registrable, sameButAccessKind, Ty.accessKind?]
  · rename_i c d c' d'
    obtain ⟨h1, rfl⟩ := h
    obtain ⟨dim, fmt, st, smp, arr, ms, ak⟩ := c
    obtain ⟨dim', fmt', st', smp', arr', ms', ak'⟩ := c'
    simp only [ImageConfiguration.mk.injEq, and_true] at h1
    obtain ⟨rfl, rfl, rfl, rfl, rfl, rfl⟩ := h1
    simp [modtyp.getUnqualifiedType, Ty.registrable, sameButAccessKind, Ty.accessKind?]

/-- C27: access-kind normalisation.  For any two image types, any two sampled-image types with
the same depth flag and any two combined-image types with the same comparison flag whose
configurations are equal except for the access kind, the registration of the second after the
first returns the `TypeId` of the first and appends no instruction, and the two registrations
append at most one `OpTypeImage` instruction: exactly one when neither the unqualified type nor
an image type under its key was registered, none otherwise.  The unqualified type of each has
the access kind read-write and differs from the type in the access kind at most. -/
theorem access_kind_normalised (env : TypesEnv) (s : ModuleTypes) (T T' : Ty)
    (h : sameButAccessKind T T' = true) :
    (registerType env (registerType env s T).2 T').1 = (registerType env s T).1
      ∧ (registerType env (registerType env s T).2 T').2.m_declarations
          = (registerType env s T).2.m_declarations
      ∧ (∃ added,
          (registerType env (registerType env s T).2 T').2.m_declarations
              = s.m_declarations ++ added
            ∧ (added.filter (fun i => decide (i.op = .OpTypeImage))).length ≤ 1
            ∧ (mapFind s.m_registeredTypes (modtyp.getUnqualifiedType T) = none →
                (∀ k, imageKey env (modtyp.getUnqualifiedType T) = some k →
                  mapFind s.m_registeredImageTypes k = none) →
                (added.filter (fun i => decide (i.op = .OpTypeImage))).length = 1))
      ∧ modtyp.getUnqualifiedType T' = modtyp.getUnqualifiedType T
      ∧ (modtyp.getUnqualifiedType T).accessKind? = some .eReadWrite
      ∧ (modtyp.getUnqualifiedType T').accessKind? = some .eReadWrite
      ∧ sameButAccessKind T (modtyp.getUnqualifiedType T) = true
      ∧ sameButAccessKind T' (modtyp.getUnqualifiedType T') = true := by
  obtain ⟨hunq, hT, hT', hself, ha, ha', hsame, hsame'⟩ := sameButAccessKind_unqualified T T' h
  have h1 : Cached env (registerType env s T).2 T (registerType env s T).1 :=
    cached_doRegisterTypeRec env T.size s T 0 hT (Nat.le_refl _)
  have h2 : Cached env (registerType env s T).2 T' (registerType env s T).1 :=
    cached_of_unqualified_eq env _ T T' _ hunq hT' h1
  obtain ⟨s', hs', hsame2⟩ :=
    doRegisterTypeRec_of_cached env T'.size (registerType env s T).2 T' 0 _ h2 (Nat.le_refl _)
  have hreg : registerType env (registerType env s T).2 T' = ((registerType env s T).1, s') := hs'
  have hdecl : (registerType env (registerType env s T).2 T').2.m_declarations
      = (registerType env s T).2.m_declarations := by
    rw [hreg]; exact hsame2.declarations
  obtain ⟨added, hadd, hle, hone⟩ := imageLike_emits env s T hself
  refine ⟨by rw [hreg], hdecl, ⟨added, by rw [hdecl, hadd], hle, hone⟩, hunq, ha, ha', hsame,
    hsame'⟩

/-- C27, a closed instance: the sample image type, read only, and the same image type, write
only, in the empty registry: one `TypeId` and one `OpTypeImage` instruction. -/
theorem access_kind_normalised_witness :
    (registerType TypesEnv.sample
        (registerType TypesEnv.sample (empty 0) (.image sampleImageConfig)).2
        (.image sampleImageConfigWrite)).1
      = (registerType TypesEnv.sample (empty 0) (.image sampleImageConfig)).1
    ∧ ∃ added,
        (registerType TypesEnv.sample
          (registerType TypesEnv.sample (empty 0) (.image sampleImageConfig)).2
          (.image sampleImageConfigWrite)).2.m_declarations = [] ++ added
        ∧ (added.filter (fun i => decide (i.op = .OpTypeImage))).length = 1 := by
  have h := access_kind_normalised TypesEnv.sample (empty 0) (.image sampleImageConfig)
    (.image sampleImageConfigWrite) (by decide)
  obtain ⟨added, hadd, -, hone⟩ := h.2.2.1
  exact ⟨h.1, added, hadd, hone rfl (fun k _ => rfl)⟩

end ModuleTypes
end spirv

/-! ## Merged sampled images -/

namespace spirv
namespace ModuleTypes

open ast ast.type

/-- C28: sampled-image reuse within a block.  In a registry whose merged ids are well numbered,
for every image value, sampler value and block, `mergeSamplerImage` returns, and a second call
with the same pair and the block left by the first returns the same id, appends nothing and
changes nothing.  The first call appends one `OpSampledImage` instruction, which defines the
returned id from the image and the sampler, when the pair was not merged before, and nothing
when it was.  A following call for a pair with another image id or another sampler id returns
another id. -/
theorem sampled_image_reuse (env : TypesEnv) (s : ModuleTypes) (image sampler : DebugId)
    (block : spirv.Block) (config : ImageConfiguration) (isComparison : Bool)
    (himage : getNonArrayType image.type = .image config)
    (hsampler : getNonArrayType sampler.type = .sampler isComparison)
    (hok : SamplerImagesOk s) :
    ∃ d s1 block1,
      mergeSamplerImage env s image sampler block = .ok (d, s1, block1)
        ∧ mergeSamplerImage env s1 image sampler block1 = .ok (d, s1, block1)
        ∧ (lookupSamplerImage s image.id sampler.id = none →
            ∃ typeId, block1
              = { block with
                  instructions := block.instructions
                    ++ [⟨.OpSampledImage, some typeId, some d.id, [image.id, sampler.id]⟩] })
        ∧ (lookupSamplerImage s image.id sampler.id ≠ none → block1 = block)
        ∧ ∀ (image' sampler' : DebugId) (block' : spirv.Block) (config' : ImageConfiguration)
            (isComparison' : Bool),
            getNonArrayType image'.type = .image config' →
            getNonArrayType sampler'.type = .sampler isComparison' →
            (image'.id, sampler'.id) ≠ (image.id, sampler.id) →
            ∃ d' s2 block2,
              mergeSamplerImage env s1 image' sampler' block' = .ok (d', s2, block2)
                ∧ d'.id ≠ d.id := by
  have hreturns : ∃ d s1 block1,
      mergeSamplerImage env s image sampler block = .ok (d, s1, block1)
        ∧ (lookupSamplerImage s image.id sampler.id = none →
            ∃ typeId, block1
              = { block with
                  instructions := block.instructions
                    ++ [⟨.OpSampledImage, some typeId, some d.id, [image.id, sampler.id]⟩] })
        ∧ (lookupSamplerImage s image.id sampler.id ≠ none → block1 = block) := by
    cases hd : lookupSamplerImage s image.id sampler.id with
    | some found =>
      exact ⟨found, s, block,
        mergeSamplerImage_cached env s image sampler block config isComparison found himage
          hsampler hd,
        fun h => Option.noConfusion h, fun _ => rfl⟩
    | none =>
      obtain ⟨d, s', typeId, hnew, -, -, -⟩ :=
        mergeSamplerImage_new env s image sampler block config isComparison himage hsampler hd
      exact ⟨d, s', _, hnew, fun _ => ⟨typeId, rfl⟩, fun h => absurd rfl h⟩
  obtain ⟨d, s1, block1, hfirst, hnew, hcached⟩ := hreturns
  refine ⟨d, s1, block1, hfirst,
    mergeSamplerImage_again env s image sampler block d s1 block1 hfirst block1, hnew, hcached,
    ?_⟩
  intro image' sampler' block' config' isComparison' himage' hsampler' hne
  have hok1 := samplerImagesOk_merge env s image sampler block d s1 block1 hok hfirst
  have hrec := mergeSamplerImage_records env s image sampler block d s1 block1 hfirst
  cases hd' : lookupSamplerImage s1 image'.id sampler'.id with
  | some found =>
    refine ⟨found, s1, block',
      mergeSamplerImage_cached env s1 image' sampler' block' config' isComparison' found
        himage' hsampler' hd', ?_⟩
    intro hid
    obtain ⟨h1, h2⟩ := hok1.injective _ _ _ _ _ _ hd' hrec hid
    exact hne (Prod.ext h1 h2)
  | none =>
    obtain ⟨d', s2, typeId, hnew', hle, -, -⟩ :=
      mergeSamplerImage_new env s1 image' sampler' block' config' isComparison' himage'
        hsampler' hd'
    refine ⟨d', s2, _, hnew', ?_⟩
    have := hok1.allocated _ _ _ hrec
    omega

/-- C28, a closed instance: the sample image and the sample sampler merged twice in the sample
block, and then the sample image with the other sample sampler, in a registry that has
registered nothing. -/
theorem sampled_image_reuse_witness :
    ∃ d s1 block1,
      mergeSamplerImage TypesEnv.sample sampleTypes sampleImage sampleSampler sampleBlock
          = .ok (d, s1, block1)
        ∧ mergeSamplerImage TypesEnv.sample s1 sampleImage sampleSampler block1
          = .ok (d, s1, block1)
        ∧ ∃ d' s2 block2,
            mergeSamplerImage TypesEnv.sample s1 sampleImage sampleSamplerOther sampleBlock
                = .ok (d', s2, block2)
              ∧ d'.id ≠ d.id :=
  have ⟨d, s1, block1, h1, h2, _, _, h5⟩ :=
    sampled_image_reuse TypesEnv.sample sampleTypes sampleImage sampleSampler sampleBlock
      sampleImageConfig false rfl rfl (samplerImagesOk_of_nil _ rfl)
  ⟨d, s1, block1, h1, h2,
    h5 sampleImage sampleSamplerOther sampleBlock sampleImageConfig false rfl rfl (by decide)⟩

/-- C29, as stated, fails: in a registry that has registered nothing, the sample image and the
sample sampler are merged in the sample block, which receives the `OpSampledImage` instruction
of the id 23; the call for the same pair with the other sample block returns the id 23 and
leaves that block without an instruction. -/
theorem mergeSamplerImage_second_block_gets_nothing :
    (mergeSamplerImage TypesEnv.sample sampleTypes sampleImage sampleSampler
        sampleBlock).toOption.map (fun r => (r.1.id, r.2.2.instructions))
      = some (23, [⟨.OpSampledImage, some 22, some 23, [10, 11]⟩])
    ∧ ((mergeSamplerImage TypesEnv.sample sampleTypes sampleImage sampleSampler
        sampleBlock).toOption.bind
          (fun r => (mergeSamplerImage TypesEnv.sample r.2.1 sampleImage sampleSampler
            sampleBlockOther).toOption)).map (fun r => (r.1.id, r.2.2))
      = some (23, sampleBlockOther)
    ∧ sampleBlockOther.instructions = [] := by
  decide

/-- C29, amended: the sampled-image cache belongs to the module.  For every image value, sampler
value and two blocks, `mergeSamplerImage` for the pair with the first block returns, and the
call for the pair that follows with the second block returns the same id, appends nothing to
the second block and changes nothing: when the pair was not merged before, the id returned for
the second block is defined by the `OpSampledImage` instruction appended to the first. -/
theorem sampled_image_cache_module_wide (env : TypesEnv) (s : ModuleTypes)
    (image sampler : DebugId) (first second : spirv.Block) (config : ImageConfiguration)
    (isComparison : Bool)
    (himage : getNonArrayType image.type = .image config)
    (hsampler : getNonArrayType sampler.type = .sampler isComparison) :
    ∃ d s1 first1,
      mergeSamplerImage env s image sampler first = .ok (d, s1, first1)
        ∧ mergeSamplerImage env s1 image sampler second = .ok (d, s1, second)
        ∧ (lookupSamplerImage s image.id sampler.id = none →
            ∃ typeId, first1.instructions
              = first.instructions
                ++ [⟨.OpSampledImage, some typeId, some d.id, [image.id, sampler.id]⟩]) := by
  cases hd : lookupSamplerImage s image.id sampler.id with
  | some found =>
    have h := mergeSamplerImage_cached env s image sampler first config isComparison found
      himage hsampler hd
    exact ⟨found, s, first, h,
      mergeSamplerImage_again env s image sampler first found s first h second,
      fun h => Option.noConfusion h⟩
  | none =>
    obtain ⟨d, s', typeId, hnew, -, -, -⟩ :=
      mergeSamplerImage_new env s image sampler first config isComparison himage hsampler hd
    exact ⟨d, s', _, hnew, mergeSamplerImage_again env s image sampler first d s' _ hnew second,
      fun _ => ⟨typeId, rfl⟩⟩

/-- C29, amended, a closed instance: the sample pair merged with the sample block and then with
the other sample block. -/
theorem sampled_image_cache_module_wide_witness :
    ∃ d s1 first1,
      mergeSamplerImage TypesEnv.sample sampleTypes sampleImage sampleSampler sampleBlock
          = .ok (d, s1, first1)
        ∧ mergeSamplerImage TypesEnv.sample s1 sampleImage sampleSampler sampleBlockOther
          = .ok (d, s1, sampleBlockOther) :=
  have ⟨d, s1, first1, h1, h2, _⟩ :=
    sampled_image_cache_module_wide TypesEnv.sample sampleTypes sampleImage sampleSampler
      sampleBlock sampleBlockOther sampleImageConfig false rfl rfl
  ⟨d, s1, first1, h1, h2⟩

end ModuleTypes
end spirv

/-! ## Calls out of order -/

namespace ast
namespace ShaderBuilder

/-- C30, as stated, fails: on the sample builder, whose If-stack and Switch-stack are empty,
`endIf()` pops the empty `m_ifStmt` and `endSwitch()` the empty `m_switchStmt`, which the source
does without a test: the calls have no defined behaviour and no error is raised. -/
theorem endIf_empty_stack_unchecked :
    sampleBuilder.m_ifStmt = [] ∧ sampleBuilder.m_switchStmt = []
      ∧ endIf sampleBuilder = .error .undefinedBehaviour
      ∧ endSwitch sampleBuilder = .error .undefinedBehaviour
      ∧ (¬ ∃ text, endIf sampleBuilder = .error (.runtimeError text))
      ∧ (¬ ∃ text, beginElse sampleBuilder = .error (.runtimeError text))
      ∧ ¬ ∃ text, endSwitch sampleBuilder = .error (.runtimeError text) := by
  refine ⟨rfl, rfl, rfl, rfl, ?_, ?_, ?_⟩ <;> rintro ⟨text, h⟩ <;> cases h

/-- C30, amended: calls out of order are not tested.  For every builder state whose If-stack is
empty, `endIf()`, `beginElseIf( cond )` and `beginElse()` pop or read the back of the empty
`m_ifStmt`, which has no defined behaviour, and raise no error; likewise `endSwitch()`,
`beginCase( literal )` and `beginDefault()` when the Switch-stack is empty.  With an entry on the
stack `endIf()` and `endSwitch()` return and remove the last entry. -/
theorem out_of_order_unchecked (b : ShaderBuilder) (condition literal : expr.Expr) :
    (b.m_ifStmt = [] →
        endIf b = .error .undefinedBehaviour
          ∧ beginElseIf b condition = .error .undefinedBehaviour
          ∧ beginElse b = .error .undefinedBehaviour)
      ∧ (b.m_switchStmt = [] →
        endSwitch b = .error .undefinedBehaviour
          ∧ beginCase b literal = .error .undefinedBehaviour
          ∧ beginDefault b = .error .undefinedBehaviour)
      ∧ (b.m_ifStmt ≠ [] → endIf b = .ok { b with m_ifStmt := b.m_ifStmt.dropLast })
      ∧ (b.m_switchStmt ≠ [] →
        endSwitch b = .ok { b with m_switchStmt := b.m_switchStmt.dropLast }) := by
  refine ⟨?_, ?_, ?_, ?_⟩
  · intro h
    unfold endIf beginElseIf beginElse
    rw [h]
    exact ⟨rfl, rfl, rfl⟩
  · intro h
    unfold endSwitch beginCase beginDefault
    rw [h]
    exact ⟨rfl, rfl, rfl⟩
  · intro h
    unfold endIf
    rw [if_neg h]
  · intro h
    unfold endSwitch
    rw [if_neg h]

/-- C30, amended, a closed instance: the sample builder, whose If-stack is empty. -/
theorem out_of_order_unchecked_witness :
    endIf sampleBuilder = .error .undefinedBehaviour
      ∧ beginElseIf sampleBuilder (.leaf 0) = .error .undefinedBehaviour
      ∧ beginElse sampleBuilder = .error .undefinedBehaviour :=
  (out_of_order_unchecked sampleBuilder (.leaf 0) (.leaf 0)).1 rfl

end ShaderBuilder
end ast
/-! ## Claims C31 to C37 -/

namespace ast
namespace ShaderBuilder

theorem registerName_registeredInTop (b : ShaderBuilder) (ptr : Nat) (name : String)
    (type : ast.type.TypePtr) (flags : Finset var.Flag) (top : Block)
    (htop : b.m_blocks.getLast? = some top)
    (hfree : var.setContains top.registered ptr = false) :
    RegisteredInTop b name type flags (registerName b ptr name type flags) := by
  obtain ⟨tcp, hreg⟩ := registerName_ok b ptr name type flags top htop
  rw [hreg]
  exact ⟨_, _, _, rfl, rfl, rfl, rfl, rfl, var.mem_setInsert_self _ _ hfree⟩

/-- C31: local registration.  For every builder state with a frame, every name and every type,
at an address free in the top frame: `registerLocale( name, type )` succeeds and returns a
variable with that name and type whose flag set is exactly {locale}, registered in the current
(top) frame; `registerLoopVar` yields exactly {locale, loop-var}, `registerParam` {param},
`registerInParam` {input-param}, `registerOutParam` {output-param} and `registerInOutParam`
{input-param, output-param}. -/
theorem local_registration_flags (b : ShaderBuilder) (ptr : Nat) (name : String)
    (type : ast.type.TypePtr) (top : Block)
    (htop : b.m_blocks.getLast? = some top)
    (hfree : var.setContains top.registered ptr = false) :
    RegisteredInTop b name type {var.Flag.eLocale} (registerLocale b ptr name type)
      ∧ RegisteredInTop b name type {var.Flag.eLocale, var.Flag.eLoopVar}
          (registerLoopVar b ptr name type)
      ∧ RegisteredInTop b name type {var.Flag.eParam} (registerParam b ptr name type)
      ∧ RegisteredInTop b name type {var.Flag.eInputParam} (registerInParam b ptr name type)
      ∧ RegisteredInTop b name type {var.Flag.eOutputParam} (registerOutParam b ptr name type)
      ∧ RegisteredInTop b name type {var.Flag.eInputParam, var.Flag.eOutputParam}
          (registerInOutParam b ptr name type) :=
  ⟨registerName_registeredInTop b ptr name type _ top htop hfree,
    registerName_registeredInTop b ptr name type _ top htop hfree,
    registerName_registeredInTop b ptr name type _ top htop hfree,
    registerName_registeredInTop b ptr name type _ top htop hfree,
    registerName_registeredInTop b ptr name type _ top htop hfree,
    registerName_registeredInTop b ptr name type _ top htop hfree⟩

/-- C31 on the builder two frames deep: `registerLocale( "x", int )` returns a variable `x` of
type `int` flagged locale only, held by the inner frame, and `registerInOutParam( "p", float )`
one flagged input-param and output-param. -/
theorem local_registration_flags_witness :
    (∃ v b1 top1, registerLocale twoFrames 50 "x" sampleInt = .ok (v, b1)
        ∧ v.getName = "x" ∧ v.type = sampleInt ∧ v.flags = {var.Flag.eLocale}
        ∧ b1.m_blocks = [{ registered := [], container := 0 }, top1] ∧ v ∈ top1.registered)
      ∧ ∃ v b1 top1, registerInOutParam twoFrames 50 "x" sampleInt = .ok (v, b1)
        ∧ v.getName = "x" ∧ v.type = sampleInt
        ∧ v.flags = {var.Flag.eInputParam, var.Flag.eOutputParam}
        ∧ b1.m_blocks = [{ registered := [], container := 0 }, top1] ∧ v ∈ top1.registered :=
  have h := local_registration_flags twoFrames 50 "x" sampleInt
    { registered := [], container := 1 } rfl rfl
  ⟨h.1, h.2.2.2.2.2⟩

end ShaderBuilder
end ast

namespace ast
namespace ShaderBuilder

theorem SameStatements.statements_refl (b : ShaderBuilder) : SameStatements b b := ⟨rfl, rfl⟩

theorem SameStatements.statements_trans {b b1 b2 : ShaderBuilder} (h1 : SameStatements b b1)
    (h2 : SameStatements b1 b2) : SameStatements b b2 :=
  ⟨h2.1.trans h1.1, h2.2.trans h1.2⟩

theorem SameStatements.statements_setData {b b1 : ShaderBuilder} (h : SameStatements b b1)
    (data : ShaderData) : SameStatements b (b1.setData data) :=
  ⟨h.1, h.2⟩

theorem SameStatements.stmtsAt_eq {b b1 : ShaderBuilder} (h : SameStatements b b1) (p : Nat) :
    stmtsAt b1 p = stmtsAt b p := by
  unfold stmtsAt
  rw [h.1]

theorem same_registerVariable (b : ShaderBuilder) (v : var.Variable) (b1 : ShaderBuilder)
    (h : registerVariable b v = .ok b1) : SameStatements b b1 := by
  obtain ⟨top, htop⟩ := registerVariable_isOk b v b1 h
  obtain ⟨tcp, hok⟩ := registerVariable_ok b v top htop
  rw [hok] at h
  cases h
  exact ⟨rfl, rfl⟩

theorem same_registerName (b : ShaderBuilder) (ptr : Nat) (name : String)
    (type : ast.type.TypePtr) (flags : Finset var.Flag) (v : var.Variable) (b1 : ShaderBuilder)
    (h : registerName b ptr name type flags = .ok (v, b1)) : SameStatements b b1 := by
  obtain ⟨top, htop⟩ := registerName_isOk b ptr name type flags v b1 h
  obtain ⟨tcp, hok⟩ := registerName_ok b ptr name type flags top htop
  rw [hok] at h
  cases h
  exact ⟨rfl, rfl⟩

theorem same_registerMember (b : ShaderBuilder) (ptr : Nat) (outer : var.Variable)
    (name fullName : String) (type : ast.type.TypePtr) (flags : Finset var.Flag)
    (v : var.Variable) (b1 : ShaderBuilder)
    (h : registerMember b ptr outer name fullName type flags = .ok (v, b1)) :
    SameStatements b b1 := by
  unfold registerMember at h
  dsimp only at h
  split at h
  · cases h
  · rename_i b2 hreg
    cases h
    have h2 := same_registerVariable _ _ _ hreg
    exact ⟨h2.1, h2.2⟩

theorem same_registerFunction (b : ShaderBuilder) (ptr : Nat) (name : String)
    (type : ast.type.TypePtr) (v : var.Variable) (b1 : ShaderBuilder)
    (h : registerFunction b ptr name type = .ok (v, b1)) : SameStatements b b1 := by
  unfold registerFunction at h
  split at h
  · cases h
  · dsimp only at h
    split at h
    · cases h
    · cases h
      exact ⟨rfl, rfl⟩

theorem same_registerStaticConstant (b : ShaderBuilder) (ptr : Nat) (name : String)
    (type : ast.type.TypePtr) (movedName : String) (v : var.Variable) (b1 : ShaderBuilder)
    (h : registerStaticConstant b ptr name type movedName = .ok (v, b1)) :
    SameStatements b b1 := by
  unfold registerStaticConstant at h
  split at h
  · cases h
  · dsimp only at h
    split at h
    · cases h
    · cases h
      exact ⟨rfl, rfl⟩

theorem same_registerBuiltin (env : BuilderEnv) (b : ShaderBuilder) (ptr : Nat)
    (builtin : ast.type.Builtin) (type : ast.type.TypePtr) (flag : var.Flag)
    (v : var.Variable) (b1 : ShaderBuilder)
    (h : registerBuiltin env b ptr builtin type flag = .ok (v, b1)) : SameStatements b b1 := by
  unfold registerBuiltin at h
  dsimp only at h
  split at h
  · cases h
  · rename_i b2 hreg
    cases h
    have h2 := same_registerVariable _ _ _ hreg
    exact ⟨h2.1, h2.2⟩

theorem same_registerSpecConstant (b : ShaderBuilder) (ptr : Nat) (name : String)
    (location : Nat) (type : ast.type.TypePtr) (v : var.Variable) (b1 : ShaderBuilder)
    (h : registerSpecConstant b ptr name location type = .ok (v, b1)) :
    SameStatements b b1 := by
  unfold registerSpecConstant at h
  split at h
  · cases h
  · rename_i r b2 hreg
    cases h
    exact (same_registerName b ptr name type _ _ b2 hreg).statements_setData _

theorem same_registerAccelerationStructure (b : ShaderBuilder) (ptr : Nat) (name : String)
    (type : ast.type.TypePtr) (binding set : Nat) (enabled : Bool) (v : var.Variable)
    (b1 : ShaderBuilder)
    (h : registerAccelerationStructure b ptr name type binding set enabled = .ok (v, b1)) :
    SameStatements b b1 := by
  unfold registerAccelerationStructure at h
  split at h
  · cases h
  · rename_i r b2 hreg
    split at h
    · cases h
      exact (same_registerName b ptr name type _ _ b2 hreg).statements_setData _
    · cases h
      exact same_registerName b ptr name type _ _ _ hreg

theorem same_registerSampler (b : ShaderBuilder) (ptr : Nat) (name : String)
    (type : ast.type.TypePtr) (binding set : Nat) (enabled : Bool) (v : var.Variable)
    (b1 : ShaderBuilder)
    (h : registerSampler b ptr name type binding set enabled = .ok (v, b1)) :
    SameStatements b b1 := by
  unfold registerSampler at h
  split at h
  · split at h
    · cases h
    · rename_i r b2 hreg
      cases h
      exact (same_registerName b ptr name type _ _ b2 hreg).statements_setData _
  · exact same_registerName b ptr name type _ _ _ h

theorem same_registerSampledImage (env : BuilderEnv) (b : ShaderBuilder) (ptr : Nat)
    (name : String) (type : ast.type.TypePtr) (binding set : Nat) (enabled : Bool)
    (v : var.Variable) (b1 : ShaderBuilder)
    (h : registerSampledImage env b ptr name type binding set enabled = .ok (v, b1)) :
    SameStatements b b1 := by
  unfold registerSampledImage at h
  split at h
  · split at h
    · cases h
    · rename_i r b2 hreg
      split at h
      · split at h
        · cases h
          exact (same_registerName b ptr name type _ _ b2 hreg).statements_setData _
        · cases h
          exact (same_registerName b ptr name type _ _ b2 hreg).statements_setData _
      · cases h
  · exact same_registerName b ptr name type _ _ _ h

theorem same_registerTexture (env : BuilderEnv) (b : ShaderBuilder) (ptr : Nat)
    (name : String) (type : ast.type.TypePtr) (binding set : Nat) (enabled : Bool)
    (v : var.Variable) (b1 : ShaderBuilder)
    (h : registerTexture env b ptr name type binding set enabled = .ok (v, b1)) :
    SameStatements b b1 := by
  unfold registerTexture at h
  split at h
  · split at h
    · cases h
    · rename_i r b2 hreg
      split at h
      · split at h
        · cases h
          exact (same_registerName b ptr name type _ _ b2 hreg).statements_setData _
        · cases h
          exact (same_registerName b ptr name type _ _ b2 hreg).statements_setData _
      · cases h
  · exact same_registerName b ptr name type _ _ _ h

theorem same_registerImage (env : BuilderEnv) (b : ShaderBuilder) (ptr : Nat)
    (name : String) (type : ast.type.TypePtr) (binding set : Nat) (enabled : Bool)
    (v : var.Variable) (b1 : ShaderBuilder)
    (h : registerImage env b ptr name type binding set enabled = .ok (v, b1)) :
    SameStatements b b1 := by
  unfold registerImage at h
  split at h
  · split at h
    · cases h
    · rename_i r b2 hreg
      split at h
      · split at h
        · cases h
          exact (same_registerName b ptr name type _ _ b2 hreg).statements_setData _
        · cases h
          exact (same_registerName b ptr name type _ _ b2 hreg).statements_setData _
      · cases h
  · exact same_registerName b ptr name type _ _ _ h

theorem same_lookup_or_register (b0 : ShaderBuilder) (ptr : Nat) (name : String)
    (type : ast.type.TypePtr) (flags : Finset var.Flag) (v : var.Variable) (b1 : ShaderBuilder)
    (h : (if hasVar b0 name then
            match getVar b0 name with
            | .error e => .error e
            | .ok v => .ok (v, b0)
          else registerName b0 ptr name type flags) = .ok (v, b1)) :
    SameStatements b0 b1 := by
  split at h
  · split at h
    · cases h
    · cases h
      exact ⟨rfl, rfl⟩
  · exact same_registerName _ _ _ _ _ _ _ h

theorem same_registerInput (env : BuilderEnv) (b : ShaderBuilder) (ptr : Nat)
    (entryPoint : EntryPoint) (name : String) (location : Nat) (attributes : Finset var.Flag)
    (type : ast.type.TypePtr) (v : var.Variable) (b1 : ShaderBuilder)
    (h : registerInput env b ptr entryPoint name location attributes type = .ok (v, b1)) :
    SameStatements b b1 := by
  unfold registerInput at h
  dsimp only at h
  have h2 := same_lookup_or_register _ _ _ _ _ _ _ h
  exact ⟨h2.1, h2.2⟩

theorem same_registerOutput (env : BuilderEnv) (b : ShaderBuilder) (ptr : Nat)
    (entryPoint : EntryPoint) (name : String) (location : Nat) (attributes : Finset var.Flag)
    (type : ast.type.TypePtr) (v : var.Variable) (b1 : ShaderBuilder)
    (h : registerOutput env b ptr entryPoint name location attributes type = .ok (v, b1)) :
    SameStatements b b1 := by
  unfold registerOutput at h
  dsimp only at h
  have h2 := same_lookup_or_register _ _ _ _ _ _ _ h
  exact ⟨h2.1, h2.2⟩

theorem same_registerInOut (b : ShaderBuilder) (ptr : Nat) (name : String)
    (attributes : Finset var.Flag) (type : ast.type.TypePtr) (v : var.Variable)
    (b1 : ShaderBuilder) (h : registerInOut b ptr name attributes type = .ok (v, b1)) :
    SameStatements b b1 := by
  unfold registerInOut at h
  dsimp only at h
  have h0 := same_lookup_or_register _ _ _ _ _ _ _ h
  refine SameStatements.statements_trans ?_ h0
  split
  · exact ⟨rfl, rfl⟩
  · exact ⟨rfl, rfl⟩

theorem same_of_creating {b : ShaderBuilder} {r : Result (var.Variable × ShaderBuilder)}
    {made : Option var.Variable} {b1 : ShaderBuilder} (h : creating r = .ok (made, b1))
    (hk : ∀ v b2, r = .ok (v, b2) → SameStatements b b2) : SameStatements b b1 := by
  obtain ⟨v, _, hr⟩ := creating_ok h
  exact hk v b1 hr

theorem same_of_creatingUnless {b : ShaderBuilder} {found : Bool}
    {r : Result (var.Variable × ShaderBuilder)} {made : Option var.Variable}
    {b1 : ShaderBuilder} (h : creatingUnless found r = .ok (made, b1))
    (hk : ∀ v b2, r = .ok (v, b2) → SameStatements b b2) : SameStatements b b1 := by
  obtain ⟨v, hr, _⟩ := creatingUnless_ok h
  exact hk v b1 hr

theorem same_of_quiet {b : ShaderBuilder} {r : Result ShaderBuilder}
    {made : Option var.Variable} {b1 : ShaderBuilder} (h : quiet r = .ok (made, b1))
    (hk : ∀ b2, r = .ok b2 → SameStatements b b2) : SameStatements b b1 :=
  hk b1 (quiet_ok h).2

theorem same_of_data {b : ShaderBuilder} {data : ShaderData} {made : Option var.Variable}
    {b1 : ShaderBuilder}
    (h : (Except.ok (none, b.setData data) : Result (Option var.Variable × ShaderBuilder))
      = .ok (made, b1)) : SameStatements b b1 := by
  cases h
  exact ⟨rfl, rfl⟩

theorem step_registration_same (env : BuilderEnv) (b : ShaderBuilder) (op : Op)
    (made : Option var.Variable) (b1 : ShaderBuilder) (hreg : op.isRegistration = true)
    (h : step env b op = .ok (made, b1)) : SameStatements b b1 := by
  cases op with
  | registerFunction ptr name type =>
    exact same_of_creating h (fun v b2 => same_registerFunction b ptr name type v b2)
  | registerVariable v => exact same_of_quiet h (fun b2 => same_registerVariable b v b2)
  | registerName ptr name type flags =>
    exact same_of_creating h (fun v b2 => same_registerName b ptr name type flags v b2)
  | registerNameFlag ptr name type flag =>
    exact same_of_creating h (fun v b2 => same_registerName b ptr name type _ v b2)
  | registerNameDefault ptr name type =>
    exact same_of_creating h (fun v b2 => same_registerName b ptr name type _ v b2)
  | registerMember ptr outer name fullName type flags =>
    exact same_of_creating h
      (fun v b2 => same_registerMember b ptr outer name fullName type flags v b2)
  | registerMemberFlag ptr outer name fullName type flag =>
    exact same_of_creating h
      (fun v b2 => same_registerMember b ptr outer name fullName type _ v b2)
  | registerMemberDefault ptr outer name fullName type =>
    exact same_of_creating h
      (fun v b2 => same_registerMember b ptr outer name fullName type _ v b2)
  | registerStaticConstant ptr name type movedName =>
    exact same_of_creating h
      (fun v b2 => same_registerStaticConstant b ptr name type movedName v b2)
  | registerSpecConstant ptr name location type =>
    exact same_of_creating h
      (fun v b2 => same_registerSpecConstant b ptr name location type v b2)
  | registerAccelerationStructure ptr name type binding set enabled =>
    exact same_of_creating h
      (fun v b2 => same_registerAccelerationStructure b ptr name type binding set enabled v b2)
  | registerSampler ptr name type binding set enabled =>
    exact same_of_creating h
      (fun v b2 => same_registerSampler b ptr name type binding set enabled v b2)
  | registerSampledImage ptr name type binding set enabled =>
    exact same_of_creating h
      (fun v b2 => same_registerSampledImage env b ptr name type binding set enabled v b2)
  | registerTexture ptr name type binding set enabled =>
    exact same_of_creating h
      (fun v b2 => same_registerTexture env b ptr name type binding set enabled v b2)
  | registerImage ptr name type binding set enabled =>
    exact same_of_creating h
      (fun v b2 => same_registerImage env b ptr name type binding set enabled v b2)
  | registerInput ptr entryPoint name location attributes type =>
    exact same_of_creatingUnless h
      (fun v b2 => same_registerInput env b ptr entryPoint name location attributes type v b2)
  | registerOutput ptr entryPoint name location attributes type =>
    exact same_of_creatingUnless h
      (fun v b2 => same_registerOutput env b ptr entryPoint name location attributes type v b2)
  | registerInOut ptr name attributes type =>
    exact same_of_creatingUnless h
      (fun v b2 => same_registerInOut b ptr name attributes type v b2)
  | registerBuiltin ptr builtin type flag =>
    exact same_of_creating h
      (fun v b2 => same_registerBuiltin env b ptr builtin type flag v b2)
  | registerBlockVariable ptr name type =>
    exact same_of_creating h (fun v b2 => same_registerName b ptr name type _ v b2)
  | registerLocale ptr name type =>
    exact same_of_creating h (fun v b2 => same_registerName b ptr name type _ v b2)
  | registerLoopVar ptr name type =>
    exact same_of_creating h (fun v b2 => same_registerName b ptr name type _ v b2)
  | registerParam ptr name type =>
    exact same_of_creating h (fun v b2 => same_registerName b ptr name type _ v b2)
  | registerInParam ptr name type =>
    exact same_of_creating h (fun v b2 => same_registerName b ptr name type _ v b2)
  | registerOutParam ptr name type =>
    exact same_of_creating h (fun v b2 => same_registerName b ptr name type _ v b2)
  | registerInOutParam ptr name type =>
    exact same_of_creating h (fun v b2 => same_registerName b ptr name type _ v b2)
  | registerSsbo name info => exact same_of_data h
  | registerUbo name info => exact same_of_data h
  | registerPcb name info => exact same_of_data h
  | registerShaderRecord name info => exact same_of_data h
  | _ => cases hreg

theorem run_registrations_same (env : BuilderEnv) :
    ∀ (ops : List Op) (b : ShaderBuilder) (created : List var.Variable) (b1 : ShaderBuilder),
      (∀ op ∈ ops, op.isRegistration = true) → run env b ops = .ok (created, b1) →
      SameStatements b b1
  | [], b, created, b1, _, h => by
    simp only [run, Except.ok.injEq, Prod.mk.injEq] at h
    rw [← h.2]
    exact ⟨rfl, rfl⟩
  | op :: ops, b, created, b1, hreg, h => by
    unfold run at h
    cases hs : step env b op with
    | error e => rw [hs] at h; cases h
    | ok p =>
      obtain ⟨made, b2⟩ := p
      rw [hs] at h
      dsimp only at h
      cases hr : run env b2 ops with
      | error e => rw [hr] at h; cases h
      | ok q =>
        obtain ⟨rest, b3⟩ := q
        rw [hr] at h
        simp only [Except.ok.injEq, Prod.mk.injEq] at h
        rw [← h.2]
        exact SameStatements.statements_trans
          (step_registration_same env b op made b2 (hreg op (List.mem_cons_self _ _)) hs)
          (run_registrations_same env ops b2 rest b3
            (fun o ho => hreg o (List.mem_cons_of_mem _ ho)) hr)

/-- C32: registration emits no statement.  For every builder state and every operation of the
builder whose name starts with `register` (registerBuiltin, registerSampler with enabled true
or false, registerInput, registerOutput, registerLocale, registerSpecConstant and the others),
a call that succeeds leaves the statement list of every container unchanged, and so does every
run of such calls; hence the root container of the builder over an empty shader is empty after
any run of registrations. -/
theorem registration_emits_no_statement (env : BuilderEnv) :
    (∀ (b : ShaderBuilder) (op : Op) (made : Option var.Variable) (b1 : ShaderBuilder),
        op.isRegistration = true → step env b op = .ok (made, b1) →
        ∀ p, stmtsAt b1 p = stmtsAt b p)
      ∧ (∀ (b : ShaderBuilder) (ops : List Op) (created : List var.Variable)
          (b1 : ShaderBuilder),
        (∀ op ∈ ops, op.isRegistration = true) → run env b ops = .ok (created, b1) →
        ∀ p, stmtsAt b1 p = stmtsAt b p)
      ∧ ∀ (stage : ShaderStage) (ops : List Op) (created : List var.Variable)
          (b1 : ShaderBuilder),
        (∀ op ∈ ops, op.isRegistration = true) →
        run env (fresh stage) ops = .ok (created, b1) →
        stmtsAt b1 b1.m_shader.statements = [] := by
  refine ⟨?_, ?_, ?_⟩
  · intro b op made b1 hreg h p
    exact (step_registration_same env b op made b1 hreg h).stmtsAt_eq p
  · intro b ops created b1 hreg h p
    exact (run_registrations_same env ops b created b1 hreg h).stmtsAt_eq p
  · intro stage ops created b1 hreg h
    have hs := run_registrations_same env ops (fresh stage) created b1 hreg h
    rw [hs.stmtsAt_eq, hs.2]
    rfl

/-- C32 on a fragment shader: the registration of a builtin, of a sampler enabled and of one
disabled, of an input, of an output, of a local and of a specialisation constant succeeds, makes
seven variables and leaves the root container empty. -/
theorem registration_emits_no_statement_witness :
    ∃ created b1,
      run BuilderEnv.sample (fresh .eFragment) sampleRegistrations = .ok (created, b1)
        ∧ created.length = 7
        ∧ stmtsAt b1 b1.m_shader.statements = [] :=
  ⟨_, _, rfl, rfl,
    (registration_emits_no_statement BuilderEnv.sample).2.2 .eFragment sampleRegistrations _ _
      (by decide) rfl⟩

end ShaderBuilder
end ast

namespace spirv
namespace ModuleTypes

open ast

theorem or_eq_add_of_lt (i a b : Nat) (h : b < 2 ^ i) : a * 2 ^ i ||| b = a * 2 ^ i + b := by
  rw [Nat.mul_comm]
  exact (Nat.mul_add_lt_is_or h a).symm

theorem pointerKey_eq (type : TypeId) (storage : Nat) (isForward : Bool)
    (hid : type.id < 2 ^ 31) (hs : storage < 2 ^ 32) :
    pointerKey type storage isForward = type.id * 2 ^ 33 + (storage * 2 ^ 1 + isForward.toNat) := by
  unfold pointerKey
  have h1 : (type.id <<< 33) % 2 ^ 64 = type.id * 2 ^ 33 := by
    rw [Nat.shiftLeft_eq]
    apply Nat.mod_eq_of_lt
    omega
  have h2 : ((type.isPointer.toNat <<< 32) % 2 ^ 64) &&& 1 = 0 := by
    cases type.isPointer <;> decide
  have h3 : (storage <<< 1) % 2 ^ 64 = storage * 2 ^ 1 := by
    rw [Nat.shiftLeft_eq]
    apply Nat.mod_eq_of_lt
    omega
  have h4 : isForward.toNat &&& 1 = isForward.toNat := by
    cases isForward <;> decide
  have h5 : isForward.toNat < 2 ^ 1 := by
    cases isForward <;> decide
  rw [h1, h2, h3, h4, Nat.zero_or, or_eq_add_of_lt 1 storage _ h5]
  apply or_eq_add_of_lt
  omega

theorem pointerKey_injective (type other : TypeId) (storage storage2 : Nat)
    (isForward isForward2 : Bool)
    (hid : type.id < 2 ^ 31) (hid2 : other.id < 2 ^ 31)
    (hs : storage < 2 ^ 32) (hs2 : storage2 < 2 ^ 32)
    (h : pointerKey type storage isForward = pointerKey other storage2 isForward2) :
    type.id = other.id ∧ storage = storage2 ∧ isForward = isForward2 := by
  rw [pointerKey_eq _ _ _ hid hs, pointerKey_eq _ _ _ hid2 hs2] at h
  have hf : isForward.toNat < 2 := by cases isForward <;> decide
  have hf2 : isForward2.toNat < 2 := by cases isForward2 <;> decide
  have hfe : isForward.toNat = isForward2.toNat := by omega
  refine ⟨by omega, by omega, ?_⟩
  cases isForward <;> cases isForward2 <;> simp_all

theorem registerPointerType_of_find (s : ModuleTypes) (type : TypeId) (storage : Nat)
    (isForward : Bool) (id : TypeId)
    (h : mapFind s.m_registeredPointerTypes (pointerKey type storage isForward) = some id) :
    registerPointerType s type storage isForward = (id, s) := by
  unfold registerPointerType
  simp only [h]

theorem registerPointerType_again (s : ModuleTypes) (type : TypeId) (storage : Nat)
    (isForward : Bool) :
    registerPointerType (registerPointerType s type storage isForward).2 type storage isForward
      = registerPointerType s type storage isForward :=
  registerPointerType_of_find _ _ _ _ _ (find_registerPointerType s type storage isForward)

/-- C33, as stated, fails: the pointee ids 10 and 2 ^ 31 + 10 are both 32-bit values and have
the same key with the storage class 7 and the forward flag unset, the shift by 33 pushing the
top bit of the id out of the 64 bits; so, after the registration of the pointer to the pointee
of id 10, the registration of a pointer to the pointee of id 2 ^ 31 + 10 returns the id of the
first pointer and emits no instruction. -/
theorem pointerKey_collision_top_bit :
    2 ^ 31 + 10 < 2 ^ 32
      ∧ pointerKey samplePointee 7 false
        = pointerKey { samplePointee with id := 2 ^ 31 + 10 } 7 false
      ∧ registerPointerType (registerPointerType sampleTypes samplePointee 7 false).2
          { samplePointee with id := 2 ^ 31 + 10 } 7 false
        = registerPointerType sampleTypes samplePointee 7 false := by
  decide

/-- C33, amended: pointer-type dedup by key.  `registerPointerType` is idempotent: a repeated
call with the same pointee TypeId, storage class and forward flag returns the same id and leaves
the registry as it is, so it emits no instruction; and two calls whose (pointee id, storage
class, forward flag) triples differ never share a 64-bit key, for all pointee ids below 2 ^ 31
and all 32-bit storage-class values. -/
theorem pointer_key_dedup :
    (∀ (s : ModuleTypes) (type : TypeId) (storage : Nat) (isForward : Bool),
        registerPointerType (registerPointerType s type storage isForward).2 type storage
            isForward
          = registerPointerType s type storage isForward)
      ∧ ∀ (type other : TypeId) (storage storage2 : Nat) (isForward isForward2 : Bool),
          type.id < 2 ^ 31 → other.id < 2 ^ 31 → storage < 2 ^ 32 → storage2 < 2 ^ 32 →
          (type.id, storage, isForward) ≠ (other.id, storage2, isForward2) →
          pointerKey type storage isForward ≠ pointerKey other storage2 isForward2 := by
  refine ⟨registerPointerType_again, ?_⟩
  intro type other storage storage2 isForward isForward2 hid hid2 hs hs2 hne hkey
  obtain ⟨h1, h2, h3⟩ :=
    pointerKey_injective type other storage storage2 isForward isForward2 hid hid2 hs hs2 hkey
  exact hne (by rw [h1, h2, h3])

/-- C33, amended, on the sample pointee: the second forward registration in storage class 7 is
the first one again, and the keys of the forward and of the plain pointer differ, as do the keys
of the storage classes 7 and 2 ^ 32 - 1. -/
theorem pointer_key_dedup_witness :
    registerPointerType (registerPointerType sampleTypes samplePointee 7 true).2 samplePointee 7
        true
      = registerPointerType sampleTypes samplePointee 7 true
      ∧ pointerKey samplePointee 7 true ≠ pointerKey samplePointee 7 false
      ∧ pointerKey samplePointee 7 true ≠ pointerKey samplePointee (2 ^ 32 - 1) true :=
  ⟨pointer_key_dedup.1 sampleTypes samplePointee 7 true,
    pointer_key_dedup.2 samplePointee samplePointee 7 7 true false (by decide) (by decide)
      (by decide) (by decide) (by decide),
    pointer_key_dedup.2 samplePointee samplePointee 7 (2 ^ 32 - 1) true true (by decide)
      (by decide) (by decide) (by decide) (by decide)⟩

end ModuleTypes
end spirv

namespace ast
namespace ShaderBuilder

/-- C34, as stated, fails: on the builder over the empty fragment shader with the capture
armed, `addStmt( s )` and `addGlobalStmt( s )` with a statement `s` that is not simple leave the
root container empty and the saved slot empty, and disarm the capture; on the armed builder two
frames deep `popScope()` leaves the root container empty and the saved slot empty: the finished
container 1 is appended nowhere. -/
theorem addStmt_armed_drops_statement :
    (addStmt sampleArmed (.other 0)).toOption.map
        (fun b => (stmtsAt b 0, b.m_savedStmt, b.m_ignore)) = some ([], none, false)
      ∧ (addGlobalStmt sampleArmed (.other 0)).toOption.map
        (fun b => (stmtsAt b 0, b.m_savedStmt, b.m_ignore)) = some ([], none, false)
      ∧ (popScope twoFramesArmed).toOption.map
        (fun b => (stmtsAt b 0, stmtsAt b 1, b.m_savedStmt, b.m_ignore, b.m_currentStmts))
          = some ([], [], none, false, []) :=
  ⟨rfl, rfl, rfl⟩

/-- C34, amended: a statement that is not simple, added while the capture is armed, is dropped.
For every armed builder state and every statement `s` whose kind is not simple, `addStmt( s )`
and `addGlobalStmt( s )` succeed and change nothing but the armed flag, which they clear: `s` is
appended to no container and the saved slot keeps its content.  Likewise `popScope()`, when
the frame stack and the stack of current containers are not empty: the top frame and the
finished container are removed, the capture is disarmed, and the finished container is appended
to no container and not stored in the saved slot. -/
theorem armed_statement_dropped (b : ShaderBuilder) (s : stmt.Stmt)
    (harmed : b.m_ignore = true) (hkind : s.isSimple = false) :
    addStmt b s = .ok { b with m_ignore := false }
      ∧ addGlobalStmt b s = .ok { b with m_ignore := false }
      ∧ ∀ b1 c, pop b = .ok b1 → b1.m_currentStmts.getLast? = some c →
          popScope b
            = .ok { b1 with m_ignore := false, m_currentStmts := b1.m_currentStmts.dropLast }
          ∧ b1.m_shader = b.m_shader ∧ b1.m_savedStmt = b.m_savedStmt := by
  refine ⟨?_, ?_, ?_⟩
  · simp [addStmt, harmed, hkind]
  · simp [addGlobalStmt, harmed, hkind]
  · intro b1 c hpop hlast
    have hb1 : b1 = { b with m_blocks := b.m_blocks.dropLast } := by
      unfold pop at hpop
      split at hpop
      · cases hpop
      · cases hpop
        rfl
    subst hb1
    refine ⟨?_, rfl, rfl⟩
    unfold popScope
    rw [hpop]
    dsimp only at hlast ⊢
    rw [hlast]
    simp [addStmt, harmed, stmt.Stmt.isSimple]

/-- C34, amended, on the armed builders: the statement `other 0` and the finished container 1
are dropped. -/
theorem armed_statement_dropped_witness :
    addStmt sampleArmed (.other 0) = .ok { sampleArmed with m_ignore := false }
      ∧ popScope twoFramesArmed
        = .ok { twoFramesArmed with
            m_blocks := [{ registered := [], container := 0 }]
            m_ignore := false
            m_currentStmts := [] } :=
  have h := armed_statement_dropped sampleArmed (.other 0) rfl rfl
  have h2 := armed_statement_dropped twoFramesArmed (.other 0) rfl rfl
  ⟨h.1, (h2.2.2 _ 1 rfl rfl).1⟩

end ShaderBuilder
end ast

namespace ast
namespace ShaderBuilder

theorem registerName_inOuts (b : ShaderBuilder) (ptr : Nat) (name : String)
    (type : ast.type.TypePtr) (flags : Finset var.Flag) (v : var.Variable) (b1 : ShaderBuilder)
    (h : registerName b ptr name type flags = .ok (v, b1)) :
    b1.m_shader.data.inOuts = b.m_shader.data.inOuts := by
  obtain ⟨top, htop⟩ := registerName_isOk b ptr name type flags v b1 h
  obtain ⟨tcp, hreg⟩ := registerName_ok b ptr name type flags top htop
  rw [hreg] at h
  cases h
  rfl

/-- C35, the behaviour of the code: `registerInOut( name, attributes, type )` records the
metadata only when the `inOuts` map is empty.  For every builder state, if the call succeeds,
the map afterwards is the single entry of `name` with `type` when it was empty before, and is
unchanged otherwise; so after a registration in a map that is not empty a name that had no
entry still has none. -/
theorem registerInOut_records_first_only (b : ShaderBuilder) (ptr : Nat) (name : String)
    (attributes : Finset var.Flag) (type : ast.type.TypePtr) (v : var.Variable)
    (b1 : ShaderBuilder) (h : registerInOut b ptr name attributes type = .ok (v, b1)) :
    b1.m_shader.data.inOuts
        = (if b.m_shader.data.inOuts.isEmpty then [(name, type)] else b.m_shader.data.inOuts)
      ∧ (b.m_shader.data.inOuts ≠ [] → mapFind b.m_shader.data.inOuts name = none →
          mapFind b1.m_shader.data.inOuts name = none) := by
  have hname : ∀ b0 : ShaderBuilder,
      (if hasVar b0 name then
          match getVar b0 name with
          | .error e => .error e
          | .ok v => .ok (v, b0)
        else
          registerName b0 ptr name type
            (attributes ∪ {var.Flag.eShaderOutput} ∪ {var.Flag.eShaderInput}))
        = .ok (v, b1) →
      b1.m_shader.data.inOuts = b0.m_shader.data.inOuts := by
    intro b0 h0
    split at h0
    · split at h0
      · cases h0
      · cases h0
        rfl
    · exact registerName_inOuts _ _ _ _ _ _ _ h0
  have key : b1.m_shader.data.inOuts
      = (if b.m_shader.data.inOuts.isEmpty then [(name, type)] else b.m_shader.data.inOuts) := by
    unfold registerInOut at h
    dsimp only at h
    by_cases he : b.m_shader.data.inOuts.isEmpty = true
    · rw [if_pos he] at h
      rw [if_pos he, hname _ h]
      have : b.m_shader.data.inOuts = [] := List.isEmpty_iff.mp he
      simp [setData, this, mapEmplace]
    · rw [if_neg he] at h
      rw [if_neg he, hname _ h]
  refine ⟨key, ?_⟩
  intro hne hnone
  rw [key]
  have : b.m_shader.data.inOuts.isEmpty = false := by
    cases hl : b.m_shader.data.inOuts with
    | nil => exact absurd hl hne
    | cons x xs => rfl
  simp [this, hnone]

/-- C35 at the failing input: on the builder over the empty fragment shader,
`registerInOut( "a", float )` followed by `registerInOut( "b", int )` leaves an `inOuts` map
with the entry of `a` only: `b` has no entry. -/
theorem registerInOut_records_first_only_witness :
    (∃ v1, registerInOut (fresh .eFragment) 50 "a" ∅ sampleFloat = .ok (v1, sampleInOut))
      ∧ ∃ v2 b2, registerInOut sampleInOut 51 "b" ∅ sampleInt = .ok (v2, b2)
        ∧ b2.m_shader.data.inOuts = [("a", sampleFloat)]
        ∧ mapFind b2.m_shader.data.inOuts "b" = none :=
  have h := registerInOut_records_first_only sampleInOut 51 "b" ∅ sampleInt _ _ rfl
  ⟨⟨_, rfl⟩, _, _, rfl, h.1, h.2 (by decide) (by decide)⟩

end ShaderBuilder
end ast

namespace sdw

open ast

theorem addStmt_same (cs : Containers) (c : Nat) (s : Stmt) : addStmt cs c s c = cs c ++ [s] := by
  simp [addStmt]

theorem addStmt_other (cs : Containers) (c q : Nat) (s : Stmt) (h : q ≠ c) :
    addStmt cs c s q = cs q := by
  simp [addStmt, h]

theorem addStmtFound_of_some (cs : Containers) (lhs rhs : Value) (s : Stmt) (c : Nat)
    (h : findContainer lhs rhs = some c) : addStmtFound cs lhs rhs s = .ok (addStmt cs c s) := by
  simp [addStmtFound, h]

/-- C36, the behaviour of the code: the operators `+=`, `-=`, `*=`, `/=` of `Vec2T` with an
optional right-hand side, on operands of which one has a container `c`.  Every operator but
`operator+=( Optional< ValueT > )` leaves all containers as they are when the right-hand side is
disabled, and appends exactly one simple statement holding the matching compound-assign
expression to `c`, and nothing elsewhere, when it is enabled.  `operator+=( Optional< ValueT > )`
does not test the flag: it appends the simple statement of the add-assign expression to `c`
whether the right-hand side is enabled or disabled. -/
theorem compound_assign_optional (cs : Containers) (self : Value) (rhs : Optional) (c : Nat)
    (hc : findContainer self rhs.value = some c) :
    (∀ (op : AssignOp) (rt : RhsType), (op, rt) ≠ (AssignOp.add, RhsType.value) →
        Vec2T.compoundAssign op rt cs self rhs
          = .ok (if rhs.isEnabled then
              addStmt cs c (.simple (op.expr self.getType (makeExpr self) (makeExpr rhs.value)))
            else cs))
      ∧ Vec2T.compoundAssign .add .value cs self rhs
        = .ok (addStmt cs c
            (.simple (.addAssign self.getType (makeExpr self) (makeExpr rhs.value))))
      ∧ (∀ s, addStmt cs c s c = cs c ++ [s] ∧ ∀ q, q ≠ c → addStmt cs c s q = cs q) := by
  refine ⟨?_, addStmtFound_of_some _ _ _ _ _ hc, fun s => ⟨addStmt_same cs c s, fun q hq =>
    addStmt_other cs c q s hq⟩⟩
  intro op rt hne
  cases op <;> cases rt <;>
    first
    | exact absurd rfl hne
    | (simp only [Vec2T.compoundAssign, Vec2T.addAssignOptional, Vec2T.minusAssignOptional,
        Vec2T.timesAssignOptional, Vec2T.divideAssignOptional, Vec2T.minusAssignOptionalValue,
        Vec2T.timesAssignOptionalValue, Vec2T.divideAssignOptionalValue, AssignOp.expr,
        addStmtFound_of_some _ _ _ _ _ hc]
       split <;> rfl)

/-- C36 at the failing input: with the sample vector `v`, whose container is the container 0,
and the disabled scalar `f`, `v += f` appends the statement of `v += f` to the empty container
0, while `v -= f` appends nothing. -/
theorem compound_assign_optional_witness :
    sampleDisabled.isEnabled = false
      ∧ (Vec2T.compoundAssign .add .value Containers.empty sampleVec sampleDisabled).toOption.map
          (fun cs => cs 0)
        = some [.simple (.addAssign sampleVec.getType (.operand 1) (.operand 2))]
      ∧ (Vec2T.compoundAssign .minus .value Containers.empty sampleVec sampleDisabled).toOption.map
          (fun cs => cs 0)
        = some [] :=
  have h := compound_assign_optional Containers.empty sampleVec sampleDisabled 0 rfl
  ⟨rfl, by rw [h.2.1]; rfl, by rw [h.1 .minus .value (by decide)]; rfl⟩

end sdw

namespace sdw

open ast

theorem Ubo.registerMember_eq {σ : Type} (env : UboEnv σ) (u : Ubo σ) (name : String)
    (kind : ast.type.Kind) (c1 : σ) (hreg : env.registerName u.m_container name kind = .ok c1) :
    Ubo.registerMember env u name kind
      = .ok { u with m_container := c1, m_info := u.m_info.registerMember name kind } := by
  simp [Ubo.registerMember, hreg]

theorem BoInfo.getMember_registerMember (info : BoInfo) (name : String) (kind : ast.type.Kind) :
    (info.registerMember name kind).getMember name
      = .ok ((mapFind info.m_members name).getD kind) := by
  unfold BoInfo.getMember BoInfo.registerMember
  dsimp only
  rw [mapFind_mapEmplace, if_pos rfl]

/-- C37, the behaviour of the code: the optional member declarations of a uniform buffer, when
the registration of the name in the container succeeds.  `declMember( name, enabled )` and
`declMember( name, dimension, enabled )` add exactly one variable declaration to the statement
of the buffer when `enabled` is true and none when it is false.  `declMemberArray( name,
enabled )` adds the declaration once before it tests `enabled` and once more when `enabled` is
true: one declaration when `enabled` is false, two when it is true.  The three declarations
register the kind in the `BoInfo` by `emplace`: afterwards `getMember( name )` returns the kind
passed, or the kind that the name already had. -/
theorem optional_member_declarations {σ : Type} (env : UboEnv σ) (u : Ubo σ) (name : String)
    (kind : ast.type.Kind) (dimension : Nat) (enabled : Bool) (c1 : σ)
    (hreg : env.registerName u.m_container name kind = .ok c1) :
    Ubo.declMemberOptional env u name kind enabled
        = .ok { m_container := c1
                m_info := u.m_info.registerMember name kind
                m_stmt :=
                  u.m_stmt
                    ++ (if enabled then
                          [makeVariableDecl (makeVariable (env.makeType kind) name)]
                        else []) }
      ∧ Ubo.declMemberDimOptional env u name kind dimension enabled
        = .ok { m_container := c1
                m_info := u.m_info.registerMember name kind
                m_stmt :=
                  u.m_stmt
                    ++ (if enabled then
                          [makeVariableDecl
                            (makeVariable (env.makeArrayType kind dimension) name)]
                        else []) }
      ∧ Ubo.declMemberArrayOptional env u name kind enabled
        = .ok { m_container := c1
                m_info := u.m_info.registerMember name kind
                m_stmt :=
                  u.m_stmt
                    ++ [makeVariableDecl
                        (makeVariable (env.makeArrayType kind ast.type.UnknownArraySize) name)]
                    ++ (if enabled then
                          [makeVariableDecl
                            (makeVariable (env.makeArrayType kind ast.type.UnknownArraySize)
                              name)]
                        else []) }
      ∧ (u.m_info.registerMember name kind).getMember name
        = .ok ((mapFind u.m_info.m_members name).getD kind) := by
  have h := Ubo.registerMember_eq env u name kind c1 hreg
  refine ⟨?_, ?_, ?_, BoInfo.getMember_registerMember _ _ _⟩
  · unfold Ubo.declMemberOptional
    rw [h]
    cases enabled <;> simp [Ubo.add]
  · unfold Ubo.declMemberDimOptional
    rw [h]
    cases enabled <;> simp [Ubo.add]
  · unfold Ubo.declMemberArrayOptional
    rw [h]
    cases enabled <;> simp [Ubo.add]

/-- C37 at the failing input: on the sample buffer without members,
`declMemberArray( "m", false )` leaves one declaration in the statement of the buffer and
`declMemberArray( "m", true )` leaves two, while `declMember( "m", false )` leaves none; the
kind is recorded under `m` in each case. -/
theorem optional_member_declarations_witness :
    (Ubo.declMemberArrayOptional UboEnv.sample Ubo.sample "m" (.eBasic (.eScalar .eFloat))
          false).toOption.map (fun u => (u.m_stmt.length, u.m_info.getMember "m"))
        = some (1, .ok (.eBasic (.eScalar .eFloat)))
      ∧ (Ubo.declMemberArrayOptional UboEnv.sample Ubo.sample "m" (.eBasic (.eScalar .eFloat))
          true).toOption.map (fun u => (u.m_stmt.length, u.m_info.getMember "m"))
        = some (2, .ok (.eBasic (.eScalar .eFloat)))
      ∧ (Ubo.declMemberOptional UboEnv.sample Ubo.sample "m" (.eBasic (.eScalar .eFloat))
          false).toOption.map (fun u => (u.m_stmt.length, u.m_info.getMember "m"))
        = some (0, .ok (.eBasic (.eScalar .eFloat))) :=
  have h0 := optional_member_declarations UboEnv.sample Ubo.sample "m"
    (.eBasic (.eScalar .eFloat)) 0 false _ rfl
  have h1 := optional_member_declarations UboEnv.sample Ubo.sample "m"
    (.eBasic (.eScalar .eFloat)) 0 true _ rfl
  ⟨by rw [h0.2.2.1]; rfl, by rw [h1.2.2.1]; rfl, by rw [h0.1]; rfl⟩

end sdw
